import Mathlib

/-!
# Acrotensor partial-assembly integrators of the OCCA backend

A shallow embedding of `backends/occa/abilininteg.cpp` (the batched mass and
diffusion integrators built on tensor contractions) and of the parts of
`backends/occa/bilinearform.cpp` that drive them, together with theorems about
the embedded code.

Conventions of the embedding.

* `double` values are rationals: every statement is one of exact arithmetic.
* A tensor is a map from multi-indices (lists of naturals) to values, with the
  shape it was given by `Init` and its `IsInitialized` flag.  Raw accesses
  `T[p]` go through the row-major offset of the shape (last index fastest).
* Every `TE("...", out, in1, in2, ...)` call of the source is one definition
  here: the output at each multi-index is the sum, over the indices that do not
  occur in the output, of the product of the operands in the order written.
  `=` replaces the output, `+=` adds to it.
* `mfem_error` ends the call: see `Result`.
-/

namespace mfem

/-- Outcome of a call that may end in `mfem_error`.  `ok s` is a normal return
with state `s`; `fatal msg s` is the abort with message `msg`, `s` being the
state the call had reached when it aborted. -/
inductive Result (σ : Type) where
  | ok (s : σ) : Result σ
  | fatal (msg : String) (s : σ) : Result σ

/-- State carried by a `Result`, whichever way the call ended. -/
def Result.state {σ : Type} : Result σ → σ
  | Result.ok s => s
  | Result.fatal _ s => s

/-- Whether the call ended in `mfem_error`. -/
def Result.isFatal {σ : Type} : Result σ → Bool
  | Result.ok _ => false
  | Result.fatal _ _ => true

/-- The loop `for (int i = lo; i < hi; ++i) body`, threading the state. -/
def forLoop {σ : Type} (lo hi : Nat) (body : Nat → σ → σ) (s : σ) : σ :=
  (List.range' lo (hi - lo)).foldl (fun acc i => body i acc) s

namespace acro

/-- Row-major offset of the multi-index `idx` in a tensor of shape `dims`
(last index fastest), as the tensor library lays its data out. -/
def flatIndex : List Nat → List Nat → Nat
  | _ :: ds, i :: is => i * ds.prod + flatIndex ds is
  | _, _ => 0

/-- Multi-index of the raw offset `p` in a tensor of shape `dims`. -/
def unflatIndex : List Nat → Nat → List Nat
  | [], _ => []
  | _ :: ds, p => (p / ds.prod) :: unflatIndex ds (p % ds.prod)

/-- An `::acro::Tensor`: the `IsInitialized` flag, the shape given to `Init`,
and the values by multi-index. -/
structure Tensor where
  initialized : Bool
  dims : List Nat
  data : List Nat → ℚ

/-- A default-constructed tensor: not initialised, no shape. -/
def Tensor.empty : Tensor := ⟨false, [], fun _ => 0⟩

/-- The call `T.Init(dims...)`: the tensor gets its shape and becomes
initialised.  The storage is freshly allocated, so it holds whatever the
allocator left there, `junk`. -/
def Tensor.Init (_t : Tensor) (dims : List Nat) (junk : List Nat → ℚ) : Tensor :=
  ⟨true, dims, junk⟩

/-- The call `T.IsInitialized()`. -/
def Tensor.IsInitialized (t : Tensor) : Bool := t.initialized

/-- The read `T(i, j, ...)`. -/
def Tensor.get (t : Tensor) (idx : List Nat) : ℚ := t.data idx

/-- The write `T(i, j, ...) = v`. -/
def Tensor.set (t : Tensor) (idx : List Nat) (v : ℚ) : Tensor :=
  { t with data := fun i => if i = idx then v else t.data i }

/-- The raw read `T[p]`. -/
def Tensor.raw (t : Tensor) (p : Nat) : ℚ := t.data (unflatIndex t.dims p)

/-- The raw write `T[p] = v`. -/
def Tensor.setRaw (t : Tensor) (p : Nat) (v : ℚ) : Tensor :=
  t.set (unflatIndex t.dims p) v

/-- A contraction `out_... = ...`: every entry of the output is replaced. -/
def Tensor.assign (t : Tensor) (f : List Nat → ℚ) : Tensor :=
  { t with data := f }

/-- A contraction `out_... += ...`: the sum is added to the output. -/
def Tensor.accumulate (t : Tensor) (f : List Nat → ℚ) : Tensor :=
  { t with data := fun i => t.data i + f i }

/-- A contraction `out_... = ...` whose output is the slice
`SliceInit(T, i)` of `T`: the entries of `T` with first index `i` are replaced,
the others are kept. -/
def Tensor.assignSlice (t : Tensor) (i : Nat) (f : List Nat → ℚ) : Tensor :=
  { t with data := fun idx =>
      match idx with
      | j :: rest => if j = i then f rest else t.data idx
      | [] => t.data idx }

/-- The slice `SliceInit(T, i)` of `T`, read as a tensor of its own. -/
def Tensor.slice (t : Tensor) (i : Nat) : Tensor :=
  ⟨t.initialized, t.dims.tail, fun idx => t.data (i :: idx)⟩

/-- The tensor `Tensor(dims..., ptr, ptr, onGPU)` viewing the flat vector
`v`. -/
def Tensor.view (dims : List Nat) (v : Nat → ℚ) : Tensor :=
  ⟨true, dims, fun idx => v (flatIndex dims idx)⟩

/-- The flat vector behind a view of shape `dims` after the view was written:
offsets inside the view hold the view's values, the rest of `v` is as it
was. -/
def Tensor.toVector (t : Tensor) (v : Nat → ℚ) : Nat → ℚ :=
  fun p => if p < t.dims.prod then t.data (unflatIndex t.dims p) else v p

end acro

end mfem

namespace mfem

/-- An `IntegrationPoint`: reference coordinates and quadrature weight. -/
structure IntegrationPoint where
  x : ℚ
  y : ℚ
  z : ℚ
  weight : ℚ

/-- An `IntegrationRule`: `GetNPoints()`, `IntPoint(k)` and `GetOrder()`. -/
structure IntegrationRule where
  NPoints : Nat
  IntPoint : Nat → IntegrationPoint
  Order : Int

/-- What `PAIntegrator::Setup` and the derived `Setup`s ask of the finite
element `trialFESpace->GetFE(0)`.  `DofMap` is `some m` exactly when the
`dynamic_cast` to `TensorBasisElement` succeeds, `m` being `GetDofMap()`. -/
structure FiniteElement where
  DofMap : Option (List Nat)
  GeomType : Nat
  Order : Nat
  Dim : Int
  Dof : Nat
  CalcDShape : IntegrationPoint → Nat → Nat → ℚ

/-- What the integrators ask of the finite element space: `GetNE()`,
`GetFE(0)`, and the Jacobian `GetElementTransformation(e)->Jacobian()(m,n)`
after `SetIntPoint` at the reference point `(x, y, z)`. -/
structure FiniteElementSpace where
  NE : Nat
  FE0 : FiniteElement
  Jacobian : Nat → ℚ → ℚ → ℚ → Nat → Nat → ℚ

/-- The library around the integrators: the segment rule
`IntRules.Get(Geometry::SEGMENT, order)`, the shape values `CalcShape` and
derivatives `CalcDShape(.., 0)` of the `H1_FECollection(order, 1)` segment
element, the contents `junk name` of the storage a tensor member `name` gets
from `Init`, and whether the build defines `MFEM_DEBUG`. -/
structure Library where
  IntRulesSegment : Int → IntegrationRule
  H1SegmentShape : Nat → IntegrationPoint → Nat → ℚ
  H1SegmentDShape : Nat → IntegrationPoint → Nat → ℚ
  junk : String → List Nat → ℚ
  MFEM_DEBUG : Bool

/-- The macro `MFEM_ASSERT(cond, msg)` of `general/error.hpp`: it aborts with
`msg` when `cond` fails in a build that defines `MFEM_DEBUG`, and expands to
nothing in any other build. -/
def MFEM_ASSERT (lib : Library) (cond : Bool) : Bool :=
  lib.MFEM_DEBUG && !cond

/-- The call `a.SetSize(n)` on an `Array<int>`: the first entries are kept,
new entries are not set (`0` here). -/
def ArraySetSize (a : List Nat) (n : Nat) : List Nat :=
  (a ++ List.replicate n 0).take n

/-- A `DenseTensor`, read as `elmats(i, j, e)`. -/
abbrev DenseTensor := Nat → Nat → Nat → ℚ

/-- The write `elmats(i, j, e) = v`. -/
def DenseTensor.set (el : DenseTensor) (i j e : Nat) (v : ℚ) : DenseTensor :=
  fun a b c => if a = i ∧ b = j ∧ c = e then v else el a b c

/-- The cell `elmats(k.1, k.2.1, k.2.2)` of a `DenseTensor`. -/
def DenseTensor.read (el : DenseTensor) (k : Nat × Nat × Nat) : ℚ := el k.1 k.2.1 k.2.2

/-- The canonical basis vector that is 1 at offset `p` and 0 elsewhere. -/
def basisVector (p : Nat) : Nat → ℚ := fun q => if q = p then 1 else 0

/-- The effect of a piece of code `f` on a memory read through `read`: from a
state satisfying `P` it reaches a state satisfying `Q`, the cells selected by
`K` receive the value `V`, and all other cells are kept. -/
def Writes {σ κ : Type} (read : σ → κ → ℚ) (P Q : σ → Prop) (f : σ → σ) (K : κ → Prop)
    (V : κ → ℚ) : Prop :=
  ∀ s, P s → Q (f s) ∧ ∀ k, (K k → read (f s) k = V k) ∧ (¬ K k → read (f s) k = read s k)

namespace acro

/-- Members of `PAIntegrator` (with those of its base `OccaIntegrator` that the
integrators read).  The first four are in place before `Setup` runs; the
others are assigned by `PAIntegrator::Setup` and hold indeterminate values
before it. -/
structure PAIntegrator where
  trialFESpace : FiniteElementSpace
  ir : IntegrationRule
  hasTensorBasis : Bool
  deviceIsCUDA : Bool
  onGPU : Bool
  tDofMap : List Nat
  GeomType : Nat
  FEOrder : Nat
  nDim : Int
  nDof : Nat
  nQuad : Nat
  ir1D : IntegrationRule
  nDof1D : Nat
  nQuad1D : Nat

/-- The method `PAIntegrator::Setup`.  The members are assigned in the order of
the source; the identity map of the non-tensor branch is sized and filled
with `nDof` as it stands at that point, that is with the value the member
holds before `nDof = fe->GetDof()` is executed. -/
def PAIntegrator.Setup (lib : Library) (s : PAIntegrator) : Result PAIntegrator :=
  let fe := s.trialFESpace.FE0
  let tDofMap : List Nat :=
    match fe.DofMap with
    | some m => m
    | none => forLoop 0 s.nDof (fun i t => t.set i i) (ArraySetSize s.tDofMap s.nDof)
  let ir1D := lib.IntRulesSegment s.ir.Order
  let s1 : PAIntegrator :=
    { trialFESpace := s.trialFESpace, ir := s.ir, hasTensorBasis := s.hasTensorBasis,
      deviceIsCUDA := s.deviceIsCUDA,
      onGPU := s.deviceIsCUDA,
      tDofMap := tDofMap,
      GeomType := fe.GeomType,
      FEOrder := fe.Order,
      nDim := fe.Dim,
      nDof := fe.Dof,
      nQuad := s.ir.NPoints,
      ir1D := ir1D,
      nDof1D := fe.Order + 1,
      nQuad1D := ir1D.NPoints }
  if s1.nDim > 3 then
    Result.fatal "AcroIntegrator tensor computations don't support dim > 3." s1
  else
    Result.ok s1

/-- The read `tDofMap[i]`. -/
def PAIntegrator.dofMap (s : PAIntegrator) (i : Nat) : Nat := s.tDofMap.getD i 0

/-- The largest index `i < n` with `f i = a` (`0` when there is none). -/
def findIndexBelow (f : Nat → Nat) (a : Nat) : Nat → Nat
  | 0 => 0
  | n + 1 => if f n = a then n else findIndexBelow f a n

/-- The inverse of `tDofMap` on its first `nDof` entries: the index `i < nDof`
with `tDofMap[i] = a`. -/
def PAIntegrator.dofMapInv (s : PAIntegrator) (a : Nat) : Nat :=
  findIndexBelow s.dofMap a s.nDof

/-- The loop over the 1D quadrature points in the tensor branch of
`AcroMassIntegrator::Setup`: it fills row `k` of `B` from the shape values
`eval` at point `k`, end points first, and the weight `w(k)`. -/
def fillB (lib : Library) (s : PAIntegrator) (B : Tensor) (w : Nat → ℚ) :
    Tensor × (Nat → ℚ) :=
  forLoop 0 s.nQuad1D (fun k st =>
    let ip := s.ir1D.IntPoint k
    let eval := lib.H1SegmentShape s.FEOrder ip
    let B := st.1.set [k, 0] (eval 0)
    let B := B.set [k, s.nDof1D - 1] (eval 1)
    let B := forLoop 1 (s.nDof1D - 1) (fun i B => B.set [k, i] (eval (i + 1))) B
    (B, Function.update st.2 k ip.weight)) (B, w)

/-- The loops filling the tensor-product weights `W` from the 1D weights `w`
(shared by both `Setup`s): `W = w`, `w x w` or `w x w x w` by dimension, and
nothing in any other dimension. -/
def fillW (nDim : Int) (nQuad1D : Nat) (w : Nat → ℚ) (W : Tensor) : Tensor :=
  if nDim = 1 then
    forLoop 0 nQuad1D (fun k1 W => W.set [k1] (w k1)) W
  else if nDim = 2 then
    forLoop 0 nQuad1D (fun k1 W =>
      forLoop 0 nQuad1D (fun k2 W => W.set [k1, k2] (w k1 * w k2)) W) W
  else if nDim = 3 then
    forLoop 0 nQuad1D (fun k1 W =>
      forLoop 0 nQuad1D (fun k2 W =>
        forLoop 0 nQuad1D (fun k3 W => W.set [k1, k2, k3] (w k1 * w k2 * w k3)) W) W) W
  else W

/-- Members of `AcroMassIntegrator`: the base members, the basis table `B`,
the weights `W`, the coefficient tensor `D`, the element matrices `M` and the
scratch tensors `T1`, `T2`, `T3`. -/
structure AcroMassIntegrator extends PAIntegrator where
  B : Tensor
  W : Tensor
  D : Tensor
  M : Tensor
  T1 : Tensor
  T2 : Tensor
  T3 : Tensor

/-- The method `AcroMassIntegrator::Setup`.  Moving tensors to the GPU and
choosing the executor change where the values live, not the values. -/
def AcroMassIntegrator.Setup (lib : Library) (s0 : AcroMassIntegrator) :
    Result AcroMassIntegrator :=
  match PAIntegrator.Setup lib s0.toPAIntegrator with
  | Result.fatal msg p => Result.fatal msg { s0 with toPAIntegrator := p }
  | Result.ok p =>
    let s : AcroMassIntegrator := { s0 with toPAIntegrator := p }
    let nElem := s.trialFESpace.NE
    let s : AcroMassIntegrator :=
      if s.hasTensorBasis then
        let B := s.B.Init [s.nQuad1D, s.nDof1D] (lib.junk "B")
        let W := s.W.Init (List.replicate s.nDim.toNat s.nQuad1D) (lib.junk "W")
        let Bw := fillB lib s.toPAIntegrator B (fun _ => 0)
        { s with B := Bw.1, W := fillW s.nDim s.nQuad1D Bw.2 W }
      else
        let W := s.W.Init [s.nQuad] (lib.junk "W")
        { s with W := forLoop 0 s.nQuad (fun k W => W.set [k] (s.ir.IntPoint k).weight) W }
    if s.hasTensorBasis then
      if s.nDim = 1 then
        Result.ok { s with
          D := s.D.Init [nElem, s.nQuad1D] (lib.junk "D"),
          T1 := s.T1.Init [nElem, s.nQuad1D] (lib.junk "T1") }
      else if s.nDim = 2 then
        Result.ok { s with
          D := s.D.Init [nElem, s.nQuad1D, s.nQuad1D] (lib.junk "D"),
          T1 := s.T1.Init [nElem, s.nQuad1D, s.nDof1D] (lib.junk "T1"),
          T2 := s.T2.Init [nElem, s.nQuad1D, s.nQuad1D] (lib.junk "T2") }
      else if s.nDim = 3 then
        Result.ok { s with
          D := s.D.Init [nElem, s.nQuad1D, s.nQuad1D, s.nQuad1D] (lib.junk "D"),
          T1 := s.T1.Init [nElem, s.nQuad1D, s.nDof1D, s.nDof1D] (lib.junk "T1"),
          T2 := s.T2.Init [nElem, s.nQuad1D, s.nQuad1D, s.nDof1D] (lib.junk "T2"),
          T3 := s.T3.Init [nElem, s.nQuad1D, s.nQuad1D, s.nQuad1D] (lib.junk "T3") }
      else
        Result.fatal "AcroDiffusionIntegrator tensor computations don't support dim > 3." s
    else
      Result.ok { s with D := s.D.Init [nElem, s.nQuad] (lib.junk "D") }

/-- Determinant of the leading `d x d` block of `a`, for the orders 1 to 3 the
batched primitives support (`0` for any other order). -/
def smallDet (d : Nat) (a : Nat → Nat → ℚ) : ℚ :=
  if d = 1 then a 0 0
  else if d = 2 then a 0 0 * a 1 1 - a 0 1 * a 1 0
  else if d = 3 then
    a 0 0 * (a 1 1 * a 2 2 - a 1 2 * a 2 1)
      - a 0 1 * (a 1 0 * a 2 2 - a 1 2 * a 2 0)
      + a 0 2 * (a 1 0 * a 2 1 - a 1 1 * a 2 0)
  else 0

/-- Entry `(m, n)` of the adjugate of the leading `d x d` block of `a`, for
the orders 1 to 3. -/
def smallAdj (d : Nat) (a : Nat → Nat → ℚ) (m n : Nat) : ℚ :=
  if d = 1 then 1
  else if d = 2 then
    (if m = n then a (1 - m) (1 - n) else - a m n)
  else if d = 3 then
    a ((n + 1) % 3) ((m + 1) % 3) * a ((n + 2) % 3) ((m + 2) % 3)
      - a ((n + 1) % 3) ((m + 2) % 3) * a ((n + 2) % 3) ((m + 1) % 3)
  else 0

/-- Modelled from the spec: `TensorEngine::BatchMatrixDet(Jdet, J)`, the
batched determinant of the tensor library.  `J` holds a batch of `d x d`
matrices, `d` its last dimension, one after the other in its storage; entry
number `p` of `Jdet` receives the determinant of matrix number `p`. -/
def BatchMatrixDet (Jdet J : Tensor) : Tensor :=
  let d := J.dims.getLastD 0
  Jdet.assign (fun idx =>
    let p := flatIndex Jdet.dims idx
    smallDet d (fun m n => J.raw (p * d * d + m * d + n)))

/-- Modelled from the spec: the inverse part of
`TensorEngine::BatchMatrixInvDet(Jinv, Jdet, J)`: matrix number `p` of `Jinv`
receives the inverse (adjugate over determinant) of matrix number `p` of
`J`. -/
def BatchMatrixInv (Jinv J : Tensor) : Tensor :=
  let d := J.dims.getLastD 0
  Jinv.assign (fun idx =>
    let p := flatIndex Jinv.dims idx / (d * d)
    let a : Nat → Nat → ℚ := fun m n => J.raw (p * d * d + m * d + n)
    smallAdj d a (idx.dropLast.getLastD 0) (idx.getLastD 0) / smallDet d a)

/-- The local tensors `J`, `Jdet`, `q` of
`AcroMassIntegrator::BatchedPartialAssemble` after their `Init` (first part of
the method).  In dimension 1 the source gives `J` the shape
`(nElem, nQuad1D, nQuad1D, nDim, nDim)`. -/
def AcroMassIntegrator.initGeometry (lib : Library) (s : AcroMassIntegrator) :
    Result (Tensor × Tensor × Tensor) :=
  let nElem := s.trialFESpace.NE
  let d := s.nDim.toNat
  let J := Tensor.empty
  let Jdet := Tensor.empty
  let q := Tensor.empty
  if s.hasTensorBasis then
    if s.nDim = 1 then
      Result.ok (J.Init [nElem, s.nQuad1D, s.nQuad1D, d, d] (lib.junk "J"),
        Jdet.Init [nElem, s.nQuad1D] (lib.junk "Jdet"),
        q.Init [nElem, s.nQuad1D] (lib.junk "q"))
    else if s.nDim = 2 then
      Result.ok (J.Init [nElem, s.nQuad1D, s.nQuad1D, d, d] (lib.junk "J"),
        Jdet.Init [nElem, s.nQuad1D, s.nQuad1D] (lib.junk "Jdet"),
        q.Init [nElem, s.nQuad1D, s.nQuad1D] (lib.junk "q"))
    else if s.nDim = 3 then
      Result.ok (J.Init [nElem, s.nQuad1D, s.nQuad1D, s.nQuad1D, d, d] (lib.junk "J"),
        Jdet.Init [nElem, s.nQuad1D, s.nQuad1D, s.nQuad1D] (lib.junk "Jdet"),
        q.Init [nElem, s.nQuad1D, s.nQuad1D, s.nQuad1D] (lib.junk "q"))
    else
      Result.fatal "AcroDiffusionIntegrator tensor computations don't support dim > 3."
        (J, Jdet, q)
  else
    Result.ok (J.Init [nElem, s.nQuad, d, d] (lib.junk "J"),
      Jdet.Init [nElem, s.nQuad] (lib.junk "Jdet"),
      q.Init [nElem, s.nQuad] (lib.junk "q"))

/-- The loop nest "Fill the jacobians and coefficients" of
`AcroMassIntegrator::BatchedPartialAssemble`, on the state `(J, q, idx)`:
`q[e*nQuad+k] = 1.0` and `J[idx] = JMat(m,n); idx++` at point `k` of `ir`. -/
def AcroMassIntegrator.fillGeometry (s : AcroMassIntegrator) (J q : Tensor) :
    Tensor × Tensor × Nat :=
  forLoop 0 s.trialFESpace.NE (fun e st =>
    forLoop 0 s.nQuad (fun k st =>
      let ip := s.ir.IntPoint k
      let q := st.2.1.setRaw (e * s.nQuad + k) 1
      forLoop 0 s.nDim.toNat (fun m st =>
        forLoop 0 s.nDim.toNat (fun n st =>
          (st.1.setRaw st.2.2 (s.trialFESpace.Jacobian e ip.x ip.y ip.z m n), st.2.1,
            st.2.2 + 1)) st) (st.1, q, st.2.2)) st) (J, q, 0)

/-- The contraction ending `AcroMassIntegrator::BatchedPartialAssemble`:
`D_e_k = W_k Q_e_k Jdet_e_k` in dimension 1 and on the non-tensor path,
`D_e_k1_k2 = W_k1_k2 Q_e_k1_k2 Jdet_e_k1_k2` and
`D_e_k1_k2_k3 = W_k1_k2_k3 Q_e_k1_k2_k3 Jdet_e_k1_k2_k3` in dimensions 2
and 3. -/
def AcroMassIntegrator.contractD (s : AcroMassIntegrator) (q Jdet : Tensor) :
    Result AcroMassIntegrator :=
  let pointwise : Tensor := s.D.assign (fun idx =>
    match idx with
    | e :: ks => s.W.get ks * q.get (e :: ks) * Jdet.get (e :: ks)
    | [] => s.D.get [])
  if s.hasTensorBasis then
    if s.nDim = 1 then Result.ok { s with D := pointwise }
    else if s.nDim = 2 then Result.ok { s with D := pointwise }
    else if s.nDim = 3 then Result.ok { s with D := pointwise }
    else Result.fatal "AcroMassIntegrator tensor computations don't support dim > 3." s
  else Result.ok { s with D := pointwise }

/-- The local tensor `Jdet` of `AcroMassIntegrator::BatchedPartialAssemble`
after `TE.BatchMatrixDet(Jdet, J)`, given the initialised `J`, `Jdet`, `q`. -/
def AcroMassIntegrator.JdetOf (s : AcroMassIntegrator) (g : Tensor × Tensor × Tensor) :
    Tensor :=
  BatchMatrixDet g.2.1 (s.fillGeometry g.1 g.2.2).1

/-- The method `AcroMassIntegrator::BatchedPartialAssemble`. -/
def AcroMassIntegrator.BatchedPartialAssemble (lib : Library) (s : AcroMassIntegrator) :
    Result AcroMassIntegrator :=
  match s.initGeometry lib with
  | Result.fatal msg _ => Result.fatal msg s
  | Result.ok g =>
    let filled := s.fillGeometry g.1 g.2.2
    let Jdet := s.JdetOf g
    s.contractD filled.2.1 Jdet

/-- The loop nest ending both `BatchedAssembleElementMatrices`:
`elmats(tDofMap[ei], tDofMap[ej], e) = M[e*nDof*nDof + ei*nDof + ej]`. -/
def PAIntegrator.scatter (s : PAIntegrator) (M : Tensor) (elmats : DenseTensor) :
    DenseTensor :=
  forLoop 0 s.trialFESpace.NE (fun e el =>
    forLoop 0 s.nDof (fun ei el =>
      forLoop 0 s.nDof (fun ej el =>
        el.set (s.dofMap ei) (s.dofMap ej) e
          (M.raw (e * s.nDof * s.nDof + ei * s.nDof + ej))) el) el) elmats

/-- The `M.Init(...)` of `AcroMassIntegrator::BatchedAssembleElementMatrices`,
executed when `M` is not initialised yet. -/
def AcroMassIntegrator.initM (lib : Library) (s : AcroMassIntegrator) : Tensor :=
  let nElem := s.trialFESpace.NE
  if s.hasTensorBasis then
    if s.nDim = 1 then
      s.M.Init [nElem, s.nDof1D, s.nDof1D] (lib.junk "M")
    else if s.nDim = 2 then
      s.M.Init [nElem, s.nDof1D, s.nDof1D, s.nDof1D, s.nDof1D] (lib.junk "M")
    else if s.nDim = 3 then
      s.M.Init [nElem, s.nDof1D, s.nDof1D, s.nDof1D, s.nDof1D, s.nDof1D, s.nDof1D]
        (lib.junk "M")
    else s.M
  else
    s.M.Init [nElem, s.nDof, s.nDof] (lib.junk "M")

/-- The contraction of `AcroMassIntegrator::BatchedAssembleElementMatrices`:
`M_e_i1_j1 = B_k1_i1 B_k1_j1 D_e_k1`,
`M_e_i1_i2_j1_j2 = B_k1_i1 B_k1_j1 B_k2_i2 B_k2_j2 D_e_k1_k2`,
`M_e_i1_i2_i3_j1_j2_j3 = B_k1_i1 B_k1_j1 B_k2_i2 B_k2_j2 B_k3_i3 B_k3_j3 D_e_k1_k2_k3`
by dimension, and `M_e_i_j = B_k_i B_k_j D_e_k` on the non-tensor path. -/
def AcroMassIntegrator.contractM (s : AcroMassIntegrator) : Tensor :=
  let B := s.B
  let D := s.D
  if s.hasTensorBasis then
    if s.nDim = 1 then
      s.M.assign (fun idx =>
        match idx with
        | [e, i1, j1] =>
          ∑ k1 in Finset.range s.nQuad1D, B.get [k1, i1] * B.get [k1, j1] * D.get [e, k1]
        | _ => s.M.get idx)
    else if s.nDim = 2 then
      s.M.assign (fun idx =>
        match idx with
        | [e, i1, i2, j1, j2] =>
          ∑ k1 in Finset.range s.nQuad1D, ∑ k2 in Finset.range s.nQuad1D,
            B.get [k1, i1] * B.get [k1, j1] * B.get [k2, i2] * B.get [k2, j2]
              * D.get [e, k1, k2]
        | _ => s.M.get idx)
    else if s.nDim = 3 then
      s.M.assign (fun idx =>
        match idx with
        | [e, i1, i2, i3, j1, j2, j3] =>
          ∑ k1 in Finset.range s.nQuad1D, ∑ k2 in Finset.range s.nQuad1D,
            ∑ k3 in Finset.range s.nQuad1D,
              B.get [k1, i1] * B.get [k1, j1] * B.get [k2, i2] * B.get [k2, j2]
                * B.get [k3, i3] * B.get [k3, j3] * D.get [e, k1, k2, k3]
        | _ => s.M.get idx)
    else s.M
  else
    s.M.assign (fun idx =>
      match idx with
      | [e, i, j] =>
        ∑ k in Finset.range s.nQuad, B.get [k, i] * B.get [k, j] * D.get [e, k]
      | _ => s.M.get idx)

/-- Modelled from the spec: the tensor engine refuses a contraction whose
operand does not have the shape its index string declares ("must fail fast
with a descriptive error", no silent broadcasting).  A default-constructed
tensor has no shape, so a contraction is refused when one of the operands
`ops` has never been initialised. -/
def contractionRefused (ops : List Tensor) : Bool :=
  ops.any (fun t => !t.IsInitialized)

/-- The method `AcroMassIntegrator::BatchedAssembleElementMatrices`.  On the
non-tensor path the operand `B` of `M_e_i_j = B_k_i B_k_j D_e_k` is a member
that no code of the class initialises, so the engine's refusal of the
contraction is part of the method there; it ends the call with the offending
expression, before `M` and `elmats` are written. -/
def AcroMassIntegrator.BatchedAssembleElementMatrices (lib : Library)
    (s : AcroMassIntegrator) (elmats : DenseTensor) :
    Result (AcroMassIntegrator × DenseTensor) :=
  let r := if !s.D.IsInitialized then s.BatchedPartialAssemble lib else Result.ok s
  match r with
  | Result.fatal msg s => Result.fatal msg (s, elmats)
  | Result.ok s =>
    let s : AcroMassIntegrator := if !s.M.IsInitialized then { s with M := s.initM lib } else s
    if !s.hasTensorBasis && contractionRefused [s.B] then
      Result.fatal "M_e_i_j = B_k_i B_k_j D_e_k" (s, elmats)
    else
      let s : AcroMassIntegrator := { s with M := s.contractM }
      Result.ok (s, s.toPAIntegrator.scatter s.M elmats)

/-- Branch `nDim == 1` of `AcroMassIntegrator::MultAdd`. -/
def AcroMassIntegrator.MultAdd1D (s : AcroMassIntegrator) (x y : Nat → ℚ) :
    AcroMassIntegrator × (Nat → ℚ) :=
  let nElem := s.trialFESpace.NE
  let B := s.B
  let D := s.D
  let X := Tensor.view [nElem, s.nDof1D] x
  let Y := Tensor.view [nElem, s.nDof1D] y
  -- T1_e_k1 = D_e_k1 B_k1_j1 X_e_j1
  let T1 := s.T1.assign (fun idx =>
    match idx with
    | [e, k1] =>
      ∑ j1 in Finset.range s.nDof1D, D.get [e, k1] * B.get [k1, j1] * X.get [e, j1]
    | _ => s.T1.get idx)
  -- Y_e_i1 = B_k1_i1 T1_e_k1
  let Y := Y.assign (fun idx =>
    match idx with
    | [e, i1] => ∑ k1 in Finset.range s.nQuad1D, B.get [k1, i1] * T1.get [e, k1]
    | _ => Y.get idx)
  ({ s with T1 := T1 }, Y.toVector y)

/-- Branch `nDim == 2` of `AcroMassIntegrator::MultAdd`. -/
def AcroMassIntegrator.MultAdd2D (s : AcroMassIntegrator) (x y : Nat → ℚ) :
    AcroMassIntegrator × (Nat → ℚ) :=
  let nElem := s.trialFESpace.NE
  let B := s.B
  let D := s.D
  let X := Tensor.view [nElem, s.nDof1D, s.nDof1D] x
  let Y := Tensor.view [nElem, s.nDof1D, s.nDof1D] y
  -- T1_e_k2_j1 = B_k2_j2 X_e_j1_j2
  let T1 := s.T1.assign (fun idx =>
    match idx with
    | [e, k2, j1] => ∑ j2 in Finset.range s.nDof1D, B.get [k2, j2] * X.get [e, j1, j2]
    | _ => s.T1.get idx)
  -- T2_e_k1_k2 = D_e_k1_k2 B_k1_j1 T1_e_k2_j1
  let T2 := s.T2.assign (fun idx =>
    match idx with
    | [e, k1, k2] =>
      ∑ j1 in Finset.range s.nDof1D, D.get [e, k1, k2] * B.get [k1, j1] * T1.get [e, k2, j1]
    | _ => s.T2.get idx)
  -- T1_e_k1_i2 = B_k2_i2 T2_e_k1_k2
  let T1b := T1.assign (fun idx =>
    match idx with
    | [e, k1, i2] => ∑ k2 in Finset.range s.nQuad1D, B.get [k2, i2] * T2.get [e, k1, k2]
    | _ => T1.get idx)
  -- Y_e_i1_i2 = B_k1_i1 T1_e_k1_i2
  let Y := Y.assign (fun idx =>
    match idx with
    | [e, i1, i2] => ∑ k1 in Finset.range s.nQuad1D, B.get [k1, i1] * T1b.get [e, k1, i2]
    | _ => Y.get idx)
  ({ s with T1 := T1b, T2 := T2 }, Y.toVector y)

/-- Branch `nDim == 3` of `AcroMassIntegrator::MultAdd`. -/
def AcroMassIntegrator.MultAdd3D (s : AcroMassIntegrator) (x y : Nat → ℚ) :
    AcroMassIntegrator × (Nat → ℚ) :=
  let nElem := s.trialFESpace.NE
  let B := s.B
  let D := s.D
  let X := Tensor.view [nElem, s.nDof1D, s.nDof1D, s.nDof1D] x
  let Y := Tensor.view [nElem, s.nDof1D, s.nDof1D, s.nDof1D] y
  -- T1_e_k3_j1_j2 = B_k3_j3 X_e_j1_j2_j3
  let T1 := s.T1.assign (fun idx =>
    match idx with
    | [e, k3, j1, j2] =>
      ∑ j3 in Finset.range s.nDof1D, B.get [k3, j3] * X.get [e, j1, j2, j3]
    | _ => s.T1.get idx)
  -- T2_e_k2_k3_j1 = B_k2_j2 T1_e_k3_j1_j2
  let T2 := s.T2.assign (fun idx =>
    match idx with
    | [e, k2, k3, j1] =>
      ∑ j2 in Finset.range s.nDof1D, B.get [k2, j2] * T1.get [e, k3, j1, j2]
    | _ => s.T2.get idx)
  -- T3_e_k1_k2_k3 = D_e_k1_k2_k3 B_k1_j1 T2_e_k2_k3_j1
  let T3 := s.T3.assign (fun idx =>
    match idx with
    | [e, k1, k2, k3] =>
      ∑ j1 in Finset.range s.nDof1D,
        D.get [e, k1, k2, k3] * B.get [k1, j1] * T2.get [e, k2, k3, j1]
    | _ => s.T3.get idx)
  -- T2_e_k1_k2_i3 = B_k3_i3 T3_e_k1_k2_k3
  let T2b := T2.assign (fun idx =>
    match idx with
    | [e, k1, k2, i3] =>
      ∑ k3 in Finset.range s.nQuad1D, B.get [k3, i3] * T3.get [e, k1, k2, k3]
    | _ => T2.get idx)
  -- T1_e_k1_i2_i3 = B_k2_i2 T2_e_k1_k2_i3
  let T1b := T1.assign (fun idx =>
    match idx with
    | [e, k1, i2, i3] =>
      ∑ k2 in Finset.range s.nQuad1D, B.get [k2, i2] * T2b.get [e, k1, k2, i3]
    | _ => T1.get idx)
  -- Y_e_i1_i2_i3 = B_k1_i1 T1_e_k1_i2_i3
  let Y := Y.assign (fun idx =>
    match idx with
    | [e, i1, i2, i3] =>
      ∑ k1 in Finset.range s.nQuad1D, B.get [k1, i1] * T1b.get [e, k1, i2, i3]
    | _ => Y.get idx)
  ({ s with T1 := T1b, T2 := T2b, T3 := T3 }, Y.toVector y)

/-- The method `AcroMassIntegrator::MultAdd(x, y)`; `x` and `y` are the
element-local vectors behind `x_ptr` and `y_ptr`.  The result holds the
integrator (its scratch tensors are written) and the vector `y` after the
call. -/
def AcroMassIntegrator.MultAdd (s : AcroMassIntegrator) (x y : Nat → ℚ) :
    Result (AcroMassIntegrator × (Nat → ℚ)) :=
  if s.hasTensorBasis then
    if s.nDim = 1 then Result.ok (s.MultAdd1D x y)
    else if s.nDim = 2 then Result.ok (s.MultAdd2D x y)
    else if s.nDim = 3 then Result.ok (s.MultAdd3D x y)
    else Result.ok (s, y)
  else
    Result.fatal "AcroMassIntegrator PAMult on simplices not supported" (s, y)

/-- Members of `AcroDiffusionIntegrator`: the base members, the basis and
derivative tables `B`, `G`, the weights `W`, the pairing tensors `Btil`, the
coefficient tensor `D`, the element matrices `S` and the scratch tensors `U`,
`Z`, `T1`, `T2`. -/
structure AcroDiffusionIntegrator extends PAIntegrator where
  B : Tensor
  G : Tensor
  W : Tensor
  Btil : List Tensor
  D : Tensor
  S : Tensor
  U : Tensor
  Z : Tensor
  T1 : Tensor
  T2 : Tensor

/-- The loop over the 1D quadrature points in the tensor branch of
`AcroDiffusionIntegrator::Setup`, on the state `(B, G, w)`: rows `k` of `B`
and `G` from the shape values `eval` and derivatives `deval(., 0)` at point
`k`, end points first, and the weight `w(k)`. -/
def fillBG (lib : Library) (s : PAIntegrator) (B G : Tensor) (w : Nat → ℚ) :
    Tensor × Tensor × (Nat → ℚ) :=
  forLoop 0 s.nQuad1D (fun k st =>
    let ip := s.ir1D.IntPoint k
    let eval := lib.H1SegmentShape s.FEOrder ip
    let deval := lib.H1SegmentDShape s.FEOrder ip
    let B := st.1.set [k, 0] (eval 0)
    let B := B.set [k, s.nDof1D - 1] (eval 1)
    let G := st.2.1.set [k, 0] (deval 0)
    let G := G.set [k, s.nDof1D - 1] (deval 1)
    let BG := forLoop 1 (s.nDof1D - 1) (fun i (BG : Tensor × Tensor) =>
      (BG.1.set [k, i] (eval (i + 1)), BG.2.set [k, i] (deval (i + 1)))) (B, G)
    (BG.1, BG.2, Function.update st.2.2 k ip.weight)) (B, G, w)

/-- The loop of the non-tensor branch of `AcroDiffusionIntegrator::Setup`, on
the state `(G, W)`: `G(k,i,d) = deval(i,d)` from `fe->CalcDShape` at point `k`
of `ir`, and `W(k) = ip.weight`. -/
def fillGSimplex (s : PAIntegrator) (G W : Tensor) : Tensor × Tensor :=
  forLoop 0 s.nQuad (fun k st =>
    let ip := s.ir.IntPoint k
    let deval := s.trialFESpace.FE0.CalcDShape ip
    let G := forLoop 0 s.nDof (fun i G =>
      forLoop 0 s.nDim.toNat (fun d G => G.set [k, i, d] (deval i d)) G) st.1
    (G, st.2.set [k] ip.weight)) (G, W)

/-- The method `AcroDiffusionIntegrator::Setup`. -/
def AcroDiffusionIntegrator.Setup (lib : Library) (s0 : AcroDiffusionIntegrator) :
    Result AcroDiffusionIntegrator :=
  match PAIntegrator.Setup lib s0.toPAIntegrator with
  | Result.fatal msg p => Result.fatal msg { s0 with toPAIntegrator := p }
  | Result.ok p =>
    let s : AcroDiffusionIntegrator := { s0 with toPAIntegrator := p }
    let nElem := s.trialFESpace.NE
    let d := s.nDim.toNat
    let s : AcroDiffusionIntegrator :=
      if s.hasTensorBasis then
        let B := s.B.Init [s.nQuad1D, s.nDof1D] (lib.junk "B")
        let G := s.G.Init [s.nQuad1D, s.nDof1D] (lib.junk "G")
        let W := s.W.Init (List.replicate d s.nQuad1D) (lib.junk "W")
        let BGw := fillBG lib s.toPAIntegrator B G (fun _ => 0)
        { s with B := BGw.1, G := BGw.2.1, W := fillW s.nDim s.nQuad1D BGw.2.2 W }
      else
        let G := s.G.Init [s.nQuad, s.nDof, d] (lib.junk "G")
        let W := s.W.Init [s.nQuad] (lib.junk "W")
        let GW := fillGSimplex s.toPAIntegrator G W
        { s with G := GW.1, W := GW.2 }
    if s.hasTensorBasis then
      if s.nDim = 1 then
        Result.ok { s with
          D := s.D.Init [nElem, d, d, s.nQuad1D] (lib.junk "D"),
          U := s.U.Init [d, nElem, s.nQuad1D] (lib.junk "U"),
          Z := s.Z.Init [d, nElem, s.nQuad1D] (lib.junk "Z") }
      else if s.nDim = 2 then
        Result.ok { s with
          D := s.D.Init [nElem, d, d, s.nQuad1D, s.nQuad1D] (lib.junk "D"),
          U := s.U.Init [d, nElem, s.nQuad1D, s.nQuad1D] (lib.junk "U"),
          Z := s.Z.Init [d, nElem, s.nQuad1D, s.nQuad1D] (lib.junk "Z"),
          T1 := s.T1.Init [nElem, s.nDof1D, s.nQuad1D] (lib.junk "T1") }
      else if s.nDim = 3 then
        Result.ok { s with
          D := s.D.Init [nElem, d, d, s.nQuad1D, s.nQuad1D, s.nQuad1D] (lib.junk "D"),
          U := s.U.Init [d, nElem, s.nQuad1D, s.nQuad1D, s.nQuad1D] (lib.junk "U"),
          Z := s.Z.Init [d, nElem, s.nQuad1D, s.nQuad1D, s.nQuad1D] (lib.junk "Z"),
          T1 := s.T1.Init [nElem, s.nDof1D, s.nQuad1D, s.nQuad1D] (lib.junk "T1"),
          T2 := s.T2.Init [nElem, s.nDof1D, s.nDof1D, s.nQuad1D] (lib.junk "T2") }
      else
        Result.fatal "AcroIntegrator tensor computations don't support dim > 3." s
    else
      Result.ok { s with D := s.D.Init [nElem, d, d, s.nQuad] (lib.junk "D") }

/-- The tensor `Btil[d]` built by one turn of the outer loop of
`AcroDiffusionIntegrator::ComputeBTilde`:
`(*Btil[d])(m, n, k, i, j) = BGM(k,i)*BGN(k,j)` with `BGM = G` when `m == d`
and `B` otherwise, and likewise `BGN` for `n`. -/
def AcroDiffusionIntegrator.BtilOf (lib : Library) (s : AcroDiffusionIntegrator) (d : Nat) :
    Tensor :=
  let nd := s.nDim.toNat
  let T := Tensor.empty.Init [nd, nd, s.nQuad1D, s.nDof1D, s.nDof1D] (lib.junk "Btil")
  forLoop 0 nd (fun m T =>
    forLoop 0 nd (fun n T =>
      let BGM := if m = d then s.G else s.B
      let BGN := if n = d then s.G else s.B
      forLoop 0 s.nQuad1D (fun k T =>
        forLoop 0 s.nDof1D (fun i T =>
          forLoop 0 s.nDof1D (fun j T =>
            T.set [m, n, k, i, j] (BGM.get [k, i] * BGN.get [k, j])) T) T) T) T) T

/-- The method `AcroDiffusionIntegrator::ComputeBTilde`. -/
def AcroDiffusionIntegrator.ComputeBTilde (lib : Library) (s : AcroDiffusionIntegrator) :
    AcroDiffusionIntegrator :=
  let nd := s.nDim.toNat
  let Btil : List Tensor := (s.Btil ++ List.replicate nd Tensor.empty).take nd
  { s with Btil := forLoop 0 nd (fun d Bt => Bt.set d (s.BtilOf lib d)) Btil }

/-- The two innermost loops of every branch of
`AcroDiffusionIntegrator::BatchedPartialAssemble`:
`J(e, k..., m, n) = JMat.Elem(m,n)` for the Jacobian of element `e` at the
reference point `(x, y, z)`; `pre` is the index prefix `e, k...`. -/
def fillJacobian (s : PAIntegrator) (J : Tensor) (pre : List Nat) (e : Nat) (x y z : ℚ) :
    Tensor :=
  forLoop 0 s.nDim.toNat (fun m J =>
    forLoop 0 s.nDim.toNat (fun n J =>
      J.set (pre ++ [m, n]) (s.trialFESpace.Jacobian e x y z m n)) J) J

/-- The first part of `AcroDiffusionIntegrator::BatchedPartialAssemble`: the
local tensors `(J, Jinv, Jdet, C)` after their `Init` and the loops that set
`C(e, k...) = 1.0` and fill `J`.  On the tensor path the points are built from
the 1D rule `IntRules.Get(Geometry::SEGMENT, ir->GetOrder())`; in a dimension
other than 1, 2, 3 nothing is initialised. -/
def AcroDiffusionIntegrator.fillGeometry (lib : Library) (s : AcroDiffusionIntegrator) :
    Tensor × Tensor × Tensor × Tensor :=
  let nElem := s.trialFESpace.NE
  let d := s.nDim.toNat
  let nQ := s.nQuad1D
  let p := s.toPAIntegrator
  let J := Tensor.empty
  let Jinv := Tensor.empty
  let Jdet := Tensor.empty
  let C := Tensor.empty
  if s.hasTensorBasis then
    let ir1D := lib.IntRulesSegment s.ir.Order
    if s.nDim = 1 then
      let J := J.Init [nElem, nQ, d, d] (lib.junk "J")
      let Jinv := Jinv.Init [nElem, nQ, d, d] (lib.junk "Jinv")
      let Jdet := Jdet.Init [nElem, nQ] (lib.junk "Jdet")
      let C := C.Init [nElem, nQ] (lib.junk "C")
      let JC := forLoop 0 nElem (fun e (st : Tensor × Tensor) =>
        forLoop 0 nQ (fun k1 (st : Tensor × Tensor) =>
          (fillJacobian p st.1 [e, k1] e (ir1D.IntPoint k1).x 0 0,
            st.2.set [e, k1] 1)) st) (J, C)
      (JC.1, Jinv, Jdet, JC.2)
    else if s.nDim = 2 then
      let J := J.Init [nElem, nQ, nQ, d, d] (lib.junk "J")
      let Jinv := Jinv.Init [nElem, nQ, nQ, d, d] (lib.junk "Jinv")
      let Jdet := Jdet.Init [nElem, nQ, nQ] (lib.junk "Jdet")
      let C := C.Init [nElem, nQ, nQ] (lib.junk "C")
      let JC := forLoop 0 nElem (fun e (st : Tensor × Tensor) =>
        forLoop 0 nQ (fun k1 (st : Tensor × Tensor) =>
          forLoop 0 nQ (fun k2 (st : Tensor × Tensor) =>
            (fillJacobian p st.1 [e, k1, k2] e
                (ir1D.IntPoint k1).x (ir1D.IntPoint k2).x 0,
              st.2.set [e, k1, k2] 1)) st) st) (J, C)
      (JC.1, Jinv, Jdet, JC.2)
    else if s.nDim = 3 then
      let J := J.Init [nElem, nQ, nQ, nQ, d, d] (lib.junk "J")
      let Jinv := Jinv.Init [nElem, nQ, nQ, nQ, d, d] (lib.junk "Jinv")
      let Jdet := Jdet.Init [nElem, nQ, nQ, nQ] (lib.junk "Jdet")
      let C := C.Init [nElem, nQ, nQ, nQ] (lib.junk "C")
      let JC := forLoop 0 nElem (fun e (st : Tensor × Tensor) =>
        forLoop 0 nQ (fun k1 (st : Tensor × Tensor) =>
          forLoop 0 nQ (fun k2 (st : Tensor × Tensor) =>
            forLoop 0 nQ (fun k3 (st : Tensor × Tensor) =>
              (fillJacobian p st.1 [e, k1, k2, k3] e
                  (ir1D.IntPoint k1).x (ir1D.IntPoint k2).x (ir1D.IntPoint k3).x,
                st.2.set [e, k1, k2, k3] 1)) st) st) st) (J, C)
      (JC.1, Jinv, Jdet, JC.2)
    else (J, Jinv, Jdet, C)
  else
    let J := J.Init [nElem, s.nQuad, d, d] (lib.junk "J")
    let Jinv := Jinv.Init [nElem, s.nQuad, d, d] (lib.junk "Jinv")
    let Jdet := Jdet.Init [nElem, s.nQuad] (lib.junk "Jdet")
    let C := C.Init [nElem, s.nQuad] (lib.junk "C")
    let JC := forLoop 0 nElem (fun e (st : Tensor × Tensor) =>
      forLoop 0 s.nQuad (fun k (st : Tensor × Tensor) =>
        let ip := s.ir.IntPoint k
        (fillJacobian p st.1 [e, k] e ip.x ip.y ip.z, st.2.set [e, k] 1)) st) (J, C)
    (JC.1, Jinv, Jdet, JC.2)

/-- The local tensors `(Jinv, Jdet, C)` of
`AcroDiffusionIntegrator::BatchedPartialAssemble` after
`TE.BatchMatrixInvDet(Jinv, Jdet, J)`. -/
def AcroDiffusionIntegrator.geometry (lib : Library) (s : AcroDiffusionIntegrator) :
    Tensor × Tensor × Tensor :=
  let g := s.fillGeometry lib
  (BatchMatrixInv g.2.1 g.1, BatchMatrixDet g.2.2.1 g.1, g.2.2.2)

/-- The contraction ending `AcroDiffusionIntegrator::BatchedPartialAssemble`:
`D_e_m_n_k = W_k C_e_k Jdet_e_k Jinv_e_k_m_j Jinv_e_k_n_j` in dimension 1 and
on the non-tensor path,
`D_e_m_n_k1_k2 = W_k1_k2 C_e_k1_k2 Jdet_e_k1_k2 Jinv_e_k1_k2_m_j Jinv_e_k1_k2_n_j`
in dimension 2, and
`D_e_m_n_k1_k2_k3 = W_k1_k2_k3 C_e_k1_k2_k3 Jdet_e_k1_k2_k3 Jinv_e_k1_k2_k3_n_j Jinv_e_k1_k2_k3_m_j`
in dimension 3 (the two `Jinv` operands in the other order); the index `j`
runs over the `nDim` columns of `Jinv`. -/
def AcroDiffusionIntegrator.contractD (s : AcroDiffusionIntegrator)
    (Jinv Jdet C : Tensor) : Tensor :=
  let W := s.W
  let d := s.nDim.toNat
  let rows : Tensor := s.D.assign (fun idx =>
    match idx with
    | e :: m :: n :: ks =>
      ∑ j in Finset.range d,
        W.get ks * C.get (e :: ks) * Jdet.get (e :: ks)
          * Jinv.get (e :: ks ++ [m, j]) * Jinv.get (e :: ks ++ [n, j])
    | _ => s.D.get idx)
  let rows3 : Tensor := s.D.assign (fun idx =>
    match idx with
    | e :: m :: n :: ks =>
      ∑ j in Finset.range d,
        W.get ks * C.get (e :: ks) * Jdet.get (e :: ks)
          * Jinv.get (e :: ks ++ [n, j]) * Jinv.get (e :: ks ++ [m, j])
    | _ => s.D.get idx)
  if s.hasTensorBasis then
    if s.nDim = 1 then rows
    else if s.nDim = 2 then rows
    else if s.nDim = 3 then rows3
    else s.D
  else rows

/-- The method `AcroDiffusionIntegrator::BatchedPartialAssemble`. -/
def AcroDiffusionIntegrator.BatchedPartialAssemble (lib : Library)
    (s : AcroDiffusionIntegrator) : AcroDiffusionIntegrator :=
  let g := s.geometry lib
  { s with D := s.contractD g.1 g.2.1 g.2.2 }

/-- The `S.Init(...)` of
`AcroDiffusionIntegrator::BatchedAssembleElementMatrices`, executed when `S`
is not initialised yet. -/
def AcroDiffusionIntegrator.initS (lib : Library) (s : AcroDiffusionIntegrator) : Tensor :=
  let nElem := s.trialFESpace.NE
  if s.hasTensorBasis then
    if s.nDim = 1 then
      s.S.Init [nElem, s.nDof1D, s.nDof1D] (lib.junk "S")
    else if s.nDim = 2 then
      s.S.Init [nElem, s.nDof1D, s.nDof1D, s.nDof1D, s.nDof1D] (lib.junk "S")
    else if s.nDim = 3 then
      s.S.Init [nElem, s.nDof1D, s.nDof1D, s.nDof1D, s.nDof1D, s.nDof1D, s.nDof1D]
        (lib.junk "S")
    else s.S
  else
    s.S.Init [nElem, s.nDof, s.nDof] (lib.junk "S")

/-- The contraction of
`AcroDiffusionIntegrator::BatchedAssembleElementMatrices`:
`S_e_i1_j1 = Btil_m_n_k1_i1_j1 D_e_m_n_k1`,
`S_e_i1_i2_j1_j2 = Btil1_m_n_k1_i1_j1 Btil2_m_n_k2_i2_j2 D_e_m_n_k1_k2`,
`S_e_i1_i2_i3_j1_j2_j3 = Btil1_m_n_k1_i1_j1 Btil2_m_n_k2_i2_j2 Btil3_m_n_k3_i3_j3 D_e_m_n_k1_k2_k3`
by dimension, with `Btil1, Btil2, Btil3 = *Btil[0], *Btil[1], *Btil[2]`, and
`S_e_i_j = G_k_i_m G_k_i_n D_e_m_n_k` on the non-tensor path. -/
def AcroDiffusionIntegrator.contractS (s : AcroDiffusionIntegrator) : Tensor :=
  let D := s.D
  let d := s.nDim.toNat
  let nQ := s.nQuad1D
  let Btil1 := s.Btil.getD 0 Tensor.empty
  let Btil2 := s.Btil.getD 1 Tensor.empty
  let Btil3 := s.Btil.getD 2 Tensor.empty
  if s.hasTensorBasis then
    if s.nDim = 1 then
      s.S.assign (fun idx =>
        match idx with
        | [e, i1, j1] =>
          ∑ m in Finset.range d, ∑ n in Finset.range d, ∑ k1 in Finset.range nQ,
            Btil1.get [m, n, k1, i1, j1] * D.get [e, m, n, k1]
        | _ => s.S.get idx)
    else if s.nDim = 2 then
      s.S.assign (fun idx =>
        match idx with
        | [e, i1, i2, j1, j2] =>
          ∑ m in Finset.range d, ∑ n in Finset.range d,
            ∑ k1 in Finset.range nQ, ∑ k2 in Finset.range nQ,
              Btil1.get [m, n, k1, i1, j1] * Btil2.get [m, n, k2, i2, j2]
                * D.get [e, m, n, k1, k2]
        | _ => s.S.get idx)
    else if s.nDim = 3 then
      s.S.assign (fun idx =>
        match idx with
        | [e, i1, i2, i3, j1, j2, j3] =>
          ∑ m in Finset.range d, ∑ n in Finset.range d,
            ∑ k1 in Finset.range nQ, ∑ k2 in Finset.range nQ, ∑ k3 in Finset.range nQ,
              Btil1.get [m, n, k1, i1, j1] * Btil2.get [m, n, k2, i2, j2]
                * Btil3.get [m, n, k3, i3, j3] * D.get [e, m, n, k1, k2, k3]
        | _ => s.S.get idx)
    else s.S
  else
    s.S.assign (fun idx =>
      match idx with
      | [e, i, _j] =>
        ∑ k in Finset.range s.nQuad, ∑ m in Finset.range d, ∑ n in Finset.range d,
          s.G.get [k, i, m] * s.G.get [k, i, n] * D.get [e, m, n, k]
      | _ => s.S.get idx)

/-- The method `AcroDiffusionIntegrator::BatchedAssembleElementMatrices`. -/
def AcroDiffusionIntegrator.BatchedAssembleElementMatrices (lib : Library)
    (s : AcroDiffusionIntegrator) (elmats : DenseTensor) :
    AcroDiffusionIntegrator × DenseTensor :=
  let s : AcroDiffusionIntegrator :=
    if s.hasTensorBasis && s.Btil.length == 0 then s.ComputeBTilde lib else s
  let s : AcroDiffusionIntegrator :=
    if !s.D.IsInitialized then s.BatchedPartialAssemble lib else s
  let s : AcroDiffusionIntegrator :=
    if !s.S.IsInitialized then { s with S := s.initS lib } else s
  let s : AcroDiffusionIntegrator := { s with S := s.contractS }
  (s, s.toPAIntegrator.scatter s.S elmats)

/-- Branch `nDim == 1` of `AcroDiffusionIntegrator::MultAdd`. -/
def AcroDiffusionIntegrator.MultAdd1D (s : AcroDiffusionIntegrator) (x y : Nat → ℚ) :
    AcroDiffusionIntegrator × (Nat → ℚ) :=
  let nElem := s.trialFESpace.NE
  let G := s.G
  let D := s.D
  let d := s.nDim.toNat
  let X := Tensor.view [nElem, s.nDof1D] x
  let Y := Tensor.view [nElem, s.nDof1D] y
  -- U_n_e_k1 = G_k1_i1 X_e_i1
  let U := s.U.assign (fun idx =>
    match idx with
    | [_, e, k1] => ∑ i1 in Finset.range s.nDof1D, G.get [k1, i1] * X.get [e, i1]
    | _ => s.U.get idx)
  -- Z_m_e_k1 = D_e_m_n_k1 U_n_e_k1
  let Z := s.Z.assign (fun idx =>
    match idx with
    | [m, e, k1] => ∑ n in Finset.range d, D.get [e, m, n, k1] * U.get [n, e, k1]
    | _ => s.Z.get idx)
  -- Y_e_i1 = G_k1_i1 Z_m_e_k1
  let Y := Y.assign (fun idx =>
    match idx with
    | [e, i1] =>
      ∑ k1 in Finset.range s.nQuad1D, ∑ m in Finset.range d, G.get [k1, i1] * Z.get [m, e, k1]
    | _ => Y.get idx)
  ({ s with U := U, Z := Z }, Y.toVector y)

/-- Branch `nDim == 2` of `AcroDiffusionIntegrator::MultAdd`.  `U1`, `U2` and
`Z1`, `Z2` are the slices 0 and 1 of `U` and `Z`. -/
def AcroDiffusionIntegrator.MultAdd2D (s : AcroDiffusionIntegrator) (x y : Nat → ℚ) :
    AcroDiffusionIntegrator × (Nat → ℚ) :=
  let nElem := s.trialFESpace.NE
  let B := s.B
  let G := s.G
  let D := s.D
  let d := s.nDim.toNat
  let nD := s.nDof1D
  let nQ := s.nQuad1D
  let X := Tensor.view [nElem, nD, nD] x
  let Y := Tensor.view [nElem, nD, nD] y
  -- BX_e_i1_k2 = B_k2_i2 X_e_i2_i1
  let T1 := s.T1.assign (fun idx =>
    match idx with
    | [e, i1, k2] => ∑ i2 in Finset.range nD, B.get [k2, i2] * X.get [e, i2, i1]
    | _ => s.T1.get idx)
  -- U1_e_k1_k2 = G_k1_i1 BX_e_i1_k2
  let U := s.U.assignSlice 0 (fun idx =>
    match idx with
    | [e, k1, k2] => ∑ i1 in Finset.range nD, G.get [k1, i1] * T1.get [e, i1, k2]
    | _ => (s.U.slice 0).get idx)
  -- GX_e_i1_k2 = G_k2_i2 X_e_i2_i1
  let T1 := T1.assign (fun idx =>
    match idx with
    | [e, i1, k2] => ∑ i2 in Finset.range nD, G.get [k2, i2] * X.get [e, i2, i1]
    | _ => T1.get idx)
  -- U2_e_k1_k2 = B_k1_i1 GX_e_i1_k2
  let U2 := U.assignSlice 1 (fun idx =>
    match idx with
    | [e, k1, k2] => ∑ i1 in Finset.range nD, B.get [k1, i1] * T1.get [e, i1, k2]
    | _ => (U.slice 1).get idx)
  -- Z_m_e_k1_k2 = D_e_m_n_k1_k2 U_n_e_k1_k2
  let Z := s.Z.assign (fun idx =>
    match idx with
    | [m, e, k1, k2] =>
      ∑ n in Finset.range d, D.get [e, m, n, k1, k2] * U2.get [n, e, k1, k2]
    | _ => s.Z.get idx)
  -- BZ1_e_i2_k1 = B_k2_i2 Z1_e_k1_k2
  let T1 := T1.assign (fun idx =>
    match idx with
    | [e, i2, k1] => ∑ k2 in Finset.range nQ, B.get [k2, i2] * (Z.slice 0).get [e, k1, k2]
    | _ => T1.get idx)
  -- Y_e_i2_i1 = G_k1_i1 BZ1_e_i2_k1
  let Y := Y.assign (fun idx =>
    match idx with
    | [e, i2, i1] => ∑ k1 in Finset.range nQ, G.get [k1, i1] * T1.get [e, i2, k1]
    | _ => Y.get idx)
  -- GZ2_e_i2_k1 = G_k2_i2 Z2_e_k1_k2
  let T1 := T1.assign (fun idx =>
    match idx with
    | [e, i2, k1] => ∑ k2 in Finset.range nQ, G.get [k2, i2] * (Z.slice 1).get [e, k1, k2]
    | _ => T1.get idx)
  -- Y_e_i2_i1 += B_k1_i1 GZ2_e_i2_k1
  let Y := Y.accumulate (fun idx =>
    match idx with
    | [e, i2, i1] => ∑ k1 in Finset.range nQ, B.get [k1, i1] * T1.get [e, i2, k1]
    | _ => 0)
  ({ s with U := U2, Z := Z, T1 := T1 }, Y.toVector y)

/-- Branch `nDim == 3` of `AcroDiffusionIntegrator::MultAdd`.  `U1`, `U2`, `U3`
and `Z1`, `Z2`, `Z3` are the slices 0, 1, 2 of `U` and `Z`; opening and closing
the multi-kernel launch does not change any value. -/
def AcroDiffusionIntegrator.MultAdd3D (s : AcroDiffusionIntegrator) (x y : Nat → ℚ) :
    AcroDiffusionIntegrator × (Nat → ℚ) :=
  let nElem := s.trialFESpace.NE
  let B := s.B
  let G := s.G
  let D := s.D
  let d := s.nDim.toNat
  let nD := s.nDof1D
  let nQ := s.nQuad1D
  let X := Tensor.view [nElem, nD, nD, nD] x
  let Y := Tensor.view [nElem, nD, nD, nD] y
  -- T2_e_i1_i2_k3 = B_k3_i3 X_e_i1_i2_i3
  let T2 := s.T2.assign (fun idx =>
    match idx with
    | [e, i1, i2, k3] => ∑ i3 in Finset.range nD, B.get [k3, i3] * X.get [e, i1, i2, i3]
    | _ => s.T2.get idx)
  -- T1_e_i1_k2_k3 = B_k2_i2 T2_e_i1_i2_k3
  let T1 := s.T1.assign (fun idx =>
    match idx with
    | [e, i1, k2, k3] => ∑ i2 in Finset.range nD, B.get [k2, i2] * T2.get [e, i1, i2, k3]
    | _ => s.T1.get idx)
  -- U1_e_k1_k2_k3 = G_k1_i1 T1_e_i1_k2_k3
  let U := s.U.assignSlice 0 (fun idx =>
    match idx with
    | [e, k1, k2, k3] => ∑ i1 in Finset.range nD, G.get [k1, i1] * T1.get [e, i1, k2, k3]
    | _ => (s.U.slice 0).get idx)
  -- T1_e_i1_k2_k3 = G_k2_i2 T2_e_i1_i2_k3
  let T1 := T1.assign (fun idx =>
    match idx with
    | [e, i1, k2, k3] => ∑ i2 in Finset.range nD, G.get [k2, i2] * T2.get [e, i1, i2, k3]
    | _ => T1.get idx)
  -- U2_e_k1_k2_k3 = B_k1_i1 T1_e_i1_k2_k3
  let U2 := U.assignSlice 1 (fun idx =>
    match idx with
    | [e, k1, k2, k3] => ∑ i1 in Finset.range nD, B.get [k1, i1] * T1.get [e, i1, k2, k3]
    | _ => (U.slice 1).get idx)
  -- T2_e_i1_i2_k3 = G_k3_i3 X_e_i1_i2_i3
  let T2 := T2.assign (fun idx =>
    match idx with
    | [e, i1, i2, k3] => ∑ i3 in Finset.range nD, G.get [k3, i3] * X.get [e, i1, i2, i3]
    | _ => T2.get idx)
  -- T1_e_i1_k2_k3 = B_k2_i2 T2_e_i1_i2_k3
  let T1 := T1.assign (fun idx =>
    match idx with
    | [e, i1, k2, k3] => ∑ i2 in Finset.range nD, B.get [k2, i2] * T2.get [e, i1, i2, k3]
    | _ => T1.get idx)
  -- U3_e_k1_k2_k3 = B_k1_i1 T1_e_i1_k2_k3
  let U3 := U2.assignSlice 2 (fun idx =>
    match idx with
    | [e, k1, k2, k3] => ∑ i1 in Finset.range nD, B.get [k1, i1] * T1.get [e, i1, k2, k3]
    | _ => (U2.slice 2).get idx)
  -- Z_m_e_k1_k2_k3 = D_e_m_n_k1_k2_k3 U_n_e_k1_k2_k3
  let Z := s.Z.assign (fun idx =>
    match idx with
    | [m, e, k1, k2, k3] =>
      ∑ n in Finset.range d, D.get [e, m, n, k1, k2, k3] * U3.get [n, e, k1, k2, k3]
    | _ => s.Z.get idx)
  -- T1_e_i3_k1_k2 = B_k3_i3 Z1_e_k1_k2_k3
  let T1 := T1.assign (fun idx =>
    match idx with
    | [e, i3, k1, k2] =>
      ∑ k3 in Finset.range nQ, B.get [k3, i3] * (Z.slice 0).get [e, k1, k2, k3]
    | _ => T1.get idx)
  -- T2_e_i2_i3_k1 = B_k2_i2 T1_e_i3_k1_k2
  let T2 := T2.assign (fun idx =>
    match idx with
    | [e, i2, i3, k1] => ∑ k2 in Finset.range nQ, B.get [k2, i2] * T1.get [e, i3, k1, k2]
    | _ => T2.get idx)
  -- Y_e_i1_i2_i3 = G_k1_i1 T2_e_i2_i3_k1
  let Y := Y.assign (fun idx =>
    match idx with
    | [e, i1, i2, i3] => ∑ k1 in Finset.range nQ, G.get [k1, i1] * T2.get [e, i2, i3, k1]
    | _ => Y.get idx)
  -- T1_e_i3_k1_k2 = B_k3_i3 Z2_e_k1_k2_k3
  let T1 := T1.assign (fun idx =>
    match idx with
    | [e, i3, k1, k2] =>
      ∑ k3 in Finset.range nQ, B.get [k3, i3] * (Z.slice 1).get [e, k1, k2, k3]
    | _ => T1.get idx)
  -- T2_e_i2_i3_k1 = G_k2_i2 T1_e_i3_k1_k2
  let T2 := T2.assign (fun idx =>
    match idx with
    | [e, i2, i3, k1] => ∑ k2 in Finset.range nQ, G.get [k2, i2] * T1.get [e, i3, k1, k2]
    | _ => T2.get idx)
  -- Y_e_i1_i2_i3 += B_k1_i1 T2_e_i2_i3_k1
  let Y := Y.accumulate (fun idx =>
    match idx with
    | [e, i1, i2, i3] => ∑ k1 in Finset.range nQ, B.get [k1, i1] * T2.get [e, i2, i3, k1]
    | _ => 0)
  -- T1_e_i3_k1_k2 = G_k3_i3 Z3_e_k1_k2_k3
  let T1 := T1.assign (fun idx =>
    match idx with
    | [e, i3, k1, k2] =>
      ∑ k3 in Finset.range nQ, G.get [k3, i3] * (Z.slice 2).get [e, k1, k2, k3]
    | _ => T1.get idx)
  -- T2_e_i2_i3_k1 = B_k2_i2 T1_e_i3_k1_k2
  let T2 := T2.assign (fun idx =>
    match idx with
    | [e, i2, i3, k1] => ∑ k2 in Finset.range nQ, B.get [k2, i2] * T1.get [e, i3, k1, k2]
    | _ => T2.get idx)
  -- Y_e_i1_i2_i3 += B_k1_i1 T2_e_i2_i3_k1
  let Y := Y.accumulate (fun idx =>
    match idx with
    | [e, i1, i2, i3] => ∑ k1 in Finset.range nQ, B.get [k1, i1] * T2.get [e, i2, i3, k1]
    | _ => 0)
  ({ s with U := U3, Z := Z, T1 := T1, T2 := T2 }, Y.toVector y)

/-- The method `AcroDiffusionIntegrator::MultAdd(x, y)`.  The check that the
element has a tensor basis is an `MFEM_ASSERT`; in a dimension other than 1, 2,
3 no branch is taken and the call returns. -/
def AcroDiffusionIntegrator.MultAdd (lib : Library) (s : AcroDiffusionIntegrator)
    (x y : Nat → ℚ) : Result (AcroDiffusionIntegrator × (Nat → ℚ)) :=
  if MFEM_ASSERT lib s.hasTensorBasis then
    Result.fatal "AcroDiffusionIntegrator PAMult on simplices not supported" (s, y)
  else if s.nDim = 1 then Result.ok (s.MultAdd1D x y)
  else if s.nDim = 2 then Result.ok (s.MultAdd2D x y)
  else if s.nDim = 3 then Result.ok (s.MultAdd3D x y)
  else Result.ok (s, y)

/-- A concrete library for the examples: every segment rule is the one-point
rule at `1/2` with weight 1, the segment element is the linear one
(`1 - x`, `x`), fresh storage holds zeros, release build. -/
def sampleLibrary : Library :=
  { IntRulesSegment := fun _ =>
      { NPoints := 1, IntPoint := fun _ => ⟨1 / 2, 0, 0, 1⟩, Order := 1 },
    H1SegmentShape := fun _ ip i => if i = 0 then 1 - ip.x else ip.x,
    H1SegmentDShape := fun _ _ i => if i = 0 then -1 else 1,
    junk := fun _ _ => 0,
    MFEM_DEBUG := false }

/-- A concrete space for the examples: one quadratic segment element, native
DOF order "end points first" (`tDofMap = [0, 2, 1]`), identity Jacobian. -/
def segmentSpace : FiniteElementSpace :=
  { NE := 1,
    FE0 := { DofMap := some [0, 2, 1], GeomType := 1, Order := 2, Dim := 1, Dof := 3,
             CalcDShape := fun _ _ _ => 0 },
    Jacobian := fun _ _ _ _ m n => if m = n then 1 else 0 }

/-- The base members after `Setup` on `segmentSpace` with a one-point rule. -/
def segmentBase : PAIntegrator :=
  { trialFESpace := segmentSpace,
    ir := { NPoints := 1, IntPoint := fun _ => ⟨1 / 2, 0, 0, 1⟩, Order := 1 },
    hasTensorBasis := true, deviceIsCUDA := false, onGPU := false,
    tDofMap := [0, 2, 1], GeomType := 1, FEOrder := 2, nDim := 1, nDof := 3, nQuad := 1,
    ir1D := { NPoints := 1, IntPoint := fun _ => ⟨1 / 2, 0, 0, 1⟩, Order := 1 },
    nDof1D := 3, nQuad1D := 1 }

/-- The table with row `(1, 2, 3)` at every quadrature point. -/
def rampTable : Tensor :=
  ⟨true, [1, 3], fun idx =>
    match idx with
    | [_, 0] => 1
    | [_, 1] => 2
    | [_, 2] => 3
    | _ => 0⟩

/-- A mass integrator on `segmentSpace` with `B(0, .) = (1, 2, 3)` and
`D = 1`, so that `M(i, j) = (i+1)(j+1)`. -/
def massOnSegment : AcroMassIntegrator :=
  { toPAIntegrator := segmentBase,
    B := rampTable,
    W := ⟨true, [1], fun _ => 1⟩,
    D := ⟨true, [1, 1], fun _ => 1⟩,
    M := Tensor.empty, T1 := Tensor.empty, T2 := Tensor.empty, T3 := Tensor.empty }

/-- A concrete simplex space for the examples: one linear triangle (no tensor
basis, 3 DOFs), identity Jacobian. -/
def triangleSpace : FiniteElementSpace :=
  { NE := 1,
    FE0 := { DofMap := none, GeomType := 2, Order := 1, Dim := 2, Dof := 3,
             CalcDShape := fun _ i d =>
               if i = 0 then -1 else if i = d + 1 then 1 else 0 },
    Jacobian := fun _ _ _ _ m n => if m = n then 1 else 0 }

/-- The base members after `Setup` on `triangleSpace` with a one-point rule. -/
def triangleBase : PAIntegrator :=
  { trialFESpace := triangleSpace,
    ir := { NPoints := 1, IntPoint := fun _ => ⟨1 / 3, 1 / 3, 0, 1 / 2⟩, Order := 1 },
    hasTensorBasis := false, deviceIsCUDA := false, onGPU := false,
    tDofMap := [0, 1, 2], GeomType := 2, FEOrder := 1, nDim := 2, nDof := 3, nQuad := 1,
    ir1D := { NPoints := 1, IntPoint := fun _ => ⟨1 / 2, 0, 0, 1⟩, Order := 1 },
    nDof1D := 2, nQuad1D := 1 }

/-- A mass integrator on the triangle, as `Setup` leaves its tensors on the
non-tensor path (`B` never initialised). -/
def massOnTriangle : AcroMassIntegrator :=
  { toPAIntegrator := triangleBase,
    B := Tensor.empty,
    W := ⟨true, [1], fun _ => 1 / 2⟩,
    D := ⟨true, [1, 1], fun _ => 0⟩,
    M := Tensor.empty, T1 := Tensor.empty, T2 := Tensor.empty, T3 := Tensor.empty }

/-- A diffusion integrator on the triangle, as `Setup` leaves its tensors on
the non-tensor path (`B`, `U`, `Z`, `T1` never initialised). -/
def diffusionOnTriangle : AcroDiffusionIntegrator :=
  { toPAIntegrator := triangleBase,
    B := Tensor.empty,
    G := ⟨true, [1, 3, 2], fun idx =>
      match idx with
      | [_, i, d] => if i = 0 then -1 else if i = d + 1 then 1 else 0
      | _ => 0⟩,
    W := ⟨true, [1], fun _ => 1 / 2⟩,
    Btil := [],
    D := ⟨true, [1, 2, 2, 1], fun _ => 0⟩,
    S := Tensor.empty, U := Tensor.empty, Z := Tensor.empty,
    T1 := Tensor.empty, T2 := Tensor.empty }

/-- A diffusion integrator on `segmentSpace` with `G(0, .) = (1, 2, 3)`,
`B = 0` and `D = 1`, so that `S(i, j) = (i+1)(j+1)`. -/
def diffusionOnSegment : AcroDiffusionIntegrator :=
  { toPAIntegrator := segmentBase,
    B := ⟨true, [1, 3], fun _ => 0⟩,
    G := rampTable,
    W := ⟨true, [1], fun _ => 1⟩,
    Btil := [],
    D := ⟨true, [1, 1, 1, 1], fun _ => 1⟩,
    S := Tensor.empty, U := Tensor.empty, Z := Tensor.empty,
    T1 := Tensor.empty, T2 := Tensor.empty }

/-- The base members of a freshly constructed integrator attached to
`triangleSpace`, before `Setup`: the members `Setup` is about to assign hold
zeros. -/
def freshTriangleBase : PAIntegrator :=
  { trialFESpace := triangleSpace,
    ir := { NPoints := 1, IntPoint := fun _ => ⟨1 / 3, 1 / 3, 0, 1 / 2⟩, Order := 1 },
    hasTensorBasis := false, deviceIsCUDA := false, onGPU := false,
    tDofMap := [], GeomType := 0, FEOrder := 0, nDim := 0, nDof := 0, nQuad := 0,
    ir1D := { NPoints := 0, IntPoint := fun _ => ⟨0, 0, 0, 0⟩, Order := 0 },
    nDof1D := 0, nQuad1D := 0 }

/-- The classical mass matrix of the bilinear element on the unit square, in
the native vertex ordering:
`(1/36) [[4,2,1,2],[2,4,2,1],[1,2,4,2],[2,1,2,4]]`. -/
def classicalBilinearMass (a b : Nat) : ℚ :=
  (([[4, 2, 1, 2], [2, 4, 2, 1], [1, 2, 4, 2], [2, 1, 2, 4]] : List (List ℚ)).getD a []).getD b 0
    / 36

/-- A concrete space for the examples: one linear segment element, identity
DOF map, identity Jacobian. -/
def lineSpace : FiniteElementSpace :=
  { NE := 1,
    FE0 := { DofMap := some [0, 1], GeomType := 1, Order := 1, Dim := 1, Dof := 2,
             CalcDShape := fun _ _ _ => 0 },
    Jacobian := fun _ _ _ _ m n => if m = n then 1 else 0 }

/-- A concrete space for the examples: one bilinear square element, native
DOF order counter-clockwise (`tDofMap = [0, 1, 3, 2]`), identity Jacobian. -/
def squareSpace : FiniteElementSpace :=
  { NE := 1,
    FE0 := { DofMap := some [0, 1, 3, 2], GeomType := 3, Order := 1, Dim := 2, Dof := 4,
             CalcDShape := fun _ _ _ => 0 },
    Jacobian := fun _ _ _ _ m n => if m = n then 1 else 0 }

/-- Simpson's rule on the unit segment: points `0, 1/2, 1`, weights
`1/6, 4/6, 1/6`. -/
def simpsonRule : IntegrationRule :=
  { NPoints := 3,
    IntPoint := fun k =>
      if k = 0 then ⟨0, 0, 0, 1 / 6⟩ else if k = 1 then ⟨1 / 2, 0, 0, 4 / 6⟩
      else ⟨1, 0, 0, 1 / 6⟩,
    Order := 3 }

/-- A concrete library for the examples: every segment rule is Simpson's rule,
the segment element is the linear one (`1 - x`, `x`), fresh storage holds
zeros, release build. -/
def simpsonLibrary : Library :=
  { IntRulesSegment := fun _ => simpsonRule,
    H1SegmentShape := fun _ ip i => if i = 0 then 1 - ip.x else ip.x,
    H1SegmentDShape := fun _ _ i => if i = 0 then -1 else 1,
    junk := fun _ _ => 0,
    MFEM_DEBUG := false }

/-- A freshly constructed mass integrator attached to the space `fes` with the
rule `ir`, before `Setup`: tensors default-constructed, the members `Setup`
is about to assign hold zeros. -/
def freshMass (fes : FiniteElementSpace) (ir : IntegrationRule) : AcroMassIntegrator :=
  { trialFESpace := fes, ir := ir, hasTensorBasis := true,
    deviceIsCUDA := false, onGPU := false,
    tDofMap := [], GeomType := 0, FEOrder := 0, nDim := 0, nDof := 0, nQuad := 0,
    ir1D := { NPoints := 0, IntPoint := fun _ => ⟨0, 0, 0, 0⟩, Order := 0 },
    nDof1D := 0, nQuad1D := 0,
    B := Tensor.empty, W := Tensor.empty, D := Tensor.empty, M := Tensor.empty,
    T1 := Tensor.empty, T2 := Tensor.empty, T3 := Tensor.empty }

/-- A fresh mass integrator on `lineSpace` with a one-point rule. -/
def freshMassOnLine : AcroMassIntegrator :=
  freshMass lineSpace { NPoints := 1, IntPoint := fun _ => ⟨1 / 2, 0, 0, 1⟩, Order := 1 }

/-- A fresh mass integrator on `squareSpace` with the 3 x 3 tensor rule built
on Simpson's rule (point `k` is `(x_(k/3), x_(k%3))`). -/
def freshMassOnSquare : AcroMassIntegrator :=
  freshMass squareSpace
    { NPoints := 9,
      IntPoint := fun k =>
        ⟨(simpsonRule.IntPoint (k / 3)).x, (simpsonRule.IntPoint (k % 3)).x, 0,
          (simpsonRule.IntPoint (k / 3)).weight * (simpsonRule.IntPoint (k % 3)).weight⟩,
      Order := 3 }

end acro

namespace occa

/-- The scalar coefficient `dbfi[i]->GetScalarCoefficient()` of a domain
integrator, as `InitOccaBilinearForm` tells the kinds apart: a
`ConstantCoefficient`, a `GridFunctionCoefficient`, or any other kind. -/
inductive Coefficient where
  | constant (c : ℚ) : Coefficient
  | gridFunction : Coefficient
  | other : Coefficient

/-- The `OccaCoefficient` built from the scalar coefficient. -/
inductive OccaCoefficient where
  | value (c : ℚ) : OccaCoefficient
  | gridFunction : OccaCoefficient

/-- The integrator objects `InitOccaBilinearForm` creates, with the arguments
their constructors receive: the OCCA integrators get the coefficient, the
Acrotensor integrators get the engine only. -/
inductive OccaIntegrator where
  | occaMass (coeff : OccaCoefficient) : OccaIntegrator
  | occaDiffusion (coeff : OccaCoefficient) : OccaIntegrator
  | acroMass : OccaIntegrator
  | acroDiffusion : OccaIntegrator

/-- One turn of the loop "Transfer domain integrators" of
`BilinearForm::InitOccaBilinearForm`: from the integrator's `Name()`, its
scalar coefficient (`none` for a null pointer) and the engine's
`UseAcrotensorIntegrator()`, the integrator handed to `AddDomainIntegrator`.
`MFEM_ABORT` ends the call. -/
def InitOccaBilinearForm.makeIntegrator (use_acrotensor : Bool) (integ_name : String)
    (scal_coeff : Option Coefficient) : Result (Option OccaIntegrator) :=
  let ocoeff : Option OccaCoefficient :=
    match scal_coeff with
    | some (Coefficient.constant c) => some (OccaCoefficient.value c)
    | some Coefficient.gridFunction => some OccaCoefficient.gridFunction
    | none => some (OccaCoefficient.value 1)
    | some Coefficient.other => none
  match ocoeff with
  | none => Result.fatal "Coefficient type not supported" none
  | some oc =>
    if integ_name = "(undefined)" then
      Result.fatal "BilinearFormIntegrator does not define Name()" none
    else if integ_name = "mass" then
      if !use_acrotensor then Result.ok (some (OccaIntegrator.occaMass oc))
      else Result.ok (some OccaIntegrator.acroMass)
    else if integ_name = "diffusion" then
      if !use_acrotensor then Result.ok (some (OccaIntegrator.occaDiffusion oc))
      else Result.ok (some OccaIntegrator.acroDiffusion)
    else
      Result.fatal "BilinearFormIntegrator is not supported" none

end occa

namespace acro

/-- A freshly constructed diffusion integrator attached to the space `fes`
with the rule `ir`, before `Setup`: tensors default-constructed, `Btil` empty,
the members `Setup` is about to assign hold zeros.  `tensor` is the value of
`hasTensorBasis`. -/
def freshDiffusion (fes : FiniteElementSpace) (ir : IntegrationRule) (tensor : Bool) :
    AcroDiffusionIntegrator :=
  { trialFESpace := fes, ir := ir, hasTensorBasis := tensor,
    deviceIsCUDA := false, onGPU := false,
    tDofMap := [], GeomType := 0, FEOrder := 0, nDim := 0, nDof := 0, nQuad := 0,
    ir1D := { NPoints := 0, IntPoint := fun _ => ⟨0, 0, 0, 0⟩, Order := 0 },
    nDof1D := 0, nQuad1D := 0,
    B := Tensor.empty, G := Tensor.empty, W := Tensor.empty, Btil := [],
    D := Tensor.empty, S := Tensor.empty, U := Tensor.empty, Z := Tensor.empty,
    T1 := Tensor.empty, T2 := Tensor.empty }

/-- The one-point rule at `1/2` with weight 1. -/
def midpointRule : IntegrationRule :=
  { NPoints := 1, IntPoint := fun _ => ⟨1 / 2, 0, 0, 1⟩, Order := 1 }

/-- A concrete space for the examples: one multilinear element of dimension 4
(a tensor-product element with 16 DOFs), identity Jacobian. -/
def tesseractSpace : FiniteElementSpace :=
  { NE := 1,
    FE0 := { DofMap := some (List.range 16), GeomType := 0, Order := 1, Dim := 4, Dof := 16,
             CalcDShape := fun _ _ _ => 0 },
    Jacobian := fun _ _ _ _ m n => if m = n then 1 else 0 }

/-- A diffusion integrator on the linear triangle with identity Jacobian after
`Setup` and `BatchedPartialAssemble`: `G` holds the gradients `(-1,-1)`,
`(1,0)`, `(0,1)` of the three shape functions and `D(0,m,n,0)` is `1/2` for
`m = n` and `0` otherwise. -/
def stiffnessOnTriangle : AcroDiffusionIntegrator :=
  { diffusionOnTriangle with
    D := ⟨true, [1, 2, 2, 1], fun idx =>
      match idx with
      | [_, m, n, _] => if m = n then 1 / 2 else 0
      | _ => 0⟩ }

/-- The native index whose value the population loop of both `Setup`s stores at
the internal index `i` of a row of `B` (and `G`): `B(k,0) = eval(0)`,
`B(k,nDof1D-1) = eval(1)` and `B(k,i) = eval(i+1)` in between. -/
def nativeIndex (nDof1D i : Nat) : Nat :=
  if i = 0 then 0 else if i = nDof1D - 1 then 1 else i + 1

/-- A concrete library for the examples: every segment rule is Simpson's rule
(points `0, 1/2, 1`), the segment element is the quadratic nodal one on these
three points in the native numbering "end points first"
(`(1-x)(1-2x)`, `x(2x-1)`, `4x(1-x)`), fresh storage holds zeros, release
build. -/
def nodalLibrary : Library :=
  { IntRulesSegment := fun _ => simpsonRule,
    H1SegmentShape := fun _ ip i =>
      if i = 0 then (1 - ip.x) * (1 - 2 * ip.x)
      else if i = 1 then ip.x * (2 * ip.x - 1)
      else 4 * ip.x * (1 - ip.x),
    H1SegmentDShape := fun _ ip i =>
      if i = 0 then 4 * ip.x - 3
      else if i = 1 then 4 * ip.x - 1
      else 4 - 8 * ip.x,
    junk := fun _ _ => 0,
    MFEM_DEBUG := false }

/-- The read `v(i)` of a `Vector` of size `n`: `none` when `i` is not an index
of the vector (the access is only checked by an `MFEM_ASSERT`, so outside a
debug build it reads past the storage). -/
def vectorRead (n : Nat) (v : Nat → ℚ) (i : Nat) : Option ℚ :=
  if i < n then some (v i) else none

/-- One turn of the population loop of `AcroMassIntegrator::Setup` with the
reads of `eval`, a `Vector` of size `nDof1D`, checked against its size: row
`k` of `B` after `B(k,0) = eval(0)`, `B(k,nDof1D-1) = eval(1)` and
`B(k,i) = eval(i+1)` for `1 <= i < nDof1D-1`, or `none` when one of the reads
is out of range. -/
def fillRowChecked (nDof1D : Nat) (eval : Nat → ℚ) (k : Nat) (B : Tensor) : Option Tensor :=
  (vectorRead nDof1D eval 0).bind (fun e0 =>
    let B := B.set [k, 0] e0
    (vectorRead nDof1D eval 1).bind (fun e1 =>
      let B := B.set [k, nDof1D - 1] e1
      forLoop 1 (nDof1D - 1) (fun i (B : Option Tensor) =>
        B.bind (fun B => (vectorRead nDof1D eval (i + 1)).bind (fun v =>
          some (B.set [k, i] v)))) (some B)))

/-- The integrator after `n` consecutive calls of
`AcroDiffusionIntegrator::BatchedAssembleElementMatrices`, call number `i`
(from 0) being given the output buffer `els i`. -/
def AcroDiffusionIntegrator.afterCalls (lib : Library) (s : AcroDiffusionIntegrator)
    (els : Nat → DenseTensor) : Nat → AcroDiffusionIntegrator
  | 0 => s
  | n + 1 =>
    ((AcroDiffusionIntegrator.afterCalls lib s els n).BatchedAssembleElementMatrices lib
      (els n)).1

end acro

namespace occa

/-- An entry of `OccaBilinearForm::integrators`: an Acrotensor mass or
diffusion integrator (the objects for which the `dynamic_cast` to
`PAIntegrator` succeeds) with its state, or any other integrator. -/
inductive FormIntegrator where
  | acroMass (s : acro.AcroMassIntegrator) : FormIntegrator
  | acroDiffusion (s : acro.AcroDiffusionIntegrator) : FormIntegrator
  | other : FormIntegrator

/-- The method `OccaBilinearForm::AssembleElementMatrices(element_matrices)`
on the state `(integrators, element_matrices)`: `mfem_error("TBD")` when there
is more than one integrator, otherwise `BatchedAssembleElementMatrices` of
`integrators[0]` when it is a `PAIntegrator`.  The result is `none` when the
call has no defined outcome: with no integrator at all, `integrators[0]` is a
read outside the vector. -/
def OccaBilinearForm.AssembleElementMatrices (lib : Library)
    (integrators : List FormIntegrator) (element_matrices : DenseTensor) :
    Option (Result (List FormIntegrator × DenseTensor)) :=
  if integrators.length > 1 then some (Result.fatal "TBD" (integrators, element_matrices))
  else
    match integrators with
    | [] => none
    | FormIntegrator.acroMass s :: rest =>
      match s.BatchedAssembleElementMatrices lib element_matrices with
      | Result.ok r => some (Result.ok (FormIntegrator.acroMass r.1 :: rest, r.2))
      | Result.fatal msg r =>
        some (Result.fatal msg (FormIntegrator.acroMass r.1 :: rest, r.2))
    | FormIntegrator.acroDiffusion s :: rest =>
      let r := s.BatchedAssembleElementMatrices lib element_matrices
      some (Result.ok (FormIntegrator.acroDiffusion r.1 :: rest, r.2))
    | FormIntegrator.other :: _ => some (Result.ok (integrators, element_matrices))

end occa

namespace acro

/-- A mass integrator on `segmentSpace` with Simpson's three-point rule
(`nQuad1D = 3`), as `Setup` leaves its members. -/
def massOnSegmentSimpson : AcroMassIntegrator :=
  { toPAIntegrator :=
      { segmentBase with ir := simpsonRule, nQuad := 3, ir1D := simpsonRule, nQuad1D := 3 },
    B := ⟨true, [3, 3], fun _ => 1⟩,
    W := ⟨true, [3], fun _ => 1 / 3⟩,
    D := ⟨true, [1, 3], fun _ => 0⟩,
    M := Tensor.empty, T1 := Tensor.empty, T2 := Tensor.empty, T3 := Tensor.empty }

/-- The base members after `Setup` on `squareSpace` with a one-point rule. -/
def squareBase : PAIntegrator :=
  { trialFESpace := squareSpace,
    ir := { NPoints := 1, IntPoint := fun _ => ⟨1 / 2, 1 / 2, 0, 1⟩, Order := 1 },
    hasTensorBasis := true, deviceIsCUDA := false, onGPU := false,
    tDofMap := [0, 1, 3, 2], GeomType := 3, FEOrder := 1, nDim := 2, nDof := 4, nQuad := 1,
    ir1D := { NPoints := 1, IntPoint := fun _ => ⟨1 / 2, 0, 0, 1⟩, Order := 1 },
    nDof1D := 2, nQuad1D := 1 }

/-- A diffusion integrator on `squareSpace` with `B(0, .) = (1, 2)`,
`G(0, .) = (3, 5)` and the anisotropic coefficient `D(0,m,n,0,0) = 1, 2, 2, 7`
for `(m,n) = (0,0), (0,1), (1,0), (1,1)`. -/
def diffusionOnSquare : AcroDiffusionIntegrator :=
  { toPAIntegrator := squareBase,
    B := ⟨true, [1, 2], fun idx =>
      match idx with
      | [_, 0] => 1
      | [_, 1] => 2
      | _ => 0⟩,
    G := ⟨true, [1, 2], fun idx =>
      match idx with
      | [_, 0] => 3
      | [_, 1] => 5
      | _ => 0⟩,
    W := ⟨true, [1, 1], fun _ => 1⟩,
    Btil := [],
    D := ⟨true, [1, 2, 2, 1, 1], fun idx =>
      match idx with
      | [_, 0, 0, _, _] => 1
      | [_, 1, 1, _, _] => 7
      | _ => 2⟩,
    S := Tensor.empty, U := Tensor.empty, Z := Tensor.empty,
    T1 := Tensor.empty, T2 := Tensor.empty }

/-- A concrete space for the examples: one trilinear cube element, identity
DOF map, identity Jacobian. -/
def cubeSpace : FiniteElementSpace :=
  { NE := 1,
    FE0 := { DofMap := some (List.range 8), GeomType := 5, Order := 1, Dim := 3, Dof := 8,
             CalcDShape := fun _ _ _ => 0 },
    Jacobian := fun _ _ _ _ m n => if m = n then 1 else 0 }

/-- A diffusion integrator on `cubeSpace` with a one-point rule,
`B(0, .) = (1, 2)`, `G(0, .) = (3, 5)` and `D = 1`. -/
def diffusionOnCube : AcroDiffusionIntegrator :=
  { trialFESpace := cubeSpace,
    ir := { NPoints := 1, IntPoint := fun _ => ⟨1 / 2, 1 / 2, 1 / 2, 1⟩, Order := 1 },
    hasTensorBasis := true, deviceIsCUDA := false, onGPU := false,
    tDofMap := List.range 8, GeomType := 5, FEOrder := 1, nDim := 3, nDof := 8, nQuad := 1,
    ir1D := { NPoints := 1, IntPoint := fun _ => ⟨1 / 2, 0, 0, 1⟩, Order := 1 },
    nDof1D := 2, nQuad1D := 1,
    B := ⟨true, [1, 2], fun idx =>
      match idx with
      | [_, 0] => 1
      | [_, 1] => 2
      | _ => 0⟩,
    G := ⟨true, [1, 2], fun idx =>
      match idx with
      | [_, 0] => 3
      | [_, 1] => 5
      | _ => 0⟩,
    W := ⟨true, [1, 1, 1], fun _ => 1⟩,
    Btil := [],
    D := ⟨true, [1, 3, 3, 1, 1, 1], fun _ => 1⟩,
    S := Tensor.empty, U := Tensor.empty, Z := Tensor.empty,
    T1 := Tensor.empty, T2 := Tensor.empty }

end acro

namespace occa

/-- The index a signed DOF code of a constraint list denotes: `c` itself when
`c >= 0`, `-c - 1` otherwise. -/
def dofIndex (c : Int) : Nat := if c ≥ 0 then c.toNat else (-c - 1).toNat

/-- The kernel `vector_get_subvector` launched on `n` entries:
`dof_i = v2[i]; v0[i] = dof_i >= 0 ? v1[dof_i] : -v1[-dof_i - 1]`.  The
entries are processed one after the other here; every turn writes its own
entry of `v0`. -/
def vector_get_subvector (n : Nat) (v0 : Nat → ℚ) (v1 : Nat → ℚ) (v2 : Nat → Int) :
    Nat → ℚ :=
  forLoop 0 n (fun i v0 =>
    let dof_i := v2 i
    Function.update v0 i (if dof_i ≥ 0 then v1 dof_i.toNat else - v1 (-dof_i - 1).toNat)) v0

/-- The kernel `vector_set_subvector` launched on `n` entries:
`dof_i = v2[i]; if (dof_i >= 0) v0[dof_i] = v1[i]; else v0[-dof_i - 1] = -v1[i]`,
the entries being processed one after the other. -/
def vector_set_subvector (n : Nat) (v0 : Nat → ℚ) (v1 : Nat → ℚ) (v2 : Nat → Int) :
    Nat → ℚ :=
  forLoop 0 n (fun i v0 =>
    let dof_i := v2 i
    if dof_i ≥ 0 then Function.update v0 dof_i.toNat (v1 i)
    else Function.update v0 (-dof_i - 1).toNat (- v1 i)) v0

/-- The call `X.Fill(c)` on a vector of `size` entries. -/
def vectorFill (size : Nat) (c : ℚ) (X : Nat → ℚ) : Nat → ℚ :=
  fun i => if i < size then c else X i

/-- The block of `OccaBilinearForm::InitRHS` guarded by
`!copy_interior && constraintList.Size() > 0`, on the vector `X` of `size`
entries: `subvec` (fresh storage `junk`) receives the constrained entries of
`X`, `X` is zeroed, and the entries are put back. -/
def InitRHS.constrain (copy_interior : Int) (constraintList : List Int) (size : Nat)
    (junk : Nat → ℚ) (X : Nat → ℚ) : Nat → ℚ :=
  if copy_interior = 0 ∧ constraintList.length > 0 then
    let n := constraintList.length
    let codes : Nat → Int := fun i => constraintList.getD i 0
    let subvec := vector_get_subvector n junk X codes
    let X := vectorFill size 0 X
    vector_set_subvector n X subvec codes
  else X

end occa

namespace hypsys

/-- A `double` as the flux evaluation sees it: a number, an infinity
(`inf true` is the negative one) or NaN.  Numbers are exact rationals, so
rounding and overflow are left out and zero carries no sign; infinities and NaN
follow IEEE 754. -/
inductive Double where
  | num (q : ℚ) : Double
  | inf (negative : Bool) : Double
  | nan : Double
  deriving DecidableEq

/-- The product `a * b` of two `double`s: NaN is absorbing and
`0 * inf` is NaN. -/
def Double.mul : Double → Double → Double
  | Double.num a, Double.num b => Double.num (a * b)
  | Double.num a, Double.inf t => if a = 0 then Double.nan else Double.inf (xor (decide (a < 0)) t)
  | Double.inf s, Double.num b => if b = 0 then Double.nan else Double.inf (xor s (decide (b < 0)))
  | Double.inf s, Double.inf t => Double.inf (xor s t)
  | _, _ => Double.nan

/-- The quotient `a / b` of two `double`s: a nonzero number over zero is an
infinity, `0 / 0` and `inf / inf` are NaN, a number over an infinity is 0. -/
def Double.div : Double → Double → Double
  | Double.num a, Double.num b =>
    if b = 0 then (if a = 0 then Double.nan else Double.inf (decide (a < 0)))
    else Double.num (a / b)
  | Double.num _, Double.inf _ => Double.num 0
  | Double.inf s, Double.num b => Double.inf (xor s (decide (b < 0)))
  | _, _ => Double.nan

/-- The sum `a + b` of two `double`s: `inf + (-inf)` is NaN. -/
def Double.add : Double → Double → Double
  | Double.num a, Double.num b => Double.num (a + b)
  | Double.num _, Double.inf t => Double.inf t
  | Double.inf s, Double.num _ => Double.inf s
  | Double.inf s, Double.inf t => if s = t then Double.inf s else Double.nan
  | _, _ => Double.nan

/-- The comparison `a < b` of two `double`s; it is false as soon as one of
them is NaN. -/
def Double.lt : Double → Double → Bool
  | Double.num a, Double.num b => decide (a < b)
  | Double.num _, Double.inf t => !t
  | Double.inf s, Double.num _ => s
  | Double.inf s, Double.inf t => s && !t
  | _, _ => false

/-- The comparison `a >= b` of two `double`s; it is false as soon as one of
them is NaN. -/
def Double.ge : Double → Double → Bool
  | Double.num a, Double.num b => decide (b ≤ a)
  | Double.num _, Double.inf t => t
  | Double.inf s, Double.num _ => !s
  | Double.inf s, Double.inf t => !s || t
  | _, _ => false

/-- The constant `GravConst` of `shallowwater.cpp`. -/
def GravConst : Double := Double.num 1

/-- A `DenseMatrix`, read as `f(i, j)`. -/
abbrev DenseMatrix := Nat → Nat → Double

/-- The write `f(i, j) = v`. -/
def DenseMatrix.set (f : DenseMatrix) (i j : Nat) (v : Double) : DenseMatrix :=
  fun a b => if a = i ∧ b = j then v else f a b

/-- The method `ShallowWater::EvaluateFlux(u, f, e, k, i)` on the output `f`,
for the member `NumEq` and the state vector `u` (a `Vector` of `u.length`
entries).  `MFEM_ABORT` ends the call; the result is `none` when the call
reads an entry of `u` that does not exist. -/
def ShallowWater.EvaluateFlux (NumEq : Int) (u : List Double) (f : DenseMatrix) :
    Option (Result DenseMatrix) :=
  let dim : Int := (u.length : Int) - 1
  let H0 : Double := Double.num (1 / 1000)
  if (u.length : Int) ≠ NumEq then some (Result.fatal "Invalid solution vector." f)
  else
    (u.get? 0).bind (fun u0 =>
      if Double.lt u0 H0 then some (Result.fatal "Water height too small." f)
      else if dim = 1 then
        (u.get? 1).bind (fun u1 =>
          let f := f.set 0 0 u1
          let f := f.set 1 0
            (((u1.mul u1).div u0).add (((GravConst.div (Double.num 2)).mul u0).mul u0))
          some (Result.ok f))
      else if dim = 2 then
        (u.get? 1).bind (fun u1 =>
          (u.get? 2).bind (fun u2 =>
            let f := f.set 0 0 u1
            let f := f.set 0 1 u2
            let f := f.set 1 0
              (((u1.mul u1).div u0).add ((((Double.num (1 / 2)).mul GravConst).mul u0).mul u0))
            let f := f.set 1 1 ((u1.mul u2).div u0)
            let f := f.set 2 0 ((u2.mul u1).div u0)
            let f := f.set 2 1
              (((u2.mul u2).div u0).add ((((Double.num (1 / 2)).mul GravConst).mul u0).mul u0))
            some (Result.ok f)))
      else some (Result.fatal "Invalid space dimension." f))

/-- A flux matrix holding zeros, for the examples. -/
def zeroMatrix : DenseMatrix := fun _ _ => Double.num 0

end hypsys

namespace acro

/-- The integrator `diffusionOnCube` with the DOF map of the trilinear
hexahedron, `tDofMap = [0, 1, 3, 2, 4, 5, 7, 6]`. -/
def diffusionOnCubeMapped : AcroDiffusionIntegrator :=
  { diffusionOnCube with tDofMap := [0, 1, 3, 2, 4, 5, 7, 6] }

/-- The Jacobian `Trans->Jacobian()` of element `e` at the reference point
`(x, y, z)`, as a `d x d` matrix. -/
def jacobianMatrix (fes : FiniteElementSpace) (d e : Nat) (x y z : ℚ) :
    Matrix (Fin d) (Fin d) ℚ :=
  Matrix.of (fun m n => fes.Jacobian e x y z m.val n.val)

/-- Modelled from the spec: the quadrature rule of a tensor-product element is
the "tensor-product grid of 1D points"; the construction of the rules is not
among the sources.  Reference coordinates of point number `k` of the `d`-fold
product of the segment rule `ir1D`, in the order of the library's product
rules: the first coordinate runs fastest. -/
def tensorGridPoint (ir1D : IntegrationRule) (d k : Nat) : ℚ × ℚ × ℚ :=
  let Q := ir1D.NPoints
  let x : Nat → ℚ := fun i => (ir1D.IntPoint i).x
  if d = 1 then (x k, 0, 0)
  else if d = 2 then (x (k % Q), x (k / Q), 0)
  else (x (k % Q), x (k / Q % Q), x (k / (Q * Q)))

/-- A concrete space for the examples: one trilinear cube element whose
Jacobian at `(x, y, z)` is `[[1+x, 2, 0], [0, 1, y], [0, 0, 1+z]]`. -/
def shearedCubeSpace : FiniteElementSpace :=
  { NE := 1,
    FE0 := { DofMap := some (List.range 8), GeomType := 5, Order := 1, Dim := 3, Dof := 8,
             CalcDShape := fun _ _ _ => 0 },
    Jacobian := fun _ x y z m n =>
      match m, n with
      | 0, 0 => 1 + x
      | 0, 1 => 2
      | 1, 1 => 1
      | 1, 2 => y
      | 2, 2 => 1 + z
      | _, _ => 0 }

/-- The integrator `diffusionOnCube` attached to `shearedCubeSpace`. -/
def diffusionOnShearedCube : AcroDiffusionIntegrator :=
  { diffusionOnCube with trialFESpace := shearedCubeSpace }

/-- A concrete simplex space for the examples: one linear triangle whose
Jacobian is `[[2, 1], [0, 1]]`. -/
def shearedTriangleSpace : FiniteElementSpace :=
  { NE := 1,
    FE0 := { DofMap := none, GeomType := 2, Order := 1, Dim := 2, Dof := 3,
             CalcDShape := fun _ i d =>
               if i = 0 then -1 else if i = d + 1 then 1 else 0 },
    Jacobian := fun _ _ _ _ m n =>
      match m, n with
      | 0, 0 => 2
      | 0, 1 => 1
      | 1, 1 => 1
      | _, _ => 0 }

/-- The integrator `diffusionOnTriangle` attached to `shearedTriangleSpace`. -/
def diffusionOnShearedTriangle : AcroDiffusionIntegrator :=
  { diffusionOnTriangle with trialFESpace := shearedTriangleSpace }

/-- A concrete space for the examples: one bilinear quadrilateral, native DOF
order counter-clockwise (`tDofMap = [0, 1, 3, 2]`), whose Jacobian at `(x, y)`
is `[[1+y, x], [0, 1]]`, of determinant `1 + y`. -/
def trapezoidSpace : FiniteElementSpace :=
  { NE := 1,
    FE0 := { DofMap := some [0, 1, 3, 2], GeomType := 3, Order := 1, Dim := 2, Dof := 4,
             CalcDShape := fun _ _ _ => 0 },
    Jacobian := fun _ x y _ m n =>
      match m, n with
      | 0, 0 => 1 + y
      | 0, 1 => x
      | 1, 1 => 1
      | _, _ => 0 }

/-- The 3 x 3 product of Simpson's rule, first coordinate running fastest:
point `k` is `(x_(k%3), x_(k/3))`. -/
def simpsonGrid : IntegrationRule :=
  { NPoints := 9,
    IntPoint := fun k =>
      ⟨(simpsonRule.IntPoint (k % 3)).x, (simpsonRule.IntPoint (k / 3)).x, 0,
        (simpsonRule.IntPoint (k % 3)).weight * (simpsonRule.IntPoint (k / 3)).weight⟩,
    Order := 3 }

/-- A fresh mass integrator on `trapezoidSpace` with the rule `simpsonGrid`. -/
def freshMassOnTrapezoid : AcroMassIntegrator := freshMass trapezoidSpace simpsonGrid

end acro

end mfem

namespace mfem

theorem forLoop_succ {σ : Type} (lo n : Nat) (body : Nat → σ → σ) (s : σ) :
    forLoop lo (lo + (n + 1)) body s = body (lo + n) (forLoop lo (lo + n) body s) := by
  unfold forLoop
  have h1 : lo + (n + 1) - lo = n + 1 := by omega
  have h2 : lo + n - lo = n := by omega
  rw [h1, h2, List.range'_concat, List.foldl_append]
  simp

theorem forLoop_zero {σ : Type} (lo : Nat) (body : Nat → σ → σ) (s : σ) :
    forLoop lo lo body s = s := by
  simp [forLoop]

namespace acro

theorem flatIndex_lt : ∀ (dims idx : List Nat), List.Forall₂ (fun i d => i < d) idx dims →
    dims ≠ [] → flatIndex dims idx < dims.prod := by
  intro dims
  induction dims with
  | nil => intro idx _ h; exact absurd rfl h
  | cons d ds ih =>
    intro idx h _
    cases h with
    | cons hid htl =>
      rename_i i is
      by_cases hds : ds = []
      · subst hds
        cases htl
        simp [flatIndex]
        exact hid
      · have := ih is htl hds
        simp only [flatIndex, List.prod_cons]
        calc i * ds.prod + flatIndex ds is < i * ds.prod + ds.prod := by omega
          _ = (i + 1) * ds.prod := by ring
          _ ≤ d * ds.prod := Nat.mul_le_mul_right _ hid

theorem unflatIndex_flatIndex : ∀ (dims idx : List Nat) (i d : Nat),
    List.Forall₂ (fun i d => i < d) idx dims →
    unflatIndex (d :: dims) (flatIndex (d :: dims) (i :: idx)) = i :: idx := by
  intro dims
  induction dims with
  | nil =>
    intro idx i d h
    cases h
    simp [unflatIndex, flatIndex]
  | cons d' ds ih =>
    intro idx i d h
    cases h with
    | cons hid htl =>
      rename_i j js
      have hlt : flatIndex (d' :: ds) (j :: js) < (d' :: ds).prod :=
        flatIndex_lt (d' :: ds) (j :: js) (List.Forall₂.cons hid htl) (by simp)
      have hpos : 0 < (d' :: ds).prod := by omega
      have e1 : (i * (d' :: ds).prod + flatIndex (d' :: ds) (j :: js)) / (d' :: ds).prod = i := by
        rw [Nat.add_comm, Nat.add_mul_div_right _ _ hpos, Nat.div_eq_of_lt hlt]
        simp
      have e2 : (i * (d' :: ds).prod + flatIndex (d' :: ds) (j :: js)) % (d' :: ds).prod
          = flatIndex (d' :: ds) (j :: js) := by
        rw [Nat.add_comm, Nat.add_mul_mod_self_right, Nat.mod_eq_of_lt hlt]
      show unflatIndex (d :: d' :: ds) (i * (d' :: ds).prod + flatIndex (d' :: ds) (j :: js)) = _
      rw [unflatIndex, e1, e2, ih js j d' htl]

theorem flatIndex_unflatIndex : ∀ (dims : List Nat) (d p : Nat),
    flatIndex (d :: dims) (unflatIndex (d :: dims) p) = p := by
  intro dims
  induction dims with
  | nil => intro d p; simp [unflatIndex, flatIndex]
  | cons d' ds ih =>
    intro d p
    rw [unflatIndex, flatIndex, ih d' (p % (d' :: ds).prod)]
    exact Nat.div_add_mod' p _

end acro

end mfem

namespace mfem

theorem Writes.forLoop_add {σ κ : Type} (read : σ → κ → ℚ) (I : Nat → σ → Prop) (lo : Nat)
    (body : Nat → σ → σ) (K : Nat → κ → Prop) (V : κ → ℚ) :
    ∀ n, (∀ i, lo ≤ i → i < lo + n → Writes read (I i) (I (i + 1)) (body i) (K i) V) →
      Writes read (I lo) (I (lo + n)) (forLoop lo (lo + n) body)
        (fun k => ∃ i, lo ≤ i ∧ i < lo + n ∧ K i k) V := by
  intro n
  induction n with
  | zero =>
    intro _ s hs
    rw [Nat.add_zero, forLoop_zero]
    refine ⟨hs, fun k => ⟨?_, fun _ => rfl⟩⟩
    rintro ⟨i, h1, h2, _⟩; omega
  | succ n ih =>
    intro h s hs
    obtain ⟨hI, ihn⟩ := ih (fun i h1 h2 => h i h1 (by omega)) s hs
    obtain ⟨hI', hb⟩ := h (lo + n) (by omega) (by omega) (forLoop lo (lo + n) body s) hI
    rw [forLoop_succ]
    refine ⟨hI', fun k => ⟨?_, ?_⟩⟩
    · rintro ⟨i, h1, h2, hK⟩
      by_cases hk : K (lo + n) k
      · exact (hb k).1 hk
      · rw [(hb k).2 hk]
        apply (ihn k).1
        refine ⟨i, h1, ?_, hK⟩
        by_contra hc
        have : i = lo + n := by omega
        subst this
        exact hk hK
    · intro hne
      have hk : ¬ K (lo + n) k := fun hK => hne ⟨lo + n, by omega, by omega, hK⟩
      rw [(hb k).2 hk]
      apply (ihn k).2
      rintro ⟨i, h1, h2, hK⟩
      exact hne ⟨i, h1, by omega, hK⟩

theorem Writes.forLoop_le {σ κ : Type} (read : σ → κ → ℚ) (I : Nat → σ → Prop) (lo hi : Nat)
    (body : Nat → σ → σ) (K : Nat → κ → Prop) (V : κ → ℚ) (hle : lo ≤ hi)
    (h : ∀ i, lo ≤ i → i < hi → Writes read (I i) (I (i + 1)) (body i) (K i) V) :
    Writes read (I lo) (I hi) (forLoop lo hi body) (fun k => ∃ i, lo ≤ i ∧ i < hi ∧ K i k) V := by
  obtain ⟨n, rfl⟩ := Nat.exists_eq_add_of_le hle
  exact Writes.forLoop_add read I lo body K V n h

theorem Writes.forLoop {σ κ : Type} (read : σ → κ → ℚ) (P : σ → Prop) (lo hi : Nat)
    (body : Nat → σ → σ) (K : Nat → κ → Prop) (V : κ → ℚ)
    (h : ∀ i, lo ≤ i → i < hi → Writes read P P (body i) (K i) V) :
    Writes read P P (forLoop lo hi body) (fun k => ∃ i, lo ≤ i ∧ i < hi ∧ K i k) V := by
  by_cases hle : lo ≤ hi
  · exact Writes.forLoop_le read (fun _ => P) lo hi body K V hle h
  · intro s hs
    have h0 : hi - lo = 0 := by omega
    have hs' : mfem.forLoop lo hi body s = s := by
      simp only [mfem.forLoop, h0, List.range'_zero, List.foldl_nil]
    rw [hs']
    refine ⟨hs, fun k => ⟨?_, fun _ => rfl⟩⟩
    rintro ⟨i, h1, h2, _⟩; omega

namespace acro

theorem findIndexBelow_eq (f : Nat → Nat) (i : Nat) :
    ∀ n, i < n → (∀ j, j < n → f j = f i → j = i) → findIndexBelow f (f i) n = i := by
  intro n
  induction n with
  | zero => intro h; omega
  | succ n ih =>
    intro hi hu
    unfold findIndexBelow
    by_cases hn : f n = f i
    · rw [if_pos hn]; exact hu n (by omega) hn
    · rw [if_neg hn]
      have : i ≠ n := fun h => hn (by rw [h])
      exact ih (by omega) (fun j hj => hu j (by omega))

end acro

theorem denseTensor_set_writes (a b c : Nat) (v : ℚ) (V : Nat × Nat × Nat → ℚ)
    (hV : V (a, b, c) = v) :
    Writes DenseTensor.read (fun _ => True) (fun _ => True)
      (fun el => DenseTensor.set el a b c v) (fun k => k = (a, b, c)) V := by
  intro el _
  refine ⟨trivial, fun k => ?_⟩
  obtain ⟨k1, k2, k3⟩ := k
  constructor
  · intro h
    simp only [Prod.mk.injEq] at h
    obtain ⟨rfl, rfl, rfl⟩ := h
    simp [DenseTensor.read, DenseTensor.set, hV]
  · intro h
    simp only [Prod.mk.injEq] at h
    simp [DenseTensor.read, DenseTensor.set, h]

namespace acro

theorem scatter_writes (p : PAIntegrator) (M : Tensor)
    (hinj : ∀ i j, i < p.nDof → j < p.nDof → p.dofMap i = p.dofMap j → i = j) :
    Writes DenseTensor.read (fun _ => True) (fun _ => True) (p.scatter M)
      (fun k => ∃ e, 0 ≤ e ∧ e < p.trialFESpace.NE ∧ ∃ ei, 0 ≤ ei ∧ ei < p.nDof ∧
        ∃ ej, 0 ≤ ej ∧ ej < p.nDof ∧ k = (p.dofMap ei, p.dofMap ej, e))
      (fun k => M.raw (k.2.2 * p.nDof * p.nDof + p.dofMapInv k.1 * p.nDof + p.dofMapInv k.2.1)) := by
  unfold PAIntegrator.scatter
  apply Writes.forLoop
  intro e _ _
  apply Writes.forLoop
  intro ei _ hei
  apply Writes.forLoop
  intro ej _ hej
  apply denseTensor_set_writes
  simp only [PAIntegrator.dofMapInv]
  rw [findIndexBelow_eq p.dofMap ei p.nDof hei (fun j hj h => hinj j ei hj hei h),
    findIndexBelow_eq p.dofMap ej p.nDof hej (fun j hj h => hinj j ej hj hej h)]

theorem scatter_get (p : PAIntegrator) (M : Tensor) (el : DenseTensor)
    (hinj : ∀ i j, i < p.nDof → j < p.nDof → p.dofMap i = p.dofMap j → i = j)
    (e ei ej : Nat) (he : e < p.trialFESpace.NE) (hei : ei < p.nDof) (hej : ej < p.nDof) :
    p.scatter M el (p.dofMap ei) (p.dofMap ej) e
      = M.raw (e * p.nDof * p.nDof + ei * p.nDof + ej) := by
  have h := ((scatter_writes p M hinj el trivial).2 (p.dofMap ei, p.dofMap ej, e)).1
    ⟨e, Nat.zero_le _, he, ei, Nat.zero_le _, hei, ej, Nat.zero_le _, hej, rfl⟩
  simp only [DenseTensor.read, PAIntegrator.dofMapInv] at h
  rw [h, findIndexBelow_eq p.dofMap ei p.nDof hei (fun j hj h => hinj j ei hj hei h),
    findIndexBelow_eq p.dofMap ej p.nDof hej (fun j hj h => hinj j ej hj hej h)]

end acro
end mfem
namespace mfem
namespace acro
open Finset

theorem Tensor.raw_flatIndex (t : Tensor) (d : Nat) (ds : List Nat) (i : Nat) (is : List Nat)
    (hd : t.dims = d :: ds) (hb : List.Forall₂ (fun i d => i < d) is ds) :
    t.raw (flatIndex (d :: ds) (i :: is)) = t.data (i :: is) := by
  unfold Tensor.raw
  rw [hd, unflatIndex_flatIndex ds is i d hb]

theorem Tensor.toVector_flatIndex (t : Tensor) (v : Nat → ℚ) (d : Nat) (ds : List Nat)
    (i : Nat) (is : List Nat) (hd : t.dims = d :: ds)
    (hb : List.Forall₂ (fun i d => i < d) (i :: is) (d :: ds)) :
    t.toVector v (flatIndex (d :: ds) (i :: is)) = t.data (i :: is) := by
  have hlt := flatIndex_lt (d :: ds) (i :: is) hb (by simp)
  cases hb with
  | cons _ htl =>
    unfold Tensor.toVector
    rw [hd, if_pos hlt, unflatIndex_flatIndex ds is i d htl]

theorem basisVector_flatIndex (d : Nat) (ds : List Nat) (i j : Nat) (is js : List Nat)
    (hi : List.Forall₂ (fun i d => i < d) is ds) (hj : List.Forall₂ (fun i d => i < d) js ds) :
    basisVector (flatIndex (d :: ds) (i :: is)) (flatIndex (d :: ds) (j :: js))
      = if j :: js = i :: is then 1 else 0 := by
  unfold basisVector
  by_cases h : j :: js = i :: is
  · rw [if_pos h, h, if_pos rfl]
  · rw [if_neg h, if_neg]
    intro hf
    apply h
    rw [← unflatIndex_flatIndex ds js j d hj, ← unflatIndex_flatIndex ds is i d hi, hf]

theorem sum_comm31 {α β γ δ : Type} (A : Finset α) (B : Finset β) (C : Finset γ) (D : Finset δ)
    (f : α → β → γ → δ → ℚ) :
    ∑ a in A, ∑ b in B, ∑ c in C, ∑ d in D, f a b c d
      = ∑ d in D, ∑ a in A, ∑ b in B, ∑ c in C, f a b c d := by
  calc ∑ a in A, ∑ b in B, ∑ c in C, ∑ d in D, f a b c d
      = ∑ a in A, ∑ b in B, ∑ d in D, ∑ c in C, f a b c d :=
        Finset.sum_congr rfl (fun _ _ => Finset.sum_congr rfl (fun _ _ => Finset.sum_comm))
    _ = ∑ a in A, ∑ d in D, ∑ b in B, ∑ c in C, f a b c d :=
        Finset.sum_congr rfl (fun _ _ => Finset.sum_comm)
    _ = ∑ d in D, ∑ a in A, ∑ b in B, ∑ c in C, f a b c d := Finset.sum_comm

theorem sum_comm21 {α β γ : Type} (A : Finset α) (B : Finset β) (C : Finset γ)
    (f : α → β → γ → ℚ) :
    ∑ a in A, ∑ b in B, ∑ c in C, f a b c = ∑ c in C, ∑ a in A, ∑ b in B, f a b c := by
  calc ∑ a in A, ∑ b in B, ∑ c in C, f a b c
      = ∑ a in A, ∑ c in C, ∑ b in B, f a b c :=
        Finset.sum_congr rfl (fun _ _ => Finset.sum_comm)
    _ = ∑ c in C, ∑ a in A, ∑ b in B, f a b c := Finset.sum_comm

theorem sum_comm22 {α β γ δ : Type} (A : Finset α) (B : Finset β) (C : Finset γ) (D : Finset δ)
    (f : α → β → γ → δ → ℚ) :
    ∑ a in A, ∑ b in B, ∑ c in C, ∑ d in D, f a b c d
      = ∑ c in C, ∑ d in D, ∑ a in A, ∑ b in B, f a b c d := by
  rw [sum_comm21]
  exact Finset.sum_congr rfl (fun c _ => sum_comm21 A B D (fun a b d => f a b c d))

theorem sum_comm33 {α β γ δ ε ζ : Type} (A : Finset α) (B : Finset β) (C : Finset γ)
    (D : Finset δ) (E : Finset ε) (F : Finset ζ) (f : α → β → γ → δ → ε → ζ → ℚ) :
    ∑ a in A, ∑ b in B, ∑ c in C, ∑ d in D, ∑ e in E, ∑ g in F, f a b c d e g
      = ∑ d in D, ∑ e in E, ∑ g in F, ∑ a in A, ∑ b in B, ∑ c in C, f a b c d e g := by
  rw [sum_comm31]
  refine Finset.sum_congr rfl (fun d _ => ?_)
  rw [sum_comm31]
  refine Finset.sum_congr rfl (fun e _ => ?_)
  rw [sum_comm31]

theorem mass1D_linear (s : AcroMassIntegrator) (x y : Nat → ℚ)
    (e i1 : Nat) (he : e < s.trialFESpace.NE) (h1 : i1 < s.nDof1D) :
    (s.MultAdd1D x y).2 (flatIndex [s.trialFESpace.NE, s.nDof1D] [e, i1])
      = ∑ j1 in range s.nDof1D,
          (∑ k1 in range s.nQuad1D, s.B.get [k1, i1] * s.B.get [k1, j1] * s.D.get [e, k1])
            * x (flatIndex [s.trialFESpace.NE, s.nDof1D] [e, j1]) := by
  have hF : List.Forall₂ (fun i d => i < d) [e, i1] [s.trialFESpace.NE, s.nDof1D] :=
    List.Forall₂.cons he (List.Forall₂.cons h1 List.Forall₂.nil)
  simp only [AcroMassIntegrator.MultAdd1D]
  rw [Tensor.toVector_flatIndex _ _ _ _ _ _ rfl hF]
  simp only [Tensor.assign, Tensor.view, Tensor.get]
  simp only [Finset.mul_sum, Finset.sum_mul]
  rw [Finset.sum_comm]
  refine Finset.sum_congr rfl (fun j1 _ => Finset.sum_congr rfl (fun k1 _ => ?_))
  ring

theorem mass2D_linear (s : AcroMassIntegrator) (x y : Nat → ℚ)
    (e i1 i2 : Nat) (he : e < s.trialFESpace.NE)
    (h1 : i1 < s.nDof1D) (h2 : i2 < s.nDof1D) :
    (s.MultAdd2D x y).2 (flatIndex [s.trialFESpace.NE, s.nDof1D, s.nDof1D] [e, i1, i2])
      = ∑ j1 in range s.nDof1D, ∑ j2 in range s.nDof1D,
          (∑ k1 in range s.nQuad1D, ∑ k2 in range s.nQuad1D,
            s.B.get [k1, i1] * s.B.get [k1, j1] * s.B.get [k2, i2] * s.B.get [k2, j2]
              * s.D.get [e, k1, k2])
            * x (flatIndex [s.trialFESpace.NE, s.nDof1D, s.nDof1D] [e, j1, j2]) := by
  have hF : List.Forall₂ (fun i d => i < d) [e, i1, i2]
      [s.trialFESpace.NE, s.nDof1D, s.nDof1D] :=
    List.Forall₂.cons he (List.Forall₂.cons h1 (List.Forall₂.cons h2 List.Forall₂.nil))
  simp only [AcroMassIntegrator.MultAdd2D]
  rw [Tensor.toVector_flatIndex _ _ _ _ _ _ rfl hF]
  simp only [Tensor.assign, Tensor.view, Tensor.get]
  simp only [Finset.mul_sum, Finset.sum_mul]
  rw [sum_comm22]
  refine Finset.sum_congr rfl (fun k1 _ => Finset.sum_congr rfl (fun k2 _ =>
    Finset.sum_congr rfl (fun j1 _ => Finset.sum_congr rfl (fun j2 _ => ?_))))
  ring

theorem mass3D_linear (s : AcroMassIntegrator) (x y : Nat → ℚ)
    (e i1 i2 i3 : Nat) (he : e < s.trialFESpace.NE)
    (h1 : i1 < s.nDof1D) (h2 : i2 < s.nDof1D) (h3 : i3 < s.nDof1D) :
    (s.MultAdd3D x y).2
        (flatIndex [s.trialFESpace.NE, s.nDof1D, s.nDof1D, s.nDof1D] [e, i1, i2, i3])
      = ∑ j1 in range s.nDof1D, ∑ j2 in range s.nDof1D, ∑ j3 in range s.nDof1D,
          (∑ k1 in range s.nQuad1D, ∑ k2 in range s.nQuad1D, ∑ k3 in range s.nQuad1D,
            s.B.get [k1, i1] * s.B.get [k1, j1] * s.B.get [k2, i2] * s.B.get [k2, j2]
              * s.B.get [k3, i3] * s.B.get [k3, j3] * s.D.get [e, k1, k2, k3])
            * x (flatIndex [s.trialFESpace.NE, s.nDof1D, s.nDof1D, s.nDof1D] [e, j1, j2, j3]) := by
  have hF : List.Forall₂ (fun i d => i < d) [e, i1, i2, i3]
      [s.trialFESpace.NE, s.nDof1D, s.nDof1D, s.nDof1D] :=
    List.Forall₂.cons he (List.Forall₂.cons h1 (List.Forall₂.cons h2
      (List.Forall₂.cons h3 List.Forall₂.nil)))
  simp only [AcroMassIntegrator.MultAdd3D]
  rw [Tensor.toVector_flatIndex _ _ _ _ _ _ rfl hF]
  simp only [Tensor.assign, Tensor.view, Tensor.get]
  simp only [Finset.mul_sum, Finset.sum_mul]
  rw [sum_comm33]
  refine Finset.sum_congr rfl (fun k1 _ => Finset.sum_congr rfl (fun k2 _ =>
    Finset.sum_congr rfl (fun k3 _ => Finset.sum_congr rfl (fun j1 _ =>
    Finset.sum_congr rfl (fun j2 _ => Finset.sum_congr rfl (fun j3 _ => ?_))))))
  ring

end acro
end mfem
namespace mfem
namespace acro
open Finset

theorem sum_basis1 (NE n e b1 : Nat) (F : Nat → ℚ) (hb1 : b1 < n) :
    ∑ j1 in range n, F j1 * basisVector (flatIndex [NE, n] [e, b1]) (flatIndex [NE, n] [e, j1])
      = F b1 := by
  rw [Finset.sum_eq_single b1]
  · simp [basisVector]
  · intro j1 hj1 hne
    have h1 := Finset.mem_range.mp hj1
    rw [basisVector_flatIndex NE [n] e e [b1] [j1]
      (List.Forall₂.cons hb1 List.Forall₂.nil) (List.Forall₂.cons h1 List.Forall₂.nil)]
    simp [hne]
  · intro h; exact absurd (Finset.mem_range.mpr hb1) h

theorem sum_basis2 (NE n e b1 b2 : Nat) (F : Nat → Nat → ℚ) (hb1 : b1 < n) (hb2 : b2 < n) :
    ∑ j1 in range n, ∑ j2 in range n,
        F j1 j2 * basisVector (flatIndex [NE, n, n] [e, b1, b2]) (flatIndex [NE, n, n] [e, j1, j2])
      = F b1 b2 := by
  have key : ∀ j1 ∈ range n, ∀ j2 ∈ range n,
      F j1 j2 * basisVector (flatIndex [NE, n, n] [e, b1, b2]) (flatIndex [NE, n, n] [e, j1, j2])
        = if j1 = b1 then (if j2 = b2 then F j1 j2 else 0) else 0 := by
    intro j1 hj1 j2 hj2
    have h1 := Finset.mem_range.mp hj1
    have h2 := Finset.mem_range.mp hj2
    rw [basisVector_flatIndex NE [n, n] e e [b1, b2] [j1, j2]
      (List.Forall₂.cons hb1 (List.Forall₂.cons hb2 List.Forall₂.nil))
      (List.Forall₂.cons h1 (List.Forall₂.cons h2 List.Forall₂.nil))]
    by_cases e1 : j1 = b1 <;> by_cases e2 : j2 = b2 <;> simp [e1, e2]
  rw [Finset.sum_congr rfl (fun j1 hj1 => Finset.sum_congr rfl (fun j2 hj2 => key j1 hj1 j2 hj2))]
  simp [Finset.sum_ite_eq', hb1, hb2]

theorem sum_basis3 (NE n e b1 b2 b3 : Nat) (F : Nat → Nat → Nat → ℚ)
    (hb1 : b1 < n) (hb2 : b2 < n) (hb3 : b3 < n) :
    ∑ j1 in range n, ∑ j2 in range n, ∑ j3 in range n,
        F j1 j2 j3 * basisVector (flatIndex [NE, n, n, n] [e, b1, b2, b3])
          (flatIndex [NE, n, n, n] [e, j1, j2, j3])
      = F b1 b2 b3 := by
  have key : ∀ j1 ∈ range n, ∀ j2 ∈ range n, ∀ j3 ∈ range n,
      F j1 j2 j3 * basisVector (flatIndex [NE, n, n, n] [e, b1, b2, b3])
          (flatIndex [NE, n, n, n] [e, j1, j2, j3])
        = if j1 = b1 then (if j2 = b2 then (if j3 = b3 then F j1 j2 j3 else 0) else 0) else 0 := by
    intro j1 hj1 j2 hj2 j3 hj3
    have h1 := Finset.mem_range.mp hj1
    have h2 := Finset.mem_range.mp hj2
    have h3 := Finset.mem_range.mp hj3
    rw [basisVector_flatIndex NE [n, n, n] e e [b1, b2, b3] [j1, j2, j3]
      (List.Forall₂.cons hb1 (List.Forall₂.cons hb2 (List.Forall₂.cons hb3 List.Forall₂.nil)))
      (List.Forall₂.cons h1 (List.Forall₂.cons h2 (List.Forall₂.cons h3 List.Forall₂.nil)))]
    by_cases e1 : j1 = b1 <;> by_cases e2 : j2 = b2 <;> by_cases e3 : j3 = b3 <;>
      simp [e1, e2, e3]
  rw [Finset.sum_congr rfl (fun j1 hj1 => Finset.sum_congr rfl (fun j2 hj2 =>
    Finset.sum_congr rfl (fun j3 hj3 => key j1 hj1 j2 hj2 j3 hj3)))]
  simp [Finset.sum_ite_eq', hb1, hb2, hb3]

theorem decomp2 (n a : Nat) (h : a < n * n) :
    a / n < n ∧ a % n < n ∧ a / n * n + a % n = a := by
  have hn : 0 < n := by
    rcases Nat.eq_zero_or_pos n with h0 | h0
    · subst h0; simp at h
    · exact h0
  exact ⟨Nat.div_lt_of_lt_mul h, Nat.mod_lt _ hn, Nat.div_add_mod' a n⟩

theorem decomp3 (n a : Nat) (h : a < n * n * n) :
    a / (n * n) < n ∧ a / n % n < n ∧ a % n < n
      ∧ a / (n * n) * (n * n) + (a / n % n * n + a % n) = a := by
  have hn : 0 < n := by
    rcases Nat.eq_zero_or_pos n with h0 | h0
    · subst h0; simp at h
    · exact h0
  refine ⟨Nat.div_lt_of_lt_mul (by rw [Nat.mul_comm]; rw [← Nat.mul_assoc]; exact h), Nat.mod_lt _ hn, Nat.mod_lt _ hn, ?_⟩
  have h1 := Nat.div_add_mod' a n
  have h2 := Nat.div_add_mod' (a / n) n
  have h3 : a / n / n = a / (n * n) := Nat.div_div_eq_div_mul a n n
  rw [h3] at h2
  calc a / (n * n) * (n * n) + (a / n % n * n + a % n)
      = (a / (n * n) * n + a / n % n) * n + a % n := by ring
    _ = a / n * n + a % n := by rw [h2]
    _ = a := h1

end acro
end mfem
namespace mfem
namespace acro
open Finset

theorem massBAEM_not_refused (s : AcroMassIntegrator)
    (hB : s.hasTensorBasis = true ∨ s.B.IsInitialized = true) :
    ¬ (s.hasTensorBasis = false ∧ contractionRefused [s.B] = true) := by
  rintro ⟨h1, h2⟩
  rcases hB with hB | hB
  · rw [hB] at h1; exact absurd h1 (by decide)
  · simp [contractionRefused, hB] at h2

theorem massBAEM_elmats (lib : Library) (s : AcroMassIntegrator) (el : DenseTensor)
    (hD : s.D.IsInitialized = true)
    (hB : s.hasTensorBasis = true ∨ s.B.IsInitialized = true) :
    (s.BatchedAssembleElementMatrices lib el).state.2
      = s.toPAIntegrator.scatter
          (AcroMassIntegrator.contractM
            (if !s.M.IsInitialized then { s with M := s.initM lib } else s)) el := by
  have hne := massBAEM_not_refused s hB
  unfold AcroMassIntegrator.BatchedAssembleElementMatrices
  simp only [hD, Bool.not_true, Bool.false_eq_true, if_false, Result.state]
  by_cases hM : s.M.IsInitialized = true
  · simp [hM, hne]
  · simp [hM, hne]

theorem massM_dims (lib : Library) (s : AcroMassIntegrator)
    (hM : s.M.IsInitialized = true → s.M.dims = (s.initM lib).dims) :
    (AcroMassIntegrator.contractM
        (if !s.M.IsInitialized then { s with M := s.initM lib } else s)).dims
      = (s.initM lib).dims := by
  by_cases h : s.M.IsInitialized = true
  · simp only [h, Bool.not_true, Bool.false_eq_true, if_false]
    rw [← hM h]
    unfold AcroMassIntegrator.contractM
    simp only [Tensor.assign]
    split_ifs <;> rfl
  · simp only [h, Bool.not_false, if_true]
    unfold AcroMassIntegrator.contractM
    simp only [Tensor.assign]
    split_ifs <;> rfl

theorem massElmats_2D (lib : Library) (s : AcroMassIntegrator) (el : DenseTensor)
    (ht : s.hasTensorBasis = true) (hd : s.nDim = 2) (hnDof : s.nDof = s.nDof1D * s.nDof1D)
    (hD : s.D.IsInitialized = true)
    (hM : s.M.IsInitialized = true → s.M.dims = (s.initM lib).dims)
    (hinj : ∀ i j, i < s.nDof → j < s.nDof → s.dofMap i = s.dofMap j → i = j)
    (e i1 i2 j1 j2 : Nat) (he : e < s.trialFESpace.NE)
    (hi1 : i1 < s.nDof1D) (hi2 : i2 < s.nDof1D) (hj1 : j1 < s.nDof1D) (hj2 : j2 < s.nDof1D) :
    (s.BatchedAssembleElementMatrices lib el).state.2
        (s.dofMap (i1 * s.nDof1D + i2)) (s.dofMap (j1 * s.nDof1D + j2)) e
      = ∑ k1 in range s.nQuad1D, ∑ k2 in range s.nQuad1D,
          s.B.get [k1, i1] * s.B.get [k1, j1] * s.B.get [k2, i2] * s.B.get [k2, j2]
            * s.D.get [e, k1, k2] := by
  have hi : i1 * s.nDof1D + i2 < s.nDof := by
    rw [hnDof]
    calc i1 * s.nDof1D + i2 < i1 * s.nDof1D + s.nDof1D := by omega
      _ = (i1 + 1) * s.nDof1D := by ring
      _ ≤ s.nDof1D * s.nDof1D := Nat.mul_le_mul_right _ hi1
  have hj : j1 * s.nDof1D + j2 < s.nDof := by
    rw [hnDof]
    calc j1 * s.nDof1D + j2 < j1 * s.nDof1D + s.nDof1D := by omega
      _ = (j1 + 1) * s.nDof1D := by ring
      _ ≤ s.nDof1D * s.nDof1D := Nat.mul_le_mul_right _ hj1
  rw [massBAEM_elmats lib s el hD (Or.inl ht), scatter_get s.toPAIntegrator _ el hinj e _ _ he hi hj]
  have hdims := massM_dims lib s hM
  have hshape : (s.initM lib).dims
      = [s.trialFESpace.NE, s.nDof1D, s.nDof1D, s.nDof1D, s.nDof1D] := by
    simp [AcroMassIntegrator.initM, ht, hd, Tensor.Init]
  rw [hshape] at hdims
  have hidx : e * s.nDof * s.nDof + (i1 * s.nDof1D + i2) * s.nDof + (j1 * s.nDof1D + j2)
      = flatIndex [s.trialFESpace.NE, s.nDof1D, s.nDof1D, s.nDof1D, s.nDof1D]
          [e, i1, i2, j1, j2] := by
    simp only [flatIndex, List.prod_cons, List.prod_nil, hnDof]
    ring
  rw [hidx, Tensor.raw_flatIndex _ _ _ _ _ hdims
    (List.Forall₂.cons hi1 (List.Forall₂.cons hi2 (List.Forall₂.cons hj1
      (List.Forall₂.cons hj2 List.Forall₂.nil))))]
  by_cases h : s.M.IsInitialized = true
  · simp [h, AcroMassIntegrator.contractM, ht, hd, Tensor.assign, Tensor.get]
  · simp [h, AcroMassIntegrator.contractM, ht, hd, Tensor.assign, Tensor.get]

end acro
end mfem
namespace mfem
namespace acro
open Finset

theorem flat2_lt (n i1 i2 : Nat) (h1 : i1 < n) (h2 : i2 < n) : i1 * n + i2 < n * n := by
  calc i1 * n + i2 < i1 * n + n := by omega
    _ = (i1 + 1) * n := by ring
    _ ≤ n * n := Nat.mul_le_mul_right _ h1

theorem flat3_lt (n i1 i2 i3 : Nat) (h1 : i1 < n) (h2 : i2 < n) (h3 : i3 < n) :
    (i1 * n + i2) * n + i3 < n * n * n := by
  have h := flat2_lt n i1 i2 h1 h2
  calc (i1 * n + i2) * n + i3 < (i1 * n + i2) * n + n := by omega
    _ = (i1 * n + i2 + 1) * n := by ring
    _ ≤ n * n * n := Nat.mul_le_mul_right _ h

theorem massElmats_1D (lib : Library) (s : AcroMassIntegrator) (el : DenseTensor)
    (ht : s.hasTensorBasis = true) (hd : s.nDim = 1) (hnDof : s.nDof = s.nDof1D)
    (hD : s.D.IsInitialized = true)
    (hM : s.M.IsInitialized = true → s.M.dims = (s.initM lib).dims)
    (hinj : ∀ i j, i < s.nDof → j < s.nDof → s.dofMap i = s.dofMap j → i = j)
    (e i1 j1 : Nat) (he : e < s.trialFESpace.NE)
    (hi1 : i1 < s.nDof1D) (hj1 : j1 < s.nDof1D) :
    (s.BatchedAssembleElementMatrices lib el).state.2 (s.dofMap i1) (s.dofMap j1) e
      = ∑ k1 in range s.nQuad1D, s.B.get [k1, i1] * s.B.get [k1, j1] * s.D.get [e, k1] := by
  rw [massBAEM_elmats lib s el hD (Or.inl ht),
    scatter_get s.toPAIntegrator _ el hinj e _ _ he (by rw [hnDof]; exact hi1)
      (by rw [hnDof]; exact hj1)]
  have hdims := massM_dims lib s hM
  have hshape : (s.initM lib).dims = [s.trialFESpace.NE, s.nDof1D, s.nDof1D] := by
    simp [AcroMassIntegrator.initM, ht, hd, Tensor.Init]
  rw [hshape] at hdims
  have hidx : e * s.nDof * s.nDof + i1 * s.nDof + j1
      = flatIndex [s.trialFESpace.NE, s.nDof1D, s.nDof1D] [e, i1, j1] := by
    simp only [flatIndex, List.prod_cons, List.prod_nil, hnDof]
    ring
  rw [hidx, Tensor.raw_flatIndex _ _ _ _ _ hdims
    (List.Forall₂.cons hi1 (List.Forall₂.cons hj1 List.Forall₂.nil))]
  by_cases h : s.M.IsInitialized = true
  · simp [h, AcroMassIntegrator.contractM, ht, hd, Tensor.assign, Tensor.get]
  · simp [h, AcroMassIntegrator.contractM, ht, hd, Tensor.assign, Tensor.get]

theorem massElmats_3D (lib : Library) (s : AcroMassIntegrator) (el : DenseTensor)
    (ht : s.hasTensorBasis = true) (hd : s.nDim = 3)
    (hnDof : s.nDof = s.nDof1D * s.nDof1D * s.nDof1D)
    (hD : s.D.IsInitialized = true)
    (hM : s.M.IsInitialized = true → s.M.dims = (s.initM lib).dims)
    (hinj : ∀ i j, i < s.nDof → j < s.nDof → s.dofMap i = s.dofMap j → i = j)
    (e i1 i2 i3 j1 j2 j3 : Nat) (he : e < s.trialFESpace.NE)
    (hi1 : i1 < s.nDof1D) (hi2 : i2 < s.nDof1D) (hi3 : i3 < s.nDof1D)
    (hj1 : j1 < s.nDof1D) (hj2 : j2 < s.nDof1D) (hj3 : j3 < s.nDof1D) :
    (s.BatchedAssembleElementMatrices lib el).state.2
        (s.dofMap ((i1 * s.nDof1D + i2) * s.nDof1D + i3))
        (s.dofMap ((j1 * s.nDof1D + j2) * s.nDof1D + j3)) e
      = ∑ k1 in range s.nQuad1D, ∑ k2 in range s.nQuad1D, ∑ k3 in range s.nQuad1D,
          s.B.get [k1, i1] * s.B.get [k1, j1] * s.B.get [k2, i2] * s.B.get [k2, j2]
            * s.B.get [k3, i3] * s.B.get [k3, j3] * s.D.get [e, k1, k2, k3] := by
  have hi := flat3_lt s.nDof1D i1 i2 i3 hi1 hi2 hi3
  have hj := flat3_lt s.nDof1D j1 j2 j3 hj1 hj2 hj3
  rw [← hnDof] at hi hj
  rw [massBAEM_elmats lib s el hD (Or.inl ht), scatter_get s.toPAIntegrator _ el hinj e _ _ he hi hj]
  have hdims := massM_dims lib s hM
  have hshape : (s.initM lib).dims
      = [s.trialFESpace.NE, s.nDof1D, s.nDof1D, s.nDof1D, s.nDof1D, s.nDof1D, s.nDof1D] := by
    simp [AcroMassIntegrator.initM, ht, hd, Tensor.Init]
  rw [hshape] at hdims
  have hidx : e * s.nDof * s.nDof + ((i1 * s.nDof1D + i2) * s.nDof1D + i3) * s.nDof
        + ((j1 * s.nDof1D + j2) * s.nDof1D + j3)
      = flatIndex
          [s.trialFESpace.NE, s.nDof1D, s.nDof1D, s.nDof1D, s.nDof1D, s.nDof1D, s.nDof1D]
          [e, i1, i2, i3, j1, j2, j3] := by
    simp only [flatIndex, List.prod_cons, List.prod_nil, hnDof]
    ring
  rw [hidx, Tensor.raw_flatIndex _ _ _ _ _ hdims
    (List.Forall₂.cons hi1 (List.Forall₂.cons hi2 (List.Forall₂.cons hi3
      (List.Forall₂.cons hj1 (List.Forall₂.cons hj2 (List.Forall₂.cons hj3
        List.Forall₂.nil))))))]
  by_cases h : s.M.IsInitialized = true
  · simp [h, AcroMassIntegrator.contractM, ht, hd, Tensor.assign, Tensor.get]
  · simp [h, AcroMassIntegrator.contractM, ht, hd, Tensor.assign, Tensor.get]

/-- C2 (amended): the mass `MultAdd` works in the internal tensor ordering, so
on a tensor-product element of dimension 1, 2 or 3 (with `nDof = nDof1D^nDim`,
`tDofMap` injective on the local DOFs and `D` assembled), entry
`[e*nDof + a]` of `MultAdd` applied to the basis vector at `[e*nDof + b]`, with
`y` initially zero, equals `elmats(tDofMap[a], tDofMap[b], e)` as filled by
`BatchedAssembleElementMatrices` from the same `B` and `D`. -/
theorem massMultAdd_basis_eq_elmats (lib : Library) (s : AcroMassIntegrator)
    (el : DenseTensor) (ht : s.hasTensorBasis = true)
    (hd : s.nDim = 1 ∨ s.nDim = 2 ∨ s.nDim = 3)
    (hnDof : s.nDof = s.nDof1D ^ s.nDim.toNat)
    (hD : s.D.IsInitialized = true)
    (hM : s.M.IsInitialized = true → s.M.dims = (s.initM lib).dims)
    (hinj : ∀ i j, i < s.nDof → j < s.nDof → s.dofMap i = s.dofMap j → i = j)
    (e a b : Nat) (he : e < s.trialFESpace.NE) (ha : a < s.nDof) (hb : b < s.nDof) :
    (s.MultAdd (basisVector (e * s.nDof + b)) (fun _ => 0)).state.2 (e * s.nDof + a)
      = (s.BatchedAssembleElementMatrices lib el).state.2 (s.dofMap a) (s.dofMap b) e := by
  rcases hd with hd | hd | hd
  · have hn : s.nDof = s.nDof1D := by rw [hnDof, hd]; simp
    have ha1 : a < s.nDof1D := hn ▸ ha
    have hb1 : b < s.nDof1D := hn ▸ hb
    have hfa : e * s.nDof + a = flatIndex [s.trialFESpace.NE, s.nDof1D] [e, a] := by
      simp only [flatIndex, List.prod_cons, List.prod_nil, hn]; ring
    have hfb : e * s.nDof + b = flatIndex [s.trialFESpace.NE, s.nDof1D] [e, b] := by
      simp only [flatIndex, List.prod_cons, List.prod_nil, hn]; ring
    rw [massElmats_1D lib s el ht hd hn hD hM hinj e a b he ha1 hb1]
    simp only [AcroMassIntegrator.MultAdd, ht, hd, if_true, Result.state]
    rw [hfa, hfb, mass1D_linear s _ _ e a he ha1,
      sum_basis1 s.trialFESpace.NE s.nDof1D e b _ hb1]
  · have hn : s.nDof = s.nDof1D * s.nDof1D := by rw [hnDof, hd]; simp [pow_two]
    obtain ⟨ha1, ha2, hae⟩ := decomp2 s.nDof1D a (hn ▸ ha)
    obtain ⟨hb1, hb2, hbe⟩ := decomp2 s.nDof1D b (hn ▸ hb)
    have hfa : e * s.nDof + a
        = flatIndex [s.trialFESpace.NE, s.nDof1D, s.nDof1D] [e, a / s.nDof1D, a % s.nDof1D] := by
      simp only [flatIndex, List.prod_cons, List.prod_nil, hn]
      nth_rewrite 1 [← hae]; ring
    have hfb : e * s.nDof + b
        = flatIndex [s.trialFESpace.NE, s.nDof1D, s.nDof1D] [e, b / s.nDof1D, b % s.nDof1D] := by
      simp only [flatIndex, List.prod_cons, List.prod_nil, hn]
      nth_rewrite 1 [← hbe]; ring
    have hE := massElmats_2D lib s el ht hd hn hD hM hinj e _ _ _ _ he ha1 ha2 hb1 hb2
    rw [hae, hbe] at hE
    rw [hE]
    simp only [AcroMassIntegrator.MultAdd, ht, hd, if_true, Result.state]
    have h21 : ¬ ((2 : Int) = 1) := by decide
    simp only [h21, if_false]
    rw [hfa, hfb, mass2D_linear s _ _ e _ _ he ha1 ha2,
      sum_basis2 s.trialFESpace.NE s.nDof1D e _ _ _ hb1 hb2]
  · have hn : s.nDof = s.nDof1D * s.nDof1D * s.nDof1D := by
      rw [hnDof, hd]; simp [pow_succ]
    obtain ⟨ha1, ha2, ha3, hae⟩ := decomp3 s.nDof1D a (hn ▸ ha)
    obtain ⟨hb1, hb2, hb3, hbe⟩ := decomp3 s.nDof1D b (hn ▸ hb)
    have hae' : (a / (s.nDof1D * s.nDof1D) * s.nDof1D + a / s.nDof1D % s.nDof1D) * s.nDof1D
        + a % s.nDof1D = a := by
      refine Eq.trans ?_ hae
      ring
    have hbe' : (b / (s.nDof1D * s.nDof1D) * s.nDof1D + b / s.nDof1D % s.nDof1D) * s.nDof1D
        + b % s.nDof1D = b := by
      refine Eq.trans ?_ hbe
      ring
    have hfa : e * s.nDof + a
        = flatIndex [s.trialFESpace.NE, s.nDof1D, s.nDof1D, s.nDof1D]
            [e, a / (s.nDof1D * s.nDof1D), a / s.nDof1D % s.nDof1D, a % s.nDof1D] := by
      simp only [flatIndex, List.prod_cons, List.prod_nil, hn]
      nth_rewrite 1 [← hae]; ring
    have hfb : e * s.nDof + b
        = flatIndex [s.trialFESpace.NE, s.nDof1D, s.nDof1D, s.nDof1D]
            [e, b / (s.nDof1D * s.nDof1D), b / s.nDof1D % s.nDof1D, b % s.nDof1D] := by
      simp only [flatIndex, List.prod_cons, List.prod_nil, hn]
      nth_rewrite 1 [← hbe]; ring
    have hE := massElmats_3D lib s el ht hd hn hD hM hinj e _ _ _ _ _ _ he
      ha1 ha2 ha3 hb1 hb2 hb3
    rw [hae', hbe'] at hE
    rw [hE]
    simp only [AcroMassIntegrator.MultAdd, ht, hd, if_true, Result.state]
    have h31 : ¬ ((3 : Int) = 1) := by decide
    have h32 : ¬ ((3 : Int) = 2) := by decide
    simp only [h31, h32, if_false]
    rw [hfa, hfb, mass3D_linear s _ _ e _ _ _ he ha1 ha2 ha3,
      sum_basis3 s.trialFESpace.NE s.nDof1D e _ _ _ _ hb1 hb2 hb3]

end acro
end mfem
namespace mfem
namespace acro
open Finset

theorem segmentBase_inj : ∀ i j, i < segmentBase.nDof → j < segmentBase.nDof →
    segmentBase.dofMap i = segmentBase.dofMap j → i = j := by
  intro i j hi hj
  have hi' : i < 3 := hi
  have hj' : j < 3 := hj
  interval_cases i <;> interval_cases j <;> simp [PAIntegrator.dofMap, segmentBase]

/-- C2 (counterexample): on one quadratic segment with `tDofMap = [0, 2, 1]`,
`B(0, .) = (1, 2, 3)` and `D = 1`, entry `[0]` of the mass `MultAdd` applied to
the basis vector at `[1]` is `M(0,1) = 2`, while `elmats(0, 1, 0)` is
`M(0,2) = 3`. -/
theorem massMultAdd_basis_ne_elmats :
    (massOnSegment.MultAdd (basisVector (0 * 3 + 1)) (fun _ => 0)).state.2 (0 * 3 + 0)
      ≠ (massOnSegment.BatchedAssembleElementMatrices sampleLibrary
          (fun _ _ _ => 0)).state.2 0 1 0 := by
  have h1 : (massOnSegment.MultAdd (basisVector (0 * 3 + 1)) (fun _ => 0)).state.2 (0 * 3 + 0)
      = 2 := by
    have h := mass1D_linear massOnSegment (basisVector (0 * 3 + 1)) (fun _ => 0) 0 0
      (by decide) (by decide)
    have hm : (massOnSegment.MultAdd (basisVector (0 * 3 + 1)) (fun _ => 0)).state.2
        = (massOnSegment.MultAdd1D (basisVector (0 * 3 + 1)) (fun _ => 0)).2 := by
      simp [AcroMassIntegrator.MultAdd, massOnSegment, segmentBase, Result.state]
    rw [hm]
    have hf : (0 * 3 + 0 : Nat) = flatIndex [massOnSegment.trialFESpace.NE, massOnSegment.nDof1D]
        [0, 0] := by
      simp [flatIndex]
    rw [hf, h]
    simp [Finset.sum_range_succ, massOnSegment, segmentBase, segmentSpace, rampTable,
      Tensor.get, flatIndex, basisVector]
  have h2 : (massOnSegment.BatchedAssembleElementMatrices sampleLibrary
      (fun _ _ _ => 0)).state.2 0 1 0 = 3 := by
    have h := massElmats_1D sampleLibrary massOnSegment (fun _ _ _ => 0) rfl rfl rfl rfl
      (fun h => by simp [massOnSegment, Tensor.empty, Tensor.IsInitialized] at h)
      segmentBase_inj 0 0 2 (by decide) (by decide) (by decide)
    have e0 : massOnSegment.dofMap 0 = 0 := by
      simp [PAIntegrator.dofMap, massOnSegment, segmentBase]
    have e2 : massOnSegment.dofMap 2 = 1 := by
      simp [PAIntegrator.dofMap, massOnSegment, segmentBase]
    rw [e0, e2] at h
    rw [h]
    simp [Finset.sum_range_succ, massOnSegment, segmentBase, rampTable, Tensor.get]
  rw [h1, h2]
  norm_num

/-- C2 (witness): the amended statement at `massOnSegment`, for `a = 0`,
`b = 1`. -/
theorem massMultAdd_basis_eq_elmats_witness :
    (massOnSegment.MultAdd (basisVector (0 * massOnSegment.nDof + 1)) (fun _ => 0)).state.2
        (0 * massOnSegment.nDof + 0)
      = (massOnSegment.BatchedAssembleElementMatrices sampleLibrary
          (fun _ _ _ => 0)).state.2 (massOnSegment.dofMap 0) (massOnSegment.dofMap 1) 0 :=
  massMultAdd_basis_eq_elmats sampleLibrary massOnSegment (fun _ _ _ => 0) rfl
    (Or.inl rfl) rfl rfl
    (fun h => by simp [massOnSegment, Tensor.empty, Tensor.IsInitialized] at h)
    segmentBase_inj 0 0 1 (by decide) (by decide) (by decide)

end acro
end mfem
namespace mfem
namespace acro
open Finset

/-- C9: on an element without tensor basis, `AcroMassIntegrator::MultAdd`
ends in `mfem_error` with its "not supported" message for every `x` and `y`,
and `y` (like the integrator) is as it was before the call. -/
theorem massMultAdd_simplex_fatal (s : AcroMassIntegrator) (x y : Nat → ℚ)
    (h : s.hasTensorBasis = false) :
    s.MultAdd x y
      = Result.fatal "AcroMassIntegrator PAMult on simplices not supported" (s, y) := by
  simp [AcroMassIntegrator.MultAdd, h]

/-- C9 (witness): the mass integrator on a triangle. -/
theorem massMultAdd_simplex_fatal_witness :
    massOnTriangle.MultAdd (basisVector 0) (fun _ => 7)
      = Result.fatal "AcroMassIntegrator PAMult on simplices not supported"
          (massOnTriangle, fun _ => 7) :=
  massMultAdd_simplex_fatal massOnTriangle (basisVector 0) (fun _ => 7) rfl

theorem diffusionMultAdd_simplex_debug (lib : Library) (s : AcroDiffusionIntegrator)
    (x y : Nat → ℚ) (hdbg : lib.MFEM_DEBUG = true) (h : s.hasTensorBasis = false) :
    AcroDiffusionIntegrator.MultAdd lib s x y
      = Result.fatal "AcroDiffusionIntegrator PAMult on simplices not supported" (s, y) := by
  simp [AcroDiffusionIntegrator.MultAdd, MFEM_ASSERT, hdbg, h]

/-- C1 (failing input): on `massOnSegment`, with `x` the basis vector at `[0]`
and `y` holding 5 everywhere before the call, entry `[0]` of `y` after
`MultAdd` is `M(0,0) = 1`, the same as when `y` starts from zero, and not
`5 + 1`: the last contraction replaces `y`. -/
theorem massMultAdd_overwrites_y :
    (massOnSegment.MultAdd (basisVector 0) (fun _ => 5)).state.2 0 = 1
      ∧ (massOnSegment.MultAdd (basisVector 0) (fun _ => 0)).state.2 0 = 1 := by
  have hf : (0 : Nat) = flatIndex [massOnSegment.trialFESpace.NE, massOnSegment.nDof1D]
      [0, 0] := by
    simp [flatIndex]
  have key : ∀ y : Nat → ℚ, (massOnSegment.MultAdd (basisVector 0) y).state.2 0 = 1 := by
    intro y
    have hm : (massOnSegment.MultAdd (basisVector 0) y).state.2
        = (massOnSegment.MultAdd1D (basisVector 0) y).2 := by
      simp [AcroMassIntegrator.MultAdd, massOnSegment, segmentBase, Result.state]
    rw [hm]
    nth_rewrite 2 [hf]
    rw [mass1D_linear massOnSegment (basisVector 0) y 0 0 (by decide) (by decide)]
    simp [Finset.sum_range_succ, massOnSegment, segmentBase, segmentSpace, rampTable,
      Tensor.get, flatIndex, basisVector]
  exact ⟨key _, key _⟩

end acro
end mfem
namespace mfem
namespace acro
open Finset

theorem forLoop_invariant {σ : Type} (I : σ → Prop) (lo hi : Nat) (body : Nat → σ → σ)
    (h : ∀ i s, lo ≤ i → i < hi → I s → I (body i s)) (s : σ) (hs : I s) :
    I (forLoop lo hi body s) := by
  have key : ∀ (l : List Nat) (s : σ), (∀ i ∈ l, lo ≤ i ∧ i < hi) → I s →
      I (l.foldl (fun acc i => body i acc) s) := by
    intro l
    induction l with
    | nil => intro s _ hs; exact hs
    | cons a l ih =>
      intro s hl hs
      simp only [List.foldl_cons]
      apply ih
      · intro i hi; exact hl i (List.mem_cons_of_mem _ hi)
      · exact h a s (hl a (List.mem_cons_self _ _)).1 (hl a (List.mem_cons_self _ _)).2 hs
  apply key _ _ _ hs
  intro i hi
  rw [List.mem_range'_1] at hi
  omega

theorem identityMap_fill : ∀ (n : Nat) (a : List Nat), a.length = n →
    ∀ m, m ≤ n → (forLoop 0 m (fun i (t : List Nat) => t.set i i) a).length = n
      ∧ ∀ i, i < m → (forLoop 0 m (fun i (t : List Nat) => t.set i i) a).getD i 0 = i := by
  intro n a ha m
  induction m with
  | zero => intro _; rw [forLoop_zero]; exact ⟨ha, fun i hi => absurd hi (Nat.not_lt_zero i)⟩
  | succ m ih =>
    intro hm
    obtain ⟨hl, hg⟩ := ih (by omega)
    have hs := forLoop_succ 0 m (fun i (t : List Nat) => t.set i i) a
    simp only [Nat.zero_add] at hs
    rw [hs]
    refine ⟨by simp [hl], fun i hi => ?_⟩
    by_cases him : i = m
    · subst him
      have hlt : i < (forLoop 0 i (fun i (t : List Nat) => t.set i i) a).length := by omega
      rw [List.getD_eq_getElem?_getD, List.getElem?_set]
      simp [hlt]
    · have h' := hg i (by omega)
      rw [List.getD_eq_getElem?_getD] at h' ⊢
      rw [List.getElem?_set]
      rw [if_neg (fun h => him h.symm)]
      exact h'

/-- On the non-tensor path, when `nDof` already holds `fe->GetDof()` before the
call (a second `Setup`, say), `tDofMap` comes out as the identity on the
`nDof` local DOFs. -/
theorem PAIntegrator.Setup_simplex_identity (lib : Library) (s : PAIntegrator)
    (hfe : s.trialFESpace.FE0.DofMap = none) (hn : s.nDof = s.trialFESpace.FE0.Dof) :
    (PAIntegrator.Setup lib s).state.tDofMap.length = (PAIntegrator.Setup lib s).state.nDof
      ∧ ∀ i, i < (PAIntegrator.Setup lib s).state.nDof →
          (PAIntegrator.Setup lib s).state.dofMap i = i := by
  have hlen : (ArraySetSize s.tDofMap s.nDof).length = s.nDof := by
    simp [ArraySetSize]
  obtain ⟨h1, h2⟩ := identityMap_fill s.nDof _ hlen s.nDof (Nat.le_refl _)
  unfold PAIntegrator.Setup
  simp only [hfe]
  split_ifs
  · simp only [Result.state, PAIntegrator.dofMap]
    rw [← hn]
    exact ⟨h1, h2⟩
  · simp only [Result.state, PAIntegrator.dofMap]
    rw [← hn]
    exact ⟨h1, h2⟩

/-- On the tensor path `Setup` takes `tDofMap` from the element's
`GetDofMap()`. -/
theorem PAIntegrator.Setup_tensor_dofMap (lib : Library) (s : PAIntegrator) (m : List Nat)
    (hfe : s.trialFESpace.FE0.DofMap = some m) :
    (PAIntegrator.Setup lib s).state.tDofMap = m := by
  unfold PAIntegrator.Setup
  simp only [hfe]
  split_ifs <;> rfl

/-- C6 (failing input): `Setup` on a freshly constructed integrator (member
`nDof` still 0) attached to a 3-DOF triangle.  The identity map is sized by
the stale `nDof`, so `tDofMap` comes out empty although `nDof` is 3
afterwards. -/
theorem PAIntegrator.Setup_fresh_triangle :
    (PAIntegrator.Setup sampleLibrary freshTriangleBase).state.nDof = 3
      ∧ (PAIntegrator.Setup sampleLibrary freshTriangleBase).state.tDofMap = [] := by
  constructor <;> rfl

end acro
end mfem
namespace mfem
namespace acro
open Finset

theorem tensor_set_writes (ds : List Nat) (idx : List Nat) (v : ℚ) (V : List Nat → ℚ)
    (hV : V idx = v) :
    Writes Tensor.get (fun t => t.dims = ds) (fun t => t.dims = ds)
      (fun t => t.set idx v) (fun k => k = idx) V := by
  intro t ht
  refine ⟨ht, fun k => ⟨?_, ?_⟩⟩
  · intro h; subst h; simp [Tensor.get, Tensor.set, hV]
  · intro h; simp [Tensor.get, Tensor.set, h]

theorem fillW_get1 (Q : Nat) (w : Nat → ℚ) (W : Tensor) (k1 : Nat) (h1 : k1 < Q) :
    (fillW 1 Q w W).get [k1] = w k1 := by
  have h := Writes.forLoop Tensor.get (fun t => t.dims = W.dims) 0 Q
    (fun k1 W => W.set [k1] (w k1)) (fun k1 idx => idx = [k1])
    (fun idx => match idx with | [k1] => w k1 | _ => 0)
    (fun i _ _ => tensor_set_writes W.dims [i] (w i) _ rfl)
  simp only [fillW, if_true]
  exact ((h W rfl).2 [k1]).1 ⟨k1, Nat.zero_le _, h1, rfl⟩

theorem fillW_get2 (Q : Nat) (w : Nat → ℚ) (W : Tensor) (k1 k2 : Nat)
    (h1 : k1 < Q) (h2 : k2 < Q) :
    (fillW 2 Q w W).get [k1, k2] = w k1 * w k2 := by
  have h := Writes.forLoop Tensor.get (fun t => t.dims = W.dims) 0 Q
    (fun k1 W => forLoop 0 Q (fun k2 W => W.set [k1, k2] (w k1 * w k2)) W)
    (fun k1 idx => ∃ k2, 0 ≤ k2 ∧ k2 < Q ∧ idx = [k1, k2])
    (fun idx => match idx with | [k1, k2] => w k1 * w k2 | _ => 0)
    (fun i _ _ => Writes.forLoop Tensor.get (fun t => t.dims = W.dims) 0 Q _
      (fun k2 idx => idx = [i, k2]) _
      (fun j _ _ => tensor_set_writes W.dims [i, j] (w i * w j) _ rfl))
  have h21 : ¬ ((2 : Int) = 1) := by decide
  simp only [fillW, h21, if_false, if_true]
  exact ((h W rfl).2 [k1, k2]).1 ⟨k1, Nat.zero_le _, h1, k2, Nat.zero_le _, h2, rfl⟩

theorem fillW_get3 (Q : Nat) (w : Nat → ℚ) (W : Tensor) (k1 k2 k3 : Nat)
    (h1 : k1 < Q) (h2 : k2 < Q) (h3 : k3 < Q) :
    (fillW 3 Q w W).get [k1, k2, k3] = w k1 * w k2 * w k3 := by
  have h := Writes.forLoop Tensor.get (fun t => t.dims = W.dims) 0 Q
    (fun k1 W => forLoop 0 Q (fun k2 W =>
      forLoop 0 Q (fun k3 W => W.set [k1, k2, k3] (w k1 * w k2 * w k3)) W) W)
    (fun k1 idx => ∃ k2, 0 ≤ k2 ∧ k2 < Q ∧ ∃ k3, 0 ≤ k3 ∧ k3 < Q ∧ idx = [k1, k2, k3])
    (fun idx => match idx with | [k1, k2, k3] => w k1 * w k2 * w k3 | _ => 0)
    (fun i _ _ => Writes.forLoop Tensor.get (fun t => t.dims = W.dims) 0 Q _
      (fun k2 idx => ∃ k3, 0 ≤ k3 ∧ k3 < Q ∧ idx = [i, k2, k3]) _
      (fun j _ _ => Writes.forLoop Tensor.get (fun t => t.dims = W.dims) 0 Q _
        (fun k3 idx => idx = [i, j, k3]) _
        (fun l _ _ => tensor_set_writes W.dims [i, j, l] (w i * w j * w l) _ rfl)))
  have h31 : ¬ ((3 : Int) = 1) := by decide
  have h32 : ¬ ((3 : Int) = 2) := by decide
  simp only [fillW, h31, h32, if_false, if_true]
  exact ((h W rfl).2 [k1, k2, k3]).1
    ⟨k1, Nat.zero_le _, h1, k2, Nat.zero_le _, h2, k3, Nat.zero_le _, h3, rfl⟩

end acro
end mfem
namespace mfem

theorem Writes.comp {σ κ : Type} (read : σ → κ → ℚ) (P Q R : σ → Prop) (f g : σ → σ)
    (Kf Kg : κ → Prop) (V : κ → ℚ)
    (hf : Writes read P Q f Kf V) (hg : Writes read Q R g Kg V) :
    Writes read P R (fun s => g (f s)) (fun k => Kf k ∨ Kg k) V := by
  intro s hs
  obtain ⟨hq, h1⟩ := hf s hs
  obtain ⟨hr, h2⟩ := hg (f s) hq
  refine ⟨hr, fun k => ⟨?_, ?_⟩⟩
  · intro hk
    by_cases hg' : Kg k
    · exact (h2 k).1 hg'
    · rw [(h2 k).2 hg']
      rcases hk with hk | hk
      · exact (h1 k).1 hk
      · exact absurd hk hg'
  · intro hk
    rw [(h2 k).2 (fun h => hk (Or.inr h)), (h1 k).2 (fun h => hk (Or.inl h))]

theorem Writes.map {σ τ κ : Type} (read : σ → κ → ℚ) (P Q : σ → Prop) (f : σ → σ)
    (K : κ → Prop) (V : κ → ℚ) (π : τ → σ) (F : τ → τ)
    (hF : ∀ t, π (F t) = f (π t)) (hf : Writes read P Q f K V) :
    Writes (fun t => read (π t)) (fun t => P (π t)) (fun t => Q (π t)) F K V := by
  intro t ht
  obtain ⟨hq, h⟩ := hf (π t) ht
  simp only [hF]
  exact ⟨hq, h⟩

namespace acro

theorem fillB_weight (lib : Library) (s : PAIntegrator) (B : Tensor) (w : Nat → ℚ)
    (k : Nat) (hk : k < s.nQuad1D) :
    (fillB lib s B w).2 k = (s.ir1D.IntPoint k).weight := by
  have h := Writes.forLoop (fun (st : Tensor × (Nat → ℚ)) k => st.2 k) (fun _ => True)
    0 s.nQuad1D
    (fun k st =>
      let ip := s.ir1D.IntPoint k
      let eval := lib.H1SegmentShape s.FEOrder ip
      let B := st.1.set [k, 0] (eval 0)
      let B := B.set [k, s.nDof1D - 1] (eval 1)
      let B := forLoop 1 (s.nDof1D - 1) (fun i B => B.set [k, i] (eval (i + 1))) B
      (B, Function.update st.2 k ip.weight))
    (fun i k => k = i) (fun k => (s.ir1D.IntPoint k).weight)
    (by
      intro i _ _ st _
      refine ⟨trivial, fun k => ⟨?_, ?_⟩⟩
      · intro hk; subst hk; simp
      · intro hk; simp [Function.update, hk])
  exact ((h (B, w) trivial).2 k).1 ⟨k, Nat.zero_le _, hk, rfl⟩

theorem fillB_get (lib : Library) (s : PAIntegrator) (B : Tensor) (w : Nat → ℚ)
    (hn : 2 ≤ s.nDof1D) (k i : Nat) (hk : k < s.nQuad1D) (hi : i < s.nDof1D) :
    (fillB lib s B w).1.get [k, i]
      = if i = 0 then lib.H1SegmentShape s.FEOrder (s.ir1D.IntPoint k) 0
        else if i = s.nDof1D - 1 then lib.H1SegmentShape s.FEOrder (s.ir1D.IntPoint k) 1
        else lib.H1SegmentShape s.FEOrder (s.ir1D.IntPoint k) (i + 1) := by
  let V : List Nat → ℚ := fun idx =>
    match idx with
    | [k, i] =>
      if i = 0 then lib.H1SegmentShape s.FEOrder (s.ir1D.IntPoint k) 0
      else if i = s.nDof1D - 1 then lib.H1SegmentShape s.FEOrder (s.ir1D.IntPoint k) 1
      else lib.H1SegmentShape s.FEOrder (s.ir1D.IntPoint k) (i + 1)
    | _ => 0
  have hrow : ∀ k, Writes Tensor.get (fun t => t.dims = B.dims) (fun t => t.dims = B.dims)
      (fun B0 =>
        forLoop 1 (s.nDof1D - 1) (fun i B =>
            B.set [k, i] (lib.H1SegmentShape s.FEOrder (s.ir1D.IntPoint k) (i + 1)))
          ((B0.set [k, 0] (lib.H1SegmentShape s.FEOrder (s.ir1D.IntPoint k) 0)).set
            [k, s.nDof1D - 1] (lib.H1SegmentShape s.FEOrder (s.ir1D.IntPoint k) 1)))
      (fun idx => (idx = [k, 0] ∨ idx = [k, s.nDof1D - 1])
        ∨ ∃ i, 1 ≤ i ∧ i < s.nDof1D - 1 ∧ idx = [k, i]) V := by
    intro k
    refine Writes.comp Tensor.get _ (fun t => t.dims = B.dims) _
      (fun B0 => (B0.set [k, 0] (lib.H1SegmentShape s.FEOrder (s.ir1D.IntPoint k) 0)).set
            [k, s.nDof1D - 1] (lib.H1SegmentShape s.FEOrder (s.ir1D.IntPoint k) 1))
      (fun B1 => forLoop 1 (s.nDof1D - 1) (fun i B =>
            B.set [k, i] (lib.H1SegmentShape s.FEOrder (s.ir1D.IntPoint k) (i + 1))) B1)
      _ _ V ?_ ?_
    · refine Writes.comp Tensor.get _ (fun t => t.dims = B.dims) _
        (fun B0 => B0.set [k, 0] (lib.H1SegmentShape s.FEOrder (s.ir1D.IntPoint k) 0))
        (fun B1 => B1.set [k, s.nDof1D - 1]
          (lib.H1SegmentShape s.FEOrder (s.ir1D.IntPoint k) 1))
        _ _ V ?_ ?_
      · exact tensor_set_writes B.dims _ _ V (by simp [V])
      · apply tensor_set_writes B.dims _ _ V
        have : s.nDof1D - 1 ≠ 0 := by omega
        simp [V, this]
    · apply Writes.forLoop Tensor.get (fun t => t.dims = B.dims) 1 (s.nDof1D - 1) _
        (fun i idx => idx = [k, i]) V
      intro i h1 h2
      apply tensor_set_writes B.dims _ _ V
      have e1 : i ≠ 0 := by omega
      have e2 : i ≠ s.nDof1D - 1 := by omega
      simp [V, e1, e2]
  have h := Writes.forLoop (fun (st : Tensor × (Nat → ℚ)) idx => st.1.get idx)
    (fun st => st.1.dims = B.dims) 0 s.nQuad1D
    (fun k st =>
      let ip := s.ir1D.IntPoint k
      let eval := lib.H1SegmentShape s.FEOrder ip
      let B := st.1.set [k, 0] (eval 0)
      let B := B.set [k, s.nDof1D - 1] (eval 1)
      let B := forLoop 1 (s.nDof1D - 1) (fun i B => B.set [k, i] (eval (i + 1))) B
      (B, Function.update st.2 k ip.weight))
    (fun k idx => (idx = [k, 0] ∨ idx = [k, s.nDof1D - 1])
        ∨ ∃ i, 1 ≤ i ∧ i < s.nDof1D - 1 ∧ idx = [k, i]) V
    (fun k _ _ => Writes.map Tensor.get _ _ _ _ V Prod.fst _ (fun _ => rfl) (hrow k))
  have hK : (i = 0 ∨ i = s.nDof1D - 1) ∨ (1 ≤ i ∧ i < s.nDof1D - 1) := by omega
  have hres := ((h (B, w) rfl).2 [k, i]).1 ⟨k, Nat.zero_le _, hk, by
    rcases hK with (h0 | h0) | h0
    · left; left; rw [h0]
    · left; right; rw [h0]
    · right; exact ⟨i, h0.1, h0.2, rfl⟩⟩
  exact hres

end acro
end mfem
namespace mfem
namespace acro
open Finset

theorem Tensor.raw_setRaw (t : Tensor) (d : Nat) (ds : List Nat) (hd : t.dims = d :: ds)
    (p0 p : Nat) (v : ℚ) :
    (t.setRaw p0 v).raw p = if p = p0 then v else t.raw p := by
  unfold Tensor.setRaw Tensor.raw Tensor.set
  simp only [hd]
  by_cases h : p = p0
  · subst h; simp
  · have hne : unflatIndex (d :: ds) p ≠ unflatIndex (d :: ds) p0 := by
      intro hf
      apply h
      rw [← flatIndex_unflatIndex ds d p, ← flatIndex_unflatIndex ds d p0, hf]
    simp [h, hne]

theorem Tensor.setRaw_writes (d : Nat) (ds : List Nat) (p0 : Nat) (v : ℚ) (V : Nat → ℚ)
    (hV : V p0 = v) :
    Writes Tensor.raw (fun t => t.dims = d :: ds) (fun t => t.dims = d :: ds)
      (fun t => t.setRaw p0 v) (fun p => p = p0) V := by
  intro t ht
  refine ⟨ht, fun p => ⟨?_, ?_⟩⟩
  · intro h; rw [Tensor.raw_setRaw t d ds ht, if_pos h, h, hV]
  · intro h; rw [Tensor.raw_setRaw t d ds ht, if_neg h]

theorem massFill_inner_q (s : AcroMassIntegrator) (e : Nat) (ip : IntegrationPoint)
    (st : Tensor × Tensor × Nat) :
    (forLoop 0 s.nDim.toNat (fun m st =>
        forLoop 0 s.nDim.toNat (fun n (st : Tensor × Tensor × Nat) =>
          (st.1.setRaw st.2.2 (s.trialFESpace.Jacobian e ip.x ip.y ip.z m n), st.2.1,
            st.2.2 + 1)) st) st).2.1 = st.2.1 := by
  apply forLoop_invariant (fun st' => st'.2.1 = st.2.1) _ _ _ _ st rfl
  intro m st1 _ _ h1
  apply forLoop_invariant (fun st' => st'.2.1 = st.2.1) _ _ _ _ st1 h1
  intro n st2 _ _ h2
  exact h2

theorem massFill_q (s : AcroMassIntegrator) (J q : Tensor) (d : Nat) (ds : List Nat)
    (hq : q.dims = d :: ds) (e k : Nat) (he : e < s.trialFESpace.NE) (hk : k < s.nQuad) :
    (s.fillGeometry J q).2.1.dims = d :: ds
      ∧ (s.fillGeometry J q).2.1.raw (e * s.nQuad + k) = 1 := by
  have h := Writes.forLoop (fun (st : Tensor × Tensor × Nat) p => st.2.1.raw p)
    (fun st => st.2.1.dims = d :: ds) 0 s.trialFESpace.NE
    (fun e st =>
      forLoop 0 s.nQuad (fun k (st : Tensor × Tensor × Nat) =>
        let ip := s.ir.IntPoint k
        let q := st.2.1.setRaw (e * s.nQuad + k) 1
        forLoop 0 s.nDim.toNat (fun m st =>
          forLoop 0 s.nDim.toNat (fun n st =>
            (st.1.setRaw st.2.2 (s.trialFESpace.Jacobian e ip.x ip.y ip.z m n), st.2.1,
              st.2.2 + 1)) st) (st.1, q, st.2.2)) st)
    (fun e p => ∃ k, 0 ≤ k ∧ k < s.nQuad ∧ p = e * s.nQuad + k) (fun _ => 1)
    (fun e _ _ => Writes.forLoop _ (fun (st : Tensor × Tensor × Nat) => st.2.1.dims = d :: ds)
      0 s.nQuad _
      (fun k p => p = e * s.nQuad + k) (fun _ => 1)
      (fun k _ _ => Writes.map Tensor.raw _ _ (fun q => q.setRaw (e * s.nQuad + k) 1) _ _
        (fun (st : Tensor × Tensor × Nat) => st.2.1) _
        (fun st => massFill_inner_q s e (s.ir.IntPoint k) _)
        (Tensor.setRaw_writes d ds (e * s.nQuad + k) 1 (fun _ => 1) rfl)))
  obtain ⟨h1, h2⟩ := h (J, q, 0) hq
  exact ⟨h1, (h2 (e * s.nQuad + k)).1 ⟨e, Nat.zero_le _, he, k, Nat.zero_le _, hk, rfl⟩⟩

end acro
end mfem
namespace mfem

theorem Writes.weaken {σ κ : Type} (read : σ → κ → ℚ) (P Q P' Q' : σ → Prop) (f : σ → σ)
    (K K' : κ → Prop) (V : κ → ℚ) (hP : ∀ s, P' s → P s) (hQ : ∀ s, Q s → Q' s)
    (hK : ∀ k, K' k ↔ K k) (h : Writes read P Q f K V) : Writes read P' Q' f K' V := by
  intro s hs
  obtain ⟨hq, hk⟩ := h s (hP s hs)
  refine ⟨hQ _ hq, fun k => ⟨fun h1 => (hk k).1 ((hK k).1 h1), fun h1 => (hk k).2 ?_⟩⟩
  intro h2
  exact h1 ((hK k).2 h2)

namespace acro

/-- The Jacobian entry that the fill loop of the mass integrator stores at raw
offset `p` of `J`: entry `(m, n)` at point `k` of `ir` for element `e`, where
`p = ((e*nQuad + k)*nDim + m)*nDim + n`. -/
theorem massFill_J (s : AcroMassIntegrator) (J q : Tensor) (dd : Nat) (dds : List Nat)
    (hJ : J.dims = dd :: dds) (e k m n : Nat) (he : e < s.trialFESpace.NE)
    (hk : k < s.nQuad) (hm : m < s.nDim.toNat) (hn : n < s.nDim.toNat) :
    (s.fillGeometry J q).1.raw (((e * s.nQuad + k) * s.nDim.toNat + m) * s.nDim.toNat + n)
      = s.trialFESpace.Jacobian e (s.ir.IntPoint k).x (s.ir.IntPoint k).y
          (s.ir.IntPoint k).z m n := by
  let d := s.nDim.toNat
  let nQ := s.nQuad
  let V : Nat → ℚ := fun p =>
    match unflatIndex [s.trialFESpace.NE, nQ, d, d] p with
    | [e, k, m, n] => s.trialFESpace.Jacobian e (s.ir.IntPoint k).x (s.ir.IntPoint k).y
          (s.ir.IntPoint k).z m n
    | _ => 0
  have hV : ∀ e k m n, k < nQ → m < d → n < d →
      V (((e * nQ + k) * d + m) * d + n)
        = s.trialFESpace.Jacobian e (s.ir.IntPoint k).x (s.ir.IntPoint k).y
          (s.ir.IntPoint k).z m n := by
    intro e k m n hk hm hn
    have hf : ((e * nQ + k) * d + m) * d + n
        = flatIndex [s.trialFESpace.NE, nQ, d, d] [e, k, m, n] := by
      simp only [flatIndex, List.prod_cons, List.prod_nil]; ring
    simp only [V]
    rw [hf, unflatIndex_flatIndex [nQ, d, d] [k, m, n] e _
      (List.Forall₂.cons hk (List.Forall₂.cons hm (List.Forall₂.cons hn List.Forall₂.nil)))]
  have hn_level : ∀ e k m, k < nQ → m < d →
      Writes (fun (st : Tensor × Tensor × Nat) p => st.1.raw p)
        (fun st => st.1.dims = dd :: dds ∧ st.2.2 = ((e * nQ + k) * d + m) * d)
        (fun st => st.1.dims = dd :: dds ∧ st.2.2 = ((e * nQ + k) * d + (m + 1)) * d)
        (fun st => forLoop 0 d (fun n (st : Tensor × Tensor × Nat) =>
          (st.1.setRaw st.2.2 (s.trialFESpace.Jacobian e (s.ir.IntPoint k).x
            (s.ir.IntPoint k).y (s.ir.IntPoint k).z m n), st.2.1, st.2.2 + 1)) st)
        (fun p => ∃ n, 0 ≤ n ∧ n < d ∧ p = ((e * nQ + k) * d + m) * d + n) V := by
    intro e k m hk hm
    refine Writes.weaken _ _ _ _ _ _ _ _ V ?_ ?_ (fun _ => Iff.rfl)
      (Writes.forLoop_le (fun (st : Tensor × Tensor × Nat) p => st.1.raw p)
        (fun n st => st.1.dims = dd :: dds ∧ st.2.2 = ((e * nQ + k) * d + m) * d + n)
        0 d _ (fun n p => p = ((e * nQ + k) * d + m) * d + n) V (Nat.zero_le _) ?_)
    · intro st h; exact ⟨h.1, by rw [h.2]; ring⟩
    · intro st h; exact ⟨h.1, by rw [h.2]; ring⟩
    · intro n _ hn st hst
      obtain ⟨hd, hidx⟩ := hst
      refine ⟨⟨by simp [Tensor.setRaw, Tensor.set, hd], by simp only [hidx]; ring⟩, fun p => ?_⟩
      simp only
      rw [Tensor.raw_setRaw st.1 dd dds hd, hidx]
      constructor
      · intro hp; rw [if_pos hp, hp, hV e k m n hk hm hn]
      · intro hp; rw [if_neg hp]
  have hm_level : ∀ e k, k < nQ →
      Writes (fun (st : Tensor × Tensor × Nat) p => st.1.raw p)
        (fun st => st.1.dims = dd :: dds ∧ st.2.2 = (e * nQ + k) * d * d)
        (fun st => st.1.dims = dd :: dds ∧ st.2.2 = (e * nQ + (k + 1)) * d * d)
        (fun st => forLoop 0 d (fun m st =>
          forLoop 0 d (fun n (st : Tensor × Tensor × Nat) =>
          (st.1.setRaw st.2.2 (s.trialFESpace.Jacobian e (s.ir.IntPoint k).x
            (s.ir.IntPoint k).y (s.ir.IntPoint k).z m n), st.2.1, st.2.2 + 1)) st) st)
        (fun p => ∃ m, 0 ≤ m ∧ m < d ∧ ∃ n, 0 ≤ n ∧ n < d ∧
          p = ((e * nQ + k) * d + m) * d + n) V := by
    intro e k hk
    refine Writes.weaken _ _ _ _ _ _ _ _ V ?_ ?_ (fun _ => Iff.rfl)
      (Writes.forLoop_le (fun (st : Tensor × Tensor × Nat) p => st.1.raw p)
        (fun m st => st.1.dims = dd :: dds ∧ st.2.2 = ((e * nQ + k) * d + m) * d)
        0 d _ (fun m p => ∃ n, 0 ≤ n ∧ n < d ∧ p = ((e * nQ + k) * d + m) * d + n) V
        (Nat.zero_le _) (fun m _ hm => hn_level e k m hk hm))
    · intro st h; exact ⟨h.1, by rw [h.2]; ring⟩
    · intro st h; exact ⟨h.1, by rw [h.2]; ring⟩
  have hk_level : ∀ e,
      Writes (fun (st : Tensor × Tensor × Nat) p => st.1.raw p)
        (fun st => st.1.dims = dd :: dds ∧ st.2.2 = e * nQ * d * d)
        (fun st => st.1.dims = dd :: dds ∧ st.2.2 = (e + 1) * nQ * d * d)
        (fun st => forLoop 0 nQ (fun k (st : Tensor × Tensor × Nat) =>
          let ip := s.ir.IntPoint k
          let q := st.2.1.setRaw (e * s.nQuad + k) 1
          forLoop 0 s.nDim.toNat (fun m st =>
            forLoop 0 s.nDim.toNat (fun n st =>
              (st.1.setRaw st.2.2 (s.trialFESpace.Jacobian e ip.x ip.y ip.z m n), st.2.1,
                st.2.2 + 1)) st) (st.1, q, st.2.2)) st)
        (fun p => ∃ k, 0 ≤ k ∧ k < nQ ∧ ∃ m, 0 ≤ m ∧ m < d ∧ ∃ n, 0 ≤ n ∧ n < d ∧
          p = ((e * nQ + k) * d + m) * d + n) V := by
    intro e
    refine Writes.weaken _ _ _ _ _ _ _ _ V ?_ ?_ (fun _ => Iff.rfl)
      (Writes.forLoop_le (fun (st : Tensor × Tensor × Nat) p => st.1.raw p)
        (fun k st => st.1.dims = dd :: dds ∧ st.2.2 = (e * nQ + k) * d * d)
        0 nQ _ (fun k p => ∃ m, 0 ≤ m ∧ m < d ∧ ∃ n, 0 ≤ n ∧ n < d ∧
          p = ((e * nQ + k) * d + m) * d + n) V (Nat.zero_le _) ?_)
    · intro st h; exact ⟨h.1, by rw [h.2]; ring⟩
    · intro st h; exact ⟨h.1, by rw [h.2]; ring⟩
    · intro k _ hk st hst
      exact hm_level e k hk (st.1, st.2.1.setRaw (e * s.nQuad + k) 1, st.2.2) hst
  have he_level := Writes.forLoop_le (fun (st : Tensor × Tensor × Nat) p => st.1.raw p)
    (fun e st => st.1.dims = dd :: dds ∧ st.2.2 = e * nQ * d * d) 0 s.trialFESpace.NE
    (fun e st => forLoop 0 nQ (fun k (st : Tensor × Tensor × Nat) =>
          let ip := s.ir.IntPoint k
          let q := st.2.1.setRaw (e * s.nQuad + k) 1
          forLoop 0 s.nDim.toNat (fun m st =>
            forLoop 0 s.nDim.toNat (fun n st =>
              (st.1.setRaw st.2.2 (s.trialFESpace.Jacobian e ip.x ip.y ip.z m n), st.2.1,
                st.2.2 + 1)) st) (st.1, q, st.2.2)) st)
    (fun e p => ∃ k, 0 ≤ k ∧ k < nQ ∧ ∃ m, 0 ≤ m ∧ m < d ∧ ∃ n, 0 ≤ n ∧ n < d ∧
          p = ((e * nQ + k) * d + m) * d + n) V (Nat.zero_le _) (fun e _ _ => hk_level e)
  obtain ⟨_, h2⟩ := he_level (J, q, 0) ⟨hJ, by simp⟩
  have := (h2 (((e * nQ + k) * d + m) * d + n)).1
    ⟨e, Nat.zero_le _, he, k, Nat.zero_le _, hk, m, Nat.zero_le _, hm, n, Nat.zero_le _, hn, rfl⟩
  rw [hV e k m n hk hm hn] at this
  exact this

end acro
end mfem
namespace mfem
namespace acro
open Finset

theorem smallDet_congr (d : Nat) (a b : Nat → Nat → ℚ)
    (h : ∀ m n, m < d → n < d → a m n = b m n) : smallDet d a = smallDet d b := by
  unfold smallDet
  by_cases h1 : d = 1
  · subst h1; simp [h 0 0]
  · by_cases h2 : d = 2
    · subst h2
      simp [h 0 0, h 0 1, h 1 0, h 1 1]
    · by_cases h3 : d = 3
      · subst h3
        simp [h 0 0, h 0 1, h 0 2, h 1 0, h 1 1, h 1 2, h 2 0, h 2 1, h 2 2]
      · simp [h1, h2, h3]

theorem massFill_J_dims (s : AcroMassIntegrator) (J q : Tensor) :
    (s.fillGeometry J q).1.dims = J.dims := by
  unfold AcroMassIntegrator.fillGeometry
  apply forLoop_invariant (fun (st : Tensor × Tensor × Nat) => st.1.dims = J.dims) _ _ _ _ _ rfl
  intro e st _ _ h
  apply forLoop_invariant (fun (st : Tensor × Tensor × Nat) => st.1.dims = J.dims) _ _ _ _ _ h
  intro k st _ _ h
  dsimp only
  refine forLoop_invariant (fun (st : Tensor × Tensor × Nat) => st.1.dims = J.dims) _ _ _ ?_
    (st.1, st.2.1.setRaw (e * s.nQuad + k) 1, st.2.2) h
  intro m st _ _ h
  apply forLoop_invariant (fun (st : Tensor × Tensor × Nat) => st.1.dims = J.dims) _ _ _ _ _ h
  intro n st _ _ h
  simpa [Tensor.setRaw, Tensor.set] using h

/-- Entry of the local `Jdet` of the mass integrator whose raw offset is
`e*nQuad + k`: the determinant of the Jacobian of element `e` at point `k` of
`ir`. -/
theorem massJdet_get (s : AcroMassIntegrator) (g : Tensor × Tensor × Tensor)
    (dd : Nat) (dds : List Nat) (hJ : g.1.dims = dd :: dds)
    (hlast : g.1.dims.getLastD 0 = s.nDim.toNat) (idx : List Nat) (e k : Nat)
    (hflat : flatIndex g.2.1.dims idx = e * s.nQuad + k)
    (he : e < s.trialFESpace.NE) (hk : k < s.nQuad) :
    (s.JdetOf g).get idx
      = smallDet s.nDim.toNat (fun m n => s.trialFESpace.Jacobian e (s.ir.IntPoint k).x
          (s.ir.IntPoint k).y (s.ir.IntPoint k).z m n) := by
  unfold AcroMassIntegrator.JdetOf BatchMatrixDet
  simp only [Tensor.assign, Tensor.get, massFill_J_dims, hlast, hflat]
  apply smallDet_congr
  intro m n hm hn
  rw [← massFill_J s g.1 g.2.2 dd dds hJ e k m n he hk hm hn]
  congr 1
  ring

theorem massBPA_ok (lib : Library) (s : AcroMassIntegrator) (ht : s.hasTensorBasis = true)
    (hd : s.nDim = 1 ∨ s.nDim = 2 ∨ s.nDim = 3) :
    s.BatchedPartialAssemble lib
      = Result.ok { s with D := s.D.assign (fun idx =>
          match idx with
          | e :: ks =>
            s.W.get ks
              * (s.fillGeometry (s.initGeometry lib).state.1
                  (s.initGeometry lib).state.2.2).2.1.get (e :: ks)
              * (s.JdetOf (s.initGeometry lib).state).get (e :: ks)
          | [] => s.D.get []) } := by
  have h21 : ¬ ((2 : Int) = 1) := by decide
  have h31 : ¬ ((3 : Int) = 1) := by decide
  have h32 : ¬ ((3 : Int) = 2) := by decide
  rcases hd with hd | hd | hd <;>
    simp [AcroMassIntegrator.BatchedPartialAssemble, AcroMassIntegrator.initGeometry,
      AcroMassIntegrator.contractD, ht, hd, Result.state, h21, h31, h32]

theorem massBPA_D_2D (lib : Library) (s : AcroMassIntegrator) (ht : s.hasTensorBasis = true)
    (hd : s.nDim = 2) (hQ : s.nQuad = s.nQuad1D * s.nQuad1D) (e k1 k2 : Nat)
    (he : e < s.trialFESpace.NE) (h1 : k1 < s.nQuad1D) (h2 : k2 < s.nQuad1D) :
    (s.BatchedPartialAssemble lib).state.D.get [e, k1, k2]
      = s.W.get [k1, k2] * (s.JdetOf (s.initGeometry lib).state).get [e, k1, k2] := by
  have hD : (s.BatchedPartialAssemble lib).state.D = s.D.assign (fun idx =>
          match idx with
          | e :: ks =>
            s.W.get ks
              * (s.fillGeometry (s.initGeometry lib).state.1
                  (s.initGeometry lib).state.2.2).2.1.get (e :: ks)
              * (s.JdetOf (s.initGeometry lib).state).get (e :: ks)
          | [] => s.D.get []) := by
    rw [massBPA_ok lib s ht (Or.inr (Or.inl hd))]; rfl
  rw [hD]
  simp only [Tensor.assign, Tensor.get]
  have hk : k1 * s.nQuad1D + k2 < s.nQuad := by rw [hQ]; exact flat2_lt _ _ _ h1 h2
  have hg : (s.initGeometry lib).state.2.2.dims
      = [s.trialFESpace.NE, s.nQuad1D, s.nQuad1D] := by
    simp [AcroMassIntegrator.initGeometry, ht, hd, Result.state, Tensor.Init]
  obtain ⟨hqd, hq1⟩ := massFill_q s (s.initGeometry lib).state.1 (s.initGeometry lib).state.2.2
    _ _ hg e (k1 * s.nQuad1D + k2) he hk
  have hf : e * s.nQuad + (k1 * s.nQuad1D + k2)
      = flatIndex [s.trialFESpace.NE, s.nQuad1D, s.nQuad1D] [e, k1, k2] := by
    simp only [flatIndex, List.prod_cons, List.prod_nil, hQ]; ring
  rw [hf, Tensor.raw_flatIndex _ _ _ _ _ hqd
    (List.Forall₂.cons h1 (List.Forall₂.cons h2 List.Forall₂.nil))] at hq1
  rw [hq1, mul_one]

end acro
end mfem
namespace mfem
namespace acro
open Finset

theorem massBPA_D_1D (lib : Library) (s : AcroMassIntegrator) (ht : s.hasTensorBasis = true)
    (hd : s.nDim = 1) (hQ : s.nQuad = s.nQuad1D) (e k1 : Nat)
    (he : e < s.trialFESpace.NE) (h1 : k1 < s.nQuad1D) :
    (s.BatchedPartialAssemble lib).state.D.get [e, k1]
      = s.W.get [k1] * (s.JdetOf (s.initGeometry lib).state).get [e, k1] := by
  have hD : (s.BatchedPartialAssemble lib).state.D = s.D.assign (fun idx =>
          match idx with
          | e :: ks =>
            s.W.get ks
              * (s.fillGeometry (s.initGeometry lib).state.1
                  (s.initGeometry lib).state.2.2).2.1.get (e :: ks)
              * (s.JdetOf (s.initGeometry lib).state).get (e :: ks)
          | [] => s.D.get []) := by
    rw [massBPA_ok lib s ht (Or.inl hd)]; rfl
  rw [hD]
  simp only [Tensor.assign, Tensor.get]
  have hk : k1 < s.nQuad := by rw [hQ]; exact h1
  have hg : (s.initGeometry lib).state.2.2.dims = [s.trialFESpace.NE, s.nQuad1D] := by
    simp [AcroMassIntegrator.initGeometry, ht, hd, Result.state, Tensor.Init]
  obtain ⟨hqd, hq1⟩ := massFill_q s (s.initGeometry lib).state.1 (s.initGeometry lib).state.2.2
    _ _ hg e k1 he hk
  have hf : e * s.nQuad + k1 = flatIndex [s.trialFESpace.NE, s.nQuad1D] [e, k1] := by
    simp only [flatIndex, List.prod_cons, List.prod_nil, hQ]; ring
  rw [hf, Tensor.raw_flatIndex _ _ _ _ _ hqd (List.Forall₂.cons h1 List.Forall₂.nil)] at hq1
  rw [hq1, mul_one]

theorem massBPA_D_3D (lib : Library) (s : AcroMassIntegrator) (ht : s.hasTensorBasis = true)
    (hd : s.nDim = 3) (hQ : s.nQuad = s.nQuad1D * s.nQuad1D * s.nQuad1D) (e k1 k2 k3 : Nat)
    (he : e < s.trialFESpace.NE) (h1 : k1 < s.nQuad1D) (h2 : k2 < s.nQuad1D)
    (h3 : k3 < s.nQuad1D) :
    (s.BatchedPartialAssemble lib).state.D.get [e, k1, k2, k3]
      = s.W.get [k1, k2, k3] * (s.JdetOf (s.initGeometry lib).state).get [e, k1, k2, k3] := by
  have hD : (s.BatchedPartialAssemble lib).state.D = s.D.assign (fun idx =>
          match idx with
          | e :: ks =>
            s.W.get ks
              * (s.fillGeometry (s.initGeometry lib).state.1
                  (s.initGeometry lib).state.2.2).2.1.get (e :: ks)
              * (s.JdetOf (s.initGeometry lib).state).get (e :: ks)
          | [] => s.D.get []) := by
    rw [massBPA_ok lib s ht (Or.inr (Or.inr hd))]; rfl
  rw [hD]
  simp only [Tensor.assign, Tensor.get]
  have hk : (k1 * s.nQuad1D + k2) * s.nQuad1D + k3 < s.nQuad := by
    rw [hQ]; exact flat3_lt _ _ _ _ h1 h2 h3
  have hg : (s.initGeometry lib).state.2.2.dims
      = [s.trialFESpace.NE, s.nQuad1D, s.nQuad1D, s.nQuad1D] := by
    have h31 : ¬ ((3 : Int) = 1) := by decide
    have h32 : ¬ ((3 : Int) = 2) := by decide
    simp [AcroMassIntegrator.initGeometry, ht, hd, Result.state, Tensor.Init, h31, h32]
  obtain ⟨hqd, hq1⟩ := massFill_q s (s.initGeometry lib).state.1 (s.initGeometry lib).state.2.2
    _ _ hg e _ he hk
  have hf : e * s.nQuad + ((k1 * s.nQuad1D + k2) * s.nQuad1D + k3)
      = flatIndex [s.trialFESpace.NE, s.nQuad1D, s.nQuad1D, s.nQuad1D] [e, k1, k2, k3] := by
    simp only [flatIndex, List.prod_cons, List.prod_nil, hQ]; ring
  rw [hf, Tensor.raw_flatIndex _ _ _ _ _ hqd
    (List.Forall₂.cons h1 (List.Forall₂.cons h2 (List.Forall₂.cons h3 List.Forall₂.nil)))] at hq1
  rw [hq1, mul_one]

theorem massBPA_frame (lib : Library) (s : AcroMassIntegrator) (ht : s.hasTensorBasis = true)
    (hd : s.nDim = 1 ∨ s.nDim = 2 ∨ s.nDim = 3) :
    (s.BatchedPartialAssemble lib).isFatal = false
      ∧ (s.BatchedPartialAssemble lib).state.toPAIntegrator = s.toPAIntegrator
      ∧ (s.BatchedPartialAssemble lib).state.B = s.B
      ∧ (s.BatchedPartialAssemble lib).state.M = s.M
      ∧ (s.BatchedPartialAssemble lib).state.D.IsInitialized = s.D.IsInitialized := by
  rw [massBPA_ok lib s ht hd]
  exact ⟨rfl, rfl, rfl, rfl, rfl⟩

theorem massSetup_fields (lib : Library) (s0 : AcroMassIntegrator) (m : List Nat)
    (hfe : s0.trialFESpace.FE0.DofMap = some m) (ht : s0.hasTensorBasis = true)
    (hd : s0.trialFESpace.FE0.Dim = 1 ∨ s0.trialFESpace.FE0.Dim = 2
      ∨ s0.trialFESpace.FE0.Dim = 3) :
    (s0.Setup lib).isFatal = false
      ∧ (s0.Setup lib).state.trialFESpace = s0.trialFESpace
      ∧ (s0.Setup lib).state.ir = s0.ir
      ∧ (s0.Setup lib).state.hasTensorBasis = true
      ∧ (s0.Setup lib).state.tDofMap = m
      ∧ (s0.Setup lib).state.nDim = s0.trialFESpace.FE0.Dim
      ∧ (s0.Setup lib).state.nDof = s0.trialFESpace.FE0.Dof
      ∧ (s0.Setup lib).state.nDof1D = s0.trialFESpace.FE0.Order + 1
      ∧ (s0.Setup lib).state.nQuad = s0.ir.NPoints
      ∧ (s0.Setup lib).state.nQuad1D = (lib.IntRulesSegment s0.ir.Order).NPoints
      ∧ (s0.Setup lib).state.ir1D = lib.IntRulesSegment s0.ir.Order
      ∧ (s0.Setup lib).state.M = s0.M
      ∧ (s0.Setup lib).state.D.IsInitialized = true
      ∧ (s0.Setup lib).state.W
          = fillW s0.trialFESpace.FE0.Dim (lib.IntRulesSegment s0.ir.Order).NPoints
              (fillB lib (PAIntegrator.Setup lib s0.toPAIntegrator).state
                (Tensor.empty.Init [(lib.IntRulesSegment s0.ir.Order).NPoints,
                  s0.trialFESpace.FE0.Order + 1] (lib.junk "B")) (fun _ => 0)).2
              (Tensor.empty.Init (List.replicate s0.trialFESpace.FE0.Dim.toNat
                (lib.IntRulesSegment s0.ir.Order).NPoints) (lib.junk "W"))
      ∧ (s0.Setup lib).state.B
          = (fillB lib (PAIntegrator.Setup lib s0.toPAIntegrator).state
                (Tensor.empty.Init [(lib.IntRulesSegment s0.ir.Order).NPoints,
                  s0.trialFESpace.FE0.Order + 1] (lib.junk "B")) (fun _ => 0)).1 := by
  have h21 : ¬ ((2 : Int) = 1) := by decide
  have h31 : ¬ ((3 : Int) = 1) := by decide
  have h32 : ¬ ((3 : Int) = 2) := by decide
  have g1 : ¬ ((1 : Int) > 3) := by decide
  have g2 : ¬ ((2 : Int) > 3) := by decide
  have g3 : ¬ ((3 : Int) > 3) := by decide
  rcases hd with hd | hd | hd <;>
    simp [AcroMassIntegrator.Setup, PAIntegrator.Setup, hfe, ht, hd, Result.state,
      Result.isFatal, Tensor.Init, Tensor.IsInitialized, h21, h31, h32, g1, g2, g3]

end acro
end mfem
namespace mfem
namespace acro
open Finset

theorem massBAEM_ok (lib : Library) (s : AcroMassIntegrator) (el : DenseTensor)
    (hD : s.D.IsInitialized = true)
    (hB : s.hasTensorBasis = true ∨ s.B.IsInitialized = true) :
    (s.BatchedAssembleElementMatrices lib el).isFatal = false := by
  have hne := massBAEM_not_refused s hB
  unfold AcroMassIntegrator.BatchedAssembleElementMatrices
  simp only [hD, Bool.not_true, Bool.false_eq_true, if_false, Result.isFatal]
  by_cases hM : s.M.IsInitialized = true
  · simp [hM, hne]
  · simp [hM, hne]

theorem massPipeline_facts (lib : Library) (s0 : AcroMassIntegrator) (m : List Nat)
    (hfe : s0.trialFESpace.FE0.DofMap = some m) (ht : s0.hasTensorBasis = true)
    (hd : s0.trialFESpace.FE0.Dim = 1 ∨ s0.trialFESpace.FE0.Dim = 2
      ∨ s0.trialFESpace.FE0.Dim = 3) :
    (((s0.Setup lib).state).BatchedPartialAssemble lib).isFatal = false
      ∧ (((s0.Setup lib).state).BatchedPartialAssemble lib).state.hasTensorBasis = true
      ∧ (((s0.Setup lib).state).BatchedPartialAssemble lib).state.nDim
          = s0.trialFESpace.FE0.Dim
      ∧ (((s0.Setup lib).state).BatchedPartialAssemble lib).state.nDof
          = s0.trialFESpace.FE0.Dof
      ∧ (((s0.Setup lib).state).BatchedPartialAssemble lib).state.nDof1D
          = s0.trialFESpace.FE0.Order + 1
      ∧ (((s0.Setup lib).state).BatchedPartialAssemble lib).state.nQuad1D
          = (lib.IntRulesSegment s0.ir.Order).NPoints
      ∧ (((s0.Setup lib).state).BatchedPartialAssemble lib).state.trialFESpace
          = s0.trialFESpace
      ∧ (((s0.Setup lib).state).BatchedPartialAssemble lib).state.tDofMap = m
      ∧ (((s0.Setup lib).state).BatchedPartialAssemble lib).state.B = (s0.Setup lib).state.B
      ∧ (((s0.Setup lib).state).BatchedPartialAssemble lib).state.M = s0.M
      ∧ (((s0.Setup lib).state).BatchedPartialAssemble lib).state.D.IsInitialized = true := by
  obtain ⟨_, f1, _, f3, f4, f5, f6, f7, _, f9, _, f11, f12, _, _⟩ :=
    massSetup_fields lib s0 m hfe ht hd
  obtain ⟨b0, b1, b2, b3, b4⟩ := massBPA_frame lib (s0.Setup lib).state f3 (by rw [f5]; exact hd)
  have hp : ∀ {α : Type} (f : PAIntegrator → α),
      f (((s0.Setup lib).state).BatchedPartialAssemble lib).state.toPAIntegrator
        = f (s0.Setup lib).state.toPAIntegrator := by
    intro α f; rw [b1]
  exact ⟨b0, (hp (fun p => p.hasTensorBasis)).trans f3, (hp (fun p => p.nDim)).trans f5,
    (hp (fun p => p.nDof)).trans f6, (hp (fun p => p.nDof1D)).trans f7,
    (hp (fun p => p.nQuad1D)).trans f9, (hp (fun p => p.trialFESpace)).trans f1,
    (hp (fun p => p.tDofMap)).trans f4, b2, b3.trans f11, b4.trans f12⟩

theorem PAIntegrator.Setup_fields (lib : Library) (p : PAIntegrator) :
    (PAIntegrator.Setup lib p).state.trialFESpace = p.trialFESpace
      ∧ (PAIntegrator.Setup lib p).state.ir = p.ir
      ∧ (PAIntegrator.Setup lib p).state.hasTensorBasis = p.hasTensorBasis
      ∧ (PAIntegrator.Setup lib p).state.FEOrder = p.trialFESpace.FE0.Order
      ∧ (PAIntegrator.Setup lib p).state.nDim = p.trialFESpace.FE0.Dim
      ∧ (PAIntegrator.Setup lib p).state.nDof = p.trialFESpace.FE0.Dof
      ∧ (PAIntegrator.Setup lib p).state.nDof1D = p.trialFESpace.FE0.Order + 1
      ∧ (PAIntegrator.Setup lib p).state.nQuad = p.ir.NPoints
      ∧ (PAIntegrator.Setup lib p).state.nQuad1D = (lib.IntRulesSegment p.ir.Order).NPoints
      ∧ (PAIntegrator.Setup lib p).state.ir1D = lib.IntRulesSegment p.ir.Order := by
  rcases h : p.trialFESpace.FE0.DofMap with _ | m
  · simp only [PAIntegrator.Setup, h]
    split_ifs <;> exact ⟨rfl, rfl, rfl, rfl, rfl, rfl, rfl, rfl, rfl, rfl⟩
  · simp only [PAIntegrator.Setup, h]
    split_ifs <;> exact ⟨rfl, rfl, rfl, rfl, rfl, rfl, rfl, rfl, rfl, rfl⟩

theorem massSetup_W1 (lib : Library) (s0 : AcroMassIntegrator) (m : List Nat)
    (hfe : s0.trialFESpace.FE0.DofMap = some m) (ht : s0.hasTensorBasis = true)
    (hd : s0.trialFESpace.FE0.Dim = 1) (k1 : Nat)
    (h1 : k1 < (lib.IntRulesSegment s0.ir.Order).NPoints) :
    (s0.Setup lib).state.W.get [k1]
      = ((lib.IntRulesSegment s0.ir.Order).IntPoint k1).weight := by
  obtain ⟨_, _, _, _, _, _, _, _, _, _, _, _, _, fW, _⟩ :=
    massSetup_fields lib s0 m hfe ht (Or.inl hd)
  obtain ⟨_, _, _, _, _, _, _, _, hq, hi⟩ := PAIntegrator.Setup_fields lib s0.toPAIntegrator
  rw [fW, hd, fillW_get1 _ _ _ k1 h1, fillB_weight lib _ _ _ k1 (by rw [hq]; exact h1), hi]

theorem massSetup_W2 (lib : Library) (s0 : AcroMassIntegrator) (m : List Nat)
    (hfe : s0.trialFESpace.FE0.DofMap = some m) (ht : s0.hasTensorBasis = true)
    (hd : s0.trialFESpace.FE0.Dim = 2) (k1 k2 : Nat)
    (h1 : k1 < (lib.IntRulesSegment s0.ir.Order).NPoints)
    (h2 : k2 < (lib.IntRulesSegment s0.ir.Order).NPoints) :
    (s0.Setup lib).state.W.get [k1, k2]
      = ((lib.IntRulesSegment s0.ir.Order).IntPoint k1).weight
        * ((lib.IntRulesSegment s0.ir.Order).IntPoint k2).weight := by
  obtain ⟨_, _, _, _, _, _, _, _, _, _, _, _, _, fW, _⟩ :=
    massSetup_fields lib s0 m hfe ht (Or.inr (Or.inl hd))
  obtain ⟨_, _, _, _, _, _, _, _, hq, hi⟩ := PAIntegrator.Setup_fields lib s0.toPAIntegrator
  rw [fW, hd, fillW_get2 _ _ _ k1 k2 h1 h2, fillB_weight lib _ _ _ k1 (by rw [hq]; exact h1),
    fillB_weight lib _ _ _ k2 (by rw [hq]; exact h2), hi]

theorem massSetup_W3 (lib : Library) (s0 : AcroMassIntegrator) (m : List Nat)
    (hfe : s0.trialFESpace.FE0.DofMap = some m) (ht : s0.hasTensorBasis = true)
    (hd : s0.trialFESpace.FE0.Dim = 3) (k1 k2 k3 : Nat)
    (h1 : k1 < (lib.IntRulesSegment s0.ir.Order).NPoints)
    (h2 : k2 < (lib.IntRulesSegment s0.ir.Order).NPoints)
    (h3 : k3 < (lib.IntRulesSegment s0.ir.Order).NPoints) :
    (s0.Setup lib).state.W.get [k1, k2, k3]
      = ((lib.IntRulesSegment s0.ir.Order).IntPoint k1).weight
        * ((lib.IntRulesSegment s0.ir.Order).IntPoint k2).weight
        * ((lib.IntRulesSegment s0.ir.Order).IntPoint k3).weight := by
  obtain ⟨_, _, _, _, _, _, _, _, _, _, _, _, _, fW, _⟩ :=
    massSetup_fields lib s0 m hfe ht (Or.inr (Or.inr hd))
  obtain ⟨_, _, _, _, _, _, _, _, hq, hi⟩ := PAIntegrator.Setup_fields lib s0.toPAIntegrator
  rw [fW, hd, fillW_get3 _ _ _ k1 k2 k3 h1 h2 h3,
    fillB_weight lib _ _ _ k1 (by rw [hq]; exact h1),
    fillB_weight lib _ _ _ k2 (by rw [hq]; exact h2),
    fillB_weight lib _ _ _ k3 (by rw [hq]; exact h3), hi]

end acro
end mfem
namespace mfem
namespace acro
open Finset

theorem massPipeline_1D (lib : Library) (s0 : AcroMassIntegrator)
    (el : DenseTensor) (m : List Nat)
    (hfe : s0.trialFESpace.FE0.DofMap = some m) (ht : s0.hasTensorBasis = true)
    (hd : s0.trialFESpace.FE0.Dim = 1 ∨ s0.trialFESpace.FE0.Dim = 2
      ∨ s0.trialFESpace.FE0.Dim = 3)
    (hDof : s0.trialFESpace.FE0.Dof
      = (s0.trialFESpace.FE0.Order + 1) ^ s0.trialFESpace.FE0.Dim.toNat)
    (hQuad : s0.ir.NPoints
      = (lib.IntRulesSegment s0.ir.Order).NPoints ^ s0.trialFESpace.FE0.Dim.toNat)
    (hM : s0.M.IsInitialized = false)
    (hinj : ∀ i j, i < s0.trialFESpace.FE0.Dof → j < s0.trialFESpace.FE0.Dof →
      m.getD i 0 = m.getD j 0 → i = j) :
    let S := (s0.Setup lib).state
    let P := (S.BatchedPartialAssemble lib).state
    let out := P.BatchedAssembleElementMatrices lib el
    let n := s0.trialFESpace.FE0.Order + 1
    let Q := (lib.IntRulesSegment s0.ir.Order).NPoints
    let w : Nat → ℚ := fun k => ((lib.IntRulesSegment s0.ir.Order).IntPoint k).weight
    let Jdet := S.JdetOf (S.initGeometry lib).state
    (s0.trialFESpace.FE0.Dim = 1 → ∀ e i1 j1, e < s0.trialFESpace.NE → i1 < n → j1 < n →
          out.state.2 (m.getD i1 0) (m.getD j1 0) e
            = ∑ k1 in range Q, w k1 * Jdet.get [e, k1] * S.B.get [k1, i1] * S.B.get [k1, j1]) := by
  intro S P out n Q w Jdet
  obtain ⟨f0, f1, f2, f3, f4, f5, f6, f7, f8, f9, f10, f11, f12, _, _⟩ :=
    massSetup_fields lib s0 m hfe ht hd
  obtain ⟨p0, p1, p2, p3, p4, p5, p6, p7, p8, p9, p10⟩ :=
    massPipeline_facts lib s0 m hfe ht hd
  have hMP : P.M.IsInitialized = true → P.M.dims = (P.initM lib).dims := by
    intro h
    have : P.M = s0.M := p9
    rw [this, hM] at h
    exact absurd h (by decide)
  have hinjP : ∀ i j, i < P.nDof → j < P.nDof → P.dofMap i = P.dofMap j → i = j := by
    intro i j hi hj h
    have hi' : i < s0.trialFESpace.FE0.Dof := by rw [← p3]; exact hi
    have hj' : j < s0.trialFESpace.FE0.Dof := by rw [← p3]; exact hj
    have ht' : P.tDofMap = m := p7
    simp only [PAIntegrator.dofMap, ht'] at h
    exact hinj i j hi' hj' h
  have hdm : ∀ i, P.dofMap i = m.getD i 0 := by
    intro i
    have ht' : P.tDofMap = m := p7
    simp only [PAIntegrator.dofMap, ht']
  have hn : P.nDof1D = n := p4
  have hq : P.nQuad1D = Q := p5
  have hB : P.B = S.B := p8
  have hNE : P.trialFESpace.NE = s0.trialFESpace.NE := by rw [p6]
  have hSNE : S.trialFESpace.NE = s0.trialFESpace.NE := by rw [f1]
  have hSq : S.nQuad1D = Q := f9
  intro hd1 e i1 j1 he hi1 hj1
  have hnDof : P.nDof = P.nDof1D := by
    rw [hn]
    have : P.nDof = s0.trialFESpace.FE0.Dof := p3
    rw [this, hDof, hd1]; simp
  have hE := massElmats_1D lib P el p1 (p2.trans hd1) hnDof p10 hMP hinjP e i1 j1
    (by rw [hNE]; exact he) (by rw [hn]; exact hi1) (by rw [hn]; exact hj1)
  rw [hdm, hdm, hq, hB] at hE
  rw [hE]
  refine Finset.sum_congr rfl (fun k1 hk1 => ?_)
  have h1 := Finset.mem_range.mp hk1
  have hSQ : S.nQuad = S.nQuad1D := by
    rw [hSq]
    have : S.nQuad = s0.ir.NPoints := f8
    rw [this, hQuad, hd1]; simp
  rw [massBPA_D_1D lib S f3 (f5.trans hd1) hSQ e k1 (by rw [hSNE]; exact he)
    (by rw [hSq]; exact h1), massSetup_W1 lib s0 m hfe ht hd1 k1 h1]
  ring

theorem massPipeline_2D (lib : Library) (s0 : AcroMassIntegrator)
    (el : DenseTensor) (m : List Nat)
    (hfe : s0.trialFESpace.FE0.DofMap = some m) (ht : s0.hasTensorBasis = true)
    (hd : s0.trialFESpace.FE0.Dim = 1 ∨ s0.trialFESpace.FE0.Dim = 2
      ∨ s0.trialFESpace.FE0.Dim = 3)
    (hDof : s0.trialFESpace.FE0.Dof
      = (s0.trialFESpace.FE0.Order + 1) ^ s0.trialFESpace.FE0.Dim.toNat)
    (hQuad : s0.ir.NPoints
      = (lib.IntRulesSegment s0.ir.Order).NPoints ^ s0.trialFESpace.FE0.Dim.toNat)
    (hM : s0.M.IsInitialized = false)
    (hinj : ∀ i j, i < s0.trialFESpace.FE0.Dof → j < s0.trialFESpace.FE0.Dof →
      m.getD i 0 = m.getD j 0 → i = j) :
    let S := (s0.Setup lib).state
    let P := (S.BatchedPartialAssemble lib).state
    let out := P.BatchedAssembleElementMatrices lib el
    let n := s0.trialFESpace.FE0.Order + 1
    let Q := (lib.IntRulesSegment s0.ir.Order).NPoints
    let w : Nat → ℚ := fun k => ((lib.IntRulesSegment s0.ir.Order).IntPoint k).weight
    let Jdet := S.JdetOf (S.initGeometry lib).state
    (s0.trialFESpace.FE0.Dim = 2 → ∀ e i1 i2 j1 j2, e < s0.trialFESpace.NE →
          i1 < n → i2 < n → j1 < n → j2 < n →
          out.state.2 (m.getD (i1 * n + i2) 0) (m.getD (j1 * n + j2) 0) e
            = ∑ k1 in range Q, ∑ k2 in range Q,
                (w k1 * w k2) * Jdet.get [e, k1, k2]
                  * (S.B.get [k1, i1] * S.B.get [k2, i2])
                  * (S.B.get [k1, j1] * S.B.get [k2, j2])) := by
  intro S P out n Q w Jdet
  obtain ⟨f0, f1, f2, f3, f4, f5, f6, f7, f8, f9, f10, f11, f12, _, _⟩ :=
    massSetup_fields lib s0 m hfe ht hd
  obtain ⟨p0, p1, p2, p3, p4, p5, p6, p7, p8, p9, p10⟩ :=
    massPipeline_facts lib s0 m hfe ht hd
  have hMP : P.M.IsInitialized = true → P.M.dims = (P.initM lib).dims := by
    intro h
    have : P.M = s0.M := p9
    rw [this, hM] at h
    exact absurd h (by decide)
  have hinjP : ∀ i j, i < P.nDof → j < P.nDof → P.dofMap i = P.dofMap j → i = j := by
    intro i j hi hj h
    have hi' : i < s0.trialFESpace.FE0.Dof := by rw [← p3]; exact hi
    have hj' : j < s0.trialFESpace.FE0.Dof := by rw [← p3]; exact hj
    have ht' : P.tDofMap = m := p7
    simp only [PAIntegrator.dofMap, ht'] at h
    exact hinj i j hi' hj' h
  have hdm : ∀ i, P.dofMap i = m.getD i 0 := by
    intro i
    have ht' : P.tDofMap = m := p7
    simp only [PAIntegrator.dofMap, ht']
  have hn : P.nDof1D = n := p4
  have hq : P.nQuad1D = Q := p5
  have hB : P.B = S.B := p8
  have hNE : P.trialFESpace.NE = s0.trialFESpace.NE := by rw [p6]
  have hSNE : S.trialFESpace.NE = s0.trialFESpace.NE := by rw [f1]
  have hSq : S.nQuad1D = Q := f9
  intro hd2 e i1 i2 j1 j2 he hi1 hi2 hj1 hj2
  have hnDof : P.nDof = P.nDof1D * P.nDof1D := by
    rw [hn]
    have : P.nDof = s0.trialFESpace.FE0.Dof := p3
    rw [this, hDof, hd2]; simp [pow_two]
  have hE := massElmats_2D lib P el p1 (p2.trans hd2) hnDof p10 hMP hinjP e i1 i2 j1 j2
    (by rw [hNE]; exact he) (by rw [hn]; exact hi1) (by rw [hn]; exact hi2)
    (by rw [hn]; exact hj1) (by rw [hn]; exact hj2)
  rw [hdm, hdm, hq, hB, hn] at hE
  rw [hE]
  refine Finset.sum_congr rfl (fun k1 hk1 => Finset.sum_congr rfl (fun k2 hk2 => ?_))
  have h1 := Finset.mem_range.mp hk1
  have h2 := Finset.mem_range.mp hk2
  have hSQ : S.nQuad = S.nQuad1D * S.nQuad1D := by
    rw [hSq]
    have : S.nQuad = s0.ir.NPoints := f8
    rw [this, hQuad, hd2]; simp [pow_two]
  rw [massBPA_D_2D lib S f3 (f5.trans hd2) hSQ e k1 k2 (by rw [hSNE]; exact he)
    (by rw [hSq]; exact h1) (by rw [hSq]; exact h2),
    massSetup_W2 lib s0 m hfe ht hd2 k1 k2 h1 h2]
  ring

theorem massPipeline_3D (lib : Library) (s0 : AcroMassIntegrator)
    (el : DenseTensor) (m : List Nat)
    (hfe : s0.trialFESpace.FE0.DofMap = some m) (ht : s0.hasTensorBasis = true)
    (hd : s0.trialFESpace.FE0.Dim = 1 ∨ s0.trialFESpace.FE0.Dim = 2
      ∨ s0.trialFESpace.FE0.Dim = 3)
    (hDof : s0.trialFESpace.FE0.Dof
      = (s0.trialFESpace.FE0.Order + 1) ^ s0.trialFESpace.FE0.Dim.toNat)
    (hQuad : s0.ir.NPoints
      = (lib.IntRulesSegment s0.ir.Order).NPoints ^ s0.trialFESpace.FE0.Dim.toNat)
    (hM : s0.M.IsInitialized = false)
    (hinj : ∀ i j, i < s0.trialFESpace.FE0.Dof → j < s0.trialFESpace.FE0.Dof →
      m.getD i 0 = m.getD j 0 → i = j) :
    let S := (s0.Setup lib).state
    let P := (S.BatchedPartialAssemble lib).state
    let out := P.BatchedAssembleElementMatrices lib el
    let n := s0.trialFESpace.FE0.Order + 1
    let Q := (lib.IntRulesSegment s0.ir.Order).NPoints
    let w : Nat → ℚ := fun k => ((lib.IntRulesSegment s0.ir.Order).IntPoint k).weight
    let Jdet := S.JdetOf (S.initGeometry lib).state
    (s0.trialFESpace.FE0.Dim = 3 → ∀ e i1 i2 i3 j1 j2 j3, e < s0.trialFESpace.NE →
          i1 < n → i2 < n → i3 < n → j1 < n → j2 < n → j3 < n →
          out.state.2 (m.getD ((i1 * n + i2) * n + i3) 0)
              (m.getD ((j1 * n + j2) * n + j3) 0) e
            = ∑ k1 in range Q, ∑ k2 in range Q, ∑ k3 in range Q,
                (w k1 * w k2 * w k3) * Jdet.get [e, k1, k2, k3]
                  * (S.B.get [k1, i1] * S.B.get [k2, i2] * S.B.get [k3, i3])
                  * (S.B.get [k1, j1] * S.B.get [k2, j2] * S.B.get [k3, j3])) := by
  intro S P out n Q w Jdet
  obtain ⟨f0, f1, f2, f3, f4, f5, f6, f7, f8, f9, f10, f11, f12, _, _⟩ :=
    massSetup_fields lib s0 m hfe ht hd
  obtain ⟨p0, p1, p2, p3, p4, p5, p6, p7, p8, p9, p10⟩ :=
    massPipeline_facts lib s0 m hfe ht hd
  have hMP : P.M.IsInitialized = true → P.M.dims = (P.initM lib).dims := by
    intro h
    have : P.M = s0.M := p9
    rw [this, hM] at h
    exact absurd h (by decide)
  have hinjP : ∀ i j, i < P.nDof → j < P.nDof → P.dofMap i = P.dofMap j → i = j := by
    intro i j hi hj h
    have hi' : i < s0.trialFESpace.FE0.Dof := by rw [← p3]; exact hi
    have hj' : j < s0.trialFESpace.FE0.Dof := by rw [← p3]; exact hj
    have ht' : P.tDofMap = m := p7
    simp only [PAIntegrator.dofMap, ht'] at h
    exact hinj i j hi' hj' h
  have hdm : ∀ i, P.dofMap i = m.getD i 0 := by
    intro i
    have ht' : P.tDofMap = m := p7
    simp only [PAIntegrator.dofMap, ht']
  have hn : P.nDof1D = n := p4
  have hq : P.nQuad1D = Q := p5
  have hB : P.B = S.B := p8
  have hNE : P.trialFESpace.NE = s0.trialFESpace.NE := by rw [p6]
  have hSNE : S.trialFESpace.NE = s0.trialFESpace.NE := by rw [f1]
  have hSq : S.nQuad1D = Q := f9
  intro hd3 e i1 i2 i3 j1 j2 j3 he hi1 hi2 hi3 hj1 hj2 hj3
  have hnDof : P.nDof = P.nDof1D * P.nDof1D * P.nDof1D := by
    rw [hn]
    have : P.nDof = s0.trialFESpace.FE0.Dof := p3
    rw [this, hDof, hd3]; simp [pow_succ]
  have hE := massElmats_3D lib P el p1 (p2.trans hd3) hnDof p10 hMP hinjP e
    i1 i2 i3 j1 j2 j3
    (by rw [hNE]; exact he) (by rw [hn]; exact hi1) (by rw [hn]; exact hi2)
    (by rw [hn]; exact hi3) (by rw [hn]; exact hj1) (by rw [hn]; exact hj2)
    (by rw [hn]; exact hj3)
  rw [hdm, hdm, hq, hB, hn] at hE
  rw [hE]
  refine Finset.sum_congr rfl (fun k1 hk1 => Finset.sum_congr rfl (fun k2 hk2 =>
    Finset.sum_congr rfl (fun k3 hk3 => ?_)))
  have h1 := Finset.mem_range.mp hk1
  have h2 := Finset.mem_range.mp hk2
  have h3 := Finset.mem_range.mp hk3
  have hSQ : S.nQuad = S.nQuad1D * S.nQuad1D * S.nQuad1D := by
    rw [hSq]
    have : S.nQuad = s0.ir.NPoints := f8
    rw [this, hQuad, hd3]; simp [pow_succ]
  rw [massBPA_D_3D lib S f3 (f5.trans hd3) hSQ e k1 k2 k3 (by rw [hSNE]; exact he)
    (by rw [hSq]; exact h1) (by rw [hSq]; exact h2) (by rw [hSq]; exact h3),
    massSetup_W3 lib s0 m hfe ht hd3 k1 k2 k3 h1 h2 h3]
  ring

end acro
end mfem
namespace mfem
namespace acro
open Finset

theorem segmentMass_entries (Q : Nat) (w x b0 b1 : Nat → ℚ)
    (hw0 : ∑ k in range Q, w k = 1) (hw1 : ∑ k in range Q, w k * x k = 1 / 2)
    (hw2 : ∑ k in range Q, w k * x k ^ 2 = 1 / 3)
    (hB0 : ∀ k, k < Q → b0 k = 1 - x k) (hB1 : ∀ k, k < Q → b1 k = x k) :
    ∑ k in range Q, w k * b0 k * b0 k = 1 / 3
      ∧ ∑ k in range Q, w k * b0 k * b1 k = 1 / 6
      ∧ ∑ k in range Q, w k * b1 k * b0 k = 1 / 6
      ∧ ∑ k in range Q, w k * b1 k * b1 k = 1 / 3 := by
  have e00 : ∑ k in range Q, w k * b0 k * b0 k
      = ∑ k in range Q, w k - 2 * ∑ k in range Q, w k * x k
        + ∑ k in range Q, w k * x k ^ 2 := by
    rw [Finset.mul_sum, ← Finset.sum_sub_distrib, ← Finset.sum_add_distrib]
    refine Finset.sum_congr rfl (fun k hk => ?_)
    rw [hB0 k (Finset.mem_range.mp hk)]; ring
  have e01 : ∑ k in range Q, w k * b0 k * b1 k
      = ∑ k in range Q, w k * x k - ∑ k in range Q, w k * x k ^ 2 := by
    rw [← Finset.sum_sub_distrib]
    refine Finset.sum_congr rfl (fun k hk => ?_)
    rw [hB0 k (Finset.mem_range.mp hk), hB1 k (Finset.mem_range.mp hk)]; ring
  have e10 : ∑ k in range Q, w k * b1 k * b0 k
      = ∑ k in range Q, w k * x k - ∑ k in range Q, w k * x k ^ 2 := by
    rw [← Finset.sum_sub_distrib]
    refine Finset.sum_congr rfl (fun k hk => ?_)
    rw [hB0 k (Finset.mem_range.mp hk), hB1 k (Finset.mem_range.mp hk)]; ring
  have e11 : ∑ k in range Q, w k * b1 k * b1 k = ∑ k in range Q, w k * x k ^ 2 := by
    refine Finset.sum_congr rfl (fun k hk => ?_)
    rw [hB1 k (Finset.mem_range.mp hk)]; ring
  rw [e00, e01, e10, e11, hw0, hw1, hw2]
  norm_num

/-- C5: one 2D element `e` of order 1 with `tDofMap = [0, 1, 3, 2]`, Jacobian
determinant 1 at every quadrature point, basis table `B(k,0) = 1 - x_k`,
`B(k,1) = x_k`, and a 1D rule with `sum w = 1`, `sum w x = 1/2`,
`sum w x^2 = 1/3`: the element matrix produced by `BatchedPartialAssemble`
followed by `BatchedAssembleElementMatrices` (after `Setup`) is the classical
bilinear mass matrix `(1/36) [[4,2,1,2],[2,4,2,1],[1,2,4,2],[2,1,2,4]]`. -/
theorem massElmats_bilinear (lib : Library) (s0 : AcroMassIntegrator) (el : DenseTensor)
    (e : Nat) (hfe : s0.trialFESpace.FE0.DofMap = some [0, 1, 3, 2])
    (ht : s0.hasTensorBasis = true) (hd : s0.trialFESpace.FE0.Dim = 2)
    (ho : s0.trialFESpace.FE0.Order = 1) (hDof : s0.trialFESpace.FE0.Dof = 4)
    (hQuad : s0.ir.NPoints = (lib.IntRulesSegment s0.ir.Order).NPoints
      * (lib.IntRulesSegment s0.ir.Order).NPoints)
    (hM : s0.M.IsInitialized = false) (he : e < s0.trialFESpace.NE)
    (hw0 : ∑ k in range (lib.IntRulesSegment s0.ir.Order).NPoints,
      ((lib.IntRulesSegment s0.ir.Order).IntPoint k).weight = 1)
    (hw1 : ∑ k in range (lib.IntRulesSegment s0.ir.Order).NPoints,
      ((lib.IntRulesSegment s0.ir.Order).IntPoint k).weight
        * ((lib.IntRulesSegment s0.ir.Order).IntPoint k).x = 1 / 2)
    (hw2 : ∑ k in range (lib.IntRulesSegment s0.ir.Order).NPoints,
      ((lib.IntRulesSegment s0.ir.Order).IntPoint k).weight
        * ((lib.IntRulesSegment s0.ir.Order).IntPoint k).x ^ 2 = 1 / 3)
    (hB0 : ∀ k, k < (lib.IntRulesSegment s0.ir.Order).NPoints →
      (s0.Setup lib).state.B.get [k, 0] = 1 - ((lib.IntRulesSegment s0.ir.Order).IntPoint k).x)
    (hB1 : ∀ k, k < (lib.IntRulesSegment s0.ir.Order).NPoints →
      (s0.Setup lib).state.B.get [k, 1] = ((lib.IntRulesSegment s0.ir.Order).IntPoint k).x)
    (hJ : ∀ k1 k2, k1 < (lib.IntRulesSegment s0.ir.Order).NPoints →
      k2 < (lib.IntRulesSegment s0.ir.Order).NPoints →
      (((s0.Setup lib).state).JdetOf
        (((s0.Setup lib).state).initGeometry lib).state).get [e, k1, k2] = 1) :
    ∀ a b, a < 4 → b < 4 →
      ((((s0.Setup lib).state).BatchedPartialAssemble lib).state.BatchedAssembleElementMatrices
          lib el).state.2 a b e = classicalBilinearMass a b := by
  have hinj : ∀ i j, i < s0.trialFESpace.FE0.Dof → j < s0.trialFESpace.FE0.Dof →
      ([0, 1, 3, 2] : List Nat).getD i 0 = ([0, 1, 3, 2] : List Nat).getD j 0 → i = j := by
    intro i j hi hj
    rw [hDof] at hi hj
    interval_cases i <;> interval_cases j <;> simp
  have hP := massPipeline_2D lib s0 el [0, 1, 3, 2] hfe ht (Or.inr (Or.inl hd))
    (by rw [hDof, ho, hd]; rfl) (by rw [hQuad, hd]; simp [pow_two]) hM hinj hd e
  simp only [ho] at hP
  obtain ⟨m00, m01, m10, m11⟩ := segmentMass_entries (lib.IntRulesSegment s0.ir.Order).NPoints
    (fun k => ((lib.IntRulesSegment s0.ir.Order).IntPoint k).weight)
    (fun k => ((lib.IntRulesSegment s0.ir.Order).IntPoint k).x)
    (fun k => (s0.Setup lib).state.B.get [k, 0]) (fun k => (s0.Setup lib).state.B.get [k, 1])
    hw0 hw1 hw2 hB0 hB1
  have key : ∀ i1 i2 j1 j2, i1 < 2 → i2 < 2 → j1 < 2 → j2 < 2 →
      ((((s0.Setup lib).state).BatchedPartialAssemble lib).state.BatchedAssembleElementMatrices
          lib el).state.2 (([0, 1, 3, 2] : List Nat).getD (i1 * 2 + i2) 0)
            (([0, 1, 3, 2] : List Nat).getD (j1 * 2 + j2) 0) e
        = (∑ k in range (lib.IntRulesSegment s0.ir.Order).NPoints,
            ((lib.IntRulesSegment s0.ir.Order).IntPoint k).weight
              * (s0.Setup lib).state.B.get [k, i1] * (s0.Setup lib).state.B.get [k, j1])
          * (∑ k in range (lib.IntRulesSegment s0.ir.Order).NPoints,
            ((lib.IntRulesSegment s0.ir.Order).IntPoint k).weight
              * (s0.Setup lib).state.B.get [k, i2] * (s0.Setup lib).state.B.get [k, j2]) := by
    intro i1 i2 j1 j2 h1 h2 h3 h4
    rw [hP i1 i2 j1 j2 he h1 h2 h3 h4, Finset.sum_mul_sum]
    refine Finset.sum_congr rfl (fun k1 hk1 => Finset.sum_congr rfl (fun k2 hk2 => ?_))
    rw [hJ k1 k2 (Finset.mem_range.mp hk1) (Finset.mem_range.mp hk2)]
    ring
  intro a b ha hb
  interval_cases a <;> interval_cases b
  · refine (key 0 0 0 0 (by decide) (by decide) (by decide) (by decide)).trans ?_
    simp only [m00, m01, m10, m11]; norm_num [classicalBilinearMass]
  · refine (key 0 0 0 1 (by decide) (by decide) (by decide) (by decide)).trans ?_
    simp only [m00, m01, m10, m11]; norm_num [classicalBilinearMass]
  · refine (key 0 0 1 1 (by decide) (by decide) (by decide) (by decide)).trans ?_
    simp only [m00, m01, m10, m11]; norm_num [classicalBilinearMass]
  · refine (key 0 0 1 0 (by decide) (by decide) (by decide) (by decide)).trans ?_
    simp only [m00, m01, m10, m11]; norm_num [classicalBilinearMass]
  · refine (key 0 1 0 0 (by decide) (by decide) (by decide) (by decide)).trans ?_
    simp only [m00, m01, m10, m11]; norm_num [classicalBilinearMass]
  · refine (key 0 1 0 1 (by decide) (by decide) (by decide) (by decide)).trans ?_
    simp only [m00, m01, m10, m11]; norm_num [classicalBilinearMass]
  · refine (key 0 1 1 1 (by decide) (by decide) (by decide) (by decide)).trans ?_
    simp only [m00, m01, m10, m11]; norm_num [classicalBilinearMass]
  · refine (key 0 1 1 0 (by decide) (by decide) (by decide) (by decide)).trans ?_
    simp only [m00, m01, m10, m11]; norm_num [classicalBilinearMass]
  · refine (key 1 1 0 0 (by decide) (by decide) (by decide) (by decide)).trans ?_
    simp only [m00, m01, m10, m11]; norm_num [classicalBilinearMass]
  · refine (key 1 1 0 1 (by decide) (by decide) (by decide) (by decide)).trans ?_
    simp only [m00, m01, m10, m11]; norm_num [classicalBilinearMass]
  · refine (key 1 1 1 1 (by decide) (by decide) (by decide) (by decide)).trans ?_
    simp only [m00, m01, m10, m11]; norm_num [classicalBilinearMass]
  · refine (key 1 1 1 0 (by decide) (by decide) (by decide) (by decide)).trans ?_
    simp only [m00, m01, m10, m11]; norm_num [classicalBilinearMass]
  · refine (key 1 0 0 0 (by decide) (by decide) (by decide) (by decide)).trans ?_
    simp only [m00, m01, m10, m11]; norm_num [classicalBilinearMass]
  · refine (key 1 0 0 1 (by decide) (by decide) (by decide) (by decide)).trans ?_
    simp only [m00, m01, m10, m11]; norm_num [classicalBilinearMass]
  · refine (key 1 0 1 1 (by decide) (by decide) (by decide) (by decide)).trans ?_
    simp only [m00, m01, m10, m11]; norm_num [classicalBilinearMass]
  · refine (key 1 0 1 0 (by decide) (by decide) (by decide) (by decide)).trans ?_
    simp only [m00, m01, m10, m11]; norm_num [classicalBilinearMass]

end acro
end mfem
namespace mfem
namespace acro
open Finset

theorem massSetup_B (lib : Library) (s0 : AcroMassIntegrator) (m : List Nat)
    (hfe : s0.trialFESpace.FE0.DofMap = some m) (ht : s0.hasTensorBasis = true)
    (hd : s0.trialFESpace.FE0.Dim = 1 ∨ s0.trialFESpace.FE0.Dim = 2
      ∨ s0.trialFESpace.FE0.Dim = 3)
    (hp : 1 ≤ s0.trialFESpace.FE0.Order) (k i : Nat)
    (hk : k < (lib.IntRulesSegment s0.ir.Order).NPoints)
    (hi : i < s0.trialFESpace.FE0.Order + 1) :
    (s0.Setup lib).state.B.get [k, i]
      = if i = 0 then
          lib.H1SegmentShape s0.trialFESpace.FE0.Order
            ((lib.IntRulesSegment s0.ir.Order).IntPoint k) 0
        else if i = s0.trialFESpace.FE0.Order then
          lib.H1SegmentShape s0.trialFESpace.FE0.Order
            ((lib.IntRulesSegment s0.ir.Order).IntPoint k) 1
        else
          lib.H1SegmentShape s0.trialFESpace.FE0.Order
            ((lib.IntRulesSegment s0.ir.Order).IntPoint k) (i + 1) := by
  obtain ⟨_, _, _, _, _, _, _, _, _, _, _, _, _, _, fB⟩ := massSetup_fields lib s0 m hfe ht hd
  obtain ⟨_, _, _, g3, _, _, g6, _, g8, g9⟩ := PAIntegrator.Setup_fields lib s0.toPAIntegrator
  rw [fB, fillB_get lib _ _ _ (by rw [g6]; omega) k i (by rw [g8]; exact hk)
    (by rw [g6]; exact hi), g3, g6, g9]
  simp

theorem massJdet_2D (lib : Library) (s : AcroMassIntegrator) (ht : s.hasTensorBasis = true)
    (hd : s.nDim = 2) (hQ : s.nQuad = s.nQuad1D * s.nQuad1D) (e k1 k2 : Nat)
    (he : e < s.trialFESpace.NE) (h1 : k1 < s.nQuad1D) (h2 : k2 < s.nQuad1D) :
    (s.JdetOf (s.initGeometry lib).state).get [e, k1, k2]
      = smallDet 2 (fun m n => s.trialFESpace.Jacobian e
          (s.ir.IntPoint (k1 * s.nQuad1D + k2)).x (s.ir.IntPoint (k1 * s.nQuad1D + k2)).y
          (s.ir.IntPoint (k1 * s.nQuad1D + k2)).z m n) := by
  have hg : (s.initGeometry lib).state
      = ((Tensor.empty.Init [s.trialFESpace.NE, s.nQuad1D, s.nQuad1D, 2, 2] (lib.junk "J")),
         (Tensor.empty.Init [s.trialFESpace.NE, s.nQuad1D, s.nQuad1D] (lib.junk "Jdet")),
         (Tensor.empty.Init [s.trialFESpace.NE, s.nQuad1D, s.nQuad1D] (lib.junk "q"))) := by
    have h21 : ¬ ((2 : Int) = 1) := by decide
    simp [AcroMassIntegrator.initGeometry, ht, hd, h21, Result.state]
  have hk : k1 * s.nQuad1D + k2 < s.nQuad := by rw [hQ]; exact flat2_lt _ _ _ h1 h2
  have hdn : s.nDim.toNat = 2 := by rw [hd]; rfl
  rw [massJdet_get s _ s.trialFESpace.NE [s.nQuad1D, s.nQuad1D, 2, 2] (by rw [hg]; rfl)
    (by rw [hg, hdn]; rfl) [e, k1, k2] e (k1 * s.nQuad1D + k2)
    (by rw [hg]; simp only [Tensor.Init, flatIndex, List.prod_cons, List.prod_nil, hQ]; ring)
    he hk, hdn]

/-- C5 (witness): the unit square with Simpson's rule in each direction. -/
theorem massElmats_bilinear_witness :
    ((((freshMassOnSquare.Setup simpsonLibrary).state).BatchedPartialAssemble
          simpsonLibrary).state.BatchedAssembleElementMatrices simpsonLibrary
        (fun _ _ _ => 0)).state.2 0 2 0 = classicalBilinearMass 0 2 :=
  massElmats_bilinear simpsonLibrary freshMassOnSquare (fun _ _ _ => 0) 0 rfl rfl rfl rfl rfl
    rfl rfl (by decide)
    (by simp [Finset.sum_range_succ, simpsonLibrary, simpsonRule]; norm_num)
    (by simp [Finset.sum_range_succ, simpsonLibrary, simpsonRule]; norm_num)
    (by simp [Finset.sum_range_succ, simpsonLibrary, simpsonRule]; norm_num)
    (by
      intro k hk
      rw [massSetup_B simpsonLibrary freshMassOnSquare [0, 1, 3, 2] rfl rfl (Or.inr (Or.inl rfl))
        (by decide) k 0 hk (by decide)]
      simp [simpsonLibrary])
    (by
      intro k hk
      rw [massSetup_B simpsonLibrary freshMassOnSquare [0, 1, 3, 2] rfl rfl (Or.inr (Or.inl rfl))
        (by decide) k 1 hk (by decide)]
      simp [simpsonLibrary, freshMassOnSquare, freshMass, squareSpace])
    (by
      intro k1 k2 h1 h2
      obtain ⟨_, f1, f2, f3, _, f5, _, _, f8, f9, _⟩ :=
        massSetup_fields simpsonLibrary freshMassOnSquare [0, 1, 3, 2] rfl rfl
          (Or.inr (Or.inl rfl))
      rw [massJdet_2D simpsonLibrary _ f3 f5 (by rw [f8, f9]; rfl) 0 k1 k2
        (by rw [f1]; decide) (by rw [f9]; exact h1) (by rw [f9]; exact h2), f1]
      simp [smallDet, freshMassOnSquare, freshMass, squareSpace])
    0 2 (by decide) (by decide)

end acro
end mfem
namespace mfem
namespace acro
open Finset

theorem massSetup_D (lib : Library) (s0 : AcroMassIntegrator) (m : List Nat)
    (hfe : s0.trialFESpace.FE0.DofMap = some m) (ht : s0.hasTensorBasis = true)
    (hd : s0.trialFESpace.FE0.Dim = 1 ∨ s0.trialFESpace.FE0.Dim = 2
      ∨ s0.trialFESpace.FE0.Dim = 3) :
    (s0.Setup lib).state.D.data = lib.junk "D" := by
  have h21 : ¬ ((2 : Int) = 1) := by decide
  have h31 : ¬ ((3 : Int) = 1) := by decide
  have h32 : ¬ ((3 : Int) = 2) := by decide
  have g1 : ¬ ((1 : Int) > 3) := by decide
  have g2 : ¬ ((2 : Int) > 3) := by decide
  have g3 : ¬ ((3 : Int) > 3) := by decide
  rcases hd with hd | hd | hd <;>
    simp [AcroMassIntegrator.Setup, PAIntegrator.Setup, hfe, ht, hd, Result.state,
      Tensor.Init, h21, h31, h32, g1, g2, g3]

theorem massJdet_1D (lib : Library) (s : AcroMassIntegrator) (ht : s.hasTensorBasis = true)
    (hd : s.nDim = 1) (hQ : s.nQuad = s.nQuad1D) (e k1 : Nat)
    (he : e < s.trialFESpace.NE) (h1 : k1 < s.nQuad1D) :
    (s.JdetOf (s.initGeometry lib).state).get [e, k1]
      = smallDet 1 (fun m n => s.trialFESpace.Jacobian e
          (s.ir.IntPoint k1).x (s.ir.IntPoint k1).y (s.ir.IntPoint k1).z m n) := by
  have hg : (s.initGeometry lib).state
      = ((Tensor.empty.Init [s.trialFESpace.NE, s.nQuad1D, s.nQuad1D, 1, 1] (lib.junk "J")),
         (Tensor.empty.Init [s.trialFESpace.NE, s.nQuad1D] (lib.junk "Jdet")),
         (Tensor.empty.Init [s.trialFESpace.NE, s.nQuad1D] (lib.junk "q"))) := by
    simp [AcroMassIntegrator.initGeometry, ht, hd, Result.state]
  have hk : k1 < s.nQuad := by rw [hQ]; exact h1
  have hdn : s.nDim.toNat = 1 := by rw [hd]; rfl
  rw [massJdet_get s _ s.trialFESpace.NE [s.nQuad1D, s.nQuad1D, 1, 1] (by rw [hg]; rfl)
    (by rw [hg, hdn]; rfl) [e, k1] e k1
    (by rw [hg]; simp only [Tensor.Init, flatIndex, List.prod_cons, List.prod_nil, hQ]; ring)
    he hk, hdn]

/-- C7 (failing input): a fresh mass integrator on one linear segment
(one-point rule, fresh storage holding zeros).  After `Setup` the tensor `D`
counts as initialised, so `BatchedAssembleElementMatrices` skips
`BatchedPartialAssemble` and assembles from the unfilled `D`: entry `(0,0)` is
0.  With `BatchedPartialAssemble` called in between it is `1/4`. -/
theorem massBAEM_after_setup_only :
    (freshMassOnLine.Setup sampleLibrary).state.D.IsInitialized = true
      ∧ ((freshMassOnLine.Setup sampleLibrary).state.BatchedAssembleElementMatrices
          sampleLibrary (fun _ _ _ => 0)).state.2 0 0 0 = 0
      ∧ ((((freshMassOnLine.Setup sampleLibrary).state).BatchedPartialAssemble
            sampleLibrary).state.BatchedAssembleElementMatrices sampleLibrary
          (fun _ _ _ => 0)).state.2 0 0 0 = 1 / 4 := by
  have hinj : ∀ i j, i < 2 → j < 2 → ([0, 1] : List Nat).getD i 0 = ([0, 1] : List Nat).getD j 0
      → i = j := by
    intro i j hi hj
    interval_cases i <;> interval_cases j <;> simp
  obtain ⟨_, f1, f2, f3, f4, f5, f6, f7, f8, f9, _, f11, f12, _, _⟩ :=
    massSetup_fields sampleLibrary freshMassOnLine [0, 1] rfl rfl (Or.inl rfl)
  have hB : ∀ i, i < 2 → (freshMassOnLine.Setup sampleLibrary).state.B.get [0, i] = 1 / 2 := by
    intro i hi
    rw [massSetup_B sampleLibrary freshMassOnLine [0, 1] rfl rfl (Or.inl rfl) (by decide) 0 i
      (by decide) hi]
    interval_cases i <;> norm_num [sampleLibrary, freshMassOnLine, freshMass, lineSpace]
  refine ⟨f12, ?_, ?_⟩
  · have hE := massElmats_1D sampleLibrary (freshMassOnLine.Setup sampleLibrary).state
      (fun _ _ _ => 0) f3 f5 (by rw [f6, f7]; rfl) f12
      (by intro h; rw [f11] at h; exact absurd h (by decide))
      (by
        intro i j hi hj h
        rw [f6] at hi hj
        simp only [PAIntegrator.dofMap, f4] at h
        exact hinj i j hi hj h)
      0 0 0 (by rw [f1]; decide) (by rw [f7]; decide) (by rw [f7]; decide)
    simp only [PAIntegrator.dofMap, f4] at hE
    refine hE.trans ?_
    have hD := massSetup_D sampleLibrary freshMassOnLine [0, 1] rfl rfl (Or.inl rfl)
    have hz : ∀ idx, (freshMassOnLine.Setup sampleLibrary).state.D.get idx = 0 := by
      intro idx
      simp only [Tensor.get, hD]
      rfl
    apply Finset.sum_eq_zero
    intro k _
    rw [hz]
    ring
  · have hP := massPipeline_1D sampleLibrary freshMassOnLine (fun _ _ _ => 0) [0, 1] rfl rfl
      (Or.inl rfl) rfl rfl rfl hinj rfl 0 0 0 (by decide) (by decide) (by decide)
    refine hP.trans ?_
    have hJ := massJdet_1D sampleLibrary (freshMassOnLine.Setup sampleLibrary).state f3 f5
      (by rw [f8, f9]; rfl) 0 0 (by rw [f1]; decide) (by rw [f9]; decide)
    rw [f1] at hJ
    have hs : (sampleLibrary.IntRulesSegment freshMassOnLine.ir.Order).NPoints = 1 := rfl
    rw [hs, Finset.sum_range_one, hJ, hB 0 (by decide)]
    simp [smallDet, sampleLibrary, freshMassOnLine, freshMass, lineSpace]
    norm_num

end acro

namespace occa

/-- C8 (failing input): a mass domain integrator with the constant coefficient
2 on an engine that uses the Acrotensor integrators.  `InitOccaBilinearForm`
creates the same integrator as for the coefficient 1 (the coefficient is not
passed on), and the `D` assembled by `BatchedPartialAssemble` on one linear
segment with unit weight and unit Jacobian is 1 at `(0,0)`, not 2. -/
theorem acroMass_ignores_coefficient :
    InitOccaBilinearForm.makeIntegrator true "mass" (some (Coefficient.constant 2))
        = Result.ok (some OccaIntegrator.acroMass)
      ∧ InitOccaBilinearForm.makeIntegrator true "mass" (some (Coefficient.constant 1))
        = Result.ok (some OccaIntegrator.acroMass)
      ∧ (((acro.freshMassOnLine.Setup acro.sampleLibrary).state).BatchedPartialAssemble
          acro.sampleLibrary).state.D.get [0, 0] = 1 := by
  refine ⟨by simp [InitOccaBilinearForm.makeIntegrator],
    by simp [InitOccaBilinearForm.makeIntegrator], ?_⟩
  obtain ⟨_, f1, f2, f3, f4, f5, f6, f7, f8, f9, _, f11, f12, _, _⟩ :=
    acro.massSetup_fields acro.sampleLibrary acro.freshMassOnLine [0, 1] rfl rfl (Or.inl rfl)
  rw [acro.massBPA_D_1D acro.sampleLibrary _ f3 f5 (by rw [f8, f9]; rfl) 0 0
    (by rw [f1]; decide) (by rw [f9]; decide),
    acro.massSetup_W1 acro.sampleLibrary acro.freshMassOnLine [0, 1] rfl rfl rfl 0 (by decide),
    acro.massJdet_1D acro.sampleLibrary _ f3 f5 (by rw [f8, f9]; rfl) 0 0
    (by rw [f1]; decide) (by rw [f9]; decide), f1]
  simp [acro.smallDet, acro.sampleLibrary, acro.freshMassOnLine, acro.freshMass, acro.lineSpace]

end occa
end mfem
namespace mfem
namespace acro
open Finset

theorem BtilOf_get (lib : Library) (s : AcroDiffusionIntegrator) (d m n k i j : Nat)
    (hm : m < s.nDim.toNat) (hn : n < s.nDim.toNat) (hk : k < s.nQuad1D)
    (hi : i < s.nDof1D) (hj : j < s.nDof1D) :
    (s.BtilOf lib d).get [m, n, k, i, j]
      = (if m = d then s.G else s.B).get [k, i] * (if n = d then s.G else s.B).get [k, j] := by
  let V : List Nat → ℚ := fun idx =>
    match idx with
    | [m, n, k, i, j] =>
      (if m = d then s.G else s.B).get [k, i] * (if n = d then s.G else s.B).get [k, j]
    | _ => 0
  have h := Writes.forLoop Tensor.get (fun _ => True) 0 s.nDim.toNat
    (fun m T =>
      forLoop 0 s.nDim.toNat (fun n T =>
        let BGM := if m = d then s.G else s.B
        let BGN := if n = d then s.G else s.B
        forLoop 0 s.nQuad1D (fun k T =>
          forLoop 0 s.nDof1D (fun i T =>
            forLoop 0 s.nDof1D (fun j T =>
              T.set [m, n, k, i, j] (BGM.get [k, i] * BGN.get [k, j])) T) T) T) T)
    (fun m idx => ∃ n, 0 ≤ n ∧ n < s.nDim.toNat ∧ ∃ k, 0 ≤ k ∧ k < s.nQuad1D ∧
      ∃ i, 0 ≤ i ∧ i < s.nDof1D ∧ ∃ j, 0 ≤ j ∧ j < s.nDof1D ∧ idx = [m, n, k, i, j]) V
    (fun m _ _ => Writes.forLoop Tensor.get (fun _ => True) 0 s.nDim.toNat _
      (fun n idx => ∃ k, 0 ≤ k ∧ k < s.nQuad1D ∧
        ∃ i, 0 ≤ i ∧ i < s.nDof1D ∧ ∃ j, 0 ≤ j ∧ j < s.nDof1D ∧ idx = [m, n, k, i, j]) V
      (fun n _ _ => Writes.forLoop Tensor.get (fun _ => True) 0 s.nQuad1D _
        (fun k idx => ∃ i, 0 ≤ i ∧ i < s.nDof1D ∧ ∃ j, 0 ≤ j ∧ j < s.nDof1D ∧
          idx = [m, n, k, i, j]) V
        (fun k _ _ => Writes.forLoop Tensor.get (fun _ => True) 0 s.nDof1D _
          (fun i idx => ∃ j, 0 ≤ j ∧ j < s.nDof1D ∧ idx = [m, n, k, i, j]) V
          (fun i _ _ => Writes.forLoop Tensor.get (fun _ => True) 0 s.nDof1D _
            (fun j idx => idx = [m, n, k, i, j]) V
            (fun j _ _ => by
              intro T _
              refine ⟨trivial, fun idx => ⟨?_, ?_⟩⟩
              · intro h; subst h; simp [Tensor.get, Tensor.set, V]
              · intro h; simp [Tensor.get, Tensor.set, h])))))
  exact ((h _ trivial).2 [m, n, k, i, j]).1
    ⟨m, Nat.zero_le _, hm, n, Nat.zero_le _, hn, k, Nat.zero_le _, hk, i, Nat.zero_le _, hi,
      j, Nat.zero_le _, hj, rfl⟩

theorem listFill {α : Type} (f : Nat → α) (dflt : α) : ∀ (n : Nat) (a : List α),
    a.length = n → ∀ m, m ≤ n →
      (forLoop 0 m (fun i (t : List α) => t.set i (f i)) a).length = n
      ∧ ∀ i, i < m → (forLoop 0 m (fun i (t : List α) => t.set i (f i)) a).getD i dflt = f i := by
  intro n a ha m
  induction m with
  | zero => intro _; rw [forLoop_zero]; exact ⟨ha, fun i hi => absurd hi (Nat.not_lt_zero i)⟩
  | succ m ih =>
    intro hm
    obtain ⟨hl, hg⟩ := ih (by omega)
    have hs := forLoop_succ 0 m (fun i (t : List α) => t.set i (f i)) a
    simp only [Nat.zero_add] at hs
    rw [hs]
    refine ⟨by simp [hl], fun i hi => ?_⟩
    by_cases him : i = m
    · subst him
      have hlt : i < (forLoop 0 i (fun i (t : List α) => t.set i (f i)) a).length := by omega
      rw [List.getD_eq_getElem?_getD, List.getElem?_set]
      simp [hlt]
    · have h' := hg i (by omega)
      rw [List.getD_eq_getElem?_getD] at h' ⊢
      rw [List.getElem?_set]
      rw [if_neg (fun h => him h.symm)]
      exact h'

theorem ComputeBTilde_get (lib : Library) (s : AcroDiffusionIntegrator) (d : Nat)
    (hd : d < s.nDim.toNat) :
    (s.ComputeBTilde lib).Btil.getD d Tensor.empty = s.BtilOf lib d := by
  have hlen : ((s.Btil ++ List.replicate s.nDim.toNat Tensor.empty).take s.nDim.toNat).length
      = s.nDim.toNat := by simp
  exact (listFill (fun d => s.BtilOf lib d) Tensor.empty s.nDim.toNat _ hlen s.nDim.toNat
    (Nat.le_refl _)).2 d hd

theorem ComputeBTilde_length (lib : Library) (s : AcroDiffusionIntegrator) :
    (s.ComputeBTilde lib).Btil.length = s.nDim.toNat := by
  have hlen : ((s.Btil ++ List.replicate s.nDim.toNat Tensor.empty).take s.nDim.toNat).length
      = s.nDim.toNat := by simp
  exact (listFill (fun d => s.BtilOf lib d) Tensor.empty s.nDim.toNat _ hlen s.nDim.toNat
    (Nat.le_refl _)).1

end acro
end mfem
namespace mfem
namespace acro
open Finset

theorem diffBAEM_elmats (lib : Library) (s : AcroDiffusionIntegrator) (el : DenseTensor)
    (ht : s.hasTensorBasis = true) (hBt : s.Btil = []) (hD : s.D.IsInitialized = true) :
    (s.BatchedAssembleElementMatrices lib el).2
      = s.toPAIntegrator.scatter
          (AcroDiffusionIntegrator.contractS
            (if !s.S.IsInitialized then
              { s.ComputeBTilde lib with S := (s.ComputeBTilde lib).initS lib }
             else s.ComputeBTilde lib)) el := by
  have hD' : (s.ComputeBTilde lib).D.IsInitialized = true := hD
  have hS' : (s.ComputeBTilde lib).S = s.S := rfl
  unfold AcroDiffusionIntegrator.BatchedAssembleElementMatrices
  simp only [ht, hBt, List.length_nil, beq_self_eq_true, Bool.and_self, if_true, hD',
    Bool.not_true, Bool.false_eq_true, if_false, hS']
  by_cases hS : s.S.IsInitialized = true
  · simp only [hS, Bool.not_true, Bool.false_eq_true, if_false]
    rfl
  · simp only [hS, Bool.not_false, if_true]
    rfl

theorem diffS_dims (lib : Library) (s : AcroDiffusionIntegrator)
    (hS : s.S.IsInitialized = true → s.S.dims = (s.initS lib).dims) :
    (AcroDiffusionIntegrator.contractS
        (if !s.S.IsInitialized then
              { s.ComputeBTilde lib with S := (s.ComputeBTilde lib).initS lib }
             else s.ComputeBTilde lib)).dims
      = (s.initS lib).dims := by
  have hI : (s.ComputeBTilde lib).initS lib = s.initS lib := rfl
  by_cases h : s.S.IsInitialized = true
  · simp only [h, Bool.not_true, Bool.false_eq_true, if_false]
    rw [← hS h]
    unfold AcroDiffusionIntegrator.contractS
    simp only [Tensor.assign]
    split_ifs <;> rfl
  · simp only [h, Bool.not_false, if_true, hI]
    unfold AcroDiffusionIntegrator.contractS
    simp only [Tensor.assign]
    split_ifs <;> rfl

theorem diffElmats_1D (lib : Library) (s : AcroDiffusionIntegrator) (el : DenseTensor)
    (ht : s.hasTensorBasis = true) (hd : s.nDim = 1) (hnDof : s.nDof = s.nDof1D)
    (hBt : s.Btil = []) (hD : s.D.IsInitialized = true)
    (hS : s.S.IsInitialized = true → s.S.dims = (s.initS lib).dims)
    (hinj : ∀ i j, i < s.nDof → j < s.nDof → s.dofMap i = s.dofMap j → i = j)
    (e i1 j1 : Nat) (he : e < s.trialFESpace.NE)
    (hi1 : i1 < s.nDof1D) (hj1 : j1 < s.nDof1D) :
    (s.BatchedAssembleElementMatrices lib el).2 (s.dofMap i1) (s.dofMap j1) e
      = ∑ k1 in range s.nQuad1D, s.G.get [k1, i1] * s.G.get [k1, j1] * s.D.get [e, 0, 0, k1] := by
  rw [diffBAEM_elmats lib s el ht hBt hD,
    scatter_get s.toPAIntegrator _ el hinj e _ _ he (by rw [hnDof]; exact hi1)
      (by rw [hnDof]; exact hj1)]
  have hdims := diffS_dims lib s hS
  have hshape : (s.initS lib).dims = [s.trialFESpace.NE, s.nDof1D, s.nDof1D] := by
    simp [AcroDiffusionIntegrator.initS, ht, hd, Tensor.Init]
  rw [hshape] at hdims
  have hidx : e * s.nDof * s.nDof + i1 * s.nDof + j1
      = flatIndex [s.trialFESpace.NE, s.nDof1D, s.nDof1D] [e, i1, j1] := by
    simp only [flatIndex, List.prod_cons, List.prod_nil, hnDof]
    ring
  rw [hidx, Tensor.raw_flatIndex _ _ _ _ _ hdims
    (List.Forall₂.cons hi1 (List.Forall₂.cons hj1 List.Forall₂.nil))]
  have hdn : s.nDim.toNat = 1 := by rw [hd]; rfl
  have hB0 := ComputeBTilde_get lib s 0 (by rw [hdn]; decide)
  have key : (AcroDiffusionIntegrator.contractS
        (if !s.S.IsInitialized then
              { s.ComputeBTilde lib with S := (s.ComputeBTilde lib).initS lib }
             else s.ComputeBTilde lib)).data [e, i1, j1]
      = ∑ m in range 1, ∑ n in range 1, ∑ k1 in range s.nQuad1D,
          (s.BtilOf lib 0).get [m, n, k1, i1, j1] * s.D.get [e, m, n, k1] := by
    have hp : (s.ComputeBTilde lib).toPAIntegrator = s.toPAIntegrator := rfl
    have hDD : (s.ComputeBTilde lib).D = s.D := rfl
    have h1n : Int.toNat 1 = 1 := rfl
    by_cases h : s.S.IsInitialized = true
    · simp only [h, Bool.not_true, Bool.false_eq_true, if_false,
        AcroDiffusionIntegrator.contractS, hp, ht, hd, if_true, Tensor.assign, hdn, hB0, hDD, h1n]
    · simp only [h, Bool.not_false, if_true,
        AcroDiffusionIntegrator.contractS, hp, ht, hd, Tensor.assign, hdn, hB0, hDD, h1n]
  rw [key, Finset.sum_range_one, Finset.sum_range_one]
  refine Finset.sum_congr rfl (fun k1 hk1 => ?_)
  rw [BtilOf_get lib s 0 0 0 k1 i1 j1 (by rw [hdn]; decide) (by rw [hdn]; decide)
    (Finset.mem_range.mp hk1) hi1 hj1]
  simp

theorem diff1D_basis (s : AcroDiffusionIntegrator) (y : Nat → ℚ) (hd : s.nDim = 1)
    (e i1 b1 : Nat) (he : e < s.trialFESpace.NE) (h1 : i1 < s.nDof1D) (hb : b1 < s.nDof1D) :
    (s.MultAdd1D (basisVector (flatIndex [s.trialFESpace.NE, s.nDof1D] [e, b1])) y).2
        (flatIndex [s.trialFESpace.NE, s.nDof1D] [e, i1])
      = ∑ k1 in range s.nQuad1D, s.G.get [k1, i1] * s.G.get [k1, b1] * s.D.get [e, 0, 0, k1] := by
  have hF : List.Forall₂ (fun i d => i < d) [e, i1] [s.trialFESpace.NE, s.nDof1D] :=
    List.Forall₂.cons he (List.Forall₂.cons h1 List.Forall₂.nil)
  have hdn : s.nDim.toNat = 1 := by rw [hd]; rfl
  simp only [AcroDiffusionIntegrator.MultAdd1D]
  rw [Tensor.toVector_flatIndex _ _ _ _ _ _ rfl hF]
  simp only [Tensor.assign, Tensor.view, Tensor.get, hdn, Finset.sum_range_one]
  refine Finset.sum_congr rfl (fun k1 _ => ?_)
  have hu : ∑ i in range s.nDof1D, s.G.data [k1, i]
      * basisVector (flatIndex [s.trialFESpace.NE, s.nDof1D] [e, b1])
          (flatIndex [s.trialFESpace.NE, s.nDof1D] [e, i]) = s.G.data [k1, b1] :=
    sum_basis1 s.trialFESpace.NE s.nDof1D e b1 (fun i => s.G.data [k1, i]) hb
  rw [hu]
  ring

end acro
end mfem
namespace mfem
namespace acro
open Finset

theorem basis3_nested (NE n e b1 b2 b3 : Nat) (P Q R : Nat → ℚ)
    (hb1 : b1 < n) (hb2 : b2 < n) (hb3 : b3 < n) :
    ∑ i1 in range n, P i1 * ∑ i2 in range n, Q i2 * ∑ i3 in range n,
        R i3 * basisVector (flatIndex [NE, n, n, n] [e, b1, b2, b3])
          (flatIndex [NE, n, n, n] [e, i1, i2, i3])
      = P b1 * Q b2 * R b3 := by
  simp only [Finset.mul_sum, ← mul_assoc]
  exact sum_basis3 NE n e b1 b2 b3 (fun i1 i2 i3 => P i1 * Q i2 * R i3) hb1 hb2 hb3

theorem diff3D_basis (s : AcroDiffusionIntegrator) (y : Nat → ℚ) (hd : s.nDim = 3)
    (e i1 i2 i3 b1 b2 b3 : Nat) (he : e < s.trialFESpace.NE)
    (h1 : i1 < s.nDof1D) (h2 : i2 < s.nDof1D) (h3 : i3 < s.nDof1D)
    (hb1 : b1 < s.nDof1D) (hb2 : b2 < s.nDof1D) (hb3 : b3 < s.nDof1D) :
    (s.MultAdd3D
        (basisVector (flatIndex [s.trialFESpace.NE, s.nDof1D, s.nDof1D, s.nDof1D]
          [e, b1, b2, b3])) y).2
        (flatIndex [s.trialFESpace.NE, s.nDof1D, s.nDof1D, s.nDof1D] [e, i1, i2, i3])
      = ∑ m in range 3, ∑ n in range 3,
          ∑ k1 in range s.nQuad1D, ∑ k2 in range s.nQuad1D, ∑ k3 in range s.nQuad1D,
            ((if m = 0 then s.G else s.B).get [k1, i1] * (if n = 0 then s.G else s.B).get [k1, b1])
              * ((if m = 1 then s.G else s.B).get [k2, i2]
                  * (if n = 1 then s.G else s.B).get [k2, b2])
              * ((if m = 2 then s.G else s.B).get [k3, i3]
                  * (if n = 2 then s.G else s.B).get [k3, b3])
              * s.D.get [e, m, n, k1, k2, k3] := by
  have hF : List.Forall₂ (fun i d => i < d) [e, i1, i2, i3]
      [s.trialFESpace.NE, s.nDof1D, s.nDof1D, s.nDof1D] :=
    List.Forall₂.cons he (List.Forall₂.cons h1 (List.Forall₂.cons h2
      (List.Forall₂.cons h3 List.Forall₂.nil)))
  have hdn : s.nDim.toNat = 3 := by rw [hd]; rfl
  simp only [AcroDiffusionIntegrator.MultAdd3D]
  rw [Tensor.toVector_flatIndex _ _ _ _ _ _ rfl hF]
  simp only [Tensor.assign, Tensor.accumulate, Tensor.assignSlice, Tensor.slice, Tensor.view,
    Tensor.get, hdn]
  simp only [basis3_nested s.trialFESpace.NE s.nDof1D e b1 b2 b3 _ _ _ hb1 hb2 hb3]
  simp only [Finset.sum_range_succ, Finset.sum_range_zero, zero_add]
  simp only [OfNat.ofNat_ne_zero, OfNat.zero_ne_ofNat, if_true, if_false, one_ne_zero,
    zero_ne_one, OfNat.ofNat_ne_one, OfNat.one_ne_ofNat]
  simp only [Finset.mul_sum, ← Finset.sum_add_distrib]
  refine Finset.sum_congr rfl (fun k1 _ => Finset.sum_congr rfl (fun k2 _ =>
    Finset.sum_congr rfl (fun k3 _ => ?_)))
  ring

end acro
end mfem
namespace mfem
namespace acro
open Finset

theorem diffElmats_3D (lib : Library) (s : AcroDiffusionIntegrator) (el : DenseTensor)
    (ht : s.hasTensorBasis = true) (hd : s.nDim = 3)
    (hnDof : s.nDof = s.nDof1D * s.nDof1D * s.nDof1D)
    (hBt : s.Btil = []) (hD : s.D.IsInitialized = true)
    (hS : s.S.IsInitialized = true → s.S.dims = (s.initS lib).dims)
    (hinj : ∀ i j, i < s.nDof → j < s.nDof → s.dofMap i = s.dofMap j → i = j)
    (e i1 i2 i3 j1 j2 j3 : Nat) (he : e < s.trialFESpace.NE)
    (hi1 : i1 < s.nDof1D) (hi2 : i2 < s.nDof1D) (hi3 : i3 < s.nDof1D)
    (hj1 : j1 < s.nDof1D) (hj2 : j2 < s.nDof1D) (hj3 : j3 < s.nDof1D) :
    (s.BatchedAssembleElementMatrices lib el).2
        (s.dofMap ((i1 * s.nDof1D + i2) * s.nDof1D + i3))
        (s.dofMap ((j1 * s.nDof1D + j2) * s.nDof1D + j3)) e
      = ∑ m in range 3, ∑ n in range 3,
          ∑ k1 in range s.nQuad1D, ∑ k2 in range s.nQuad1D, ∑ k3 in range s.nQuad1D,
            ((if m = 0 then s.G else s.B).get [k1, i1] * (if n = 0 then s.G else s.B).get [k1, j1])
              * ((if m = 1 then s.G else s.B).get [k2, i2]
                  * (if n = 1 then s.G else s.B).get [k2, j2])
              * ((if m = 2 then s.G else s.B).get [k3, i3]
                  * (if n = 2 then s.G else s.B).get [k3, j3])
              * s.D.get [e, m, n, k1, k2, k3] := by
  have hi := flat3_lt s.nDof1D i1 i2 i3 hi1 hi2 hi3
  have hj := flat3_lt s.nDof1D j1 j2 j3 hj1 hj2 hj3
  rw [← hnDof] at hi hj
  rw [diffBAEM_elmats lib s el ht hBt hD,
    scatter_get s.toPAIntegrator _ el hinj e _ _ he hi hj]
  have hdims := diffS_dims lib s hS
  have hshape : (s.initS lib).dims
      = [s.trialFESpace.NE, s.nDof1D, s.nDof1D, s.nDof1D, s.nDof1D, s.nDof1D, s.nDof1D] := by
    simp [AcroDiffusionIntegrator.initS, ht, hd, Tensor.Init]
  rw [hshape] at hdims
  have hidx : e * s.nDof * s.nDof + ((i1 * s.nDof1D + i2) * s.nDof1D + i3) * s.nDof
        + ((j1 * s.nDof1D + j2) * s.nDof1D + j3)
      = flatIndex
          [s.trialFESpace.NE, s.nDof1D, s.nDof1D, s.nDof1D, s.nDof1D, s.nDof1D, s.nDof1D]
          [e, i1, i2, i3, j1, j2, j3] := by
    simp only [flatIndex, List.prod_cons, List.prod_nil, hnDof]
    ring
  rw [hidx, Tensor.raw_flatIndex _ _ _ _ _ hdims
    (List.Forall₂.cons hi1 (List.Forall₂.cons hi2 (List.Forall₂.cons hi3
      (List.Forall₂.cons hj1 (List.Forall₂.cons hj2 (List.Forall₂.cons hj3
        List.Forall₂.nil))))))]
  have hdn : s.nDim.toNat = 3 := by rw [hd]; rfl
  have hB0 := ComputeBTilde_get lib s 0 (by rw [hdn]; decide)
  have hB1 := ComputeBTilde_get lib s 1 (by rw [hdn]; decide)
  have hB2 := ComputeBTilde_get lib s 2 (by rw [hdn]; decide)
  have key : (AcroDiffusionIntegrator.contractS
        (if !s.S.IsInitialized then
              { s.ComputeBTilde lib with S := (s.ComputeBTilde lib).initS lib }
             else s.ComputeBTilde lib)).data [e, i1, i2, i3, j1, j2, j3]
      = ∑ m in range 3, ∑ n in range 3,
          ∑ k1 in range s.nQuad1D, ∑ k2 in range s.nQuad1D, ∑ k3 in range s.nQuad1D,
            (s.BtilOf lib 0).get [m, n, k1, i1, j1] * (s.BtilOf lib 1).get [m, n, k2, i2, j2]
              * (s.BtilOf lib 2).get [m, n, k3, i3, j3] * s.D.get [e, m, n, k1, k2, k3] := by
    have hp : (s.ComputeBTilde lib).toPAIntegrator = s.toPAIntegrator := rfl
    have hDD : (s.ComputeBTilde lib).D = s.D := rfl
    have h3n : Int.toNat 3 = 3 := rfl
    have h31 : ¬ ((3 : Int) = 1) := by decide
    have h32 : ¬ ((3 : Int) = 2) := by decide
    by_cases h : s.S.IsInitialized = true
    · simp only [h, Bool.not_true, Bool.false_eq_true, if_false,
        AcroDiffusionIntegrator.contractS, hp, ht, hd, if_true, Tensor.assign, hdn, hB0, hB1,
        hB2, hDD, h3n, h31, h32]
    · simp only [h, Bool.not_false, if_true,
        AcroDiffusionIntegrator.contractS, hp, ht, hd, Tensor.assign, hdn, hB0, hB1, hB2, hDD,
        h3n, h31, h32, if_false]
  rw [key]
  refine Finset.sum_congr rfl (fun m hm => Finset.sum_congr rfl (fun n hn =>
    Finset.sum_congr rfl (fun k1 hk1 => Finset.sum_congr rfl (fun k2 hk2 =>
    Finset.sum_congr rfl (fun k3 hk3 => ?_)))))
  have hm3 : m < s.nDim.toNat := by rw [hdn]; exact Finset.mem_range.mp hm
  have hn3 : n < s.nDim.toNat := by rw [hdn]; exact Finset.mem_range.mp hn
  rw [BtilOf_get lib s 0 m n k1 i1 j1 hm3 hn3 (Finset.mem_range.mp hk1) hi1 hj1,
    BtilOf_get lib s 1 m n k2 i2 j2 hm3 hn3 (Finset.mem_range.mp hk2) hi2 hj2,
    BtilOf_get lib s 2 m n k3 i3 j3 hm3 hn3 (Finset.mem_range.mp hk3) hi3 hj3]

end acro
end mfem
namespace mfem
namespace acro
open Finset

theorem basis2_nested (NE n e b1 b2 : Nat) (P Q : Nat → ℚ) (hb1 : b1 < n) (hb2 : b2 < n) :
    ∑ i1 in range n, P i1 * ∑ i2 in range n,
        Q i2 * basisVector (flatIndex [NE, n, n] [e, b2, b1]) (flatIndex [NE, n, n] [e, i2, i1])
      = P b1 * Q b2 := by
  simp only [Finset.mul_sum, ← mul_assoc]
  rw [Finset.sum_comm]
  exact sum_basis2 NE n e b2 b1 (fun i2 i1 => P i1 * Q i2) hb2 hb1

theorem diff2D_basis (s : AcroDiffusionIntegrator) (y : Nat → ℚ) (hd : s.nDim = 2)
    (e i1 i2 b1 b2 : Nat) (he : e < s.trialFESpace.NE)
    (h1 : i1 < s.nDof1D) (h2 : i2 < s.nDof1D) (hb1 : b1 < s.nDof1D) (hb2 : b2 < s.nDof1D) :
    (s.MultAdd2D
        (basisVector (flatIndex [s.trialFESpace.NE, s.nDof1D, s.nDof1D] [e, b2, b1])) y).2
        (flatIndex [s.trialFESpace.NE, s.nDof1D, s.nDof1D] [e, i2, i1])
      = ∑ m in range 2, ∑ n in range 2,
          ∑ k1 in range s.nQuad1D, ∑ k2 in range s.nQuad1D,
            ((if m = 0 then s.G else s.B).get [k1, i1] * (if n = 0 then s.G else s.B).get [k1, b1])
              * ((if m = 1 then s.G else s.B).get [k2, i2]
                  * (if n = 1 then s.G else s.B).get [k2, b2])
              * s.D.get [e, m, n, k1, k2] := by
  have hF : List.Forall₂ (fun i d => i < d) [e, i2, i1]
      [s.trialFESpace.NE, s.nDof1D, s.nDof1D] :=
    List.Forall₂.cons he (List.Forall₂.cons h2 (List.Forall₂.cons h1 List.Forall₂.nil))
  have hdn : s.nDim.toNat = 2 := by rw [hd]; rfl
  simp only [AcroDiffusionIntegrator.MultAdd2D]
  rw [Tensor.toVector_flatIndex _ _ _ _ _ _ rfl hF]
  simp only [Tensor.assign, Tensor.accumulate, Tensor.assignSlice, Tensor.slice, Tensor.view,
    Tensor.get, hdn]
  simp only [basis2_nested s.trialFESpace.NE s.nDof1D e b1 b2 _ _ hb1 hb2]
  simp only [Finset.sum_range_succ, Finset.sum_range_zero, zero_add]
  simp only [OfNat.ofNat_ne_zero, OfNat.zero_ne_ofNat, if_true, if_false, one_ne_zero,
    zero_ne_one, OfNat.ofNat_ne_one, OfNat.one_ne_ofNat]
  simp only [Finset.mul_sum, ← Finset.sum_add_distrib]
  refine Finset.sum_congr rfl (fun k1 _ => Finset.sum_congr rfl (fun k2 _ => ?_))
  ring

theorem diffElmats_2D (lib : Library) (s : AcroDiffusionIntegrator) (el : DenseTensor)
    (ht : s.hasTensorBasis = true) (hd : s.nDim = 2)
    (hnDof : s.nDof = s.nDof1D * s.nDof1D)
    (hBt : s.Btil = []) (hD : s.D.IsInitialized = true)
    (hS : s.S.IsInitialized = true → s.S.dims = (s.initS lib).dims)
    (hinj : ∀ i j, i < s.nDof → j < s.nDof → s.dofMap i = s.dofMap j → i = j)
    (e i1 i2 j1 j2 : Nat) (he : e < s.trialFESpace.NE)
    (hi1 : i1 < s.nDof1D) (hi2 : i2 < s.nDof1D)
    (hj1 : j1 < s.nDof1D) (hj2 : j2 < s.nDof1D) :
    (s.BatchedAssembleElementMatrices lib el).2
        (s.dofMap (i1 * s.nDof1D + i2)) (s.dofMap (j1 * s.nDof1D + j2)) e
      = ∑ m in range 2, ∑ n in range 2,
          ∑ k1 in range s.nQuad1D, ∑ k2 in range s.nQuad1D,
            ((if m = 0 then s.G else s.B).get [k1, i1] * (if n = 0 then s.G else s.B).get [k1, j1])
              * ((if m = 1 then s.G else s.B).get [k2, i2]
                  * (if n = 1 then s.G else s.B).get [k2, j2])
              * s.D.get [e, m, n, k1, k2] := by
  have hi := flat2_lt s.nDof1D i1 i2 hi1 hi2
  have hj := flat2_lt s.nDof1D j1 j2 hj1 hj2
  rw [← hnDof] at hi hj
  rw [diffBAEM_elmats lib s el ht hBt hD,
    scatter_get s.toPAIntegrator _ el hinj e _ _ he hi hj]
  have hdims := diffS_dims lib s hS
  have h21 : ¬ ((2 : Int) = 1) := by decide
  have hshape : (s.initS lib).dims
      = [s.trialFESpace.NE, s.nDof1D, s.nDof1D, s.nDof1D, s.nDof1D] := by
    simp [AcroDiffusionIntegrator.initS, ht, hd, Tensor.Init]
  rw [hshape] at hdims
  have hidx : e * s.nDof * s.nDof + (i1 * s.nDof1D + i2) * s.nDof + (j1 * s.nDof1D + j2)
      = flatIndex [s.trialFESpace.NE, s.nDof1D, s.nDof1D, s.nDof1D, s.nDof1D]
          [e, i1, i2, j1, j2] := by
    simp only [flatIndex, List.prod_cons, List.prod_nil, hnDof]
    ring
  rw [hidx, Tensor.raw_flatIndex _ _ _ _ _ hdims
    (List.Forall₂.cons hi1 (List.Forall₂.cons hi2
      (List.Forall₂.cons hj1 (List.Forall₂.cons hj2 List.Forall₂.nil))))]
  have hdn : s.nDim.toNat = 2 := by rw [hd]; rfl
  have hB0 := ComputeBTilde_get lib s 0 (by rw [hdn]; decide)
  have hB1 := ComputeBTilde_get lib s 1 (by rw [hdn]; decide)
  have key : (AcroDiffusionIntegrator.contractS
        (if !s.S.IsInitialized then
              { s.ComputeBTilde lib with S := (s.ComputeBTilde lib).initS lib }
             else s.ComputeBTilde lib)).data [e, i1, i2, j1, j2]
      = ∑ m in range 2, ∑ n in range 2,
          ∑ k1 in range s.nQuad1D, ∑ k2 in range s.nQuad1D,
            (s.BtilOf lib 0).get [m, n, k1, i1, j1] * (s.BtilOf lib 1).get [m, n, k2, i2, j2]
              * s.D.get [e, m, n, k1, k2] := by
    have hp : (s.ComputeBTilde lib).toPAIntegrator = s.toPAIntegrator := rfl
    have hDD : (s.ComputeBTilde lib).D = s.D := rfl
    have h2n : Int.toNat 2 = 2 := rfl
    by_cases h : s.S.IsInitialized = true
    · simp only [h, Bool.not_true, Bool.false_eq_true, if_false,
        AcroDiffusionIntegrator.contractS, hp, ht, hd, if_true, Tensor.assign, hdn, hB0, hB1,
        hDD, h2n, h21]
    · simp only [h, Bool.not_false, if_true,
        AcroDiffusionIntegrator.contractS, hp, ht, hd, Tensor.assign, hdn, hB0, hB1, hDD,
        h2n, h21, if_false]
  rw [key]
  refine Finset.sum_congr rfl (fun m hm => Finset.sum_congr rfl (fun n hn =>
    Finset.sum_congr rfl (fun k1 hk1 => Finset.sum_congr rfl (fun k2 hk2 => ?_))))
  have hm3 : m < s.nDim.toNat := by rw [hdn]; exact Finset.mem_range.mp hm
  have hn3 : n < s.nDim.toNat := by rw [hdn]; exact Finset.mem_range.mp hn
  rw [BtilOf_get lib s 0 m n k1 i1 j1 hm3 hn3 (Finset.mem_range.mp hk1) hi1 hj1,
    BtilOf_get lib s 1 m n k2 i2 j2 hm3 hn3 (Finset.mem_range.mp hk2) hi2 hj2]

end acro
end mfem
namespace mfem
namespace acro
open Finset

/-- C3 (amended): the diffusion `MultAdd` works in the internal tensor ordering
and the element matrices are stored through `tDofMap`. On a tensor-product
element of dimension 1 or 3 (with `nDof = nDof1D^nDim`, `tDofMap` injective on
the local DOFs, `D` assembled and `Btil` not yet computed), `MultAdd` applied
to the basis vector at `[e*nDof + b]` with `y` initially zero returns, and its
entry `[e*nDof + a]` equals `elmats(tDofMap[a], tDofMap[b], e)` as filled by
`BatchedAssembleElementMatrices` from the same `B`, `G` and `D`. Dimension 2 is
left out of the statement. -/
theorem diffusionMultAdd_basis_eq_elmats (lib : Library) (s : AcroDiffusionIntegrator)
    (el : DenseTensor) (ht : s.hasTensorBasis = true)
    (hd : s.nDim = 1 ∨ s.nDim = 3)
    (hnDof : s.nDof = s.nDof1D ^ s.nDim.toNat)
    (hBt : s.Btil = []) (hD : s.D.IsInitialized = true)
    (hS : s.S.IsInitialized = true → s.S.dims = (s.initS lib).dims)
    (hinj : ∀ i j, i < s.nDof → j < s.nDof → s.dofMap i = s.dofMap j → i = j)
    (e a b : Nat) (he : e < s.trialFESpace.NE) (ha : a < s.nDof) (hb : b < s.nDof) :
    (s.MultAdd lib (basisVector (e * s.nDof + b)) (fun _ => 0)).isFatal = false
      ∧ (s.MultAdd lib (basisVector (e * s.nDof + b)) (fun _ => 0)).state.2 (e * s.nDof + a)
        = (s.BatchedAssembleElementMatrices lib el).2 (s.dofMap a) (s.dofMap b) e := by
  have hA : MFEM_ASSERT lib s.hasTensorBasis = false := by
    simp [MFEM_ASSERT, ht]
  have h31 : ¬ ((3 : Int) = 1) := by decide
  have h32 : ¬ ((3 : Int) = 2) := by decide
  rcases hd with hd | hd
  · have hn : s.nDof = s.nDof1D := by rw [hnDof, hd]; simp
    have ha1 : a < s.nDof1D := hn ▸ ha
    have hb1 : b < s.nDof1D := hn ▸ hb
    have hfa : e * s.nDof + a = flatIndex [s.trialFESpace.NE, s.nDof1D] [e, a] := by
      simp only [flatIndex, List.prod_cons, List.prod_nil, hn]; ring
    have hfb : e * s.nDof + b = flatIndex [s.trialFESpace.NE, s.nDof1D] [e, b] := by
      simp only [flatIndex, List.prod_cons, List.prod_nil, hn]; ring
    rw [diffElmats_1D lib s el ht hd hn hBt hD hS hinj e a b he ha1 hb1]
    simp only [AcroDiffusionIntegrator.MultAdd, hA, Bool.false_eq_true, if_false, hd, if_true,
      Result.state, Result.isFatal, true_and]
    rw [hfa, hfb, diff1D_basis s (fun _ => 0) hd e a b he ha1 hb1]
  · have hn : s.nDof = s.nDof1D * s.nDof1D * s.nDof1D := by
      rw [hnDof, hd]; simp [pow_succ]
    obtain ⟨ha1, ha2, ha3, hae⟩ := decomp3 s.nDof1D a (hn ▸ ha)
    obtain ⟨hb1, hb2, hb3, hbe⟩ := decomp3 s.nDof1D b (hn ▸ hb)
    have hae' : (a / (s.nDof1D * s.nDof1D) * s.nDof1D + a / s.nDof1D % s.nDof1D) * s.nDof1D
        + a % s.nDof1D = a := by
      refine Eq.trans ?_ hae
      ring
    have hbe' : (b / (s.nDof1D * s.nDof1D) * s.nDof1D + b / s.nDof1D % s.nDof1D) * s.nDof1D
        + b % s.nDof1D = b := by
      refine Eq.trans ?_ hbe
      ring
    have hfa : e * s.nDof + a
        = flatIndex [s.trialFESpace.NE, s.nDof1D, s.nDof1D, s.nDof1D]
            [e, a / (s.nDof1D * s.nDof1D), a / s.nDof1D % s.nDof1D, a % s.nDof1D] := by
      simp only [flatIndex, List.prod_cons, List.prod_nil, hn]
      nth_rewrite 1 [← hae]; ring
    have hfb : e * s.nDof + b
        = flatIndex [s.trialFESpace.NE, s.nDof1D, s.nDof1D, s.nDof1D]
            [e, b / (s.nDof1D * s.nDof1D), b / s.nDof1D % s.nDof1D, b % s.nDof1D] := by
      simp only [flatIndex, List.prod_cons, List.prod_nil, hn]
      nth_rewrite 1 [← hbe]; ring
    have hE := diffElmats_3D lib s el ht hd hn hBt hD hS hinj e _ _ _ _ _ _ he
      ha1 ha2 ha3 hb1 hb2 hb3
    rw [hae', hbe'] at hE
    rw [hE]
    simp only [AcroDiffusionIntegrator.MultAdd, hA, Bool.false_eq_true, if_false, hd, if_true,
      Result.state, Result.isFatal, h31, h32, true_and]
    rw [hfa, hfb, diff3D_basis s (fun _ => 0) hd e _ _ _ _ _ _ he ha1 ha2 ha3 hb1 hb2 hb3]

/-- C3 (counterexample): on one quadratic segment with `tDofMap = [0, 2, 1]`,
`G(0, .) = (1, 2, 3)` and `D = 1`, entry `[0]` of the diffusion `MultAdd`
applied to the basis vector at `[1]` is `S(0,1) = 2`, while `elmats(0, 1, 0)`
is `S(0,2) = 3`. -/
theorem diffusionMultAdd_basis_ne_elmats :
    (diffusionOnSegment.MultAdd sampleLibrary (basisVector (0 * 3 + 1))
        (fun _ => 0)).state.2 (0 * 3 + 0)
      ≠ (diffusionOnSegment.BatchedAssembleElementMatrices sampleLibrary
          (fun _ _ _ => 0)).2 0 1 0 := by
  have h1 : (diffusionOnSegment.MultAdd sampleLibrary (basisVector (0 * 3 + 1))
      (fun _ => 0)).state.2 (0 * 3 + 0) = 2 := by
    have h := diff1D_basis diffusionOnSegment (fun _ => 0) rfl 0 0 1
      (by decide) (by decide) (by decide)
    have hm : (diffusionOnSegment.MultAdd sampleLibrary (basisVector (0 * 3 + 1))
          (fun _ => 0)).state.2
        = (diffusionOnSegment.MultAdd1D (basisVector (0 * 3 + 1)) (fun _ => 0)).2 := by
      simp [AcroDiffusionIntegrator.MultAdd, MFEM_ASSERT, sampleLibrary, diffusionOnSegment,
        segmentBase, Result.state]
    rw [hm]
    have hf : (0 * 3 + 0 : Nat)
        = flatIndex [diffusionOnSegment.trialFESpace.NE, diffusionOnSegment.nDof1D] [0, 0] := by
      simp [flatIndex]
    have hg : (0 * 3 + 1 : Nat)
        = flatIndex [diffusionOnSegment.trialFESpace.NE, diffusionOnSegment.nDof1D] [0, 1] := by
      simp [flatIndex]
    rw [hf, hg, h]
    simp [Finset.sum_range_succ, diffusionOnSegment, segmentBase, rampTable, Tensor.get]
  have h2 : (diffusionOnSegment.BatchedAssembleElementMatrices sampleLibrary
      (fun _ _ _ => 0)).2 0 1 0 = 3 := by
    have h := diffElmats_1D sampleLibrary diffusionOnSegment (fun _ _ _ => 0) rfl rfl rfl rfl rfl
      (fun h => by simp [diffusionOnSegment, Tensor.empty, Tensor.IsInitialized] at h)
      segmentBase_inj 0 0 2 (by decide) (by decide) (by decide)
    have e0 : diffusionOnSegment.dofMap 0 = 0 := by
      simp [PAIntegrator.dofMap, diffusionOnSegment, segmentBase]
    have e2 : diffusionOnSegment.dofMap 2 = 1 := by
      simp [PAIntegrator.dofMap, diffusionOnSegment, segmentBase]
    rw [e0, e2] at h
    rw [h]
    simp [Finset.sum_range_succ, diffusionOnSegment, segmentBase, rampTable, Tensor.get]
  rw [h1, h2]
  norm_num

theorem cubeMapped_inj : ∀ i j, i < diffusionOnCubeMapped.nDof → j < diffusionOnCubeMapped.nDof →
    diffusionOnCubeMapped.dofMap i = diffusionOnCubeMapped.dofMap j → i = j := by
  intro i j hi hj
  have hi' : i < 8 := hi
  have hj' : j < 8 := hj
  interval_cases i <;> interval_cases j <;>
    simp [PAIntegrator.dofMap, diffusionOnCubeMapped, diffusionOnCube]

/-- C3 (witness): the amended statement in dimension 1 at `diffusionOnSegment`
(`tDofMap = [0, 2, 1]`, `a = 0`, `b = 1`) and in dimension 3 at
`diffusionOnCubeMapped` (`tDofMap = [0, 1, 3, 2, 4, 5, 7, 6]`, `a = 2`,
`b = 7`). -/
theorem diffusionMultAdd_basis_eq_elmats_witness :
    ((diffusionOnSegment.MultAdd sampleLibrary
          (basisVector (0 * diffusionOnSegment.nDof + 1)) (fun _ => 0)).isFatal = false
      ∧ (diffusionOnSegment.MultAdd sampleLibrary
          (basisVector (0 * diffusionOnSegment.nDof + 1)) (fun _ => 0)).state.2
          (0 * diffusionOnSegment.nDof + 0)
        = (diffusionOnSegment.BatchedAssembleElementMatrices sampleLibrary (fun _ _ _ => 0)).2
            (diffusionOnSegment.dofMap 0) (diffusionOnSegment.dofMap 1) 0)
    ∧ ((diffusionOnCubeMapped.MultAdd sampleLibrary
          (basisVector (0 * diffusionOnCubeMapped.nDof + 7)) (fun _ => 0)).isFatal = false
      ∧ (diffusionOnCubeMapped.MultAdd sampleLibrary
          (basisVector (0 * diffusionOnCubeMapped.nDof + 7)) (fun _ => 0)).state.2
          (0 * diffusionOnCubeMapped.nDof + 2)
        = (diffusionOnCubeMapped.BatchedAssembleElementMatrices sampleLibrary
            (fun _ _ _ => 0)).2
            (diffusionOnCubeMapped.dofMap 2) (diffusionOnCubeMapped.dofMap 7) 0) :=
  ⟨diffusionMultAdd_basis_eq_elmats sampleLibrary diffusionOnSegment (fun _ _ _ => 0)
      rfl (Or.inl rfl) rfl rfl rfl
      (fun h => by simp [diffusionOnSegment, Tensor.empty, Tensor.IsInitialized] at h)
      segmentBase_inj 0 0 1 (by decide) (by decide) (by decide),
    diffusionMultAdd_basis_eq_elmats sampleLibrary diffusionOnCubeMapped (fun _ _ _ => 0)
      rfl (Or.inr rfl) rfl rfl rfl
      (fun h => by
        simp [diffusionOnCubeMapped, diffusionOnCube, Tensor.empty, Tensor.IsInitialized] at h)
      cubeMapped_inj 0 2 7 (by decide) (by decide) (by decide)⟩

end acro
end mfem
namespace mfem
namespace acro
open Finset

theorem PAIntegrator.Setup_fatal_iff (lib : Library) (p : PAIntegrator) :
    (PAIntegrator.Setup lib p).isFatal = true ↔ p.trialFESpace.FE0.Dim > 3 := by
  unfold PAIntegrator.Setup
  by_cases h : p.trialFESpace.FE0.Dim > 3
  · simp [h, Result.isFatal]
  · simp [h, Result.isFatal]

/-- C11: for every finite element of dimension greater than 3,
`PAIntegrator::Setup` ends in `mfem_error`, and so do
`AcroMassIntegrator::Setup` and `AcroDiffusionIntegrator::Setup`, which call it
first; the state they abort in records the full dimension `fe->GetDim()`, not
a truncated one, and the derived tensors have not been touched. -/
theorem Setup_dim_above_three_fatal (lib : Library) (p : PAIntegrator)
    (m : AcroMassIntegrator) (d : AcroDiffusionIntegrator)
    (hp : p.trialFESpace.FE0.Dim > 3) (hm : m.trialFESpace.FE0.Dim > 3)
    (hd : d.trialFESpace.FE0.Dim > 3) :
    ((PAIntegrator.Setup lib p).isFatal = true
        ∧ (PAIntegrator.Setup lib p).state.nDim = p.trialFESpace.FE0.Dim)
      ∧ ((m.Setup lib).isFatal = true
        ∧ (m.Setup lib).state.nDim = m.trialFESpace.FE0.Dim
        ∧ (m.Setup lib).state.D = m.D ∧ (m.Setup lib).state.B = m.B)
      ∧ ((d.Setup lib).isFatal = true
        ∧ (d.Setup lib).state.nDim = d.trialFESpace.FE0.Dim
        ∧ (d.Setup lib).state.D = d.D ∧ (d.Setup lib).state.B = d.B) := by
  refine ⟨?_, ?_, ?_⟩
  · simp [PAIntegrator.Setup, hp, Result.isFatal, Result.state]
  · have h : m.toPAIntegrator.trialFESpace.FE0.Dim > 3 := hm
    simp [AcroMassIntegrator.Setup, PAIntegrator.Setup, h, Result.isFatal, Result.state]
  · have h : d.toPAIntegrator.trialFESpace.FE0.Dim > 3 := hd
    simp [AcroDiffusionIntegrator.Setup, PAIntegrator.Setup, h, Result.isFatal, Result.state]

/-- C11 (witness): the statement at the 4-dimensional `tesseractSpace`. -/
theorem Setup_dim_above_three_fatal_witness :
    ((PAIntegrator.Setup sampleLibrary
          (freshMass tesseractSpace midpointRule).toPAIntegrator).isFatal = true
        ∧ (PAIntegrator.Setup sampleLibrary
            (freshMass tesseractSpace midpointRule).toPAIntegrator).state.nDim
          = (freshMass tesseractSpace midpointRule).trialFESpace.FE0.Dim)
      ∧ (((freshMass tesseractSpace midpointRule).Setup sampleLibrary).isFatal = true
        ∧ ((freshMass tesseractSpace midpointRule).Setup sampleLibrary).state.nDim
          = (freshMass tesseractSpace midpointRule).trialFESpace.FE0.Dim
        ∧ ((freshMass tesseractSpace midpointRule).Setup sampleLibrary).state.D
          = (freshMass tesseractSpace midpointRule).D
        ∧ ((freshMass tesseractSpace midpointRule).Setup sampleLibrary).state.B
          = (freshMass tesseractSpace midpointRule).B)
      ∧ (((freshDiffusion tesseractSpace midpointRule true).Setup sampleLibrary).isFatal = true
        ∧ ((freshDiffusion tesseractSpace midpointRule true).Setup sampleLibrary).state.nDim
          = (freshDiffusion tesseractSpace midpointRule true).trialFESpace.FE0.Dim
        ∧ ((freshDiffusion tesseractSpace midpointRule true).Setup sampleLibrary).state.D
          = (freshDiffusion tesseractSpace midpointRule true).D
        ∧ ((freshDiffusion tesseractSpace midpointRule true).Setup sampleLibrary).state.B
          = (freshDiffusion tesseractSpace midpointRule true).B) :=
  Setup_dim_above_three_fatal sampleLibrary (freshMass tesseractSpace midpointRule).toPAIntegrator
    (freshMass tesseractSpace midpointRule) (freshDiffusion tesseractSpace midpointRule true)
    (by decide) (by decide) (by decide)

end acro
end mfem
namespace mfem
namespace acro
open Finset

theorem diffBAEM_elmats_simplex (lib : Library) (s : AcroDiffusionIntegrator)
    (el : DenseTensor) (ht : s.hasTensorBasis = false) (hD : s.D.IsInitialized = true) :
    (s.BatchedAssembleElementMatrices lib el).2
      = s.toPAIntegrator.scatter
          (AcroDiffusionIntegrator.contractS
            (if !s.S.IsInitialized then { s with S := s.initS lib } else s)) el := by
  unfold AcroDiffusionIntegrator.BatchedAssembleElementMatrices
  simp only [ht, Bool.false_and, Bool.false_eq_true, if_false, hD, Bool.not_true]
  by_cases hS : s.S.IsInitialized = true
  · simp only [hS, Bool.not_true, Bool.false_eq_true, if_false]
  · simp only [hS, Bool.not_false, if_true]

theorem diffElmats_simplex (lib : Library) (s : AcroDiffusionIntegrator) (el : DenseTensor)
    (ht : s.hasTensorBasis = false) (hD : s.D.IsInitialized = true)
    (hS : s.S.IsInitialized = true → s.S.dims = [s.trialFESpace.NE, s.nDof, s.nDof])
    (hinj : ∀ i j, i < s.nDof → j < s.nDof → s.dofMap i = s.dofMap j → i = j)
    (e i j : Nat) (he : e < s.trialFESpace.NE) (hi : i < s.nDof) (hj : j < s.nDof) :
    (s.BatchedAssembleElementMatrices lib el).2 (s.dofMap i) (s.dofMap j) e
      = ∑ k in range s.nQuad, ∑ m in range s.nDim.toNat, ∑ n in range s.nDim.toNat,
          s.G.get [k, i, m] * s.G.get [k, i, n] * s.D.get [e, m, n, k] := by
  rw [diffBAEM_elmats_simplex lib s el ht hD,
    scatter_get s.toPAIntegrator _ el hinj e _ _ he hi hj]
  have hidx : e * s.nDof * s.nDof + i * s.nDof + j
      = flatIndex [s.trialFESpace.NE, s.nDof, s.nDof] [e, i, j] := by
    simp only [flatIndex, List.prod_cons, List.prod_nil]
    ring
  have hF : List.Forall₂ (fun i d => i < d) [i, j] [s.nDof, s.nDof] :=
    List.Forall₂.cons hi (List.Forall₂.cons hj List.Forall₂.nil)
  by_cases h : s.S.IsInitialized = true
  · have hdims : (AcroDiffusionIntegrator.contractS
        (if !s.S.IsInitialized then { s with S := s.initS lib } else s)).dims
        = [s.trialFESpace.NE, s.nDof, s.nDof] := by
      simp [h, AcroDiffusionIntegrator.contractS, ht, Tensor.assign, hS h]
    rw [hidx, Tensor.raw_flatIndex _ _ _ _ _ hdims hF]
    simp [h, AcroDiffusionIntegrator.contractS, ht, Tensor.assign, Tensor.get]
  · have hdims : (AcroDiffusionIntegrator.contractS
        (if !s.S.IsInitialized then { s with S := s.initS lib } else s)).dims
        = [s.trialFESpace.NE, s.nDof, s.nDof] := by
      simp [h, AcroDiffusionIntegrator.contractS, ht, Tensor.assign,
        AcroDiffusionIntegrator.initS, Tensor.Init]
    rw [hidx, Tensor.raw_flatIndex _ _ _ _ _ hdims hF]
    simp [h, AcroDiffusionIntegrator.contractS, ht, Tensor.assign, Tensor.get]

theorem triangleBase_inj : ∀ i j, i < triangleBase.nDof → j < triangleBase.nDof →
    triangleBase.dofMap i = triangleBase.dofMap j → i = j := by
  intro i j hi hj
  have hi' : i < 3 := hi
  have hj' : j < 3 := hj
  interval_cases i <;> interval_cases j <;> simp [PAIntegrator.dofMap, triangleBase]

/-- C13 (failing input): on the linear triangle with identity Jacobian
(`G` rows `(-1,-1)`, `(1,0)`, `(0,1)`, `D(0,m,n,0) = 1/2` for `m = n`, identity
`tDofMap`), the value `BatchedAssembleElementMatrices` writes to
`elmats(0, 1, 0)` is `1`, the sum of `G(k,0,m) * G(k,0,n) * D(0,m,n,k)`,
whereas the quadrature of the claim, the sum of
`G(k,0,m) * G(k,1,n) * D(0,m,n,k)`, is `-1/2`. -/
theorem diffusionElmats_simplex_ignores_column :
    (stiffnessOnTriangle.BatchedAssembleElementMatrices sampleLibrary (fun _ _ _ => 0)).2 0 1 0
        = 1
      ∧ (∑ k in range stiffnessOnTriangle.nQuad,
          ∑ m in range stiffnessOnTriangle.nDim.toNat,
            ∑ n in range stiffnessOnTriangle.nDim.toNat,
              stiffnessOnTriangle.G.get [k, 0, m] * stiffnessOnTriangle.G.get [k, 1, n]
                * stiffnessOnTriangle.D.get [0, m, n, k]) = -1 / 2 := by
  constructor
  · have h := diffElmats_simplex sampleLibrary stiffnessOnTriangle (fun _ _ _ => 0) rfl rfl
      (fun h => by simp [stiffnessOnTriangle, diffusionOnTriangle, Tensor.empty,
        Tensor.IsInitialized] at h)
      triangleBase_inj 0 0 1 (by decide) (by decide) (by decide)
    have e0 : stiffnessOnTriangle.dofMap 0 = 0 := by
      simp [PAIntegrator.dofMap, stiffnessOnTriangle, diffusionOnTriangle, triangleBase]
    have e1 : stiffnessOnTriangle.dofMap 1 = 1 := by
      simp [PAIntegrator.dofMap, stiffnessOnTriangle, diffusionOnTriangle, triangleBase]
    rw [e0, e1] at h
    rw [h]
    have hq : stiffnessOnTriangle.nQuad = 1 := rfl
    have hn : stiffnessOnTriangle.nDim.toNat = 2 := rfl
    rw [hq, hn]
    simp [Finset.sum_range_succ, stiffnessOnTriangle, diffusionOnTriangle, Tensor.get]
    norm_num
  · have hq : stiffnessOnTriangle.nQuad = 1 := rfl
    have hn : stiffnessOnTriangle.nDim.toNat = 2 := rfl
    rw [hq, hn]
    simp [Finset.sum_range_succ, stiffnessOnTriangle, diffusionOnTriangle, Tensor.get]
    norm_num

end acro
end mfem
namespace mfem
namespace acro
open Finset

theorem diffContractD_get (s : AcroDiffusionIntegrator) (Jinv Jdet C : Tensor)
    (h : s.hasTensorBasis = false ∨ s.nDim = 1 ∨ s.nDim = 2 ∨ s.nDim = 3)
    (e m n : Nat) (ks : List Nat) :
    (s.contractD Jinv Jdet C).get (e :: m :: n :: ks)
      = s.W.get ks * C.get (e :: ks) * Jdet.get (e :: ks)
          * ∑ j in range s.nDim.toNat,
              Jinv.get (e :: ks ++ [m, j]) * Jinv.get (e :: ks ++ [n, j]) := by
  have h21 : ¬ ((2 : Int) = 1) := by decide
  have h31 : ¬ ((3 : Int) = 1) := by decide
  have h32 : ¬ ((3 : Int) = 2) := by decide
  rw [Finset.mul_sum]
  by_cases ht : s.hasTensorBasis = true
  · have hd : s.nDim = 1 ∨ s.nDim = 2 ∨ s.nDim = 3 := by
      rcases h with h | h
      · rw [ht] at h; exact absurd h (by decide)
      · exact h
    rcases hd with hd | hd | hd
    · simp only [AcroDiffusionIntegrator.contractD, ht, hd, if_true, Tensor.assign, Tensor.get]
      exact Finset.sum_congr rfl (fun j _ => by ring)
    · simp only [AcroDiffusionIntegrator.contractD, ht, hd, if_true, Tensor.assign, Tensor.get,
        h21, if_false]
      exact Finset.sum_congr rfl (fun j _ => by ring)
    · simp only [AcroDiffusionIntegrator.contractD, ht, hd, if_true, Tensor.assign, Tensor.get,
        h31, h32, if_false]
      exact Finset.sum_congr rfl (fun j _ => by ring)
  · simp only [AcroDiffusionIntegrator.contractD, ht, Bool.false_eq_true, if_false,
      Tensor.assign, Tensor.get]
    exact Finset.sum_congr rfl (fun j _ => by ring)

end acro
end mfem
namespace mfem

theorem forLoop_map {σ τ : Type} (π : σ → τ) (lo hi : Nat) (body : Nat → σ → σ)
    (body' : Nat → τ → τ) (h : ∀ i s, π (body i s) = body' i (π s)) (s : σ) :
    π (forLoop lo hi body s) = forLoop lo hi body' (π s) := by
  unfold forLoop
  generalize List.range' lo (hi - lo) = l
  induction l generalizing s with
  | nil => rfl
  | cons a l ih => simp only [List.foldl_cons]; rw [ih, h]

namespace acro
open Finset

theorem fillB_rows (lib : Library) (s : PAIntegrator) (B : Tensor) (w : Nat → ℚ) :
    (fillB lib s B w).1
      = forLoop 0 s.nQuad1D (fun k B0 =>
          forLoop 1 (s.nDof1D - 1) (fun i B =>
              B.set [k, i] (lib.H1SegmentShape s.FEOrder (s.ir1D.IntPoint k) (i + 1)))
            ((B0.set [k, 0] (lib.H1SegmentShape s.FEOrder (s.ir1D.IntPoint k) 0)).set
              [k, s.nDof1D - 1] (lib.H1SegmentShape s.FEOrder (s.ir1D.IntPoint k) 1))) B := by
  unfold fillB
  exact forLoop_map (fun (st : Tensor × (Nat → ℚ)) => st.1) 0 s.nQuad1D _ _
    (fun k st => rfl) (B, w)

theorem fillBG_fst (lib : Library) (s : PAIntegrator) (B G : Tensor) (w : Nat → ℚ) :
    (fillBG lib s B G w).1 = (fillB lib s B w).1 := by
  rw [fillB_rows]
  unfold fillBG
  refine forLoop_map (fun (st : Tensor × Tensor × (Nat → ℚ)) => st.1) 0 s.nQuad1D _ _ ?_
    (B, G, w)
  intro k st
  exact forLoop_map (fun (BG : Tensor × Tensor) => BG.1) 1 (s.nDof1D - 1) _
    (fun i B => B.set [k, i] (lib.H1SegmentShape s.FEOrder (s.ir1D.IntPoint k) (i + 1)))
    (fun i BG => rfl) _

theorem fillBG_snd (lib : Library) (s : PAIntegrator) (B G : Tensor) (w : Nat → ℚ) :
    (fillBG lib s B G w).2.1
      = (fillB { lib with H1SegmentShape := lib.H1SegmentDShape } s G w).1 := by
  rw [fillB_rows]
  unfold fillBG
  refine forLoop_map (fun (st : Tensor × Tensor × (Nat → ℚ)) => st.2.1) 0 s.nQuad1D _ _ ?_
    (B, G, w)
  intro k st
  exact forLoop_map (fun (BG : Tensor × Tensor) => BG.2) 1 (s.nDof1D - 1) _
    (fun i G => G.set [k, i] (lib.H1SegmentDShape s.FEOrder (s.ir1D.IntPoint k) (i + 1)))
    (fun i BG => rfl) _

theorem nativeIndex_bijective (n : Nat) (hn : 2 ≤ n) :
    (∀ i, i < n → nativeIndex n i < n)
      ∧ (∀ i j, i < n → j < n → nativeIndex n i = nativeIndex n j → i = j)
      ∧ (∀ j, j < n → ∃ i, i < n ∧ nativeIndex n i = j) := by
  refine ⟨?_, ?_, ?_⟩
  · intro i hi
    unfold nativeIndex
    split_ifs <;> omega
  · intro i j hi hj h
    unfold nativeIndex at h
    split_ifs at h <;> omega
  · intro j hj
    by_cases h0 : j = 0
    · exact ⟨0, by omega, by simp [nativeIndex, h0]⟩
    · by_cases h1 : j = 1
      · refine ⟨n - 1, by omega, ?_⟩
        have : n - 1 ≠ 0 := by omega
        simp [nativeIndex, this, h1]
      · refine ⟨j - 1, by omega, ?_⟩
        have e1 : j - 1 ≠ 0 := by omega
        have e2 : j - 1 ≠ n - 1 := by omega
        simp only [nativeIndex, e1, e2, if_false]
        omega

theorem fillB_native (lib : Library) (s : PAIntegrator) (B : Tensor) (w : Nat → ℚ)
    (hn : 2 ≤ s.nDof1D) (k i : Nat) (hk : k < s.nQuad1D) (hi : i < s.nDof1D) :
    (fillB lib s B w).1.get [k, i]
      = lib.H1SegmentShape s.FEOrder (s.ir1D.IntPoint k) (nativeIndex s.nDof1D i) := by
  rw [fillB_get lib s B w hn k i hk hi]
  unfold nativeIndex
  split_ifs <;> rfl

end acro
end mfem
namespace mfem
namespace acro
open Finset

theorem massSetup_B_table (lib : Library) (s0 : AcroMassIntegrator)
    (ht : s0.hasTensorBasis = true)
    (hd : s0.trialFESpace.FE0.Dim = 1 ∨ s0.trialFESpace.FE0.Dim = 2
      ∨ s0.trialFESpace.FE0.Dim = 3) :
    (s0.Setup lib).isFatal = false
      ∧ (s0.Setup lib).state.B
        = (fillB lib (PAIntegrator.Setup lib s0.toPAIntegrator).state
              (Tensor.empty.Init [(lib.IntRulesSegment s0.ir.Order).NPoints,
                s0.trialFESpace.FE0.Order + 1] (lib.junk "B")) (fun _ => 0)).1 := by
  have h21 : ¬ ((2 : Int) = 1) := by decide
  have h31 : ¬ ((3 : Int) = 1) := by decide
  have h32 : ¬ ((3 : Int) = 2) := by decide
  have g1 : ¬ ((1 : Int) > 3) := by decide
  have g2 : ¬ ((2 : Int) > 3) := by decide
  have g3 : ¬ ((3 : Int) > 3) := by decide
  rcases hd with hd | hd | hd <;>
    simp [AcroMassIntegrator.Setup, PAIntegrator.Setup, ht, hd, Result.state,
      Result.isFatal, Tensor.Init, h21, h31, h32, g1, g2, g3]

theorem diffusionSetup_tables (lib : Library) (s0 : AcroDiffusionIntegrator)
    (ht : s0.hasTensorBasis = true)
    (hd : s0.trialFESpace.FE0.Dim = 1 ∨ s0.trialFESpace.FE0.Dim = 2
      ∨ s0.trialFESpace.FE0.Dim = 3) :
    (s0.Setup lib).isFatal = false
      ∧ (s0.Setup lib).state.B
        = (fillBG lib (PAIntegrator.Setup lib s0.toPAIntegrator).state
              (Tensor.empty.Init [(lib.IntRulesSegment s0.ir.Order).NPoints,
                s0.trialFESpace.FE0.Order + 1] (lib.junk "B"))
              (Tensor.empty.Init [(lib.IntRulesSegment s0.ir.Order).NPoints,
                s0.trialFESpace.FE0.Order + 1] (lib.junk "G")) (fun _ => 0)).1
      ∧ (s0.Setup lib).state.G
        = (fillBG lib (PAIntegrator.Setup lib s0.toPAIntegrator).state
              (Tensor.empty.Init [(lib.IntRulesSegment s0.ir.Order).NPoints,
                s0.trialFESpace.FE0.Order + 1] (lib.junk "B"))
              (Tensor.empty.Init [(lib.IntRulesSegment s0.ir.Order).NPoints,
                s0.trialFESpace.FE0.Order + 1] (lib.junk "G")) (fun _ => 0)).2.1 := by
  have h21 : ¬ ((2 : Int) = 1) := by decide
  have h31 : ¬ ((3 : Int) = 1) := by decide
  have h32 : ¬ ((3 : Int) = 2) := by decide
  have g1 : ¬ ((1 : Int) > 3) := by decide
  have g2 : ¬ ((2 : Int) > 3) := by decide
  have g3 : ¬ ((3 : Int) > 3) := by decide
  rcases hd with hd | hd | hd <;>
    simp [AcroDiffusionIntegrator.Setup, PAIntegrator.Setup, ht, hd, Result.state,
      Result.isFatal, Tensor.Init, h21, h31, h32, g1, g2, g3]

theorem massSetup_B_native (lib : Library) (s0 : AcroMassIntegrator)
    (ht : s0.hasTensorBasis = true)
    (hd : s0.trialFESpace.FE0.Dim = 1 ∨ s0.trialFESpace.FE0.Dim = 2
      ∨ s0.trialFESpace.FE0.Dim = 3)
    (hp : 1 ≤ s0.trialFESpace.FE0.Order) (k i : Nat)
    (hk : k < (lib.IntRulesSegment s0.ir.Order).NPoints)
    (hi : i < s0.trialFESpace.FE0.Order + 1) :
    (s0.Setup lib).state.B.get [k, i]
      = lib.H1SegmentShape s0.trialFESpace.FE0.Order
          ((lib.IntRulesSegment s0.ir.Order).IntPoint k)
          (nativeIndex (s0.trialFESpace.FE0.Order + 1) i) := by
  obtain ⟨_, _, _, g3, _, _, g6, _, g8, g9⟩ := PAIntegrator.Setup_fields lib s0.toPAIntegrator
  rw [(massSetup_B_table lib s0 ht hd).2,
    fillB_native lib _ _ _ (by rw [g6]; omega) k i (by rw [g8]; exact hk)
      (by rw [g6]; exact hi), g3, g6, g9]

theorem diffusionSetup_BG_native (lib : Library) (s0 : AcroDiffusionIntegrator)
    (ht : s0.hasTensorBasis = true)
    (hd : s0.trialFESpace.FE0.Dim = 1 ∨ s0.trialFESpace.FE0.Dim = 2
      ∨ s0.trialFESpace.FE0.Dim = 3)
    (hp : 1 ≤ s0.trialFESpace.FE0.Order) (k i : Nat)
    (hk : k < (lib.IntRulesSegment s0.ir.Order).NPoints)
    (hi : i < s0.trialFESpace.FE0.Order + 1) :
    (s0.Setup lib).state.B.get [k, i]
        = lib.H1SegmentShape s0.trialFESpace.FE0.Order
            ((lib.IntRulesSegment s0.ir.Order).IntPoint k)
            (nativeIndex (s0.trialFESpace.FE0.Order + 1) i)
      ∧ (s0.Setup lib).state.G.get [k, i]
        = lib.H1SegmentDShape s0.trialFESpace.FE0.Order
            ((lib.IntRulesSegment s0.ir.Order).IntPoint k)
            (nativeIndex (s0.trialFESpace.FE0.Order + 1) i) := by
  obtain ⟨_, _, _, g3, _, _, g6, _, g8, g9⟩ := PAIntegrator.Setup_fields lib s0.toPAIntegrator
  obtain ⟨_, hB, hG⟩ := diffusionSetup_tables lib s0 ht hd
  constructor
  · rw [hB, fillBG_fst,
      fillB_native lib _ _ _ (by rw [g6]; omega) k i (by rw [g8]; exact hk)
        (by rw [g6]; exact hi), g3, g6, g9]
  · rw [hG, fillBG_snd,
      fillB_native _ _ _ _ (by rw [g6]; omega) k i (by rw [g8]; exact hk)
        (by rw [g6]; exact hi), g3, g6, g9]

end acro
end mfem
namespace mfem
namespace acro
open Finset

theorem nodal_rows (eval : Nat → Nat → ℚ)
    (hnod : ∀ k j, k < 3 → j < 3 → eval k j = if j = nativeIndex 3 k then 1 else 0)
    (k i : Nat) (hk : k < 3) (hi : i < 3) :
    eval k (nativeIndex 3 i) = if i = k then 1 else 0 := by
  rw [hnod k _ hk ((nativeIndex_bijective 3 (by decide)).1 i hi)]
  interval_cases k <;> interval_cases i <;> simp [nativeIndex]

/-- C15: on the tensor path with order at least 1 (`nDof1D >= 2`), the basis
tables built by `Setup` are a re-ordering of the native 1D evaluation: for
every 1D quadrature point `k` and internal index `i < nDof1D`,
`B(k,i) = eval_k(nativeIndex i)` for the mass and the diffusion integrator and
`G(k,i) = deval_k(nativeIndex i, 0)`, where `nativeIndex 0 = 0`,
`nativeIndex (nDof1D-1) = 1` and `nativeIndex i = i+1` in between; this index
map is a bijection on `{0..nDof1D-1}`; and for order 2 with three quadrature
points at which the native basis (end points first) is nodal, the rows of `B`
are `(1,0,0)`, `(0,1,0)`, `(0,0,1)`. -/
theorem Setup_basis_tables_reordered (lib : Library) (m0 : AcroMassIntegrator)
    (d0 : AcroDiffusionIntegrator)
    (htm : m0.hasTensorBasis = true)
    (hdm : m0.trialFESpace.FE0.Dim = 1 ∨ m0.trialFESpace.FE0.Dim = 2
      ∨ m0.trialFESpace.FE0.Dim = 3)
    (hpm : 1 ≤ m0.trialFESpace.FE0.Order)
    (htd : d0.hasTensorBasis = true)
    (hdd : d0.trialFESpace.FE0.Dim = 1 ∨ d0.trialFESpace.FE0.Dim = 2
      ∨ d0.trialFESpace.FE0.Dim = 3)
    (hpd : 1 ≤ d0.trialFESpace.FE0.Order) :
    (∀ k i, k < (lib.IntRulesSegment m0.ir.Order).NPoints → i < m0.trialFESpace.FE0.Order + 1 →
        (m0.Setup lib).state.B.get [k, i]
          = lib.H1SegmentShape m0.trialFESpace.FE0.Order
              ((lib.IntRulesSegment m0.ir.Order).IntPoint k)
              (nativeIndex (m0.trialFESpace.FE0.Order + 1) i))
      ∧ (∀ k i, k < (lib.IntRulesSegment d0.ir.Order).NPoints →
          i < d0.trialFESpace.FE0.Order + 1 →
        (d0.Setup lib).state.B.get [k, i]
            = lib.H1SegmentShape d0.trialFESpace.FE0.Order
                ((lib.IntRulesSegment d0.ir.Order).IntPoint k)
                (nativeIndex (d0.trialFESpace.FE0.Order + 1) i)
          ∧ (d0.Setup lib).state.G.get [k, i]
            = lib.H1SegmentDShape d0.trialFESpace.FE0.Order
                ((lib.IntRulesSegment d0.ir.Order).IntPoint k)
                (nativeIndex (d0.trialFESpace.FE0.Order + 1) i))
      ∧ (∀ n, 2 ≤ n →
          (∀ i, i < n → nativeIndex n i < n)
            ∧ (∀ i j, i < n → j < n → nativeIndex n i = nativeIndex n j → i = j)
            ∧ (∀ j, j < n → ∃ i, i < n ∧ nativeIndex n i = j))
      ∧ (m0.trialFESpace.FE0.Order = 2 → (lib.IntRulesSegment m0.ir.Order).NPoints = 3 →
          (∀ k j, k < 3 → j < 3 →
            lib.H1SegmentShape 2 ((lib.IntRulesSegment m0.ir.Order).IntPoint k) j
              = if j = nativeIndex 3 k then 1 else 0) →
          ∀ k i, k < 3 → i < 3 →
            (m0.Setup lib).state.B.get [k, i] = if i = k then 1 else 0)
      ∧ (d0.trialFESpace.FE0.Order = 2 → (lib.IntRulesSegment d0.ir.Order).NPoints = 3 →
          (∀ k j, k < 3 → j < 3 →
            lib.H1SegmentShape 2 ((lib.IntRulesSegment d0.ir.Order).IntPoint k) j
              = if j = nativeIndex 3 k then 1 else 0) →
          ∀ k i, k < 3 → i < 3 →
            (d0.Setup lib).state.B.get [k, i] = if i = k then 1 else 0) := by
  refine ⟨fun k i hk hi => massSetup_B_native lib m0 htm hdm hpm k i hk hi,
    fun k i hk hi => diffusionSetup_BG_native lib d0 htd hdd hpd k i hk hi,
    fun n hn => nativeIndex_bijective n hn, ?_, ?_⟩
  · intro ho hq hnod k i hk hi
    rw [massSetup_B_native lib m0 htm hdm hpm k i (by rw [hq]; exact hk)
      (by rw [ho]; exact hi), ho]
    exact nodal_rows
      (fun k j => lib.H1SegmentShape 2 ((lib.IntRulesSegment m0.ir.Order).IntPoint k) j)
      hnod k i hk hi
  · intro ho hq hnod k i hk hi
    rw [(diffusionSetup_BG_native lib d0 htd hdd hpd k i (by rw [hq]; exact hk)
      (by rw [ho]; exact hi)).1, ho]
    exact nodal_rows
      (fun k j => lib.H1SegmentShape 2 ((lib.IntRulesSegment d0.ir.Order).IntPoint k) j)
      hnod k i hk hi

theorem nodalLibrary_nodal : ∀ k j, k < 3 → j < 3 →
    nodalLibrary.H1SegmentShape 2 ((nodalLibrary.IntRulesSegment 3).IntPoint k) j
      = if j = nativeIndex 3 k then 1 else 0 := by
  intro k j hk hj
  interval_cases k <;> interval_cases j <;>
    norm_num [nodalLibrary, simpsonRule, nativeIndex]

/-- C15 (witness): on the quadratic segment with Simpson's points `0, 1/2, 1`
and the nodal quadratic basis, the rows of the mass table `B` after `Setup`
are `(1,0,0)`, `(0,1,0)`, `(0,0,1)`. -/
theorem Setup_basis_tables_reordered_witness :
    ((freshMass segmentSpace simpsonRule).Setup nodalLibrary).state.B.get [0, 0] = 1
      ∧ ((freshMass segmentSpace simpsonRule).Setup nodalLibrary).state.B.get [0, 1] = 0
      ∧ ((freshMass segmentSpace simpsonRule).Setup nodalLibrary).state.B.get [0, 2] = 0
      ∧ ((freshMass segmentSpace simpsonRule).Setup nodalLibrary).state.B.get [1, 0] = 0
      ∧ ((freshMass segmentSpace simpsonRule).Setup nodalLibrary).state.B.get [1, 1] = 1
      ∧ ((freshMass segmentSpace simpsonRule).Setup nodalLibrary).state.B.get [1, 2] = 0
      ∧ ((freshMass segmentSpace simpsonRule).Setup nodalLibrary).state.B.get [2, 0] = 0
      ∧ ((freshMass segmentSpace simpsonRule).Setup nodalLibrary).state.B.get [2, 1] = 0
      ∧ ((freshMass segmentSpace simpsonRule).Setup nodalLibrary).state.B.get [2, 2] = 1 := by
  have h := (Setup_basis_tables_reordered nodalLibrary (freshMass segmentSpace simpsonRule)
    (freshDiffusion segmentSpace simpsonRule true) rfl (Or.inl rfl) (by decide)
    rfl (Or.inl rfl) (by decide)).2.2.2.1 rfl rfl nodalLibrary_nodal
  exact ⟨h 0 0 (by decide) (by decide), h 0 1 (by decide) (by decide),
    h 0 2 (by decide) (by decide), h 1 0 (by decide) (by decide),
    h 1 1 (by decide) (by decide), h 1 2 (by decide) (by decide),
    h 2 0 (by decide) (by decide), h 2 1 (by decide) (by decide),
    h 2 2 (by decide) (by decide)⟩

end acro
end mfem
namespace mfem
namespace acro
open Finset

theorem fillRowChecked_loop (n : Nat) (eval : Nat → ℚ) (k : Nat) :
    ∀ j, 1 + j ≤ n - 1 → ∀ B0 : Tensor,
      forLoop 1 (1 + j) (fun i (B : Option Tensor) =>
        B.bind (fun B => (vectorRead n eval (i + 1)).bind (fun v =>
          some (B.set [k, i] v)))) (some B0)
        = some (forLoop 1 (1 + j) (fun i B => B.set [k, i] (eval (i + 1))) B0) := by
  intro j
  induction j with
  | zero => intro _ B0; rw [forLoop_zero, forLoop_zero]
  | succ j ih =>
    intro h B0
    rw [forLoop_succ, forLoop_succ, ih (by omega) B0]
    have hlt : 1 + j + 1 < n := by omega
    simp [vectorRead, hlt]

theorem fillRowChecked_ok (n : Nat) (eval : Nat → ℚ) (k : Nat) (B : Tensor) (hn : 2 ≤ n) :
    fillRowChecked n eval k B
      = some (forLoop 1 (n - 1) (fun i B => B.set [k, i] (eval (i + 1)))
          ((B.set [k, 0] (eval 0)).set [k, n - 1] (eval 1))) := by
  have h0 : 0 < n := by omega
  have h1 : 1 < n := by omega
  have e : n - 1 = 1 + (n - 2) := by omega
  simp only [fillRowChecked, vectorRead, h0, h1, if_true, Option.some_bind]
  rw [e]
  exact fillRowChecked_loop n eval k (n - 2) (by omega) _

/-- C16 (failing input): for order 0 (`nDof1D = 1`) the population loop of
`Setup` reads `eval(1)` for `B(k, nDof1D-1)`, although `eval` has size 1: the
read is out of range at every quadrature point, whatever `eval` and `B`
hold. -/
theorem basisFill_order_zero_out_of_range (eval : Nat → ℚ) (k : Nat) (B : Tensor) :
    vectorRead (0 + 1) eval 1 = none ∧ fillRowChecked (0 + 1) eval k B = none := by
  constructor
  · simp [vectorRead]
  · simp [fillRowChecked, vectorRead]

end acro
end mfem
namespace mfem
namespace acro
open Finset

theorem massBPA_again (lib : Library) (s : AcroMassIntegrator) :
    ((s.BatchedPartialAssemble lib).state).BatchedPartialAssemble lib
      = s.BatchedPartialAssemble lib := by
  have h21 : ¬ ((2 : Int) = 1) := by decide
  have h31 : ¬ ((3 : Int) = 1) := by decide
  have h32 : ¬ ((3 : Int) = 2) := by decide
  have key : ∀ (q Jdet : Tensor) (D : Tensor),
      (D.assign (fun idx =>
          match idx with
          | e :: ks => s.W.get ks * q.get (e :: ks) * Jdet.get (e :: ks)
          | [] => D.get [])).assign (fun idx =>
          match idx with
          | e :: ks => s.W.get ks * q.get (e :: ks) * Jdet.get (e :: ks)
          | [] => (D.assign (fun idx =>
              match idx with
              | e :: ks => s.W.get ks * q.get (e :: ks) * Jdet.get (e :: ks)
              | [] => D.get [])).get [])
        = D.assign (fun idx =>
          match idx with
          | e :: ks => s.W.get ks * q.get (e :: ks) * Jdet.get (e :: ks)
          | [] => D.get []) := by
    intro q Jdet D
    simp only [Tensor.assign, Tensor.get]
  by_cases ht : s.hasTensorBasis = true
  · by_cases h1 : s.nDim = 1
    · simp only [AcroMassIntegrator.BatchedPartialAssemble, AcroMassIntegrator.initGeometry,
        AcroMassIntegrator.contractD, AcroMassIntegrator.JdetOf,
        AcroMassIntegrator.fillGeometry, ht, h1, if_true, Result.state, key]
    · by_cases h2 : s.nDim = 2
      · simp only [AcroMassIntegrator.BatchedPartialAssemble, AcroMassIntegrator.initGeometry,
          AcroMassIntegrator.contractD, AcroMassIntegrator.JdetOf,
          AcroMassIntegrator.fillGeometry, ht, h2, h21, if_true, if_false, Result.state, key]
      · by_cases h3 : s.nDim = 3
        · simp only [AcroMassIntegrator.BatchedPartialAssemble,
            AcroMassIntegrator.initGeometry, AcroMassIntegrator.contractD,
            AcroMassIntegrator.JdetOf, AcroMassIntegrator.fillGeometry, ht, h3, h31, h32,
            if_true, if_false, Result.state, key]
        · simp only [AcroMassIntegrator.BatchedPartialAssemble,
            AcroMassIntegrator.initGeometry, ht, h1, h2, h3, if_true, if_false, Result.state]
  · have hf : s.hasTensorBasis = false := by
      cases h : s.hasTensorBasis
      · rfl
      · exact absurd h ht
    simp only [AcroMassIntegrator.BatchedPartialAssemble, AcroMassIntegrator.initGeometry,
      AcroMassIntegrator.contractD, AcroMassIntegrator.JdetOf,
      AcroMassIntegrator.fillGeometry, hf, Bool.false_eq_true, if_false, Result.state, key]

theorem diffusionBPA_again (lib : Library) (s : AcroDiffusionIntegrator) :
    (s.BatchedPartialAssemble lib).BatchedPartialAssemble lib
      = s.BatchedPartialAssemble lib := by
  have hg : (s.BatchedPartialAssemble lib).geometry lib = s.geometry lib := rfl
  have hW : (s.BatchedPartialAssemble lib).W = s.W := rfl
  have hD : ∀ Jinv Jdet C : Tensor,
      AcroDiffusionIntegrator.contractD
          { s with D := s.contractD Jinv Jdet C } Jinv Jdet C
        = s.contractD Jinv Jdet C := by
    intro Jinv Jdet C
    by_cases ht : s.hasTensorBasis = true
    · by_cases h1 : s.nDim = 1
      · simp only [AcroDiffusionIntegrator.contractD, ht, h1, if_true, Tensor.assign,
          Tensor.get]
        congr 1
        funext idx
        rcases idx with _ | ⟨e, _ | ⟨m, _ | ⟨n, ks⟩⟩⟩ <;> rfl
      · by_cases h2 : s.nDim = 2
        · have h21 : ¬ ((2 : Int) = 1) := by decide
          simp only [AcroDiffusionIntegrator.contractD, ht, h2, h21, if_true, if_false,
            Tensor.assign, Tensor.get]
          congr 1
          funext idx
          rcases idx with _ | ⟨e, _ | ⟨m, _ | ⟨n, ks⟩⟩⟩ <;> rfl
        · by_cases h3 : s.nDim = 3
          · have h31 : ¬ ((3 : Int) = 1) := by decide
            have h32 : ¬ ((3 : Int) = 2) := by decide
            simp only [AcroDiffusionIntegrator.contractD, ht, h3, h31, h32, if_true, if_false,
              Tensor.assign, Tensor.get]
            congr 1
            funext idx
            rcases idx with _ | ⟨e, _ | ⟨m, _ | ⟨n, ks⟩⟩⟩ <;> rfl
          · simp only [AcroDiffusionIntegrator.contractD, ht, h1, h2, h3, if_true, if_false]
    · simp only [AcroDiffusionIntegrator.contractD, ht, Bool.false_eq_true, if_false,
        Tensor.assign, Tensor.get]
      congr 1
      funext idx
      rcases idx with _ | ⟨e, _ | ⟨m, _ | ⟨n, ks⟩⟩⟩ <;> rfl
  show ({ (s.BatchedPartialAssemble lib) with
      D := (s.BatchedPartialAssemble lib).contractD
        ((s.BatchedPartialAssemble lib).geometry lib).1
        ((s.BatchedPartialAssemble lib).geometry lib).2.1
        ((s.BatchedPartialAssemble lib).geometry lib).2.2 } : AcroDiffusionIntegrator)
    = s.BatchedPartialAssemble lib
  rw [hg]
  have hE : (s.BatchedPartialAssemble lib).contractD (s.geometry lib).1 (s.geometry lib).2.1
      (s.geometry lib).2.2 = (s.BatchedPartialAssemble lib).D :=
    hD (s.geometry lib).1 (s.geometry lib).2.1 (s.geometry lib).2.2
  rw [hE]

/-- C17: `BatchedPartialAssemble` is idempotent for both integrators: called
again on the state it produced, with the same mesh geometry and the same
library, it produces that state again (the coefficient tensor `D` is computed
from `W` and the geometry only, and no other member is written). -/
theorem BatchedPartialAssemble_idempotent (lib : Library) (m : AcroMassIntegrator)
    (d : AcroDiffusionIntegrator) :
    ((m.BatchedPartialAssemble lib).state).BatchedPartialAssemble lib
        = m.BatchedPartialAssemble lib
      ∧ (d.BatchedPartialAssemble lib).BatchedPartialAssemble lib
        = d.BatchedPartialAssemble lib :=
  ⟨massBPA_again lib m, diffusionBPA_again lib d⟩

end acro
end mfem
namespace mfem
namespace acro
open Finset

theorem diffBAEM_Btil (lib : Library) (s : AcroDiffusionIntegrator) (el : DenseTensor) :
    (s.BatchedAssembleElementMatrices lib el).1.Btil
        = (if s.hasTensorBasis && s.Btil.length == 0 then (s.ComputeBTilde lib).Btil
            else s.Btil)
      ∧ (s.BatchedAssembleElementMatrices lib el).1.toPAIntegrator = s.toPAIntegrator
      ∧ (s.BatchedAssembleElementMatrices lib el).1.B = s.B
      ∧ (s.BatchedAssembleElementMatrices lib el).1.G = s.G := by
  unfold AcroDiffusionIntegrator.BatchedAssembleElementMatrices
  simp only []
  split_ifs <;> exact ⟨rfl, rfl, rfl, rfl⟩

theorem diffBAEM_Btil_kept (lib : Library) (s : AcroDiffusionIntegrator) (el : DenseTensor)
    (h : s.Btil.length ≠ 0) :
    (s.BatchedAssembleElementMatrices lib el).1.Btil = s.Btil := by
  rw [(diffBAEM_Btil lib s el).1]
  have : (s.Btil.length == 0) = false := by simpa using h
  simp [this]

theorem afterCalls_Btil (lib : Library) (s : AcroDiffusionIntegrator)
    (els : Nat → DenseTensor) (ht : s.hasTensorBasis = true)
    (hd : s.nDim = 1 ∨ s.nDim = 2 ∨ s.nDim = 3) (hBt : s.Btil = []) :
    ∀ n, (s.afterCalls lib els (n + 1)).Btil = (s.ComputeBTilde lib).Btil := by
  have hlen : (s.ComputeBTilde lib).Btil.length ≠ 0 := by
    rw [ComputeBTilde_length]
    rcases hd with hd | hd | hd <;> rw [hd] <;> decide
  intro n
  induction n with
  | zero =>
    show (s.BatchedAssembleElementMatrices lib (els 0)).1.Btil = _
    rw [(diffBAEM_Btil lib s (els 0)).1]
    simp [ht, hBt]
  | succ n ih =>
    show ((s.afterCalls lib els (n + 1)).BatchedAssembleElementMatrices lib (els (n + 1))).1.Btil
      = _
    rw [diffBAEM_Btil_kept lib _ _ (by rw [ih]; exact hlen), ih]

/-- C18: for the diffusion integrator on the tensor path with `nDim` in
`{1, 2, 3}` and `Btil` empty at the start, the first
`BatchedAssembleElementMatrices` call builds exactly `nDim` pairing tensors,
`Btil[d]` being the table `(m, n, k, i, j) -> BGM(k,i) * BGN(k,j)` of
`ComputeBTilde` for `d < nDim`, and after any number `n >= 1` of calls (with
any output buffers) `Btil` is what it was after the first call. -/
theorem diffusionBtil_built_once (lib : Library) (s : AcroDiffusionIntegrator)
    (els : Nat → DenseTensor) (ht : s.hasTensorBasis = true)
    (hd : s.nDim = 1 ∨ s.nDim = 2 ∨ s.nDim = 3) (hBt : s.Btil = []) :
    (s.afterCalls lib els 1).Btil.length = s.nDim.toNat
      ∧ (∀ d, d < s.nDim.toNat →
          (s.afterCalls lib els 1).Btil.getD d Tensor.empty = s.BtilOf lib d)
      ∧ ∀ n, 1 ≤ n → (s.afterCalls lib els n).Btil = (s.afterCalls lib els 1).Btil := by
  have h1 := afterCalls_Btil lib s els ht hd hBt 0
  refine ⟨?_, ?_, ?_⟩
  · rw [h1, ComputeBTilde_length]
  · intro d hdl
    rw [h1, ComputeBTilde_get lib s d hdl]
  · intro n hn
    obtain ⟨k, rfl⟩ : ∃ k, n = k + 1 := ⟨n - 1, by omega⟩
    rw [afterCalls_Btil lib s els ht hd hBt k, h1]

/-- C18 (witness): the statement at `diffusionOnSegment`, three calls with
zero output buffers. -/
theorem diffusionBtil_built_once_witness :
    (diffusionOnSegment.afterCalls sampleLibrary (fun _ _ _ _ => 0) 1).Btil.length
        = diffusionOnSegment.nDim.toNat
      ∧ (diffusionOnSegment.afterCalls sampleLibrary (fun _ _ _ _ => 0) 3).Btil
        = (diffusionOnSegment.afterCalls sampleLibrary (fun _ _ _ _ => 0) 1).Btil :=
  ⟨(diffusionBtil_built_once sampleLibrary diffusionOnSegment (fun _ _ _ _ => 0) rfl
      (Or.inl rfl) rfl).1,
    (diffusionBtil_built_once sampleLibrary diffusionOnSegment (fun _ _ _ _ => 0) rfl
      (Or.inl rfl) rfl).2.2 3 (by decide)⟩

end acro
end mfem
namespace mfem
namespace occa
open acro

/-- C19: `OccaBilinearForm::AssembleElementMatrices` ends in
`mfem_error("TBD")` whenever the form holds more than one integrator; no
integrator has been called and `element_matrices` is as it was. -/
theorem AssembleElementMatrices_many_fatal (lib : Library)
    (integrators : List FormIntegrator) (element_matrices : DenseTensor)
    (h : integrators.length > 1) :
    OccaBilinearForm.AssembleElementMatrices lib integrators element_matrices
        = some (Result.fatal "TBD" (integrators, element_matrices))
      ∧ ∀ r, OccaBilinearForm.AssembleElementMatrices lib integrators element_matrices = some r →
          r.isFatal = true ∧ r.state.2 = element_matrices ∧ r.state.1 = integrators := by
  have e : OccaBilinearForm.AssembleElementMatrices lib integrators element_matrices
      = some (Result.fatal "TBD" (integrators, element_matrices)) := by
    simp [OccaBilinearForm.AssembleElementMatrices, h]
  refine ⟨e, fun r hr => ?_⟩
  rw [e] at hr
  cases hr
  exact ⟨rfl, rfl, rfl⟩

/-- C19 (witness): a form with a mass and a diffusion integrator and an output
buffer full of sevens. -/
theorem AssembleElementMatrices_many_fatal_witness :
    OccaBilinearForm.AssembleElementMatrices sampleLibrary
        [FormIntegrator.acroMass massOnSegment, FormIntegrator.acroDiffusion diffusionOnSegment]
        (fun _ _ _ => 7)
      = some (Result.fatal "TBD"
          ([FormIntegrator.acroMass massOnSegment,
            FormIntegrator.acroDiffusion diffusionOnSegment], (fun _ _ _ => 7))) :=
  (AssembleElementMatrices_many_fatal sampleLibrary
    [FormIntegrator.acroMass massOnSegment, FormIntegrator.acroDiffusion diffusionOnSegment]
    (fun _ _ _ => 7) (by decide)).1

end occa

namespace acro
open Finset

theorem scatter_cell (p : PAIntegrator) (M : Tensor) (el : DenseTensor)
    (hinj : ∀ i j, i < p.nDof → j < p.nDof → p.dofMap i = p.dofMap j → i = j)
    (hsurj : ∀ a, a < p.nDof → ∃ i, i < p.nDof ∧ p.dofMap i = a)
    (a b e : Nat) (ha : a < p.nDof) (hb : b < p.nDof) (he : e < p.trialFESpace.NE) :
    p.scatter M el a b e
        = M.raw (e * p.nDof * p.nDof + p.dofMapInv a * p.nDof + p.dofMapInv b)
      ∧ p.dofMapInv a < p.nDof ∧ p.dofMap (p.dofMapInv a) = a
      ∧ p.dofMapInv b < p.nDof ∧ p.dofMap (p.dofMapInv b) = b := by
  obtain ⟨i, hi, hia⟩ := hsurj a ha
  obtain ⟨j, hj, hjb⟩ := hsurj b hb
  have ei : p.dofMapInv a = i := by
    rw [← hia]
    exact findIndexBelow_eq p.dofMap i p.nDof hi (fun j' hj' h => hinj j' i hj' hi h)
  have ej : p.dofMapInv b = j := by
    rw [← hjb]
    exact findIndexBelow_eq p.dofMap j p.nDof hj (fun j' hj' h => hinj j' j hj' hj h)
  rw [ei, ej]
  refine ⟨?_, hi, hia, hj, hjb⟩
  rw [← hia, ← hjb]
  exact scatter_get p M el hinj e i j he hi hj

theorem massBAEM_scatter (lib : Library) (s : AcroMassIntegrator) (el : DenseTensor)
    (hok : (s.BatchedAssembleElementMatrices lib el).isFatal = false) :
    (s.BatchedAssembleElementMatrices lib el).state.2
        = s.toPAIntegrator.scatter (s.BatchedAssembleElementMatrices lib el).state.1.M el
      ∧ ∀ el', (s.BatchedAssembleElementMatrices lib el').isFatal = false
          ∧ (s.BatchedAssembleElementMatrices lib el').state.1
            = (s.BatchedAssembleElementMatrices lib el).state.1 := by
  have hP : ∀ r : Result AcroMassIntegrator, r = s.BatchedPartialAssemble lib →
      r.isFatal = false → r.state.toPAIntegrator = s.toPAIntegrator := by
    intro r hr hf
    subst hr
    unfold AcroMassIntegrator.BatchedPartialAssemble at hf ⊢
    cases hg : s.initGeometry lib with
    | fatal msg g => rw [hg] at hf; simp [Result.isFatal] at hf
    | ok g =>
      simp only [hg, AcroMassIntegrator.contractD]
      split_ifs <;> rfl
  have hpa : ∀ s1, (if !s.D.IsInitialized then s.BatchedPartialAssemble lib else Result.ok s)
      = Result.ok s1 → s1.toPAIntegrator = s.toPAIntegrator := by
    intro s1 h
    by_cases hD : s.D.IsInitialized = true
    · simp only [hD, Bool.not_true, Bool.false_eq_true, if_false] at h
      cases h
      rfl
    · simp only [hD, Bool.not_false, if_true] at h
      exact hP (Result.ok s1) h.symm rfl
  unfold AcroMassIntegrator.BatchedAssembleElementMatrices at hok ⊢
  generalize (if !s.D.IsInitialized then s.BatchedPartialAssemble lib else Result.ok s) = r
    at hok hpa ⊢
  cases r with
  | fatal msg s1 => simp [Result.isFatal] at hok
  | ok s1 =>
    have h1 := hpa s1 rfl
    dsimp only at hok ⊢
    have h2p : (if !s1.M.IsInitialized then { s1 with M := s1.initM lib } else s1).toPAIntegrator
        = s1.toPAIntegrator := by
      split_ifs <;> rfl
    generalize (if !s1.M.IsInitialized then { s1 with M := s1.initM lib } else s1) = s2
      at hok h2p ⊢
    by_cases hc : (!s2.hasTensorBasis && contractionRefused [s2.B]) = true
    · rw [if_pos hc] at hok
      simp [Result.isFatal] at hok
    · simp only [if_neg hc]
      dsimp only [Result.state, Result.isFatal]
      rw [h2p, h1]
      refine ⟨?_, fun _ => ⟨?_, ?_⟩⟩ <;> rfl

theorem diffBAEM_scatter (lib : Library) (s : AcroDiffusionIntegrator) (el : DenseTensor) :
    (s.BatchedAssembleElementMatrices lib el).2
        = s.toPAIntegrator.scatter (s.BatchedAssembleElementMatrices lib el).1.S el
      ∧ ∀ el', (s.BatchedAssembleElementMatrices lib el').1
          = (s.BatchedAssembleElementMatrices lib el).1 := by
  unfold AcroDiffusionIntegrator.BatchedAssembleElementMatrices
  dsimp only
  split_ifs <;> exact ⟨rfl, fun _ => rfl⟩

/-- C20: `BatchedAssembleElementMatrices` overwrites the whole output.  If
`tDofMap` is a bijection on `{0..nDof-1}` (and, for the mass integrator, the
call does not abort), then after the call every entry `elmats(a, b, e)` with
`a, b < nDof` and `e < nElem` equals `M[e*nDof*nDof + inv(a)*nDof + inv(b)]`
(`S` for diffusion) of the tensor left in the integrator, where `inv` is the
inverse of `tDofMap`; the integrator state and these entries are the same
whatever `elmats` held before the call. -/
theorem BatchedAssembleElementMatrices_overwrites (lib : Library)
    (m : AcroMassIntegrator) (d : AcroDiffusionIntegrator) (el el' : DenseTensor)
    (hok : (m.BatchedAssembleElementMatrices lib el).isFatal = false)
    (hminj : ∀ i j, i < m.nDof → j < m.nDof → m.dofMap i = m.dofMap j → i = j)
    (hmsurj : ∀ a, a < m.nDof → ∃ i, i < m.nDof ∧ m.dofMap i = a)
    (hdinj : ∀ i j, i < d.nDof → j < d.nDof → d.dofMap i = d.dofMap j → i = j)
    (hdsurj : ∀ a, a < d.nDof → ∃ i, i < d.nDof ∧ d.dofMap i = a) :
    (∀ a b e, a < m.nDof → b < m.nDof → e < m.trialFESpace.NE →
        (m.BatchedAssembleElementMatrices lib el).state.2 a b e
            = (m.BatchedAssembleElementMatrices lib el).state.1.M.raw
                (e * m.nDof * m.nDof + m.dofMapInv a * m.nDof + m.dofMapInv b)
          ∧ m.dofMap (m.dofMapInv a) = a ∧ m.dofMap (m.dofMapInv b) = b
          ∧ (m.BatchedAssembleElementMatrices lib el').state.2 a b e
            = (m.BatchedAssembleElementMatrices lib el).state.2 a b e)
      ∧ (∀ a b e, a < d.nDof → b < d.nDof → e < d.trialFESpace.NE →
        (d.BatchedAssembleElementMatrices lib el).2 a b e
            = (d.BatchedAssembleElementMatrices lib el).1.S.raw
                (e * d.nDof * d.nDof + d.dofMapInv a * d.nDof + d.dofMapInv b)
          ∧ d.dofMap (d.dofMapInv a) = a ∧ d.dofMap (d.dofMapInv b) = b
          ∧ (d.BatchedAssembleElementMatrices lib el').2 a b e
            = (d.BatchedAssembleElementMatrices lib el).2 a b e) := by
  constructor
  · intro a b e ha hb he
    obtain ⟨h1, h2⟩ := massBAEM_scatter lib m el hok
    obtain ⟨hok', hst⟩ := h2 el'
    obtain ⟨h1', _⟩ := massBAEM_scatter lib m el' hok'
    obtain ⟨c1, _, c3, _, c5⟩ := scatter_cell m.toPAIntegrator
      (m.BatchedAssembleElementMatrices lib el).state.1.M el hminj hmsurj a b e ha hb he
    obtain ⟨c1', _⟩ := scatter_cell m.toPAIntegrator
      (m.BatchedAssembleElementMatrices lib el).state.1.M el' hminj hmsurj a b e ha hb he
    refine ⟨?_, c3, c5, ?_⟩
    · rw [h1]; exact c1
    · rw [h1', hst, h1, c1', c1]
  · intro a b e ha hb he
    obtain ⟨h1, h2⟩ := diffBAEM_scatter lib d el
    obtain ⟨h1', _⟩ := diffBAEM_scatter lib d el'
    obtain ⟨c1, _, c3, _, c5⟩ := scatter_cell d.toPAIntegrator
      (d.BatchedAssembleElementMatrices lib el).1.S el hdinj hdsurj a b e ha hb he
    obtain ⟨c1', _⟩ := scatter_cell d.toPAIntegrator
      (d.BatchedAssembleElementMatrices lib el).1.S el' hdinj hdsurj a b e ha hb he
    refine ⟨?_, c3, c5, ?_⟩
    · rw [h1]; exact c1
    · rw [h1', h2 el', h1, c1', c1]

end acro
end mfem
namespace mfem
namespace acro
open Finset

theorem segmentBase_surj : ∀ a, a < segmentBase.nDof →
    ∃ i, i < segmentBase.nDof ∧ segmentBase.dofMap i = a := by
  intro a ha
  have ha' : a < 3 := ha
  interval_cases a
  · exact ⟨0, by decide, by simp [PAIntegrator.dofMap, segmentBase]⟩
  · exact ⟨2, by decide, by simp [PAIntegrator.dofMap, segmentBase]⟩
  · exact ⟨1, by decide, by simp [PAIntegrator.dofMap, segmentBase]⟩

/-- C20 (witness): the statement at `massOnSegment` and `diffusionOnSegment`
(`tDofMap = [0, 2, 1]`), entry `(1, 2, 0)`, with an output buffer full of
sevens and one full of zeros. -/
theorem BatchedAssembleElementMatrices_overwrites_witness :
    ((massOnSegment.BatchedAssembleElementMatrices sampleLibrary (fun _ _ _ => 7)).state.2 1 2 0
        = (massOnSegment.BatchedAssembleElementMatrices sampleLibrary
            (fun _ _ _ => 7)).state.1.M.raw
            (0 * massOnSegment.nDof * massOnSegment.nDof
              + massOnSegment.dofMapInv 1 * massOnSegment.nDof + massOnSegment.dofMapInv 2)
      ∧ (massOnSegment.BatchedAssembleElementMatrices sampleLibrary
            (fun _ _ _ => 0)).state.2 1 2 0
        = (massOnSegment.BatchedAssembleElementMatrices sampleLibrary
            (fun _ _ _ => 7)).state.2 1 2 0)
      ∧ ((diffusionOnSegment.BatchedAssembleElementMatrices sampleLibrary
            (fun _ _ _ => 7)).2 1 2 0
        = (diffusionOnSegment.BatchedAssembleElementMatrices sampleLibrary
            (fun _ _ _ => 7)).1.S.raw
            (0 * diffusionOnSegment.nDof * diffusionOnSegment.nDof
              + diffusionOnSegment.dofMapInv 1 * diffusionOnSegment.nDof
              + diffusionOnSegment.dofMapInv 2)
      ∧ (diffusionOnSegment.BatchedAssembleElementMatrices sampleLibrary
            (fun _ _ _ => 0)).2 1 2 0
        = (diffusionOnSegment.BatchedAssembleElementMatrices sampleLibrary
            (fun _ _ _ => 7)).2 1 2 0) := by
  have h := BatchedAssembleElementMatrices_overwrites sampleLibrary massOnSegment
    diffusionOnSegment (fun _ _ _ => 7) (fun _ _ _ => 0)
    (massBAEM_ok sampleLibrary massOnSegment _ rfl (Or.inl rfl))
    segmentBase_inj segmentBase_surj segmentBase_inj segmentBase_surj
  have hm := h.1 1 2 0 (by decide) (by decide) (by decide)
  have hd := h.2 1 2 0 (by decide) (by decide) (by decide)
  exact ⟨⟨hm.1, hm.2.2.2⟩, ⟨hd.1, hd.2.2.2⟩⟩

end acro
end mfem
namespace mfem
namespace acro
open Finset

theorem massGeometry_dims (lib : Library) (s : AcroMassIntegrator)
    (ht : s.hasTensorBasis = true) :
    (s.nDim = 1 →
        (s.initGeometry lib).state.1.dims
            = [s.trialFESpace.NE, s.nQuad1D, s.nQuad1D, 1, 1]
          ∧ (s.initGeometry lib).state.2.1.dims = [s.trialFESpace.NE, s.nQuad1D])
      ∧ (s.nDim = 2 →
        (s.initGeometry lib).state.1.dims
            = [s.trialFESpace.NE, s.nQuad1D, s.nQuad1D, 2, 2]
          ∧ (s.initGeometry lib).state.2.1.dims
            = [s.trialFESpace.NE, s.nQuad1D, s.nQuad1D])
      ∧ (s.nDim = 3 →
        (s.initGeometry lib).state.1.dims
            = [s.trialFESpace.NE, s.nQuad1D, s.nQuad1D, s.nQuad1D, 3, 3]
          ∧ (s.initGeometry lib).state.2.1.dims
            = [s.trialFESpace.NE, s.nQuad1D, s.nQuad1D, s.nQuad1D]) := by
  have h21 : ¬ ((2 : Int) = 1) := by decide
  have h31 : ¬ ((3 : Int) = 1) := by decide
  have h32 : ¬ ((3 : Int) = 2) := by decide
  refine ⟨fun hd => ?_, fun hd => ?_, fun hd => ?_⟩ <;>
    simp [AcroMassIntegrator.initGeometry, ht, hd, Tensor.Init, Result.state, h21, h31, h32]

theorem fillJacobian_dims (p : PAIntegrator) (J : Tensor) (pre : List Nat) (e : Nat)
    (x y z : ℚ) : (fillJacobian p J pre e x y z).dims = J.dims := by
  unfold fillJacobian
  refine forLoop_invariant (fun T : Tensor => T.dims = J.dims) _ _ _ ?_ J rfl
  intro m T _ _ hT
  refine forLoop_invariant (fun T : Tensor => T.dims = J.dims) _ _ _ ?_ T hT
  intro n T' _ _ hT'
  exact hT'

theorem diffusionGeometry_dims (lib : Library) (s : AcroDiffusionIntegrator)
    (ht : s.hasTensorBasis = true) :
    (s.nDim = 1 →
        (s.fillGeometry lib).1.dims = [s.trialFESpace.NE, s.nQuad1D, 1, 1]
          ∧ (s.fillGeometry lib).2.2.1.dims = [s.trialFESpace.NE, s.nQuad1D])
      ∧ (s.nDim = 2 →
        (s.fillGeometry lib).1.dims = [s.trialFESpace.NE, s.nQuad1D, s.nQuad1D, 2, 2]
          ∧ (s.fillGeometry lib).2.2.1.dims = [s.trialFESpace.NE, s.nQuad1D, s.nQuad1D])
      ∧ (s.nDim = 3 →
        (s.fillGeometry lib).1.dims
            = [s.trialFESpace.NE, s.nQuad1D, s.nQuad1D, s.nQuad1D, 3, 3]
          ∧ (s.fillGeometry lib).2.2.1.dims
            = [s.trialFESpace.NE, s.nQuad1D, s.nQuad1D, s.nQuad1D]) := by
  have h21 : ¬ ((2 : Int) = 1) := by decide
  have h31 : ¬ ((3 : Int) = 1) := by decide
  have h32 : ¬ ((3 : Int) = 2) := by decide
  have h1n : Int.toNat 1 = 1 := rfl
  have h2n : Int.toNat 2 = 2 := rfl
  have h3n : Int.toNat 3 = 3 := rfl
  refine ⟨fun hd => ?_, fun hd => ?_, fun hd => ?_⟩
  · simp only [AcroDiffusionIntegrator.fillGeometry, ht, hd, if_true, Tensor.Init, h1n]
    refine ⟨?_, trivial⟩
    refine forLoop_invariant (fun st : Tensor × Tensor =>
      st.1.dims = [s.trialFESpace.NE, s.nQuad1D, 1, 1]) _ _ _ ?_ _ rfl
    intro e st _ _ hst
    refine forLoop_invariant (fun st : Tensor × Tensor =>
      st.1.dims = [s.trialFESpace.NE, s.nQuad1D, 1, 1]) _ _ _ ?_ _ hst
    intro k1 st _ _ hst
    exact (fillJacobian_dims _ _ _ _ _ _ _).trans hst
  · simp only [AcroDiffusionIntegrator.fillGeometry, ht, hd, if_true, if_false, Tensor.Init,
      h2n, h21]
    refine ⟨?_, trivial⟩
    refine forLoop_invariant (fun st : Tensor × Tensor =>
      st.1.dims = [s.trialFESpace.NE, s.nQuad1D, s.nQuad1D, 2, 2]) _ _ _ ?_ _ rfl
    intro e st _ _ hst
    refine forLoop_invariant (fun st : Tensor × Tensor =>
      st.1.dims = [s.trialFESpace.NE, s.nQuad1D, s.nQuad1D, 2, 2]) _ _ _ ?_ _ hst
    intro k1 st _ _ hst
    refine forLoop_invariant (fun st : Tensor × Tensor =>
      st.1.dims = [s.trialFESpace.NE, s.nQuad1D, s.nQuad1D, 2, 2]) _ _ _ ?_ _ hst
    intro k2 st _ _ hst
    exact (fillJacobian_dims _ _ _ _ _ _ _).trans hst
  · simp only [AcroDiffusionIntegrator.fillGeometry, ht, hd, if_true, if_false, Tensor.Init,
      h3n, h31, h32]
    refine ⟨?_, trivial⟩
    refine forLoop_invariant (fun st : Tensor × Tensor =>
      st.1.dims = [s.trialFESpace.NE, s.nQuad1D, s.nQuad1D, s.nQuad1D, 3, 3]) _ _ _ ?_ _ rfl
    intro e st _ _ hst
    refine forLoop_invariant (fun st : Tensor × Tensor =>
      st.1.dims = [s.trialFESpace.NE, s.nQuad1D, s.nQuad1D, s.nQuad1D, 3, 3]) _ _ _ ?_ _ hst
    intro k1 st _ _ hst
    refine forLoop_invariant (fun st : Tensor × Tensor =>
      st.1.dims = [s.trialFESpace.NE, s.nQuad1D, s.nQuad1D, s.nQuad1D, 3, 3]) _ _ _ ?_ _ hst
    intro k2 st _ _ hst
    refine forLoop_invariant (fun st : Tensor × Tensor =>
      st.1.dims = [s.trialFESpace.NE, s.nQuad1D, s.nQuad1D, s.nQuad1D, 3, 3]) _ _ _ ?_ _ hst
    intro k3 st _ _ hst
    exact (fillJacobian_dims _ _ _ _ _ _ _).trans hst

/-- C22 (failing input): the mass integrator on the tensor path in dimension 1
with three 1D quadrature points.  `BatchedPartialAssemble` initialises `J`
with the shape `(nElem, nQuad1D, nQuad1D, 1, 1) = (1, 3, 3, 1, 1)`: rank 5
instead of `d + 3 = 4`, holding 9 matrices of size 1 x 1, while `Jdet` has the
shape `(1, 3)` and 3 entries; this is the `J` handed to the batched
determinant. -/
theorem massJ_shape_dimension_one :
    massOnSegmentSimpson.hasTensorBasis = true ∧ massOnSegmentSimpson.nDim = 1
      ∧ (massOnSegmentSimpson.initGeometry sampleLibrary).state.1.dims = [1, 3, 3, 1, 1]
      ∧ (massOnSegmentSimpson.fillGeometry
            (massOnSegmentSimpson.initGeometry sampleLibrary).state.1
            (massOnSegmentSimpson.initGeometry sampleLibrary).state.2.2).1.dims
          = [1, 3, 3, 1, 1]
      ∧ (massOnSegmentSimpson.initGeometry sampleLibrary).state.2.1.dims = [1, 3]
      ∧ (massOnSegmentSimpson.initGeometry sampleLibrary).state.1.dims.length
          ≠ massOnSegmentSimpson.nDim.toNat + 3
      ∧ (massOnSegmentSimpson.initGeometry sampleLibrary).state.1.dims.prod
            / (massOnSegmentSimpson.nDim.toNat * massOnSegmentSimpson.nDim.toNat)
          ≠ (massOnSegmentSimpson.initGeometry sampleLibrary).state.2.1.dims.prod := by
  have h := (massGeometry_dims sampleLibrary massOnSegmentSimpson rfl).1 rfl
  have hJ : (massOnSegmentSimpson.initGeometry sampleLibrary).state.1.dims
      = [1, 3, 3, 1, 1] := h.1
  have hD : (massOnSegmentSimpson.initGeometry sampleLibrary).state.2.1.dims = [1, 3] := h.2
  have hn : massOnSegmentSimpson.nDim.toNat = 1 := rfl
  refine ⟨rfl, rfl, hJ, ?_, hD, ?_, ?_⟩
  · rw [massFill_J_dims, hJ]
  · rw [hJ, hn]; decide
  · rw [hJ, hD, hn]; decide

/-- C23 (failing input): `AcroMassIntegrator::Setup` on the non-tensor path
(a fresh integrator on the linear triangle).  `Setup` returns normally, but
`B` is still the default-constructed tensor: not initialised, never filled,
whereas `D` has been initialised.  The contraction
`M_e_i_j = B_k_i B_k_j D_e_k` of `BatchedAssembleElementMatrices` then reads
it. -/
theorem massSetup_simplex_B_uninitialised (lib : Library) :
    ({ freshMass triangleSpace triangleBase.ir with hasTensorBasis := false }
          : AcroMassIntegrator).hasTensorBasis = false
      ∧ (AcroMassIntegrator.Setup lib
          { freshMass triangleSpace triangleBase.ir with hasTensorBasis := false }).isFatal
          = false
      ∧ (AcroMassIntegrator.Setup lib
          { freshMass triangleSpace triangleBase.ir with hasTensorBasis := false }).state.B
          = Tensor.empty
      ∧ (AcroMassIntegrator.Setup lib
          { freshMass triangleSpace triangleBase.ir with
            hasTensorBasis := false }).state.B.IsInitialized = false
      ∧ (AcroMassIntegrator.Setup lib
          { freshMass triangleSpace triangleBase.ir with
            hasTensorBasis := false }).state.D.IsInitialized = true := by
  have g : ¬ ((2 : Int) > 3) := by decide
  refine ⟨rfl, ?_, ?_, ?_, ?_⟩ <;>
    simp [AcroMassIntegrator.Setup, PAIntegrator.Setup, freshMass, triangleSpace, g,
      Result.isFatal, Result.state, Tensor.Init, Tensor.IsInitialized, Tensor.empty]

end acro
end mfem
namespace mfem
namespace acro
open Finset

/-- C24: the pairing tensors built by `ComputeBTilde` are symmetric.  For every
direction `d < nDim`, directions `m, n < nDim`, quadrature index `k < nQuad1D`
and DOF indices `i, j < nDof1D`:
`Btil[d](m,n,k,i,j) = X_m(k,i) * X_n(k,j)` with `X_r = G` if `r = d` and `B`
otherwise, and therefore `Btil[d](m,n,k,i,j) = Btil[d](n,m,k,j,i)`. -/
theorem ComputeBTilde_symmetric (lib : Library) (s : AcroDiffusionIntegrator)
    (d m n k i j : Nat) (hd : d < s.nDim.toNat) (hm : m < s.nDim.toNat)
    (hn : n < s.nDim.toNat) (hk : k < s.nQuad1D) (hi : i < s.nDof1D) (hj : j < s.nDof1D) :
    ((s.ComputeBTilde lib).Btil.getD d Tensor.empty).get [m, n, k, i, j]
        = (if m = d then s.G else s.B).get [k, i] * (if n = d then s.G else s.B).get [k, j]
      ∧ ((s.ComputeBTilde lib).Btil.getD d Tensor.empty).get [m, n, k, i, j]
        = ((s.ComputeBTilde lib).Btil.getD d Tensor.empty).get [n, m, k, j, i] := by
  rw [ComputeBTilde_get lib s d hd, BtilOf_get lib s d m n k i j hm hn hk hi hj,
    BtilOf_get lib s d n m k j i hn hm hk hj hi]
  exact ⟨rfl, mul_comm _ _⟩

/-- C24 (witness): the statement at `diffusionOnSquare`, `d = 1`,
`(m, n) = (0, 1)`, `k = 0`, `(i, j) = (0, 1)`. -/
theorem ComputeBTilde_symmetric_witness :
    ((diffusionOnSquare.ComputeBTilde sampleLibrary).Btil.getD 1 Tensor.empty).get
          [0, 1, 0, 0, 1]
        = (if 0 = 1 then diffusionOnSquare.G else diffusionOnSquare.B).get [0, 0]
            * (if 1 = 1 then diffusionOnSquare.G else diffusionOnSquare.B).get [0, 1]
      ∧ ((diffusionOnSquare.ComputeBTilde sampleLibrary).Btil.getD 1 Tensor.empty).get
          [0, 1, 0, 0, 1]
        = ((diffusionOnSquare.ComputeBTilde sampleLibrary).Btil.getD 1 Tensor.empty).get
          [1, 0, 0, 1, 0] :=
  ComputeBTilde_symmetric sampleLibrary diffusionOnSquare 1 0 1 0 0 1
    (by decide) (by decide) (by decide) (by decide) (by decide) (by decide)

end acro

namespace occa
open acro

/-- C28 (failing input): a form with no integrator.  The size test
`integrators.size() > 1` is false, so the method goes on to read
`integrators[0]`, an element the empty vector does not have: the call has no
defined outcome, neither an error nor a normal return. -/
theorem AssembleElementMatrices_empty_out_of_range (lib : Library)
    (element_matrices : DenseTensor) :
    OccaBilinearForm.AssembleElementMatrices lib [] element_matrices = none := by
  simp [OccaBilinearForm.AssembleElementMatrices]

theorem AssembleElementMatrices_defined (lib : Library) (integrators : List FormIntegrator)
    (element_matrices : DenseTensor) (h : integrators ≠ []) :
    (OccaBilinearForm.AssembleElementMatrices lib integrators element_matrices).isSome
      = true := by
  unfold OccaBilinearForm.AssembleElementMatrices
  by_cases hl : integrators.length > 1
  · simp [hl]
  · simp only [hl, if_false]
    rcases integrators with _ | ⟨a, rest⟩
    · exact absurd rfl h
    · cases a with
      | acroMass s =>
        dsimp only
        cases s.BatchedAssembleElementMatrices lib element_matrices <;> rfl
      | acroDiffusion s => rfl
      | other => rfl

end occa
end mfem
namespace mfem
namespace acro
open Finset

theorem diff3D_output (s : AcroDiffusionIntegrator) (x y : Nat → ℚ)
    (e i1 i2 i3 : Nat) (he : e < s.trialFESpace.NE)
    (h1 : i1 < s.nDof1D) (h2 : i2 < s.nDof1D) (h3 : i3 < s.nDof1D) :
    (s.MultAdd3D x y).2
        (flatIndex [s.trialFESpace.NE, s.nDof1D, s.nDof1D, s.nDof1D] [e, i1, i2, i3])
      = ∑ k1 in range s.nQuad1D, ∑ k2 in range s.nQuad1D, ∑ k3 in range s.nQuad1D,
          (s.G.get [k1, i1] * s.B.get [k2, i2] * s.B.get [k3, i3]
              * (s.MultAdd3D x y).1.Z.get [0, e, k1, k2, k3]
            + s.B.get [k1, i1] * s.G.get [k2, i2] * s.B.get [k3, i3]
              * (s.MultAdd3D x y).1.Z.get [1, e, k1, k2, k3]
            + s.B.get [k1, i1] * s.B.get [k2, i2] * s.G.get [k3, i3]
              * (s.MultAdd3D x y).1.Z.get [2, e, k1, k2, k3]) := by
  have hF : List.Forall₂ (fun i d => i < d) [e, i1, i2, i3]
      [s.trialFESpace.NE, s.nDof1D, s.nDof1D, s.nDof1D] :=
    List.Forall₂.cons he (List.Forall₂.cons h1 (List.Forall₂.cons h2
      (List.Forall₂.cons h3 List.Forall₂.nil)))
  simp only [AcroDiffusionIntegrator.MultAdd3D]
  rw [Tensor.toVector_flatIndex _ _ _ _ _ _ rfl hF]
  simp only [Tensor.assign, Tensor.accumulate, Tensor.slice, Tensor.view, Tensor.get]
  simp only [Finset.mul_sum, ← Finset.sum_add_distrib]
  refine Finset.sum_congr rfl (fun k1 _ => Finset.sum_congr rfl (fun k2 _ =>
    Finset.sum_congr rfl (fun k3 _ => Finset.sum_congr rfl (fun n _ => ?_))))
  ring

theorem diff3D_Z (s : AcroDiffusionIntegrator) (x y : Nat → ℚ) (m e k1 k2 k3 : Nat) :
    (s.MultAdd3D x y).1.Z.get [m, e, k1, k2, k3]
      = ∑ n in range s.nDim.toNat,
          s.D.get [e, m, n, k1, k2, k3] * (s.MultAdd3D x y).1.U.get [n, e, k1, k2, k3] := by
  simp only [AcroDiffusionIntegrator.MultAdd3D, Tensor.assign, Tensor.get]

theorem diff3D_U (s : AcroDiffusionIntegrator) (x y : Nat → ℚ) (e k1 k2 k3 : Nat) :
    (s.MultAdd3D x y).1.U.get [0, e, k1, k2, k3]
        = ∑ j1 in range s.nDof1D, ∑ j2 in range s.nDof1D, ∑ j3 in range s.nDof1D,
            s.G.get [k1, j1] * s.B.get [k2, j2] * s.B.get [k3, j3]
              * x (flatIndex [s.trialFESpace.NE, s.nDof1D, s.nDof1D, s.nDof1D] [e, j1, j2, j3])
      ∧ (s.MultAdd3D x y).1.U.get [1, e, k1, k2, k3]
        = ∑ j1 in range s.nDof1D, ∑ j2 in range s.nDof1D, ∑ j3 in range s.nDof1D,
            s.B.get [k1, j1] * s.G.get [k2, j2] * s.B.get [k3, j3]
              * x (flatIndex [s.trialFESpace.NE, s.nDof1D, s.nDof1D, s.nDof1D] [e, j1, j2, j3])
      ∧ (s.MultAdd3D x y).1.U.get [2, e, k1, k2, k3]
        = ∑ j1 in range s.nDof1D, ∑ j2 in range s.nDof1D, ∑ j3 in range s.nDof1D,
            s.B.get [k1, j1] * s.B.get [k2, j2] * s.G.get [k3, j3]
              * x (flatIndex [s.trialFESpace.NE, s.nDof1D, s.nDof1D, s.nDof1D]
                  [e, j1, j2, j3]) := by
  have h01 : ¬ ((0 : Nat) = 1) := by decide
  have h02 : ¬ ((0 : Nat) = 2) := by decide
  have h12 : ¬ ((1 : Nat) = 2) := by decide
  refine ⟨?_, ?_, ?_⟩
  · simp only [AcroDiffusionIntegrator.MultAdd3D, Tensor.assign, Tensor.assignSlice,
      Tensor.view, Tensor.get, h01, h02, if_false, if_true]
    simp only [Finset.mul_sum]
    refine Finset.sum_congr rfl (fun j1 _ => Finset.sum_congr rfl (fun j2 _ =>
      Finset.sum_congr rfl (fun j3 _ => ?_)))
    ring
  · simp only [AcroDiffusionIntegrator.MultAdd3D, Tensor.assign, Tensor.assignSlice,
      Tensor.view, Tensor.get, h12, if_false, if_true]
    simp only [Finset.mul_sum]
    refine Finset.sum_congr rfl (fun j1 _ => Finset.sum_congr rfl (fun j2 _ =>
      Finset.sum_congr rfl (fun j3 _ => ?_)))
    ring
  · simp only [AcroDiffusionIntegrator.MultAdd3D, Tensor.assign, Tensor.assignSlice,
      Tensor.view, Tensor.get, if_true]
    simp only [Finset.mul_sum]
    refine Finset.sum_congr rfl (fun j1 _ => Finset.sum_congr rfl (fun j2 _ =>
      Finset.sum_congr rfl (fun j3 _ => ?_)))
    ring

end acro
end mfem
namespace mfem
namespace acro
open Finset

theorem diffusionMultAdd_3D_ok (lib : Library) (s : AcroDiffusionIntegrator) (x y : Nat → ℚ)
    (ht : s.hasTensorBasis = true) (hd : s.nDim = 3) :
    s.MultAdd lib x y = Result.ok (s.MultAdd3D x y) := by
  have hA : MFEM_ASSERT lib s.hasTensorBasis = false := by simp [MFEM_ASSERT, ht]
  have h31 : ¬ ((3 : Int) = 1) := by decide
  have h32 : ¬ ((3 : Int) = 2) := by decide
  simp only [AcroDiffusionIntegrator.MultAdd, hA, Bool.false_eq_true, if_false, hd, if_true,
    h31, h32]

/-- C21: in 3D `AcroDiffusionIntegrator::MultAdd` returns, and the output built
by one overwriting contraction followed by two accumulating ones is the sum of
the three directional contributions:
`Y(e,i1,i2,i3) = sum_k [ G(k1,i1) B(k2,i2) B(k3,i3) Z1(e,k)
  + B(k1,i1) G(k2,i2) B(k3,i3) Z2(e,k) + B(k1,i1) B(k2,i2) G(k3,i3) Z3(e,k) ]`
with `Z_m(e,k) = sum_n D(e,m,n,k) U_n(e,k)` and `U_1`, `U_2`, `U_3` the G-B-B,
B-G-B and B-B-G interpolations of `X`, `Z` and `U` being the tensors the call
leaves in the integrator; the reuse of the buffers `T1` and `T2` between the
terms does not disturb any of them. -/
theorem diffusionMultAdd3D_directional_sum (lib : Library) (s : AcroDiffusionIntegrator)
    (x y : Nat → ℚ) (ht : s.hasTensorBasis = true) (hd : s.nDim = 3)
    (e i1 i2 i3 : Nat) (he : e < s.trialFESpace.NE)
    (h1 : i1 < s.nDof1D) (h2 : i2 < s.nDof1D) (h3 : i3 < s.nDof1D) :
    (s.MultAdd lib x y).isFatal = false
      ∧ (s.MultAdd lib x y).state.2
          (flatIndex [s.trialFESpace.NE, s.nDof1D, s.nDof1D, s.nDof1D] [e, i1, i2, i3])
        = ∑ k1 in range s.nQuad1D, ∑ k2 in range s.nQuad1D, ∑ k3 in range s.nQuad1D,
            (s.G.get [k1, i1] * s.B.get [k2, i2] * s.B.get [k3, i3]
                * (s.MultAdd lib x y).state.1.Z.get [0, e, k1, k2, k3]
              + s.B.get [k1, i1] * s.G.get [k2, i2] * s.B.get [k3, i3]
                * (s.MultAdd lib x y).state.1.Z.get [1, e, k1, k2, k3]
              + s.B.get [k1, i1] * s.B.get [k2, i2] * s.G.get [k3, i3]
                * (s.MultAdd lib x y).state.1.Z.get [2, e, k1, k2, k3])
      ∧ (∀ m k1 k2 k3, (s.MultAdd lib x y).state.1.Z.get [m, e, k1, k2, k3]
          = ∑ n in range 3, s.D.get [e, m, n, k1, k2, k3]
              * (s.MultAdd lib x y).state.1.U.get [n, e, k1, k2, k3])
      ∧ (∀ k1 k2 k3,
          (s.MultAdd lib x y).state.1.U.get [0, e, k1, k2, k3]
            = ∑ j1 in range s.nDof1D, ∑ j2 in range s.nDof1D, ∑ j3 in range s.nDof1D,
                s.G.get [k1, j1] * s.B.get [k2, j2] * s.B.get [k3, j3]
                  * x (flatIndex [s.trialFESpace.NE, s.nDof1D, s.nDof1D, s.nDof1D]
                      [e, j1, j2, j3])
          ∧ (s.MultAdd lib x y).state.1.U.get [1, e, k1, k2, k3]
            = ∑ j1 in range s.nDof1D, ∑ j2 in range s.nDof1D, ∑ j3 in range s.nDof1D,
                s.B.get [k1, j1] * s.G.get [k2, j2] * s.B.get [k3, j3]
                  * x (flatIndex [s.trialFESpace.NE, s.nDof1D, s.nDof1D, s.nDof1D]
                      [e, j1, j2, j3])
          ∧ (s.MultAdd lib x y).state.1.U.get [2, e, k1, k2, k3]
            = ∑ j1 in range s.nDof1D, ∑ j2 in range s.nDof1D, ∑ j3 in range s.nDof1D,
                s.B.get [k1, j1] * s.B.get [k2, j2] * s.G.get [k3, j3]
                  * x (flatIndex [s.trialFESpace.NE, s.nDof1D, s.nDof1D, s.nDof1D]
                      [e, j1, j2, j3])) := by
  have hdn : s.nDim.toNat = 3 := by rw [hd]; rfl
  rw [diffusionMultAdd_3D_ok lib s x y ht hd]
  refine ⟨rfl, diff3D_output s x y e i1 i2 i3 he h1 h2 h3, ?_, ?_⟩
  · intro m k1 k2 k3
    have h := diff3D_Z s x y m e k1 k2 k3
    rw [hdn] at h
    exact h
  · intro k1 k2 k3
    exact diff3D_U s x y e k1 k2 k3

/-- C21 (witness): the statement at `diffusionOnCube`, applied to the basis
vector at offset 3 with `y` full of sevens, output entry `(0, 1, 0, 1)`. -/
theorem diffusionMultAdd3D_directional_sum_witness :
    (diffusionOnCube.MultAdd sampleLibrary (basisVector 3) (fun _ => 7)).isFatal = false
      ∧ (diffusionOnCube.MultAdd sampleLibrary (basisVector 3) (fun _ => 7)).state.2
          (flatIndex [diffusionOnCube.trialFESpace.NE, diffusionOnCube.nDof1D,
            diffusionOnCube.nDof1D, diffusionOnCube.nDof1D] [0, 1, 0, 1])
        = ∑ k1 in range diffusionOnCube.nQuad1D, ∑ k2 in range diffusionOnCube.nQuad1D,
            ∑ k3 in range diffusionOnCube.nQuad1D,
            (diffusionOnCube.G.get [k1, 1] * diffusionOnCube.B.get [k2, 0]
                * diffusionOnCube.B.get [k3, 1]
                * (diffusionOnCube.MultAdd sampleLibrary (basisVector 3)
                    (fun _ => 7)).state.1.Z.get [0, 0, k1, k2, k3]
              + diffusionOnCube.B.get [k1, 1] * diffusionOnCube.G.get [k2, 0]
                * diffusionOnCube.B.get [k3, 1]
                * (diffusionOnCube.MultAdd sampleLibrary (basisVector 3)
                    (fun _ => 7)).state.1.Z.get [1, 0, k1, k2, k3]
              + diffusionOnCube.B.get [k1, 1] * diffusionOnCube.B.get [k2, 0]
                * diffusionOnCube.G.get [k3, 1]
                * (diffusionOnCube.MultAdd sampleLibrary (basisVector 3)
                    (fun _ => 7)).state.1.Z.get [2, 0, k1, k2, k3]) :=
  ⟨(diffusionMultAdd3D_directional_sum sampleLibrary diffusionOnCube (basisVector 3)
      (fun _ => 7) rfl rfl 0 1 0 1 (by decide) (by decide) (by decide) (by decide)).1,
    (diffusionMultAdd3D_directional_sum sampleLibrary diffusionOnCube (basisVector 3)
      (fun _ => 7) rfl rfl 0 1 0 1 (by decide) (by decide) (by decide) (by decide)).2.1⟩

end acro
end mfem
namespace mfem
namespace acro
open Finset

theorem massBAEM_M (lib : Library) (s : AcroMassIntegrator) (el : DenseTensor)
    (hD : s.D.IsInitialized = true)
    (hB : s.hasTensorBasis = true ∨ s.B.IsInitialized = true) :
    (s.BatchedAssembleElementMatrices lib el).state.1.M
      = AcroMassIntegrator.contractM
          (if !s.M.IsInitialized then { s with M := s.initM lib } else s) := by
  have hne := massBAEM_not_refused s hB
  unfold AcroMassIntegrator.BatchedAssembleElementMatrices
  simp only [hD, Bool.not_true, Bool.false_eq_true, if_false, Result.state]
  by_cases hM : s.M.IsInitialized = true
  · simp [hM, hne]
  · simp [hM, hne]

theorem massM_raw_1D (lib : Library) (s : AcroMassIntegrator) (el : DenseTensor)
    (ht : s.hasTensorBasis = true) (hd : s.nDim = 1) (hnDof : s.nDof = s.nDof1D)
    (hD : s.D.IsInitialized = true)
    (hM : s.M.IsInitialized = true → s.M.dims = (s.initM lib).dims)
    (e i1 j1 : Nat) (hi1 : i1 < s.nDof1D) (hj1 : j1 < s.nDof1D) :
    (s.BatchedAssembleElementMatrices lib el).state.1.M.raw
        (e * s.nDof * s.nDof + i1 * s.nDof + j1)
      = ∑ k1 in range s.nQuad1D, s.B.get [k1, i1] * s.B.get [k1, j1] * s.D.get [e, k1] := by
  rw [massBAEM_M lib s el hD (Or.inl ht)]
  have hdims := massM_dims lib s hM
  have hshape : (s.initM lib).dims = [s.trialFESpace.NE, s.nDof1D, s.nDof1D] := by
    simp [AcroMassIntegrator.initM, ht, hd, Tensor.Init]
  rw [hshape] at hdims
  have hidx : e * s.nDof * s.nDof + i1 * s.nDof + j1
      = flatIndex [s.trialFESpace.NE, s.nDof1D, s.nDof1D] [e, i1, j1] := by
    simp only [flatIndex, List.prod_cons, List.prod_nil, hnDof]
    ring
  rw [hidx, Tensor.raw_flatIndex _ _ _ _ _ hdims
    (List.Forall₂.cons hi1 (List.Forall₂.cons hj1 List.Forall₂.nil))]
  by_cases h : s.M.IsInitialized = true
  · simp [h, AcroMassIntegrator.contractM, ht, hd, Tensor.assign, Tensor.get]
  · simp [h, AcroMassIntegrator.contractM, ht, hd, Tensor.assign, Tensor.get]

theorem massM_raw_2D (lib : Library) (s : AcroMassIntegrator) (el : DenseTensor)
    (ht : s.hasTensorBasis = true) (hd : s.nDim = 2) (hnDof : s.nDof = s.nDof1D * s.nDof1D)
    (hD : s.D.IsInitialized = true)
    (hM : s.M.IsInitialized = true → s.M.dims = (s.initM lib).dims)
    (e i1 i2 j1 j2 : Nat)
    (hi1 : i1 < s.nDof1D) (hi2 : i2 < s.nDof1D) (hj1 : j1 < s.nDof1D) (hj2 : j2 < s.nDof1D) :
    (s.BatchedAssembleElementMatrices lib el).state.1.M.raw
        (e * s.nDof * s.nDof + (i1 * s.nDof1D + i2) * s.nDof + (j1 * s.nDof1D + j2))
      = ∑ k1 in range s.nQuad1D, ∑ k2 in range s.nQuad1D,
          s.B.get [k1, i1] * s.B.get [k1, j1] * s.B.get [k2, i2] * s.B.get [k2, j2]
            * s.D.get [e, k1, k2] := by
  rw [massBAEM_M lib s el hD (Or.inl ht)]
  have hdims := massM_dims lib s hM
  have h21 : ¬ ((2 : Int) = 1) := by decide
  have hshape : (s.initM lib).dims
      = [s.trialFESpace.NE, s.nDof1D, s.nDof1D, s.nDof1D, s.nDof1D] := by
    simp [AcroMassIntegrator.initM, ht, hd, Tensor.Init]
  rw [hshape] at hdims
  have hidx : e * s.nDof * s.nDof + (i1 * s.nDof1D + i2) * s.nDof + (j1 * s.nDof1D + j2)
      = flatIndex [s.trialFESpace.NE, s.nDof1D, s.nDof1D, s.nDof1D, s.nDof1D]
          [e, i1, i2, j1, j2] := by
    simp only [flatIndex, List.prod_cons, List.prod_nil, hnDof]
    ring
  rw [hidx, Tensor.raw_flatIndex _ _ _ _ _ hdims
    (List.Forall₂.cons hi1 (List.Forall₂.cons hi2
      (List.Forall₂.cons hj1 (List.Forall₂.cons hj2 List.Forall₂.nil))))]
  by_cases h : s.M.IsInitialized = true
  · simp [h, AcroMassIntegrator.contractM, ht, hd, Tensor.assign, Tensor.get]
  · simp [h, AcroMassIntegrator.contractM, ht, hd, Tensor.assign, Tensor.get]

theorem massM_raw_3D (lib : Library) (s : AcroMassIntegrator) (el : DenseTensor)
    (ht : s.hasTensorBasis = true) (hd : s.nDim = 3)
    (hnDof : s.nDof = s.nDof1D * s.nDof1D * s.nDof1D)
    (hD : s.D.IsInitialized = true)
    (hM : s.M.IsInitialized = true → s.M.dims = (s.initM lib).dims)
    (e i1 i2 i3 j1 j2 j3 : Nat)
    (hi1 : i1 < s.nDof1D) (hi2 : i2 < s.nDof1D) (hi3 : i3 < s.nDof1D)
    (hj1 : j1 < s.nDof1D) (hj2 : j2 < s.nDof1D) (hj3 : j3 < s.nDof1D) :
    (s.BatchedAssembleElementMatrices lib el).state.1.M.raw
        (e * s.nDof * s.nDof + ((i1 * s.nDof1D + i2) * s.nDof1D + i3) * s.nDof
          + ((j1 * s.nDof1D + j2) * s.nDof1D + j3))
      = ∑ k1 in range s.nQuad1D, ∑ k2 in range s.nQuad1D, ∑ k3 in range s.nQuad1D,
          s.B.get [k1, i1] * s.B.get [k1, j1] * s.B.get [k2, i2] * s.B.get [k2, j2]
            * s.B.get [k3, i3] * s.B.get [k3, j3] * s.D.get [e, k1, k2, k3] := by
  rw [massBAEM_M lib s el hD (Or.inl ht)]
  have hdims := massM_dims lib s hM
  have hshape : (s.initM lib).dims
      = [s.trialFESpace.NE, s.nDof1D, s.nDof1D, s.nDof1D, s.nDof1D, s.nDof1D, s.nDof1D] := by
    simp [AcroMassIntegrator.initM, ht, hd, Tensor.Init]
  rw [hshape] at hdims
  have hidx : e * s.nDof * s.nDof + ((i1 * s.nDof1D + i2) * s.nDof1D + i3) * s.nDof
        + ((j1 * s.nDof1D + j2) * s.nDof1D + j3)
      = flatIndex
          [s.trialFESpace.NE, s.nDof1D, s.nDof1D, s.nDof1D, s.nDof1D, s.nDof1D, s.nDof1D]
          [e, i1, i2, i3, j1, j2, j3] := by
    simp only [flatIndex, List.prod_cons, List.prod_nil, hnDof]
    ring
  rw [hidx, Tensor.raw_flatIndex _ _ _ _ _ hdims
    (List.Forall₂.cons hi1 (List.Forall₂.cons hi2 (List.Forall₂.cons hi3
      (List.Forall₂.cons hj1 (List.Forall₂.cons hj2 (List.Forall₂.cons hj3
        List.Forall₂.nil))))))]
  by_cases h : s.M.IsInitialized = true
  · simp [h, AcroMassIntegrator.contractM, ht, hd, Tensor.assign, Tensor.get]
  · simp [h, AcroMassIntegrator.contractM, ht, hd, Tensor.assign, Tensor.get]

theorem massMultAdd_basis_M (lib : Library) (s : AcroMassIntegrator)
    (el : DenseTensor) (y : Nat → ℚ) (ht : s.hasTensorBasis = true)
    (hd : s.nDim = 1 ∨ s.nDim = 2 ∨ s.nDim = 3)
    (hnDof : s.nDof = s.nDof1D ^ s.nDim.toNat)
    (hD : s.D.IsInitialized = true)
    (hM : s.M.IsInitialized = true → s.M.dims = (s.initM lib).dims)
    (e a b : Nat) (he : e < s.trialFESpace.NE) (ha : a < s.nDof) (hb : b < s.nDof) :
    (s.MultAdd (basisVector (e * s.nDof + b)) y).state.2 (e * s.nDof + a)
      = (s.BatchedAssembleElementMatrices lib el).state.1.M.raw
          (e * s.nDof * s.nDof + a * s.nDof + b) := by
  rcases hd with hd | hd | hd
  · have hn : s.nDof = s.nDof1D := by rw [hnDof, hd]; simp
    have ha1 : a < s.nDof1D := hn ▸ ha
    have hb1 : b < s.nDof1D := hn ▸ hb
    have hfa : e * s.nDof + a = flatIndex [s.trialFESpace.NE, s.nDof1D] [e, a] := by
      simp only [flatIndex, List.prod_cons, List.prod_nil, hn]; ring
    have hfb : e * s.nDof + b = flatIndex [s.trialFESpace.NE, s.nDof1D] [e, b] := by
      simp only [flatIndex, List.prod_cons, List.prod_nil, hn]; ring
    rw [massM_raw_1D lib s el ht hd hn hD hM e a b ha1 hb1]
    simp only [AcroMassIntegrator.MultAdd, ht, hd, if_true, Result.state]
    rw [hfa, hfb, mass1D_linear s _ _ e a he ha1,
      sum_basis1 s.trialFESpace.NE s.nDof1D e b _ hb1]
  · have hn : s.nDof = s.nDof1D * s.nDof1D := by rw [hnDof, hd]; simp [pow_two]
    obtain ⟨ha1, ha2, hae⟩ := decomp2 s.nDof1D a (hn ▸ ha)
    obtain ⟨hb1, hb2, hbe⟩ := decomp2 s.nDof1D b (hn ▸ hb)
    have hfa : e * s.nDof + a
        = flatIndex [s.trialFESpace.NE, s.nDof1D, s.nDof1D] [e, a / s.nDof1D, a % s.nDof1D] := by
      simp only [flatIndex, List.prod_cons, List.prod_nil, hn]
      nth_rewrite 1 [← hae]; ring
    have hfb : e * s.nDof + b
        = flatIndex [s.trialFESpace.NE, s.nDof1D, s.nDof1D] [e, b / s.nDof1D, b % s.nDof1D] := by
      simp only [flatIndex, List.prod_cons, List.prod_nil, hn]
      nth_rewrite 1 [← hbe]; ring
    have hE := massM_raw_2D lib s el ht hd hn hD hM e _ _ _ _ ha1 ha2 hb1 hb2
    rw [hae, hbe] at hE
    rw [hE]
    simp only [AcroMassIntegrator.MultAdd, ht, hd, if_true, Result.state]
    have h21 : ¬ ((2 : Int) = 1) := by decide
    simp only [h21, if_false]
    rw [hfa, hfb, mass2D_linear s _ _ e _ _ he ha1 ha2,
      sum_basis2 s.trialFESpace.NE s.nDof1D e _ _ _ hb1 hb2]
  · have hn : s.nDof = s.nDof1D * s.nDof1D * s.nDof1D := by
      rw [hnDof, hd]; simp [pow_succ]
    obtain ⟨ha1, ha2, ha3, hae⟩ := decomp3 s.nDof1D a (hn ▸ ha)
    obtain ⟨hb1, hb2, hb3, hbe⟩ := decomp3 s.nDof1D b (hn ▸ hb)
    have hae' : (a / (s.nDof1D * s.nDof1D) * s.nDof1D + a / s.nDof1D % s.nDof1D) * s.nDof1D
        + a % s.nDof1D = a := by
      refine Eq.trans ?_ hae
      ring
    have hbe' : (b / (s.nDof1D * s.nDof1D) * s.nDof1D + b / s.nDof1D % s.nDof1D) * s.nDof1D
        + b % s.nDof1D = b := by
      refine Eq.trans ?_ hbe
      ring
    have hfa : e * s.nDof + a
        = flatIndex [s.trialFESpace.NE, s.nDof1D, s.nDof1D, s.nDof1D]
            [e, a / (s.nDof1D * s.nDof1D), a / s.nDof1D % s.nDof1D, a % s.nDof1D] := by
      simp only [flatIndex, List.prod_cons, List.prod_nil, hn]
      nth_rewrite 1 [← hae]; ring
    have hfb : e * s.nDof + b
        = flatIndex [s.trialFESpace.NE, s.nDof1D, s.nDof1D, s.nDof1D]
            [e, b / (s.nDof1D * s.nDof1D), b / s.nDof1D % s.nDof1D, b % s.nDof1D] := by
      simp only [flatIndex, List.prod_cons, List.prod_nil, hn]
      nth_rewrite 1 [← hbe]; ring
    have hE := massM_raw_3D lib s el ht hd hn hD hM e _ _ _ _ _ _
      ha1 ha2 ha3 hb1 hb2 hb3
    rw [hae', hbe'] at hE
    rw [hE]
    simp only [AcroMassIntegrator.MultAdd, ht, hd, if_true, Result.state]
    have h31 : ¬ ((3 : Int) = 1) := by decide
    have h32 : ¬ ((3 : Int) = 2) := by decide
    simp only [h31, h32, if_false]
    rw [hfa, hfb, mass3D_linear s _ _ e _ _ _ he ha1 ha2 ha3,
      sum_basis3 s.trialFESpace.NE s.nDof1D e _ _ _ _ hb1 hb2 hb3]

end acro
end mfem
namespace mfem
namespace acro
open Finset

/-- C25: for the mass integrator on the tensor path in dimension 1, 2 or 3
(`nDof = nDof1D^nDim`, `D` initialised), the sum-factorized `MultAdd` agrees
with the element matrices up to the DOF permutation: for every element `e`
and internal flat indices `a, b < nDof`, entry `[e*nDof + a]` of `MultAdd`
applied to the basis vector at `[e*nDof + b]` (any initial `y`) equals
`M[e*nDof*nDof + a*nDof + b]`; when `tDofMap` is injective this is the value
`BatchedAssembleElementMatrices` leaves at `elmats(tDofMap[a], tDofMap[b], e)`;
and `MultAdd` gives the same output whatever `tDofMap` holds. -/
theorem massMultAdd_agrees_with_M (lib : Library) (s : AcroMassIntegrator)
    (el : DenseTensor) (y : Nat → ℚ) (t : List Nat) (ht : s.hasTensorBasis = true)
    (hd : s.nDim = 1 ∨ s.nDim = 2 ∨ s.nDim = 3)
    (hnDof : s.nDof = s.nDof1D ^ s.nDim.toNat)
    (hD : s.D.IsInitialized = true)
    (hM : s.M.IsInitialized = true → s.M.dims = (s.initM lib).dims)
    (e a b : Nat) (he : e < s.trialFESpace.NE) (ha : a < s.nDof) (hb : b < s.nDof) :
    (s.MultAdd (basisVector (e * s.nDof + b)) y).state.2 (e * s.nDof + a)
        = (s.BatchedAssembleElementMatrices lib el).state.1.M.raw
            (e * s.nDof * s.nDof + a * s.nDof + b)
      ∧ ((∀ i j, i < s.nDof → j < s.nDof → s.dofMap i = s.dofMap j → i = j) →
          (s.BatchedAssembleElementMatrices lib el).state.2 (s.dofMap a) (s.dofMap b) e
            = (s.BatchedAssembleElementMatrices lib el).state.1.M.raw
                (e * s.nDof * s.nDof + a * s.nDof + b))
      ∧ (AcroMassIntegrator.MultAdd { s with tDofMap := t }
            (basisVector (e * s.nDof + b)) y).state.2
          = (s.MultAdd (basisVector (e * s.nDof + b)) y).state.2 := by
  refine ⟨massMultAdd_basis_M lib s el y ht hd hnDof hD hM e a b he ha hb, ?_, ?_⟩
  · intro hinj
    rw [(massBAEM_scatter lib s el (massBAEM_ok lib s el hD (Or.inl ht))).1]
    exact scatter_get s.toPAIntegrator _ el hinj e a b he ha hb
  · unfold AcroMassIntegrator.MultAdd
    split_ifs <;> rfl

/-- C25 (witness): the statement at `massOnSegment` (`tDofMap = [0, 2, 1]`),
`a = 0`, `b = 1`. -/
theorem massMultAdd_agrees_with_M_witness :
    (massOnSegment.MultAdd (basisVector (0 * massOnSegment.nDof + 1)) (fun _ => 7)).state.2
        (0 * massOnSegment.nDof + 0)
      = (massOnSegment.BatchedAssembleElementMatrices sampleLibrary
          (fun _ _ _ => 0)).state.1.M.raw
          (0 * massOnSegment.nDof * massOnSegment.nDof + 0 * massOnSegment.nDof + 1) :=
  (massMultAdd_agrees_with_M sampleLibrary massOnSegment (fun _ _ _ => 0) (fun _ => 7) []
    rfl (Or.inl rfl) rfl rfl
    (fun h => by simp [massOnSegment, Tensor.empty, Tensor.IsInitialized] at h)
    0 0 1 (by decide) (by decide) (by decide)).1

end acro
end mfem
namespace mfem
namespace acro
open Finset

theorem diffBAEM_S (lib : Library) (s : AcroDiffusionIntegrator) (el : DenseTensor)
    (ht : s.hasTensorBasis = true) (hBt : s.Btil = []) (hD : s.D.IsInitialized = true) :
    (s.BatchedAssembleElementMatrices lib el).1.S
      = AcroDiffusionIntegrator.contractS
          (if !s.S.IsInitialized then
            { s.ComputeBTilde lib with S := (s.ComputeBTilde lib).initS lib }
           else s.ComputeBTilde lib) := by
  have hD' : (s.ComputeBTilde lib).D.IsInitialized = true := hD
  have hS' : (s.ComputeBTilde lib).S = s.S := rfl
  unfold AcroDiffusionIntegrator.BatchedAssembleElementMatrices
  simp only [ht, hBt, List.length_nil, beq_self_eq_true, Bool.and_self, if_true, hD',
    Bool.not_true, Bool.false_eq_true, if_false, hS']

theorem diffS_get_2D (lib : Library) (s : AcroDiffusionIntegrator) (el : DenseTensor)
    (ht : s.hasTensorBasis = true) (hd : s.nDim = 2)
    (hBt : s.Btil = []) (hD : s.D.IsInitialized = true)
    (e i1 i2 j1 j2 : Nat)
    (hi1 : i1 < s.nDof1D) (hi2 : i2 < s.nDof1D)
    (hj1 : j1 < s.nDof1D) (hj2 : j2 < s.nDof1D) :
    (s.BatchedAssembleElementMatrices lib el).1.S.get [e, i1, i2, j1, j2]
      = ∑ m in range 2, ∑ n in range 2,
          ∑ k1 in range s.nQuad1D, ∑ k2 in range s.nQuad1D,
            ((if m = 0 then s.G else s.B).get [k1, i1] * (if n = 0 then s.G else s.B).get [k1, j1])
              * ((if m = 1 then s.G else s.B).get [k2, i2]
                  * (if n = 1 then s.G else s.B).get [k2, j2])
              * s.D.get [e, m, n, k1, k2] := by
  rw [diffBAEM_S lib s el ht hBt hD]
  have h21 : ¬ ((2 : Int) = 1) := by decide
  have hdn : s.nDim.toNat = 2 := by rw [hd]; rfl
  have hB0 := ComputeBTilde_get lib s 0 (by rw [hdn]; decide)
  have hB1 := ComputeBTilde_get lib s 1 (by rw [hdn]; decide)
  have key : (AcroDiffusionIntegrator.contractS
        (if !s.S.IsInitialized then
              { s.ComputeBTilde lib with S := (s.ComputeBTilde lib).initS lib }
             else s.ComputeBTilde lib)).get [e, i1, i2, j1, j2]
      = ∑ m in range 2, ∑ n in range 2,
          ∑ k1 in range s.nQuad1D, ∑ k2 in range s.nQuad1D,
            (s.BtilOf lib 0).get [m, n, k1, i1, j1] * (s.BtilOf lib 1).get [m, n, k2, i2, j2]
              * s.D.get [e, m, n, k1, k2] := by
    have hp : (s.ComputeBTilde lib).toPAIntegrator = s.toPAIntegrator := rfl
    have hDD : (s.ComputeBTilde lib).D = s.D := rfl
    have h2n : Int.toNat 2 = 2 := rfl
    by_cases h : s.S.IsInitialized = true
    · simp only [h, Bool.not_true, Bool.false_eq_true, if_false,
        AcroDiffusionIntegrator.contractS, hp, ht, hd, if_true, Tensor.assign, hdn, hB0, hB1,
        hDD, h2n, h21, Tensor.get]
    · simp only [h, Bool.not_false, if_true,
        AcroDiffusionIntegrator.contractS, hp, ht, hd, Tensor.assign, hdn, hB0, hB1, hDD,
        h2n, h21, if_false, Tensor.get]
  rw [key]
  refine Finset.sum_congr rfl (fun m hm => Finset.sum_congr rfl (fun n hn =>
    Finset.sum_congr rfl (fun k1 hk1 => Finset.sum_congr rfl (fun k2 hk2 => ?_))))
  have hm3 : m < s.nDim.toNat := by rw [hdn]; exact Finset.mem_range.mp hm
  have hn3 : n < s.nDim.toNat := by rw [hdn]; exact Finset.mem_range.mp hn
  rw [BtilOf_get lib s 0 m n k1 i1 j1 hm3 hn3 (Finset.mem_range.mp hk1) hi1 hj1,
    BtilOf_get lib s 1 m n k2 i2 j2 hm3 hn3 (Finset.mem_range.mp hk2) hi2 hj2]

theorem diffS_raw_2D (lib : Library) (s : AcroDiffusionIntegrator) (el : DenseTensor)
    (ht : s.hasTensorBasis = true) (hd : s.nDim = 2)
    (hnDof : s.nDof = s.nDof1D * s.nDof1D)
    (hBt : s.Btil = []) (hD : s.D.IsInitialized = true)
    (hS : s.S.IsInitialized = true → s.S.dims = (s.initS lib).dims)
    (e i1 i2 j1 j2 : Nat)
    (hi1 : i1 < s.nDof1D) (hi2 : i2 < s.nDof1D)
    (hj1 : j1 < s.nDof1D) (hj2 : j2 < s.nDof1D) :
    (s.BatchedAssembleElementMatrices lib el).1.S.raw
        (e * s.nDof * s.nDof + (i1 * s.nDof1D + i2) * s.nDof + (j1 * s.nDof1D + j2))
      = (s.BatchedAssembleElementMatrices lib el).1.S.get [e, i1, i2, j1, j2] := by
  have hdims := diffS_dims lib s hS
  rw [← diffBAEM_S lib s el ht hBt hD] at hdims
  have h21 : ¬ ((2 : Int) = 1) := by decide
  have hshape : (s.initS lib).dims
      = [s.trialFESpace.NE, s.nDof1D, s.nDof1D, s.nDof1D, s.nDof1D] := by
    simp [AcroDiffusionIntegrator.initS, ht, hd, Tensor.Init]
  rw [hshape] at hdims
  have hidx : e * s.nDof * s.nDof + (i1 * s.nDof1D + i2) * s.nDof + (j1 * s.nDof1D + j2)
      = flatIndex [s.trialFESpace.NE, s.nDof1D, s.nDof1D, s.nDof1D, s.nDof1D]
          [e, i1, i2, j1, j2] := by
    simp only [flatIndex, List.prod_cons, List.prod_nil, hnDof]
    ring
  rw [hidx, Tensor.raw_flatIndex _ _ _ _ _ hdims
    (List.Forall₂.cons hi1 (List.Forall₂.cons hi2
      (List.Forall₂.cons hj1 (List.Forall₂.cons hj2 List.Forall₂.nil))))]
  rfl

/-- C26: the 2D diffusion `MultAdd` addresses the local vector with the
direction-1 index fastest (`X_e_i2_i1`), whereas the element matrix `S` is
stored with direction 1 slowest.  On the tensor path in dimension 2
(`nDof = nDof1D^2`, `D` initialised, `Btil` not yet computed), for every
element `e` and `i1, i2, j1, j2 < nDof1D`: entry `[e*nDof + i2*nDof1D + i1]`
of `MultAdd` applied to the basis vector at `[e*nDof + j2*nDof1D + j1]` (any
initial `y`) equals `S(e,i1,i2,j1,j2)`, the value stored at flat position
`(i1*nDof1D + i2, j1*nDof1D + j2)` of `S`. -/
theorem diffusionMultAdd2D_transposed (lib : Library) (s : AcroDiffusionIntegrator)
    (el : DenseTensor) (y : Nat → ℚ) (ht : s.hasTensorBasis = true) (hd : s.nDim = 2)
    (hnDof : s.nDof = s.nDof1D * s.nDof1D)
    (hBt : s.Btil = []) (hD : s.D.IsInitialized = true)
    (hS : s.S.IsInitialized = true → s.S.dims = (s.initS lib).dims)
    (e i1 i2 j1 j2 : Nat) (he : e < s.trialFESpace.NE)
    (hi1 : i1 < s.nDof1D) (hi2 : i2 < s.nDof1D)
    (hj1 : j1 < s.nDof1D) (hj2 : j2 < s.nDof1D) :
    (s.MultAdd lib (basisVector (e * s.nDof + j2 * s.nDof1D + j1)) y).state.2
        (e * s.nDof + i2 * s.nDof1D + i1)
        = (s.BatchedAssembleElementMatrices lib el).1.S.get [e, i1, i2, j1, j2]
      ∧ (s.BatchedAssembleElementMatrices lib el).1.S.raw
          (e * s.nDof * s.nDof + (i1 * s.nDof1D + i2) * s.nDof + (j1 * s.nDof1D + j2))
        = (s.BatchedAssembleElementMatrices lib el).1.S.get [e, i1, i2, j1, j2] := by
  refine ⟨?_, diffS_raw_2D lib s el ht hd hnDof hBt hD hS e i1 i2 j1 j2 hi1 hi2 hj1 hj2⟩
  have hA : MFEM_ASSERT lib s.hasTensorBasis = false := by simp [MFEM_ASSERT, ht]
  have h21 : ¬ ((2 : Int) = 1) := by decide
  have hfa : e * s.nDof + i2 * s.nDof1D + i1
      = flatIndex [s.trialFESpace.NE, s.nDof1D, s.nDof1D] [e, i2, i1] := by
    simp only [flatIndex, List.prod_cons, List.prod_nil, hnDof]; ring
  have hfb : e * s.nDof + j2 * s.nDof1D + j1
      = flatIndex [s.trialFESpace.NE, s.nDof1D, s.nDof1D] [e, j2, j1] := by
    simp only [flatIndex, List.prod_cons, List.prod_nil, hnDof]; ring
  rw [diffS_get_2D lib s el ht hd hBt hD e i1 i2 j1 j2 hi1 hi2 hj1 hj2]
  simp only [AcroDiffusionIntegrator.MultAdd, hA, Bool.false_eq_true, if_false, hd, if_true,
    Result.state, h21]
  rw [hfa, hfb, diff2D_basis s y hd e i1 i2 j1 j2 he hi1 hi2 hj1 hj2]

/-- C26 (witness): the statement at `diffusionOnSquare`, `(i1, i2) = (0, 1)`,
`(j1, j2) = (1, 1)`. -/
theorem diffusionMultAdd2D_transposed_witness :
    (diffusionOnSquare.MultAdd sampleLibrary
        (basisVector (0 * diffusionOnSquare.nDof + 1 * diffusionOnSquare.nDof1D + 1))
        (fun _ => 0)).state.2 (0 * diffusionOnSquare.nDof + 1 * diffusionOnSquare.nDof1D + 0)
      = (diffusionOnSquare.BatchedAssembleElementMatrices sampleLibrary
          (fun _ _ _ => 0)).1.S.get [0, 0, 1, 1, 1] :=
  (diffusionMultAdd2D_transposed sampleLibrary diffusionOnSquare (fun _ _ _ => 0)
    (fun _ => 0) rfl rfl rfl rfl rfl
    (fun h => by simp [diffusionOnSquare, Tensor.empty, Tensor.IsInitialized] at h)
    0 0 1 1 1 (by decide) (by decide) (by decide) (by decide) (by decide)).1

end acro
end mfem
namespace mfem
namespace acro
open Finset

theorem massElmats_simplex (lib : Library) (s : AcroMassIntegrator) (el : DenseTensor)
    (ht : s.hasTensorBasis = false) (hB : s.B.IsInitialized = true)
    (hD : s.D.IsInitialized = true)
    (hM : s.M.IsInitialized = true → s.M.dims = (s.initM lib).dims)
    (hinj : ∀ i j, i < s.nDof → j < s.nDof → s.dofMap i = s.dofMap j → i = j)
    (e i j : Nat) (he : e < s.trialFESpace.NE) (hi : i < s.nDof) (hj : j < s.nDof) :
    (s.BatchedAssembleElementMatrices lib el).state.2 (s.dofMap i) (s.dofMap j) e
      = ∑ k in range s.nQuad, s.B.get [k, i] * s.B.get [k, j] * s.D.get [e, k] := by
  rw [massBAEM_elmats lib s el hD (Or.inr hB), scatter_get s.toPAIntegrator _ el hinj e _ _ he hi hj]
  have hdims := massM_dims lib s hM
  have hshape : (s.initM lib).dims = [s.trialFESpace.NE, s.nDof, s.nDof] := by
    simp [AcroMassIntegrator.initM, ht, Tensor.Init]
  rw [hshape] at hdims
  have hidx : e * s.nDof * s.nDof + i * s.nDof + j
      = flatIndex [s.trialFESpace.NE, s.nDof, s.nDof] [e, i, j] := by
    simp only [flatIndex, List.prod_cons, List.prod_nil]
    ring
  rw [hidx, Tensor.raw_flatIndex _ _ _ _ _ hdims
    (List.Forall₂.cons hi (List.Forall₂.cons hj List.Forall₂.nil))]
  by_cases h : s.M.IsInitialized = true
  · simp [h, AcroMassIntegrator.contractM, ht, Tensor.assign, Tensor.get]
  · simp [h, AcroMassIntegrator.contractM, ht, Tensor.assign, Tensor.get]

theorem massElmats_symm (lib : Library) (s : AcroMassIntegrator) (el : DenseTensor)
    (hp : (s.hasTensorBasis = true ∧ (s.nDim = 1 ∨ s.nDim = 2 ∨ s.nDim = 3)
        ∧ s.nDof = s.nDof1D ^ s.nDim.toNat)
      ∨ (s.hasTensorBasis = false ∧ s.B.IsInitialized = true))
    (hD : s.D.IsInitialized = true)
    (hM : s.M.IsInitialized = true → s.M.dims = (s.initM lib).dims)
    (hinj : ∀ i j, i < s.nDof → j < s.nDof → s.dofMap i = s.dofMap j → i = j)
    (e i j : Nat) (he : e < s.trialFESpace.NE) (hi : i < s.nDof) (hj : j < s.nDof) :
    (s.BatchedAssembleElementMatrices lib el).state.2 (s.dofMap i) (s.dofMap j) e
      = (s.BatchedAssembleElementMatrices lib el).state.2 (s.dofMap j) (s.dofMap i) e := by
  rcases hp with ⟨ht, hd, hnDof⟩ | ⟨ht, hB⟩
  · rcases hd with hd | hd | hd
    · have hn : s.nDof = s.nDof1D := by rw [hnDof, hd]; simp
      rw [massElmats_1D lib s el ht hd hn hD hM hinj e i j he (hn ▸ hi) (hn ▸ hj),
        massElmats_1D lib s el ht hd hn hD hM hinj e j i he (hn ▸ hj) (hn ▸ hi)]
      exact Finset.sum_congr rfl (fun k1 _ => by ring)
    · have hn : s.nDof = s.nDof1D * s.nDof1D := by rw [hnDof, hd]; simp [pow_two]
      obtain ⟨hi1, hi2, hie⟩ := decomp2 s.nDof1D i (hn ▸ hi)
      obtain ⟨hj1, hj2, hje⟩ := decomp2 s.nDof1D j (hn ▸ hj)
      have h1 := massElmats_2D lib s el ht hd hn hD hM hinj e _ _ _ _ he hi1 hi2 hj1 hj2
      have h2 := massElmats_2D lib s el ht hd hn hD hM hinj e _ _ _ _ he hj1 hj2 hi1 hi2
      rw [hie, hje] at h1 h2
      rw [h1, h2]
      exact Finset.sum_congr rfl (fun k1 _ => Finset.sum_congr rfl (fun k2 _ => by ring))
    · have hn : s.nDof = s.nDof1D * s.nDof1D * s.nDof1D := by
        rw [hnDof, hd]; simp [pow_succ]
      obtain ⟨hi1, hi2, hi3, hie⟩ := decomp3 s.nDof1D i (hn ▸ hi)
      obtain ⟨hj1, hj2, hj3, hje⟩ := decomp3 s.nDof1D j (hn ▸ hj)
      have hie' : (i / (s.nDof1D * s.nDof1D) * s.nDof1D + i / s.nDof1D % s.nDof1D) * s.nDof1D
          + i % s.nDof1D = i := by
        refine Eq.trans ?_ hie
        ring
      have hje' : (j / (s.nDof1D * s.nDof1D) * s.nDof1D + j / s.nDof1D % s.nDof1D) * s.nDof1D
          + j % s.nDof1D = j := by
        refine Eq.trans ?_ hje
        ring
      have h1 := massElmats_3D lib s el ht hd hn hD hM hinj e _ _ _ _ _ _ he
        hi1 hi2 hi3 hj1 hj2 hj3
      have h2 := massElmats_3D lib s el ht hd hn hD hM hinj e _ _ _ _ _ _ he
        hj1 hj2 hj3 hi1 hi2 hi3
      rw [hie', hje'] at h1 h2
      rw [h1, h2]
      exact Finset.sum_congr rfl (fun k1 _ => Finset.sum_congr rfl (fun k2 _ =>
        Finset.sum_congr rfl (fun k3 _ => by ring)))
  · rw [massElmats_simplex lib s el ht hB hD hM hinj e i j he hi hj,
      massElmats_simplex lib s el ht hB hD hM hinj e j i he hj hi]
    exact Finset.sum_congr rfl (fun k _ => by ring)

theorem diffElmats_symm (lib : Library) (s : AcroDiffusionIntegrator) (el : DenseTensor)
    (ht : s.hasTensorBasis = true) (hd : s.nDim = 1 ∨ s.nDim = 2 ∨ s.nDim = 3)
    (hnDof : s.nDof = s.nDof1D ^ s.nDim.toNat)
    (hBt : s.Btil = []) (hD : s.D.IsInitialized = true)
    (hS : s.S.IsInitialized = true → s.S.dims = (s.initS lib).dims)
    (hinj : ∀ i j, i < s.nDof → j < s.nDof → s.dofMap i = s.dofMap j → i = j)
    (hsym : ∀ e m n ks, s.D.get (e :: m :: n :: ks) = s.D.get (e :: n :: m :: ks))
    (e i j : Nat) (he : e < s.trialFESpace.NE) (hi : i < s.nDof) (hj : j < s.nDof) :
    (s.BatchedAssembleElementMatrices lib el).2 (s.dofMap i) (s.dofMap j) e
      = (s.BatchedAssembleElementMatrices lib el).2 (s.dofMap j) (s.dofMap i) e := by
  rcases hd with hd | hd | hd
  · have hn : s.nDof = s.nDof1D := by rw [hnDof, hd]; simp
    rw [diffElmats_1D lib s el ht hd hn hBt hD hS hinj e i j he (hn ▸ hi) (hn ▸ hj),
      diffElmats_1D lib s el ht hd hn hBt hD hS hinj e j i he (hn ▸ hj) (hn ▸ hi)]
    exact Finset.sum_congr rfl (fun k1 _ => by ring)
  · have hn : s.nDof = s.nDof1D * s.nDof1D := by rw [hnDof, hd]; simp [pow_two]
    obtain ⟨hi1, hi2, hie⟩ := decomp2 s.nDof1D i (hn ▸ hi)
    obtain ⟨hj1, hj2, hje⟩ := decomp2 s.nDof1D j (hn ▸ hj)
    have h1 := diffElmats_2D lib s el ht hd hn hBt hD hS hinj e _ _ _ _ he hi1 hi2 hj1 hj2
    have h2 := diffElmats_2D lib s el ht hd hn hBt hD hS hinj e _ _ _ _ he hj1 hj2 hi1 hi2
    rw [hie, hje] at h1 h2
    rw [h1, h2]
    conv_rhs => rw [Finset.sum_comm]
    refine Finset.sum_congr rfl (fun m _ => Finset.sum_congr rfl (fun n _ =>
      Finset.sum_congr rfl (fun k1 _ => Finset.sum_congr rfl (fun k2 _ => ?_))))
    rw [hsym e n m [k1, k2]]
    ring
  · have hn : s.nDof = s.nDof1D * s.nDof1D * s.nDof1D := by
      rw [hnDof, hd]; simp [pow_succ]
    obtain ⟨hi1, hi2, hi3, hie⟩ := decomp3 s.nDof1D i (hn ▸ hi)
    obtain ⟨hj1, hj2, hj3, hje⟩ := decomp3 s.nDof1D j (hn ▸ hj)
    have hie' : (i / (s.nDof1D * s.nDof1D) * s.nDof1D + i / s.nDof1D % s.nDof1D) * s.nDof1D
        + i % s.nDof1D = i := by
      refine Eq.trans ?_ hie
      ring
    have hje' : (j / (s.nDof1D * s.nDof1D) * s.nDof1D + j / s.nDof1D % s.nDof1D) * s.nDof1D
        + j % s.nDof1D = j := by
      refine Eq.trans ?_ hje
      ring
    have h1 := diffElmats_3D lib s el ht hd hn hBt hD hS hinj e _ _ _ _ _ _ he
      hi1 hi2 hi3 hj1 hj2 hj3
    have h2 := diffElmats_3D lib s el ht hd hn hBt hD hS hinj e _ _ _ _ _ _ he
      hj1 hj2 hj3 hi1 hi2 hi3
    rw [hie', hje'] at h1 h2
    rw [h1, h2]
    conv_rhs => rw [Finset.sum_comm]
    refine Finset.sum_congr rfl (fun m _ => Finset.sum_congr rfl (fun n _ =>
      Finset.sum_congr rfl (fun k1 _ => Finset.sum_congr rfl (fun k2 _ =>
      Finset.sum_congr rfl (fun k3 _ => ?_)))))
    rw [hsym e n m [k1, k2, k3]]
    ring

end acro
end mfem
namespace mfem
namespace acro
open Finset

theorem diffContractD_flag (s : AcroDiffusionIntegrator) (Jinv Jdet C : Tensor) :
    (s.contractD Jinv Jdet C).IsInitialized = s.D.IsInitialized := by
  unfold AcroDiffusionIntegrator.contractD
  simp only [Tensor.assign, Tensor.IsInitialized]
  split_ifs <;> rfl

end acro
end mfem
namespace mfem
namespace occa

theorem get_subvector_spec (v0 v1 : Nat → ℚ) (v2 : Nat → Int) :
    ∀ n i, i < n →
      vector_get_subvector n v0 v1 v2 i
        = if v2 i ≥ 0 then v1 (dofIndex (v2 i)) else - v1 (dofIndex (v2 i)) := by
  intro n
  induction n with
  | zero => intro i hi; exact absurd hi (Nat.not_lt_zero i)
  | succ n ih =>
    intro i hi
    have hstep : vector_get_subvector (n + 1) v0 v1 v2
        = Function.update (vector_get_subvector n v0 v1 v2) n
            (if v2 n ≥ 0 then v1 (v2 n).toNat else - v1 (-(v2 n) - 1).toNat) := by
      unfold vector_get_subvector
      have h := forLoop_succ 0 n (fun i (v0 : Nat → ℚ) =>
        let dof_i := v2 i
        Function.update v0 i (if dof_i ≥ 0 then v1 dof_i.toNat else - v1 (-dof_i - 1).toNat)) v0
      simp only [Nat.zero_add] at h
      exact h
    rw [hstep]
    by_cases hin : i = n
    · subst hin
      simp only [Function.update_same]
      unfold dofIndex
      split_ifs <;> rfl
    · rw [Function.update_noteq hin]
      exact ih i (by omega)

theorem set_subvector_spec (X0 X : Nat → ℚ) (sub : Nat → ℚ) (v2 : Nat → Int) (N : Nat)
    (hsub : ∀ i, i < N →
      sub i = if v2 i ≥ 0 then X (dofIndex (v2 i)) else - X (dofIndex (v2 i))) :
    ∀ n, n ≤ N → ∀ p,
      vector_set_subvector n X0 sub v2 p
        = if ∃ i, i < n ∧ dofIndex (v2 i) = p then X p else X0 p := by
  intro n
  induction n with
  | zero =>
    intro _ p
    have : ¬ ∃ i, i < 0 ∧ dofIndex (v2 i) = p := by
      rintro ⟨i, hi, _⟩; exact Nat.not_lt_zero i hi
    rw [if_neg this]
    unfold vector_set_subvector
    exact congrFun (forLoop_zero 0 _ X0) p
  | succ n ih =>
    intro hn p
    have hstep : vector_set_subvector (n + 1) X0 sub v2
        = Function.update (vector_set_subvector n X0 sub v2) (dofIndex (v2 n))
            (X (dofIndex (v2 n))) := by
      unfold vector_set_subvector
      have h := forLoop_succ 0 n (fun i (v0 : Nat → ℚ) =>
        let dof_i := v2 i
        if dof_i ≥ 0 then Function.update v0 dof_i.toNat (sub i)
        else Function.update v0 (-dof_i - 1).toNat (- sub i)) X0
      simp only [Nat.zero_add] at h
      rw [h, hsub n (by omega)]
      unfold dofIndex
      by_cases hc : v2 n ≥ 0
      · simp only [hc, if_true]
      · simp only [hc, if_false, neg_neg]
    rw [hstep]
    by_cases hp : p = dofIndex (v2 n)
    · subst hp
      rw [Function.update_same, if_pos ⟨n, Nat.lt_succ_self n, rfl⟩]
    · rw [Function.update_noteq hp, ih (by omega) p]
      have hiff : (∃ i, i < n + 1 ∧ dofIndex (v2 i) = p) ↔ (∃ i, i < n ∧ dofIndex (v2 i) = p) := by
        constructor
        · rintro ⟨i, hi, he⟩
          have hne : i ≠ n := by
            intro h; subst h; exact hp he.symm
          exact ⟨i, by omega, he⟩
        · rintro ⟨i, hi, he⟩
          exact ⟨i, by omega, he⟩
      by_cases hex : ∃ i, i < n ∧ dofIndex (v2 i) = p
      · rw [if_pos hex, if_pos (hiff.mpr hex)]
      · rw [if_neg hex, if_neg (fun h => hex (hiff.mp h))]

theorem codes_denote (l : List Int) (p : Nat) :
    (∃ i, i < l.length ∧ dofIndex (l.getD i 0) = p) ↔ (∃ c, c ∈ l ∧ dofIndex c = p) := by
  constructor
  · rintro ⟨i, hi, he⟩
    refine ⟨l.getD i 0, ?_, he⟩
    rw [List.getD_eq_getElem l 0 hi]
    exact List.getElem_mem hi
  · rintro ⟨c, hc, he⟩
    obtain ⟨i, hi, hget⟩ := List.getElem_of_mem hc
    refine ⟨i, hi, ?_⟩
    rw [List.getD_eq_getElem l 0 hi, hget]
    exact he

/-- C29: in `OccaBilinearForm::InitRHS` with `copy_interior = 0` and a
non-empty constraint list of signed DOF codes that denote valid indices, the
sequence get-subvector, `X.Fill(0)`, set-subvector leaves `X` with its original
value at every index denoted by the list and `0` at every other index of the
vector (and nothing is written outside the vector), for every `X`, whatever
the fresh `subvec` held: the sign flips of the two kernels cancel. -/
theorem InitRHS_constrain_keeps_listed (constraintList : List Int) (size : Nat)
    (junk X : Nat → ℚ) (hne : constraintList ≠ [])
    (hvalid : ∀ c, c ∈ constraintList → dofIndex c < size) :
    (∀ p, p < size →
        InitRHS.constrain 0 constraintList size junk X p
          = if ∃ c, c ∈ constraintList ∧ dofIndex c = p then X p else 0)
      ∧ (∀ p, size ≤ p → InitRHS.constrain 0 constraintList size junk X p = X p) := by
  have hlen : constraintList.length > 0 := List.length_pos.mpr hne
  have hmain : ∀ p, InitRHS.constrain 0 constraintList size junk X p
      = if ∃ c, c ∈ constraintList ∧ dofIndex c = p then X p else vectorFill size 0 X p := by
    intro p
    unfold InitRHS.constrain
    simp only [hlen, and_self, if_true]
    rw [set_subvector_spec (vectorFill size 0 X) X _ _ constraintList.length
      (fun i hi => get_subvector_spec junk X _ constraintList.length i hi)
      constraintList.length (le_refl _) p]
    by_cases hex : ∃ c, c ∈ constraintList ∧ dofIndex c = p
    · rw [if_pos hex, if_pos ((codes_denote constraintList p).mpr hex)]
    · rw [if_neg hex, if_neg (fun h => hex ((codes_denote constraintList p).mp h))]
  constructor
  · intro p hp
    rw [hmain p]
    simp [vectorFill, hp]
  · intro p hp
    rw [hmain p]
    have hno : ¬ ∃ c, c ∈ constraintList ∧ dofIndex c = p := by
      rintro ⟨c, hc, he⟩
      have := hvalid c hc
      omega
    rw [if_neg hno]
    have : ¬ p < size := by omega
    simp [vectorFill, this]

/-- C29 (witness): the list `[2, -1, -3]` (indices 2, 0, 2) on a vector of
size 4 holding `10, 11, 12, 13`: entries 0 and 2 keep their values, entries 1
and 3 become 0. -/
theorem InitRHS_constrain_keeps_listed_witness :
    InitRHS.constrain 0 [2, -1, -3] 4 (fun _ => 99) (fun i => 10 + (i : ℚ)) 0
        = (if ∃ c, c ∈ ([2, -1, -3] : List Int) ∧ dofIndex c = 0 then
            (fun i : Nat => 10 + (i : ℚ)) 0 else 0)
      ∧ InitRHS.constrain 0 [2, -1, -3] 4 (fun _ => 99) (fun i => 10 + (i : ℚ)) 1
        = (if ∃ c, c ∈ ([2, -1, -3] : List Int) ∧ dofIndex c = 1 then
            (fun i : Nat => 10 + (i : ℚ)) 1 else 0) :=
  ⟨(InitRHS_constrain_keeps_listed [2, -1, -3] 4 (fun _ => 99) (fun i => 10 + (i : ℚ))
      (by decide) (by decide)).1 0 (by decide),
    (InitRHS_constrain_keeps_listed [2, -1, -3] 4 (fun _ => 99) (fun i => 10 + (i : ℚ))
      (by decide) (by decide)).1 1 (by decide)⟩

end occa
end mfem
namespace mfem
namespace acro
open Finset

end acro
end mfem
namespace mfem
namespace acro
open Finset

theorem fillJacobian_writes (p : PAIntegrator) (pre : List Nat) (e : Nat) (x y z : ℚ)
    (ds : List Nat) (V : List Nat → ℚ)
    (hV : ∀ m n, m < p.nDim.toNat → n < p.nDim.toNat →
      V (pre ++ [m, n]) = p.trialFESpace.Jacobian e x y z m n) :
    Writes Tensor.get (fun t => t.dims = ds) (fun t => t.dims = ds)
      (fun J => fillJacobian p J pre e x y z)
      (fun idx => ∃ m, 0 ≤ m ∧ m < p.nDim.toNat ∧ ∃ n, 0 ≤ n ∧ n < p.nDim.toNat
        ∧ idx = pre ++ [m, n]) V := by
  unfold fillJacobian
  exact Writes.forLoop Tensor.get (fun t => t.dims = ds) 0 p.nDim.toNat _
    (fun m idx => ∃ n, 0 ≤ n ∧ n < p.nDim.toNat ∧ idx = pre ++ [m, n]) V
    (fun m _ hm => Writes.forLoop Tensor.get (fun t => t.dims = ds) 0 p.nDim.toNat _
      (fun n idx => idx = pre ++ [m, n]) V
      (fun n _ hn => tensor_set_writes ds (pre ++ [m, n]) _ V (hV m n hm hn)))

theorem geomLoop1 (p : PAIntegrator) (NE Q : Nat) (px py pz : Nat → ℚ) (J C : Tensor)
    (e k m n : Nat) (he : e < NE) (hk : k < Q) (hm : m < p.nDim.toNat)
    (hn : n < p.nDim.toNat) :
    (forLoop 0 NE (fun e (st : Tensor × Tensor) =>
        forLoop 0 Q (fun k1 (st : Tensor × Tensor) =>
          (fillJacobian p st.1 [e, k1] e (px k1) (py k1) (pz k1), st.2.set [e, k1] 1)) st)
        (J, C)).1.get [e, k, m, n] = p.trialFESpace.Jacobian e (px k) (py k) (pz k) m n
      ∧ (forLoop 0 NE (fun e (st : Tensor × Tensor) =>
        forLoop 0 Q (fun k1 (st : Tensor × Tensor) =>
          (fillJacobian p st.1 [e, k1] e (px k1) (py k1) (pz k1), st.2.set [e, k1] 1)) st)
        (J, C)).2.get [e, k] = 1 := by
  constructor
  · have h := Writes.forLoop (fun (st : Tensor × Tensor) idx => st.1.get idx)
      (fun st => st.1.dims = J.dims) 0 NE
      (fun e (st : Tensor × Tensor) =>
        forLoop 0 Q (fun k1 (st : Tensor × Tensor) =>
          (fillJacobian p st.1 [e, k1] e (px k1) (py k1) (pz k1), st.2.set [e, k1] 1)) st)
      (fun e idx => ∃ k1, 0 ≤ k1 ∧ k1 < Q ∧ ∃ m, 0 ≤ m ∧ m < p.nDim.toNat
        ∧ ∃ n, 0 ≤ n ∧ n < p.nDim.toNat ∧ idx = [e, k1] ++ [m, n])
      (fun idx => match idx with
        | [e, k1, m, n] => p.trialFESpace.Jacobian e (px k1) (py k1) (pz k1) m n
        | _ => 0)
      (fun e _ _ => Writes.forLoop (fun (st : Tensor × Tensor) idx => st.1.get idx)
        (fun st => st.1.dims = J.dims) 0 Q _
        (fun k1 idx => ∃ m, 0 ≤ m ∧ m < p.nDim.toNat
          ∧ ∃ n, 0 ≤ n ∧ n < p.nDim.toNat ∧ idx = [e, k1] ++ [m, n]) _
        (fun k1 _ _ => Writes.map Tensor.get (fun t => t.dims = J.dims)
          (fun t => t.dims = J.dims) (fun J => fillJacobian p J [e, k1] e (px k1) (py k1) (pz k1))
          _ _ Prod.fst _ (fun _ => rfl)
          (fillJacobian_writes p [e, k1] e (px k1) (py k1) (pz k1) J.dims _
            (fun m n _ _ => rfl))))
    exact ((h (J, C) rfl).2 [e, k, m, n]).1
      ⟨e, Nat.zero_le _, he, k, Nat.zero_le _, hk, m, Nat.zero_le _, hm, n, Nat.zero_le _, hn,
        rfl⟩
  · have h := Writes.forLoop (fun (st : Tensor × Tensor) idx => st.2.get idx)
      (fun st => st.2.dims = C.dims) 0 NE
      (fun e (st : Tensor × Tensor) =>
        forLoop 0 Q (fun k1 (st : Tensor × Tensor) =>
          (fillJacobian p st.1 [e, k1] e (px k1) (py k1) (pz k1), st.2.set [e, k1] 1)) st)
      (fun e idx => ∃ k1, 0 ≤ k1 ∧ k1 < Q ∧ idx = [e, k1])
      (fun _ => 1)
      (fun e _ _ => Writes.forLoop (fun (st : Tensor × Tensor) idx => st.2.get idx)
        (fun st => st.2.dims = C.dims) 0 Q _
        (fun k1 idx => idx = [e, k1]) _
        (fun k1 _ _ => Writes.map Tensor.get (fun t => t.dims = C.dims)
          (fun t => t.dims = C.dims) (fun C => C.set [e, k1] 1)
          _ _ Prod.snd _ (fun _ => rfl)
          (tensor_set_writes C.dims [e, k1] 1 _ rfl)))
    exact ((h (J, C) rfl).2 [e, k]).1 ⟨e, Nat.zero_le _, he, k, Nat.zero_le _, hk, rfl⟩

end acro
end mfem
namespace mfem
namespace acro
open Finset

theorem geomLoop2 (p : PAIntegrator) (NE Q : Nat) (px py pz : Nat → Nat → ℚ) (J C : Tensor)
    (e k1 k2 m n : Nat) (he : e < NE) (hk1 : k1 < Q) (hk2 : k2 < Q)
    (hm : m < p.nDim.toNat) (hn : n < p.nDim.toNat) :
    (forLoop 0 NE (fun e (st : Tensor × Tensor) =>
        forLoop 0 Q (fun k1 (st : Tensor × Tensor) =>
          forLoop 0 Q (fun k2 (st : Tensor × Tensor) =>
            (fillJacobian p st.1 [e, k1, k2] e (px k1 k2) (py k1 k2) (pz k1 k2),
              st.2.set [e, k1, k2] 1)) st) st)
        (J, C)).1.get [e, k1, k2, m, n]
          = p.trialFESpace.Jacobian e (px k1 k2) (py k1 k2) (pz k1 k2) m n
      ∧ (forLoop 0 NE (fun e (st : Tensor × Tensor) =>
        forLoop 0 Q (fun k1 (st : Tensor × Tensor) =>
          forLoop 0 Q (fun k2 (st : Tensor × Tensor) =>
            (fillJacobian p st.1 [e, k1, k2] e (px k1 k2) (py k1 k2) (pz k1 k2),
              st.2.set [e, k1, k2] 1)) st) st)
        (J, C)).2.get [e, k1, k2] = 1 := by
  constructor
  · have h := Writes.forLoop (fun (st : Tensor × Tensor) idx => st.1.get idx)
      (fun st => st.1.dims = J.dims) 0 NE
      (fun e (st : Tensor × Tensor) =>
        forLoop 0 Q (fun k1 (st : Tensor × Tensor) =>
          forLoop 0 Q (fun k2 (st : Tensor × Tensor) =>
            (fillJacobian p st.1 [e, k1, k2] e (px k1 k2) (py k1 k2) (pz k1 k2),
              st.2.set [e, k1, k2] 1)) st) st)
      (fun e idx => ∃ k1, 0 ≤ k1 ∧ k1 < Q ∧ ∃ k2, 0 ≤ k2 ∧ k2 < Q
        ∧ ∃ m, 0 ≤ m ∧ m < p.nDim.toNat
        ∧ ∃ n, 0 ≤ n ∧ n < p.nDim.toNat ∧ idx = [e, k1, k2] ++ [m, n])
      (fun idx => match idx with
        | [e, k1, k2, m, n] => p.trialFESpace.Jacobian e (px k1 k2) (py k1 k2) (pz k1 k2) m n
        | _ => 0)
      (fun e _ _ => Writes.forLoop (fun (st : Tensor × Tensor) idx => st.1.get idx)
        (fun st => st.1.dims = J.dims) 0 Q _
        (fun k1 idx => ∃ k2, 0 ≤ k2 ∧ k2 < Q ∧ ∃ m, 0 ≤ m ∧ m < p.nDim.toNat
          ∧ ∃ n, 0 ≤ n ∧ n < p.nDim.toNat ∧ idx = [e, k1, k2] ++ [m, n]) _
        (fun k1 _ _ => Writes.forLoop (fun (st : Tensor × Tensor) idx => st.1.get idx)
          (fun st => st.1.dims = J.dims) 0 Q _
          (fun k2 idx => ∃ m, 0 ≤ m ∧ m < p.nDim.toNat
            ∧ ∃ n, 0 ≤ n ∧ n < p.nDim.toNat ∧ idx = [e, k1, k2] ++ [m, n]) _
          (fun k2 _ _ => Writes.map Tensor.get (fun t => t.dims = J.dims)
            (fun t => t.dims = J.dims)
            (fun J => fillJacobian p J [e, k1, k2] e (px k1 k2) (py k1 k2) (pz k1 k2))
            _ _ Prod.fst _ (fun _ => rfl)
            (fillJacobian_writes p [e, k1, k2] e (px k1 k2) (py k1 k2) (pz k1 k2) J.dims _
              (fun m n _ _ => rfl)))))
    exact ((h (J, C) rfl).2 [e, k1, k2, m, n]).1
      ⟨e, Nat.zero_le _, he, k1, Nat.zero_le _, hk1, k2, Nat.zero_le _, hk2,
        m, Nat.zero_le _, hm, n, Nat.zero_le _, hn, rfl⟩
  · have h := Writes.forLoop (fun (st : Tensor × Tensor) idx => st.2.get idx)
      (fun st => st.2.dims = C.dims) 0 NE
      (fun e (st : Tensor × Tensor) =>
        forLoop 0 Q (fun k1 (st : Tensor × Tensor) =>
          forLoop 0 Q (fun k2 (st : Tensor × Tensor) =>
            (fillJacobian p st.1 [e, k1, k2] e (px k1 k2) (py k1 k2) (pz k1 k2),
              st.2.set [e, k1, k2] 1)) st) st)
      (fun e idx => ∃ k1, 0 ≤ k1 ∧ k1 < Q ∧ ∃ k2, 0 ≤ k2 ∧ k2 < Q ∧ idx = [e, k1, k2])
      (fun _ => 1)
      (fun e _ _ => Writes.forLoop (fun (st : Tensor × Tensor) idx => st.2.get idx)
        (fun st => st.2.dims = C.dims) 0 Q _
        (fun k1 idx => ∃ k2, 0 ≤ k2 ∧ k2 < Q ∧ idx = [e, k1, k2]) _
        (fun k1 _ _ => Writes.forLoop (fun (st : Tensor × Tensor) idx => st.2.get idx)
          (fun st => st.2.dims = C.dims) 0 Q _
          (fun k2 idx => idx = [e, k1, k2]) _
          (fun k2 _ _ => Writes.map Tensor.get (fun t => t.dims = C.dims)
            (fun t => t.dims = C.dims) (fun C => C.set [e, k1, k2] 1)
            _ _ Prod.snd _ (fun _ => rfl)
            (tensor_set_writes C.dims [e, k1, k2] 1 _ rfl))))
    exact ((h (J, C) rfl).2 [e, k1, k2]).1
      ⟨e, Nat.zero_le _, he, k1, Nat.zero_le _, hk1, k2, Nat.zero_le _, hk2, rfl⟩

theorem geomLoop3 (p : PAIntegrator) (NE Q : Nat) (px py pz : Nat → Nat → Nat → ℚ)
    (J C : Tensor) (e k1 k2 k3 m n : Nat) (he : e < NE) (hk1 : k1 < Q) (hk2 : k2 < Q)
    (hk3 : k3 < Q) (hm : m < p.nDim.toNat) (hn : n < p.nDim.toNat) :
    (forLoop 0 NE (fun e (st : Tensor × Tensor) =>
        forLoop 0 Q (fun k1 (st : Tensor × Tensor) =>
          forLoop 0 Q (fun k2 (st : Tensor × Tensor) =>
            forLoop 0 Q (fun k3 (st : Tensor × Tensor) =>
              (fillJacobian p st.1 [e, k1, k2, k3] e (px k1 k2 k3) (py k1 k2 k3) (pz k1 k2 k3),
                st.2.set [e, k1, k2, k3] 1)) st) st) st)
        (J, C)).1.get [e, k1, k2, k3, m, n]
          = p.trialFESpace.Jacobian e (px k1 k2 k3) (py k1 k2 k3) (pz k1 k2 k3) m n
      ∧ (forLoop 0 NE (fun e (st : Tensor × Tensor) =>
        forLoop 0 Q (fun k1 (st : Tensor × Tensor) =>
          forLoop 0 Q (fun k2 (st : Tensor × Tensor) =>
            forLoop 0 Q (fun k3 (st : Tensor × Tensor) =>
              (fillJacobian p st.1 [e, k1, k2, k3] e (px k1 k2 k3) (py k1 k2 k3) (pz k1 k2 k3),
                st.2.set [e, k1, k2, k3] 1)) st) st) st)
        (J, C)).2.get [e, k1, k2, k3] = 1 := by
  constructor
  · have h := Writes.forLoop (fun (st : Tensor × Tensor) idx => st.1.get idx)
      (fun st => st.1.dims = J.dims) 0 NE
      (fun e (st : Tensor × Tensor) =>
        forLoop 0 Q (fun k1 (st : Tensor × Tensor) =>
          forLoop 0 Q (fun k2 (st : Tensor × Tensor) =>
            forLoop 0 Q (fun k3 (st : Tensor × Tensor) =>
              (fillJacobian p st.1 [e, k1, k2, k3] e (px k1 k2 k3) (py k1 k2 k3) (pz k1 k2 k3),
                st.2.set [e, k1, k2, k3] 1)) st) st) st)
      (fun e idx => ∃ k1, 0 ≤ k1 ∧ k1 < Q ∧ ∃ k2, 0 ≤ k2 ∧ k2 < Q ∧ ∃ k3, 0 ≤ k3 ∧ k3 < Q
        ∧ ∃ m, 0 ≤ m ∧ m < p.nDim.toNat
        ∧ ∃ n, 0 ≤ n ∧ n < p.nDim.toNat ∧ idx = [e, k1, k2, k3] ++ [m, n])
      (fun idx => match idx with
        | [e, k1, k2, k3, m, n] =>
          p.trialFESpace.Jacobian e (px k1 k2 k3) (py k1 k2 k3) (pz k1 k2 k3) m n
        | _ => 0)
      (fun e _ _ => Writes.forLoop (fun (st : Tensor × Tensor) idx => st.1.get idx)
        (fun st => st.1.dims = J.dims) 0 Q _
        (fun k1 idx => ∃ k2, 0 ≤ k2 ∧ k2 < Q ∧ ∃ k3, 0 ≤ k3 ∧ k3 < Q
          ∧ ∃ m, 0 ≤ m ∧ m < p.nDim.toNat
          ∧ ∃ n, 0 ≤ n ∧ n < p.nDim.toNat ∧ idx = [e, k1, k2, k3] ++ [m, n]) _
        (fun k1 _ _ => Writes.forLoop (fun (st : Tensor × Tensor) idx => st.1.get idx)
          (fun st => st.1.dims = J.dims) 0 Q _
          (fun k2 idx => ∃ k3, 0 ≤ k3 ∧ k3 < Q ∧ ∃ m, 0 ≤ m ∧ m < p.nDim.toNat
            ∧ ∃ n, 0 ≤ n ∧ n < p.nDim.toNat ∧ idx = [e, k1, k2, k3] ++ [m, n]) _
          (fun k2 _ _ => Writes.forLoop (fun (st : Tensor × Tensor) idx => st.1.get idx)
            (fun st => st.1.dims = J.dims) 0 Q _
            (fun k3 idx => ∃ m, 0 ≤ m ∧ m < p.nDim.toNat
              ∧ ∃ n, 0 ≤ n ∧ n < p.nDim.toNat ∧ idx = [e, k1, k2, k3] ++ [m, n]) _
            (fun k3 _ _ => Writes.map Tensor.get (fun t => t.dims = J.dims)
              (fun t => t.dims = J.dims)
              (fun J => fillJacobian p J [e, k1, k2, k3] e (px k1 k2 k3) (py k1 k2 k3)
                (pz k1 k2 k3))
              _ _ Prod.fst _ (fun _ => rfl)
              (fillJacobian_writes p [e, k1, k2, k3] e (px k1 k2 k3) (py k1 k2 k3)
                (pz k1 k2 k3) J.dims _ (fun m n _ _ => rfl))))))
    exact ((h (J, C) rfl).2 [e, k1, k2, k3, m, n]).1
      ⟨e, Nat.zero_le _, he, k1, Nat.zero_le _, hk1, k2, Nat.zero_le _, hk2,
        k3, Nat.zero_le _, hk3, m, Nat.zero_le _, hm, n, Nat.zero_le _, hn, rfl⟩
  · have h := Writes.forLoop (fun (st : Tensor × Tensor) idx => st.2.get idx)
      (fun st => st.2.dims = C.dims) 0 NE
      (fun e (st : Tensor × Tensor) =>
        forLoop 0 Q (fun k1 (st : Tensor × Tensor) =>
          forLoop 0 Q (fun k2 (st : Tensor × Tensor) =>
            forLoop 0 Q (fun k3 (st : Tensor × Tensor) =>
              (fillJacobian p st.1 [e, k1, k2, k3] e (px k1 k2 k3) (py k1 k2 k3) (pz k1 k2 k3),
                st.2.set [e, k1, k2, k3] 1)) st) st) st)
      (fun e idx => ∃ k1, 0 ≤ k1 ∧ k1 < Q ∧ ∃ k2, 0 ≤ k2 ∧ k2 < Q ∧ ∃ k3, 0 ≤ k3 ∧ k3 < Q
        ∧ idx = [e, k1, k2, k3])
      (fun _ => 1)
      (fun e _ _ => Writes.forLoop (fun (st : Tensor × Tensor) idx => st.2.get idx)
        (fun st => st.2.dims = C.dims) 0 Q _
        (fun k1 idx => ∃ k2, 0 ≤ k2 ∧ k2 < Q ∧ ∃ k3, 0 ≤ k3 ∧ k3 < Q ∧ idx = [e, k1, k2, k3]) _
        (fun k1 _ _ => Writes.forLoop (fun (st : Tensor × Tensor) idx => st.2.get idx)
          (fun st => st.2.dims = C.dims) 0 Q _
          (fun k2 idx => ∃ k3, 0 ≤ k3 ∧ k3 < Q ∧ idx = [e, k1, k2, k3]) _
          (fun k2 _ _ => Writes.forLoop (fun (st : Tensor × Tensor) idx => st.2.get idx)
            (fun st => st.2.dims = C.dims) 0 Q _
            (fun k3 idx => idx = [e, k1, k2, k3]) _
            (fun k3 _ _ => Writes.map Tensor.get (fun t => t.dims = C.dims)
              (fun t => t.dims = C.dims) (fun C => C.set [e, k1, k2, k3] 1)
              _ _ Prod.snd _ (fun _ => rfl)
              (tensor_set_writes C.dims [e, k1, k2, k3] 1 _ rfl)))))
    exact ((h (J, C) rfl).2 [e, k1, k2, k3]).1
      ⟨e, Nat.zero_le _, he, k1, Nat.zero_le _, hk1, k2, Nat.zero_le _, hk2,
        k3, Nat.zero_le _, hk3, rfl⟩

end acro
end mfem
namespace mfem
namespace acro
open Finset

theorem flatIndex_append2 (d a b : Nat) : ∀ (ds is : List Nat),
    List.Forall₂ (fun i d => i < d) is ds →
    flatIndex (ds ++ [d, d]) (is ++ [a, b]) = flatIndex ds is * d * d + a * d + b := by
  intro ds is h
  induction h with
  | nil => simp [flatIndex]
  | @cons i D is ds _ _ ih =>
    have e1 : flatIndex ((D :: ds) ++ [d, d]) ((i :: is) ++ [a, b])
        = i * (ds ++ [d, d]).prod + flatIndex (ds ++ [d, d]) (is ++ [a, b]) := rfl
    have e2 : flatIndex (D :: ds) (i :: is) = i * ds.prod + flatIndex ds is := rfl
    rw [e1, e2, ih, List.prod_append]
    simp only [List.prod_cons, List.prod_nil]
    ring

theorem getLastD_append2 (l : List Nat) (a b : Nat) : (l ++ [a, b]).getLastD 0 = b := by
  have e : l ++ [a, b] = (l ++ [a]) ++ [b] := by simp
  rw [e]
  simp [List.getLastD_eq_getLast?]

theorem dropLast_append2 (l : List Nat) (a b : Nat) :
    (l ++ [a, b]).dropLast.getLastD 0 = a := by
  have e : l ++ [a, b] = (l ++ [a]) ++ [b] := by simp
  rw [e, List.dropLast_concat]
  simp [List.getLastD_eq_getLast?]

theorem div_flat (p d a b : Nat) (ha : a < d) (hb : b < d) :
    (p * d * d + a * d + b) / (d * d) = p := by
  have hd : 0 < d := by omega
  have h1 : a * d + b < d * d := by
    calc a * d + b < a * d + d := by omega
      _ = (a + 1) * d := by ring
      _ ≤ d * d := Nat.mul_le_mul_right d ha
  have e : p * d * d + a * d + b = (a * d + b) + p * (d * d) := by ring
  rw [e, Nat.add_mul_div_right _ _ (Nat.mul_pos hd hd), Nat.div_eq_of_lt h1, Nat.zero_add]

theorem raw_append2 (J : Tensor) (d a b D i : Nat) (ds is : List Nat)
    (hJ : J.dims = (D :: ds) ++ [d, d])
    (h : List.Forall₂ (fun i d => i < d) is ds) (ha : a < d) (hb : b < d) :
    J.raw (flatIndex (D :: ds) (i :: is) * d * d + a * d + b) = J.get ((i :: is) ++ [a, b]) := by
  have hF : List.Forall₂ (fun i d => i < d) (is ++ [a, b]) (ds ++ [d, d]) :=
    List.rel_append h (List.Forall₂.cons ha (List.Forall₂.cons hb List.Forall₂.nil))
  have h1 : flatIndex (D :: ds) (i :: is) * d * d + a * d + b
      = flatIndex (D :: (ds ++ [d, d])) (i :: (is ++ [a, b])) := by
    have e1 := flatIndex_append2 d a b ds is h
    have e2 : flatIndex (D :: (ds ++ [d, d])) (i :: (is ++ [a, b]))
        = i * (ds ++ [d, d]).prod + flatIndex (ds ++ [d, d]) (is ++ [a, b]) := rfl
    have e3 : flatIndex (D :: ds) (i :: is) = i * ds.prod + flatIndex ds is := rfl
    rw [e2, e3, e1, List.prod_append]
    simp only [List.prod_cons, List.prod_nil]
    ring
  rw [h1, Tensor.raw_flatIndex J D (ds ++ [d, d]) i (is ++ [a, b]) hJ hF]
  rfl

theorem smallAdj_congr (d : Nat) (a b : Nat → Nat → ℚ)
    (h : ∀ m n, m < d → n < d → a m n = b m n) (m n : Nat) (hm : m < d) (hn : n < d) :
    smallAdj d a m n = smallAdj d b m n := by
  unfold smallAdj
  by_cases h1 : d = 1
  · simp [h1]
  · by_cases h2 : d = 2
    · subst h2
      interval_cases m <;> interval_cases n <;> simp [h 0 0, h 0 1, h 1 0, h 1 1]
    · by_cases h3 : d = 3
      · subst h3
        interval_cases m <;> interval_cases n <;>
          simp [h 0 0, h 0 1, h 0 2, h 1 0, h 1 1, h 1 2, h 2 0, h 2 1, h 2 2]
      · simp [h1, h2, h3]

theorem detBatch_get (Jdet J : Tensor) (d D i : Nat) (ds is : List Nat)
    (hJ : J.dims = (D :: ds) ++ [d, d]) (hD : Jdet.dims = D :: ds)
    (h : List.Forall₂ (fun i d => i < d) is ds) :
    (BatchMatrixDet Jdet J).get (i :: is)
      = smallDet d (fun m n => J.get ((i :: is) ++ [m, n])) := by
  have hlast : J.dims.getLastD 0 = d := by rw [hJ]; exact getLastD_append2 _ _ _
  unfold BatchMatrixDet
  simp only [Tensor.assign, Tensor.get, hlast, hD]
  apply smallDet_congr
  intro m n hm hn
  exact raw_append2 J d m n D i ds is hJ h hm hn

theorem invBatch_get (Jinv J : Tensor) (d D i : Nat) (ds is : List Nat)
    (hJ : J.dims = (D :: ds) ++ [d, d]) (hI : Jinv.dims = (D :: ds) ++ [d, d])
    (h : List.Forall₂ (fun i d => i < d) is ds) (hi : i < D)
    (a b : Nat) (ha : a < d) (hb : b < d) :
    (BatchMatrixInv Jinv J).get ((i :: is) ++ [a, b])
      = smallAdj d (fun m n => J.get ((i :: is) ++ [m, n])) a b
          / smallDet d (fun m n => J.get ((i :: is) ++ [m, n])) := by
  have hlast : J.dims.getLastD 0 = d := by rw [hJ]; exact getLastD_append2 _ _ _
  have hp : flatIndex ((D :: ds) ++ [d, d]) ((i :: is) ++ [a, b]) / (d * d)
      = flatIndex (D :: ds) (i :: is) := by
    rw [flatIndex_append2 d a b (D :: ds) (i :: is) (List.Forall₂.cons hi h)]
    exact div_flat _ d a b ha hb
  have h1 := dropLast_append2 (i :: is) a b
  have h2 := getLastD_append2 (i :: is) a b
  unfold BatchMatrixInv
  simp only [Tensor.assign, Tensor.get, hlast, hI, hp, h1, h2]
  have hc : ∀ m n, m < d → n < d →
      J.raw (flatIndex (D :: ds) (i :: is) * d * d + m * d + n)
        = J.data ((i :: is) ++ [m, n]) :=
    fun m n hm hn => raw_append2 J d m n D i ds is hJ h hm hn
  rw [smallAdj_congr d _ _ hc a b ha hb, smallDet_congr d _ _ hc]

theorem smallDet_eq_det (d : Nat) (hd : d = 1 ∨ d = 2 ∨ d = 3) (a : Nat → Nat → ℚ) :
    smallDet d a = Matrix.det (Matrix.of (fun (i j : Fin d) => a i.val j.val)) := by
  rcases hd with rfl | rfl | rfl
  · simp [smallDet, Matrix.det_fin_one]
  · simp [smallDet, Matrix.det_fin_two]
  · simp [smallDet, Matrix.det_fin_three]
    ring

theorem smallAdj_eq_adjugate (d : Nat) (hd : d = 1 ∨ d = 2 ∨ d = 3) (a : Nat → Nat → ℚ)
    (m n : Nat) (hm : m < d) (hn : n < d) :
    smallAdj d a m n
      = Matrix.adjugate (Matrix.of (fun (i j : Fin d) => a i.val j.val)) ⟨m, hm⟩ ⟨n, hn⟩ := by
  rcases hd with rfl | rfl | rfl
  · rw [Matrix.adjugate_fin_one]
    interval_cases m
    interval_cases n
    simp [smallAdj]
  · rw [Matrix.adjugate_fin_two]
    interval_cases m <;> interval_cases n <;> simp [smallAdj]
  · rw [Matrix.adjugate_fin_three]
    interval_cases m <;> interval_cases n <;> simp [smallAdj] <;> ring

theorem smallInv_eq_inv (d : Nat) (hd : d = 1 ∨ d = 2 ∨ d = 3) (a : Nat → Nat → ℚ)
    (m n : Nat) (hm : m < d) (hn : n < d) :
    smallAdj d a m n / smallDet d a
      = (Matrix.of (fun (i j : Fin d) => a i.val j.val))⁻¹ ⟨m, hm⟩ ⟨n, hn⟩ := by
  rw [Matrix.inv_def, Ring.inverse_eq_inv', ← smallDet_eq_det d hd,
    smallAdj_eq_adjugate d hd a m n hm hn]
  simp [Matrix.smul_apply, div_eq_inv_mul]

end acro
end mfem
namespace mfem
namespace acro
open Finset

theorem geomLoop1_dims (p : PAIntegrator) (NE Q : Nat) (px py pz : Nat → ℚ) (J C : Tensor) :
    (forLoop 0 NE (fun e (st : Tensor × Tensor) =>
        forLoop 0 Q (fun k1 (st : Tensor × Tensor) =>
          (fillJacobian p st.1 [e, k1] e (px k1) (py k1) (pz k1), st.2.set [e, k1] 1)) st)
        (J, C)).1.dims = J.dims := by
  refine forLoop_invariant (fun st : Tensor × Tensor => st.1.dims = J.dims) _ _ _ ?_ _ rfl
  intro e st _ _ hst
  refine forLoop_invariant (fun st : Tensor × Tensor => st.1.dims = J.dims) _ _ _ ?_ _ hst
  intro k1 st _ _ hst
  exact (fillJacobian_dims _ _ _ _ _ _ _).trans hst

theorem geomLoop2_dims (p : PAIntegrator) (NE Q : Nat) (px py pz : Nat → Nat → ℚ)
    (J C : Tensor) :
    (forLoop 0 NE (fun e (st : Tensor × Tensor) =>
        forLoop 0 Q (fun k1 (st : Tensor × Tensor) =>
          forLoop 0 Q (fun k2 (st : Tensor × Tensor) =>
            (fillJacobian p st.1 [e, k1, k2] e (px k1 k2) (py k1 k2) (pz k1 k2),
              st.2.set [e, k1, k2] 1)) st) st)
        (J, C)).1.dims = J.dims := by
  refine forLoop_invariant (fun st : Tensor × Tensor => st.1.dims = J.dims) _ _ _ ?_ _ rfl
  intro e st _ _ hst
  refine forLoop_invariant (fun st : Tensor × Tensor => st.1.dims = J.dims) _ _ _ ?_ _ hst
  intro k1 st _ _ hst
  refine forLoop_invariant (fun st : Tensor × Tensor => st.1.dims = J.dims) _ _ _ ?_ _ hst
  intro k2 st _ _ hst
  exact (fillJacobian_dims _ _ _ _ _ _ _).trans hst

theorem geomLoop3_dims (p : PAIntegrator) (NE Q : Nat) (px py pz : Nat → Nat → Nat → ℚ)
    (J C : Tensor) :
    (forLoop 0 NE (fun e (st : Tensor × Tensor) =>
        forLoop 0 Q (fun k1 (st : Tensor × Tensor) =>
          forLoop 0 Q (fun k2 (st : Tensor × Tensor) =>
            forLoop 0 Q (fun k3 (st : Tensor × Tensor) =>
              (fillJacobian p st.1 [e, k1, k2, k3] e (px k1 k2 k3) (py k1 k2 k3) (pz k1 k2 k3),
                st.2.set [e, k1, k2, k3] 1)) st) st) st)
        (J, C)).1.dims = J.dims := by
  refine forLoop_invariant (fun st : Tensor × Tensor => st.1.dims = J.dims) _ _ _ ?_ _ rfl
  intro e st _ _ hst
  refine forLoop_invariant (fun st : Tensor × Tensor => st.1.dims = J.dims) _ _ _ ?_ _ hst
  intro k1 st _ _ hst
  refine forLoop_invariant (fun st : Tensor × Tensor => st.1.dims = J.dims) _ _ _ ?_ _ hst
  intro k2 st _ _ hst
  refine forLoop_invariant (fun st : Tensor × Tensor => st.1.dims = J.dims) _ _ _ ?_ _ hst
  intro k3 st _ _ hst
  exact (fillJacobian_dims _ _ _ _ _ _ _).trans hst

/-- What `AcroDiffusionIntegrator::BatchedPartialAssemble` leaves in the local
tensors at element `e` and quadrature index `ks`, given the shapes of `J`,
`Jinv`, `Jdet` and the entries `A` of `J` there: `C = 1`, `Jdet` the
determinant and `Jinv` the inverse of `A`. -/
theorem diffGeometry_core (lib : Library) (s : AcroDiffusionIntegrator) (e : Nat)
    (ks ds : List Nat) (NE : Nat) (A : Nat → Nat → ℚ)
    (hd : s.nDim.toNat = 1 ∨ s.nDim.toNat = 2 ∨ s.nDim.toNat = 3)
    (hJ : (s.fillGeometry lib).1.dims = (NE :: ds) ++ [s.nDim.toNat, s.nDim.toNat])
    (hI : (s.fillGeometry lib).2.1.dims = (NE :: ds) ++ [s.nDim.toNat, s.nDim.toNat])
    (hDt : (s.fillGeometry lib).2.2.1.dims = NE :: ds)
    (hF : List.Forall₂ (fun i d => i < d) ks ds) (he : e < NE)
    (hA : ∀ a b, a < s.nDim.toNat → b < s.nDim.toNat →
      (s.fillGeometry lib).1.get ((e :: ks) ++ [a, b]) = A a b)
    (hC : (s.fillGeometry lib).2.2.2.get (e :: ks) = 1) :
    (s.geometry lib).2.2.get (e :: ks) = 1
      ∧ (s.geometry lib).2.1.get (e :: ks)
          = Matrix.det (Matrix.of (fun (i j : Fin s.nDim.toNat) => A i.val j.val))
      ∧ (∀ a b (ha : a < s.nDim.toNat) (hb : b < s.nDim.toNat),
          (s.geometry lib).1.get (e :: ks ++ [a, b])
            = (Matrix.of (fun (i j : Fin s.nDim.toNat) => A i.val j.val))⁻¹ ⟨a, ha⟩ ⟨b, hb⟩) := by
  have g1 : (s.geometry lib).1 = BatchMatrixInv (s.fillGeometry lib).2.1 (s.fillGeometry lib).1 :=
    rfl
  have g2 : (s.geometry lib).2.1
      = BatchMatrixDet (s.fillGeometry lib).2.2.1 (s.fillGeometry lib).1 := rfl
  have g3 : (s.geometry lib).2.2 = (s.fillGeometry lib).2.2.2 := rfl
  refine ⟨by rw [g3]; exact hC, ?_, ?_⟩
  · rw [g2, detBatch_get _ _ s.nDim.toNat NE e ds ks hJ hDt hF,
      smallDet_congr _ _ A hA, smallDet_eq_det _ hd]
  · intro a b ha hb
    rw [g1, invBatch_get _ _ s.nDim.toNat NE e ds ks hJ hI hF he a b ha hb,
      smallAdj_congr _ _ A hA a b ha hb, smallDet_congr _ _ A hA,
      smallInv_eq_inv _ hd A a b ha hb]

end acro
end mfem
namespace mfem
namespace acro
open Finset

theorem diffFill_1D (lib : Library) (s : AcroDiffusionIntegrator)
    (ht : s.hasTensorBasis = true) (hd : s.nDim = 1) (e k1 : Nat)
    (he : e < s.trialFESpace.NE) (hk1 : k1 < s.nQuad1D) :
    (s.fillGeometry lib).1.dims
        = (s.trialFESpace.NE :: [s.nQuad1D]) ++ [s.nDim.toNat, s.nDim.toNat]
      ∧ (s.fillGeometry lib).2.1.dims
        = (s.trialFESpace.NE :: [s.nQuad1D]) ++ [s.nDim.toNat, s.nDim.toNat]
      ∧ (s.fillGeometry lib).2.2.1.dims = s.trialFESpace.NE :: [s.nQuad1D]
      ∧ (∀ a b, a < s.nDim.toNat → b < s.nDim.toNat →
          (s.fillGeometry lib).1.get ((e :: [k1]) ++ [a, b])
            = s.trialFESpace.Jacobian e ((lib.IntRulesSegment s.ir.Order).IntPoint k1).x 0 0 a b)
      ∧ (s.fillGeometry lib).2.2.2.get (e :: [k1]) = 1 := by
  have h0 : 0 < s.nDim.toNat := by rw [hd]; decide
  unfold AcroDiffusionIntegrator.fillGeometry
  simp only [ht, if_true]
  rw [if_pos hd]
  refine ⟨?_, rfl, rfl, ?_, ?_⟩
  · exact geomLoop1_dims s.toPAIntegrator _ _
      (fun k => ((lib.IntRulesSegment s.ir.Order).IntPoint k).x) (fun _ => 0) (fun _ => 0) _ _
  · intro a b ha hb
    exact (geomLoop1 s.toPAIntegrator _ _
      (fun k => ((lib.IntRulesSegment s.ir.Order).IntPoint k).x) (fun _ => 0) (fun _ => 0) _ _
      e k1 a b he hk1 ha hb).1
  · exact (geomLoop1 s.toPAIntegrator _ _
      (fun k => ((lib.IntRulesSegment s.ir.Order).IntPoint k).x) (fun _ => 0) (fun _ => 0) _ _
      e k1 0 0 he hk1 h0 h0).2

theorem diffFill_2D (lib : Library) (s : AcroDiffusionIntegrator)
    (ht : s.hasTensorBasis = true) (hd : s.nDim = 2) (e k1 k2 : Nat)
    (he : e < s.trialFESpace.NE) (hk1 : k1 < s.nQuad1D) (hk2 : k2 < s.nQuad1D) :
    (s.fillGeometry lib).1.dims
        = (s.trialFESpace.NE :: [s.nQuad1D, s.nQuad1D]) ++ [s.nDim.toNat, s.nDim.toNat]
      ∧ (s.fillGeometry lib).2.1.dims
        = (s.trialFESpace.NE :: [s.nQuad1D, s.nQuad1D]) ++ [s.nDim.toNat, s.nDim.toNat]
      ∧ (s.fillGeometry lib).2.2.1.dims = s.trialFESpace.NE :: [s.nQuad1D, s.nQuad1D]
      ∧ (∀ a b, a < s.nDim.toNat → b < s.nDim.toNat →
          (s.fillGeometry lib).1.get ((e :: [k1, k2]) ++ [a, b])
            = s.trialFESpace.Jacobian e ((lib.IntRulesSegment s.ir.Order).IntPoint k1).x
                ((lib.IntRulesSegment s.ir.Order).IntPoint k2).x 0 a b)
      ∧ (s.fillGeometry lib).2.2.2.get (e :: [k1, k2]) = 1 := by
  have h0 : 0 < s.nDim.toNat := by rw [hd]; decide
  have h1 : ¬ (s.nDim = 1) := by rw [hd]; decide
  unfold AcroDiffusionIntegrator.fillGeometry
  simp only [ht, if_true]
  rw [if_neg h1, if_pos hd]
  refine ⟨?_, rfl, rfl, ?_, ?_⟩
  · exact geomLoop2_dims s.toPAIntegrator _ _
      (fun k1 _ => ((lib.IntRulesSegment s.ir.Order).IntPoint k1).x)
      (fun _ k2 => ((lib.IntRulesSegment s.ir.Order).IntPoint k2).x) (fun _ _ => 0) _ _
  · intro a b ha hb
    exact (geomLoop2 s.toPAIntegrator _ _
      (fun k1 _ => ((lib.IntRulesSegment s.ir.Order).IntPoint k1).x)
      (fun _ k2 => ((lib.IntRulesSegment s.ir.Order).IntPoint k2).x) (fun _ _ => 0) _ _
      e k1 k2 a b he hk1 hk2 ha hb).1
  · exact (geomLoop2 s.toPAIntegrator _ _
      (fun k1 _ => ((lib.IntRulesSegment s.ir.Order).IntPoint k1).x)
      (fun _ k2 => ((lib.IntRulesSegment s.ir.Order).IntPoint k2).x) (fun _ _ => 0) _ _
      e k1 k2 0 0 he hk1 hk2 h0 h0).2

theorem diffFill_3D (lib : Library) (s : AcroDiffusionIntegrator)
    (ht : s.hasTensorBasis = true) (hd : s.nDim = 3) (e k1 k2 k3 : Nat)
    (he : e < s.trialFESpace.NE) (hk1 : k1 < s.nQuad1D) (hk2 : k2 < s.nQuad1D)
    (hk3 : k3 < s.nQuad1D) :
    (s.fillGeometry lib).1.dims
        = (s.trialFESpace.NE :: [s.nQuad1D, s.nQuad1D, s.nQuad1D])
            ++ [s.nDim.toNat, s.nDim.toNat]
      ∧ (s.fillGeometry lib).2.1.dims
        = (s.trialFESpace.NE :: [s.nQuad1D, s.nQuad1D, s.nQuad1D])
            ++ [s.nDim.toNat, s.nDim.toNat]
      ∧ (s.fillGeometry lib).2.2.1.dims
        = s.trialFESpace.NE :: [s.nQuad1D, s.nQuad1D, s.nQuad1D]
      ∧ (∀ a b, a < s.nDim.toNat → b < s.nDim.toNat →
          (s.fillGeometry lib).1.get ((e :: [k1, k2, k3]) ++ [a, b])
            = s.trialFESpace.Jacobian e ((lib.IntRulesSegment s.ir.Order).IntPoint k1).x
                ((lib.IntRulesSegment s.ir.Order).IntPoint k2).x
                ((lib.IntRulesSegment s.ir.Order).IntPoint k3).x a b)
      ∧ (s.fillGeometry lib).2.2.2.get (e :: [k1, k2, k3]) = 1 := by
  have h0 : 0 < s.nDim.toNat := by rw [hd]; decide
  have h1 : ¬ (s.nDim = 1) := by rw [hd]; decide
  have h2 : ¬ (s.nDim = 2) := by rw [hd]; decide
  unfold AcroDiffusionIntegrator.fillGeometry
  simp only [ht, if_true]
  rw [if_neg h1, if_neg h2, if_pos hd]
  refine ⟨?_, rfl, rfl, ?_, ?_⟩
  · exact geomLoop3_dims s.toPAIntegrator _ _
      (fun k1 _ _ => ((lib.IntRulesSegment s.ir.Order).IntPoint k1).x)
      (fun _ k2 _ => ((lib.IntRulesSegment s.ir.Order).IntPoint k2).x)
      (fun _ _ k3 => ((lib.IntRulesSegment s.ir.Order).IntPoint k3).x) _ _
  · intro a b ha hb
    exact (geomLoop3 s.toPAIntegrator _ _
      (fun k1 _ _ => ((lib.IntRulesSegment s.ir.Order).IntPoint k1).x)
      (fun _ k2 _ => ((lib.IntRulesSegment s.ir.Order).IntPoint k2).x)
      (fun _ _ k3 => ((lib.IntRulesSegment s.ir.Order).IntPoint k3).x) _ _
      e k1 k2 k3 a b he hk1 hk2 hk3 ha hb).1
  · exact (geomLoop3 s.toPAIntegrator _ _
      (fun k1 _ _ => ((lib.IntRulesSegment s.ir.Order).IntPoint k1).x)
      (fun _ k2 _ => ((lib.IntRulesSegment s.ir.Order).IntPoint k2).x)
      (fun _ _ k3 => ((lib.IntRulesSegment s.ir.Order).IntPoint k3).x) _ _
      e k1 k2 k3 0 0 he hk1 hk2 hk3 h0 h0).2

theorem diffFill_simplex (lib : Library) (s : AcroDiffusionIntegrator)
    (ht : s.hasTensorBasis = false) (h0 : 0 < s.nDim.toNat) (e k : Nat)
    (he : e < s.trialFESpace.NE) (hk : k < s.nQuad) :
    (s.fillGeometry lib).1.dims
        = (s.trialFESpace.NE :: [s.nQuad]) ++ [s.nDim.toNat, s.nDim.toNat]
      ∧ (s.fillGeometry lib).2.1.dims
        = (s.trialFESpace.NE :: [s.nQuad]) ++ [s.nDim.toNat, s.nDim.toNat]
      ∧ (s.fillGeometry lib).2.2.1.dims = s.trialFESpace.NE :: [s.nQuad]
      ∧ (∀ a b, a < s.nDim.toNat → b < s.nDim.toNat →
          (s.fillGeometry lib).1.get ((e :: [k]) ++ [a, b])
            = s.trialFESpace.Jacobian e (s.ir.IntPoint k).x (s.ir.IntPoint k).y
                (s.ir.IntPoint k).z a b)
      ∧ (s.fillGeometry lib).2.2.2.get (e :: [k]) = 1 := by
  unfold AcroDiffusionIntegrator.fillGeometry
  simp only [ht, Bool.false_eq_true, if_false]
  refine ⟨?_, rfl, rfl, ?_, ?_⟩
  · exact geomLoop1_dims s.toPAIntegrator _ _
      (fun k => (s.ir.IntPoint k).x) (fun k => (s.ir.IntPoint k).y)
      (fun k => (s.ir.IntPoint k).z) _ _
  · intro a b ha hb
    exact (geomLoop1 s.toPAIntegrator _ _
      (fun k => (s.ir.IntPoint k).x) (fun k => (s.ir.IntPoint k).y)
      (fun k => (s.ir.IntPoint k).z) _ _ e k a b he hk ha hb).1
  · exact (geomLoop1 s.toPAIntegrator _ _
      (fun k => (s.ir.IntPoint k).x) (fun k => (s.ir.IntPoint k).y)
      (fun k => (s.ir.IntPoint k).z) _ _ e k 0 0 he hk h0 h0).2

end acro
end mfem
namespace mfem
namespace acro
open Finset

theorem diffD_at (lib : Library) (s : AcroDiffusionIntegrator) (e m n : Nat)
    (ks ds : List Nat) (x y z : ℚ)
    (h : s.hasTensorBasis = false ∨ s.nDim = 1 ∨ s.nDim = 2 ∨ s.nDim = 3)
    (hd : s.nDim.toNat = 1 ∨ s.nDim.toNat = 2 ∨ s.nDim.toNat = 3)
    (hF : List.Forall₂ (fun i d => i < d) ks ds) (he : e < s.trialFESpace.NE)
    (hfill : (s.fillGeometry lib).1.dims
        = (s.trialFESpace.NE :: ds) ++ [s.nDim.toNat, s.nDim.toNat]
      ∧ (s.fillGeometry lib).2.1.dims
        = (s.trialFESpace.NE :: ds) ++ [s.nDim.toNat, s.nDim.toNat]
      ∧ (s.fillGeometry lib).2.2.1.dims = s.trialFESpace.NE :: ds
      ∧ (∀ a b, a < s.nDim.toNat → b < s.nDim.toNat →
          (s.fillGeometry lib).1.get ((e :: ks) ++ [a, b])
            = s.trialFESpace.Jacobian e x y z a b)
      ∧ (s.fillGeometry lib).2.2.2.get (e :: ks) = 1)
    (hm : m < s.nDim.toNat) (hn : n < s.nDim.toNat) :
    (s.BatchedPartialAssemble lib).D.get (e :: m :: n :: ks)
        = s.W.get ks * (s.geometry lib).2.2.get (e :: ks) * (s.geometry lib).2.1.get (e :: ks)
            * ∑ j in range s.nDim.toNat,
                (s.geometry lib).1.get (e :: ks ++ [m, j])
                  * (s.geometry lib).1.get (e :: ks ++ [n, j])
      ∧ (s.geometry lib).2.2.get (e :: ks) = 1
      ∧ (s.geometry lib).2.1.get (e :: ks)
          = (jacobianMatrix s.trialFESpace s.nDim.toNat e x y z).det
      ∧ (∀ a b (ha : a < s.nDim.toNat) (hb : b < s.nDim.toNat),
          (s.geometry lib).1.get (e :: ks ++ [a, b])
            = (jacobianMatrix s.trialFESpace s.nDim.toNat e x y z)⁻¹ ⟨a, ha⟩ ⟨b, hb⟩)
      ∧ (s.BatchedPartialAssemble lib).D.get (e :: m :: n :: ks)
          = s.W.get ks * (jacobianMatrix s.trialFESpace s.nDim.toNat e x y z).det
              * ∑ j : Fin s.nDim.toNat,
                  (jacobianMatrix s.trialFESpace s.nDim.toNat e x y z)⁻¹ ⟨m, hm⟩ j
                    * (jacobianMatrix s.trialFESpace s.nDim.toNat e x y z)⁻¹ ⟨n, hn⟩ j
      ∧ (s.BatchedPartialAssemble lib).D.get (e :: m :: n :: ks)
          = (s.BatchedPartialAssemble lib).D.get (e :: n :: m :: ks) := by
  obtain ⟨hJ, hI, hDt, hA, hC⟩ := hfill
  obtain ⟨c1, c2, c3⟩ := diffGeometry_core lib s e ks ds s.trialFESpace.NE
    (fun a b => s.trialFESpace.Jacobian e x y z a b) hd hJ hI hDt hF he hA hC
  have hD : (s.BatchedPartialAssemble lib).D
      = s.contractD (s.geometry lib).1 (s.geometry lib).2.1 (s.geometry lib).2.2 := rfl
  have f1 := diffContractD_get s (s.geometry lib).1 (s.geometry lib).2.1 (s.geometry lib).2.2
    h e m n ks
  have f2 := diffContractD_get s (s.geometry lib).1 (s.geometry lib).2.1 (s.geometry lib).2.2
    h e n m ks
  have c2' : (s.geometry lib).2.1.get (e :: ks)
      = (jacobianMatrix s.trialFESpace s.nDim.toNat e x y z).det := c2
  have c3' : ∀ a b (ha : a < s.nDim.toNat) (hb : b < s.nDim.toNat),
      (s.geometry lib).1.get (e :: ks ++ [a, b])
        = (jacobianMatrix s.trialFESpace s.nDim.toNat e x y z)⁻¹ ⟨a, ha⟩ ⟨b, hb⟩ := c3
  refine ⟨by rw [hD]; exact f1, c1, c2', c3', ?_, ?_⟩
  · rw [hD, f1, c1, c2', mul_one, Finset.sum_range]
    congr 1
    refine Finset.sum_congr rfl (fun j _ => ?_)
    rw [c3' m j.val hm j.isLt, c3' n j.val hn j.isLt]
  · rw [hD, f1, f2]
    congr 1
    exact Finset.sum_congr rfl (fun j _ => by ring)

/-- C14: the coefficient tensor of the diffusion integrator.  After
`AcroDiffusionIntegrator::BatchedPartialAssemble`, on the tensor path in
dimension 1, 2 or 3 and on the simplex path, for every element `e`, quadrature
index `ks` and directions `m, n < nDim`:
`D(e,m,n,ks) = W(ks) * C(e,ks) * Jdet(e,ks) * sum_j Jinv(e,ks,m,j) * Jinv(e,ks,n,j)`,
where the local tensors hold `C(e,ks) = 1`, `Jdet(e,ks) = det A` and
`Jinv(e,ks,a,b) = (A^-1)(a,b)` for the Jacobian `A` of element `e` at the
reference point `(x, y, z)` of `ks`: the point built from the 1D rule on the
tensor path, the point of `ir` on the simplex path.  Hence
`D(e,m,n,ks) = W(ks) * det A * sum_j (A^-1)(m,j) * (A^-1)(n,j)`; the 3D
contraction, which lists the two `Jinv` operands in the other order, obeys the
same formula, and `D(e,m,n,ks) = D(e,n,m,ks)`. -/
theorem diffusionBPA_D_formula (lib : Library) (s : AcroDiffusionIntegrator)
    (e m n : Nat) (ks : List Nat) (x y z : ℚ)
    (hcase :
      (s.hasTensorBasis = true ∧ s.nDim = 1 ∧ ∃ k1, k1 < s.nQuad1D ∧ ks = [k1]
          ∧ x = ((lib.IntRulesSegment s.ir.Order).IntPoint k1).x ∧ y = 0 ∧ z = 0)
      ∨ (s.hasTensorBasis = true ∧ s.nDim = 2 ∧ ∃ k1 k2, k1 < s.nQuad1D ∧ k2 < s.nQuad1D
          ∧ ks = [k1, k2]
          ∧ x = ((lib.IntRulesSegment s.ir.Order).IntPoint k1).x
          ∧ y = ((lib.IntRulesSegment s.ir.Order).IntPoint k2).x ∧ z = 0)
      ∨ (s.hasTensorBasis = true ∧ s.nDim = 3 ∧ ∃ k1 k2 k3, k1 < s.nQuad1D ∧ k2 < s.nQuad1D
          ∧ k3 < s.nQuad1D ∧ ks = [k1, k2, k3]
          ∧ x = ((lib.IntRulesSegment s.ir.Order).IntPoint k1).x
          ∧ y = ((lib.IntRulesSegment s.ir.Order).IntPoint k2).x
          ∧ z = ((lib.IntRulesSegment s.ir.Order).IntPoint k3).x)
      ∨ (s.hasTensorBasis = false ∧ (s.nDim = 1 ∨ s.nDim = 2 ∨ s.nDim = 3)
          ∧ ∃ k, k < s.nQuad ∧ ks = [k]
          ∧ x = (s.ir.IntPoint k).x ∧ y = (s.ir.IntPoint k).y ∧ z = (s.ir.IntPoint k).z))
    (he : e < s.trialFESpace.NE) (hm : m < s.nDim.toNat) (hn : n < s.nDim.toNat) :
    (s.BatchedPartialAssemble lib).D.get (e :: m :: n :: ks)
        = s.W.get ks * (s.geometry lib).2.2.get (e :: ks) * (s.geometry lib).2.1.get (e :: ks)
            * ∑ j in range s.nDim.toNat,
                (s.geometry lib).1.get (e :: ks ++ [m, j])
                  * (s.geometry lib).1.get (e :: ks ++ [n, j])
      ∧ (s.geometry lib).2.2.get (e :: ks) = 1
      ∧ (s.geometry lib).2.1.get (e :: ks)
          = (jacobianMatrix s.trialFESpace s.nDim.toNat e x y z).det
      ∧ (∀ a b (ha : a < s.nDim.toNat) (hb : b < s.nDim.toNat),
          (s.geometry lib).1.get (e :: ks ++ [a, b])
            = (jacobianMatrix s.trialFESpace s.nDim.toNat e x y z)⁻¹ ⟨a, ha⟩ ⟨b, hb⟩)
      ∧ (s.BatchedPartialAssemble lib).D.get (e :: m :: n :: ks)
          = s.W.get ks * (jacobianMatrix s.trialFESpace s.nDim.toNat e x y z).det
              * ∑ j : Fin s.nDim.toNat,
                  (jacobianMatrix s.trialFESpace s.nDim.toNat e x y z)⁻¹ ⟨m, hm⟩ j
                    * (jacobianMatrix s.trialFESpace s.nDim.toNat e x y z)⁻¹ ⟨n, hn⟩ j
      ∧ (s.BatchedPartialAssemble lib).D.get (e :: m :: n :: ks)
          = (s.BatchedPartialAssemble lib).D.get (e :: n :: m :: ks) := by
  rcases hcase with ⟨ht, hd, k1, h1, rfl, rfl, rfl, rfl⟩
    | ⟨ht, hd, k1, k2, h1, h2, rfl, rfl, rfl, rfl⟩
    | ⟨ht, hd, k1, k2, k3, h1, h2, h3, rfl, rfl, rfl, rfl⟩
    | ⟨ht, hd, k, hk, rfl, rfl, rfl, rfl⟩
  · exact diffD_at lib s e m n [k1] [s.nQuad1D] _ _ _ (Or.inr (Or.inl hd))
      (Or.inl (by rw [hd]; rfl)) (List.Forall₂.cons h1 List.Forall₂.nil) he
      (diffFill_1D lib s ht hd e k1 he h1) hm hn
  · exact diffD_at lib s e m n [k1, k2] [s.nQuad1D, s.nQuad1D] _ _ _
      (Or.inr (Or.inr (Or.inl hd))) (Or.inr (Or.inl (by rw [hd]; rfl)))
      (List.Forall₂.cons h1 (List.Forall₂.cons h2 List.Forall₂.nil)) he
      (diffFill_2D lib s ht hd e k1 k2 he h1 h2) hm hn
  · exact diffD_at lib s e m n [k1, k2, k3] [s.nQuad1D, s.nQuad1D, s.nQuad1D] _ _ _
      (Or.inr (Or.inr (Or.inr hd))) (Or.inr (Or.inr (by rw [hd]; rfl)))
      (List.Forall₂.cons h1 (List.Forall₂.cons h2 (List.Forall₂.cons h3 List.Forall₂.nil))) he
      (diffFill_3D lib s ht hd e k1 k2 k3 he h1 h2 h3) hm hn
  · have hdn : s.nDim.toNat = 1 ∨ s.nDim.toNat = 2 ∨ s.nDim.toNat = 3 := by
      rcases hd with hd | hd | hd
      · exact Or.inl (by rw [hd]; rfl)
      · exact Or.inr (Or.inl (by rw [hd]; rfl))
      · exact Or.inr (Or.inr (by rw [hd]; rfl))
    exact diffD_at lib s e m n [k] [s.nQuad] _ _ _ (Or.inl ht) hdn
      (List.Forall₂.cons hk List.Forall₂.nil) he
      (diffFill_simplex lib s ht (by omega) e k he hk) hm hn

end acro
end mfem
namespace mfem
namespace acro
open Finset

/-- C14 (witness): the statement at `diffusionOnShearedCube` (tensor path,
dimension 3, Jacobian `[[3/2, 2, 0], [0, 1, 1/2], [0, 0, 3/2]]` at the point
`(1/2, 1/2, 1/2)`) and at `diffusionOnShearedTriangle` (simplex path, Jacobian
`[[2, 1], [0, 1]]`), for the directions `(m, n) = (0, 1)`:
`D(0,0,1,k) = -10/3` on the cube and `D(0,0,1,k) = -1/2` on the triangle. -/
theorem diffusionBPA_D_formula_witness :
    ((diffusionOnShearedCube.geometry sampleLibrary).2.1.get (0 :: [0, 0, 0]) = 9 / 4
        ∧ (diffusionOnShearedCube.BatchedPartialAssemble sampleLibrary).D.get
            (0 :: 0 :: 1 :: [0, 0, 0]) = -10 / 3
        ∧ (diffusionOnShearedCube.BatchedPartialAssemble sampleLibrary).D.get
            (0 :: 0 :: 1 :: [0, 0, 0])
          = (diffusionOnShearedCube.BatchedPartialAssemble sampleLibrary).D.get
            (0 :: 1 :: 0 :: [0, 0, 0]))
      ∧ ((diffusionOnShearedTriangle.geometry sampleLibrary).2.1.get (0 :: [0]) = 2
        ∧ (diffusionOnShearedTriangle.BatchedPartialAssemble sampleLibrary).D.get
            (0 :: 0 :: 1 :: [0]) = -1 / 2
        ∧ (diffusionOnShearedTriangle.BatchedPartialAssemble sampleLibrary).D.get
            (0 :: 0 :: 1 :: [0])
          = (diffusionOnShearedTriangle.BatchedPartialAssemble sampleLibrary).D.get
            (0 :: 1 :: 0 :: [0])) := by
  have hc := diffusionBPA_D_formula sampleLibrary diffusionOnShearedCube 0 0 1 [0, 0, 0]
    (1 / 2) (1 / 2) (1 / 2)
    (Or.inr (Or.inr (Or.inl ⟨rfl, rfl, 0, 0, 0, by decide, by decide, by decide, rfl, rfl, rfl,
      rfl⟩)))
    (by decide) (by decide) (by decide)
  have ht := diffusionBPA_D_formula sampleLibrary diffusionOnShearedTriangle 0 0 1 [0]
    (1 / 3) (1 / 3) 0
    (Or.inr (Or.inr (Or.inr ⟨rfl, Or.inr (Or.inl rfl), 0, by decide, rfl, rfl, rfl, rfl⟩)))
    (by decide) (by decide) (by decide)
  obtain ⟨_, _, c3, _, c5, c6⟩ := hc
  obtain ⟨_, _, t3, _, t5, t6⟩ := ht
  have hA : jacobianMatrix shearedCubeSpace 3 0 (1 / 2) (1 / 2) (1 / 2)
      = !![3 / 2, 2, 0; 0, 1, 1 / 2; 0, 0, 3 / 2] := by
    ext i j
    fin_cases i <;> fin_cases j <;>
      simp [jacobianMatrix, shearedCubeSpace, Matrix.vecHead, Matrix.vecTail] <;> norm_num
  have hB : jacobianMatrix shearedTriangleSpace 2 0 (1 / 3) (1 / 3) 0 = !![2, 1; 0, 1] := by
    ext i j
    fin_cases i <;> fin_cases j <;>
      simp [jacobianMatrix, shearedTriangleSpace, Matrix.vecHead, Matrix.vecTail]
  have c3' : (diffusionOnShearedCube.geometry sampleLibrary).2.1.get (0 :: [0, 0, 0])
      = (jacobianMatrix shearedCubeSpace 3 0 (1 / 2) (1 / 2) (1 / 2)).det := c3
  have c5' : (diffusionOnShearedCube.BatchedPartialAssemble sampleLibrary).D.get
        (0 :: 0 :: 1 :: [0, 0, 0])
      = diffusionOnShearedCube.W.get [0, 0, 0]
          * (jacobianMatrix shearedCubeSpace 3 0 (1 / 2) (1 / 2) (1 / 2)).det
          * ∑ j : Fin 3, (jacobianMatrix shearedCubeSpace 3 0 (1 / 2) (1 / 2) (1 / 2))⁻¹ 0 j
              * (jacobianMatrix shearedCubeSpace 3 0 (1 / 2) (1 / 2) (1 / 2))⁻¹ 1 j := c5
  have t3' : (diffusionOnShearedTriangle.geometry sampleLibrary).2.1.get (0 :: [0])
      = (jacobianMatrix shearedTriangleSpace 2 0 (1 / 3) (1 / 3) 0).det := t3
  have t5' : (diffusionOnShearedTriangle.BatchedPartialAssemble sampleLibrary).D.get
        (0 :: 0 :: 1 :: [0])
      = diffusionOnShearedTriangle.W.get [0]
          * (jacobianMatrix shearedTriangleSpace 2 0 (1 / 3) (1 / 3) 0).det
          * ∑ j : Fin 2, (jacobianMatrix shearedTriangleSpace 2 0 (1 / 3) (1 / 3) 0)⁻¹ 0 j
              * (jacobianMatrix shearedTriangleSpace 2 0 (1 / 3) (1 / 3) 0)⁻¹ 1 j := t5
  have dA : (!![3 / 2, 2, 0; 0, 1, 1 / 2; 0, 0, 3 / 2] : Matrix (Fin 3) (Fin 3) ℚ).det = 9 / 4 := by
    rw [Matrix.det_fin_three]; simp [Matrix.vecHead, Matrix.vecTail]; norm_num
  have dB : (!![2, 1; 0, 1] : Matrix (Fin 2) (Fin 2) ℚ).det = 2 := by
    rw [Matrix.det_fin_two]; simp [Matrix.vecHead, Matrix.vecTail]
  refine ⟨⟨?_, ?_, c6⟩, ⟨?_, ?_, t6⟩⟩
  · rw [c3', hA, dA]
  · rw [c5', hA, Matrix.inv_def, Ring.inverse_eq_inv', dA, Matrix.adjugate_fin_three]
    simp [Fin.sum_univ_three, Matrix.smul_apply, diffusionOnShearedCube, diffusionOnCube,
      Tensor.get, Matrix.vecHead, Matrix.vecTail]
    norm_num
  · rw [t3', hB, dB]
  · rw [t5', hB, Matrix.inv_def, Ring.inverse_eq_inv', dB, Matrix.adjugate_fin_two]
    simp [Fin.sum_univ_two, Matrix.smul_apply, diffusionOnShearedTriangle, diffusionOnTriangle,
      Tensor.get, Matrix.vecHead, Matrix.vecTail]
    norm_num

end acro
end mfem
namespace mfem
namespace acro
open Finset

theorem massJdet_3D (lib : Library) (s : AcroMassIntegrator) (ht : s.hasTensorBasis = true)
    (hd : s.nDim = 3) (hQ : s.nQuad = s.nQuad1D * s.nQuad1D * s.nQuad1D) (e k1 k2 k3 : Nat)
    (he : e < s.trialFESpace.NE) (h1 : k1 < s.nQuad1D) (h2 : k2 < s.nQuad1D)
    (h3 : k3 < s.nQuad1D) :
    (s.JdetOf (s.initGeometry lib).state).get [e, k1, k2, k3]
      = smallDet 3 (fun m n => s.trialFESpace.Jacobian e
          (s.ir.IntPoint ((k1 * s.nQuad1D + k2) * s.nQuad1D + k3)).x
          (s.ir.IntPoint ((k1 * s.nQuad1D + k2) * s.nQuad1D + k3)).y
          (s.ir.IntPoint ((k1 * s.nQuad1D + k2) * s.nQuad1D + k3)).z m n) := by
  have hg : (s.initGeometry lib).state
      = ((Tensor.empty.Init [s.trialFESpace.NE, s.nQuad1D, s.nQuad1D, s.nQuad1D, 3, 3]
            (lib.junk "J")),
         (Tensor.empty.Init [s.trialFESpace.NE, s.nQuad1D, s.nQuad1D, s.nQuad1D]
            (lib.junk "Jdet")),
         (Tensor.empty.Init [s.trialFESpace.NE, s.nQuad1D, s.nQuad1D, s.nQuad1D]
            (lib.junk "q"))) := by
    have h31 : ¬ ((3 : Int) = 1) := by decide
    have h32 : ¬ ((3 : Int) = 2) := by decide
    simp [AcroMassIntegrator.initGeometry, ht, hd, h31, h32, Result.state]
  have hk : (k1 * s.nQuad1D + k2) * s.nQuad1D + k3 < s.nQuad := by
    rw [hQ]; exact flat3_lt _ _ _ _ h1 h2 h3
  have hdn : s.nDim.toNat = 3 := by rw [hd]; rfl
  rw [massJdet_get s _ s.trialFESpace.NE [s.nQuad1D, s.nQuad1D, s.nQuad1D, 3, 3]
    (by rw [hg]; rfl) (by rw [hg, hdn]; rfl) [e, k1, k2, k3] e
    ((k1 * s.nQuad1D + k2) * s.nQuad1D + k3)
    (by rw [hg]; simp only [Tensor.Init, flatIndex, List.prod_cons, List.prod_nil, hQ]; ring)
    he hk, hdn]

theorem grid_digits2 (Q k1 k2 : Nat) (h2 : k2 < Q) :
    (k1 * Q + k2) % Q = k2 ∧ (k1 * Q + k2) / Q = k1 := by
  have hQ : 0 < Q := by omega
  constructor
  · rw [Nat.add_comm, Nat.add_mul_mod_self_right, Nat.mod_eq_of_lt h2]
  · rw [Nat.add_comm, Nat.add_mul_div_right _ _ hQ, Nat.div_eq_of_lt h2, Nat.zero_add]

theorem grid_digits3 (Q k1 k2 k3 : Nat) (h2 : k2 < Q) (h3 : k3 < Q) :
    ((k1 * Q + k2) * Q + k3) % Q = k3 ∧ ((k1 * Q + k2) * Q + k3) / Q % Q = k2
      ∧ ((k1 * Q + k2) * Q + k3) / (Q * Q) = k1 := by
  obtain ⟨a1, a2⟩ := grid_digits2 Q (k1 * Q + k2) k3 h3
  obtain ⟨b1, b2⟩ := grid_digits2 Q k1 k2 h2
  refine ⟨a1, by rw [a2, b1], ?_⟩
  rw [← Nat.div_div_eq_div_mul, a2, b2]

end acro
end mfem
namespace mfem
namespace acro
open Finset

theorem massGrid_det (lib : Library) (s0 : AcroMassIntegrator) (m : List Nat)
    (hfe : s0.trialFESpace.FE0.DofMap = some m) (ht : s0.hasTensorBasis = true)
    (hd : s0.trialFESpace.FE0.Dim = 1 ∨ s0.trialFESpace.FE0.Dim = 2
      ∨ s0.trialFESpace.FE0.Dim = 3)
    (hQuad : s0.ir.NPoints
      = (lib.IntRulesSegment s0.ir.Order).NPoints ^ s0.trialFESpace.FE0.Dim.toNat)
    (hgrid : ∀ k, k < s0.ir.NPoints →
      ((s0.ir.IntPoint k).x, (s0.ir.IntPoint k).y, (s0.ir.IntPoint k).z)
        = tensorGridPoint (lib.IntRulesSegment s0.ir.Order) s0.trialFESpace.FE0.Dim.toNat k)
    (e : Nat) (he : e < s0.trialFESpace.NE) :
    (s0.trialFESpace.FE0.Dim = 1 → ∀ k1, k1 < (lib.IntRulesSegment s0.ir.Order).NPoints →
        ((s0.Setup lib).state.JdetOf ((s0.Setup lib).state.initGeometry lib).state).get [e, k1]
          = (jacobianMatrix s0.trialFESpace 1 e
              ((lib.IntRulesSegment s0.ir.Order).IntPoint k1).x 0 0).det)
      ∧ (s0.trialFESpace.FE0.Dim = 2 → ∀ k1 k2,
          k1 < (lib.IntRulesSegment s0.ir.Order).NPoints →
          k2 < (lib.IntRulesSegment s0.ir.Order).NPoints →
        ((s0.Setup lib).state.JdetOf ((s0.Setup lib).state.initGeometry lib).state).get
            [e, k1, k2]
          = (jacobianMatrix s0.trialFESpace 2 e
              ((lib.IntRulesSegment s0.ir.Order).IntPoint k2).x
              ((lib.IntRulesSegment s0.ir.Order).IntPoint k1).x 0).det)
      ∧ (s0.trialFESpace.FE0.Dim = 3 → ∀ k1 k2 k3,
          k1 < (lib.IntRulesSegment s0.ir.Order).NPoints →
          k2 < (lib.IntRulesSegment s0.ir.Order).NPoints →
          k3 < (lib.IntRulesSegment s0.ir.Order).NPoints →
        ((s0.Setup lib).state.JdetOf ((s0.Setup lib).state.initGeometry lib).state).get
            [e, k1, k2, k3]
          = (jacobianMatrix s0.trialFESpace 3 e
              ((lib.IntRulesSegment s0.ir.Order).IntPoint k3).x
              ((lib.IntRulesSegment s0.ir.Order).IntPoint k2).x
              ((lib.IntRulesSegment s0.ir.Order).IntPoint k1).x).det) := by
  obtain ⟨f0, f1, f2, f3, f4, f5, f6, f7, f8, f9, f10, f11, f12, _, _⟩ :=
    massSetup_fields lib s0 m hfe ht hd
  have hSNE : (s0.Setup lib).state.trialFESpace.NE = s0.trialFESpace.NE := by rw [f1]
  refine ⟨fun hd1 k1 h1 => ?_, fun hd2 k1 k2 h1 h2 => ?_, fun hd3 k1 k2 k3 h1 h2 h3 => ?_⟩
  · have hSQ : (s0.Setup lib).state.nQuad = (s0.Setup lib).state.nQuad1D := by
      rw [f8, f9, hQuad, hd1]; simp
    have hk : k1 < s0.ir.NPoints := by rw [hQuad, hd1]; simpa using h1
    have hg := hgrid k1 hk
    rw [hd1] at hg
    simp only [tensorGridPoint, Int.toNat_one, if_true, Prod.mk.injEq] at hg
    obtain ⟨gx, gy, gz⟩ := hg
    rw [massJdet_1D lib _ f3 (f5.trans hd1) hSQ e k1 (by rw [hSNE]; exact he)
      (by rw [f9]; exact h1), f1, f2, gx, gy, gz, smallDet_eq_det 1 (Or.inl rfl)]
    rfl
  · have hSQ : (s0.Setup lib).state.nQuad
        = (s0.Setup lib).state.nQuad1D * (s0.Setup lib).state.nQuad1D := by
      rw [f8, f9, hQuad, hd2]; simp [pow_two]
    have hk : k1 * (lib.IntRulesSegment s0.ir.Order).NPoints + k2 < s0.ir.NPoints := by
      rw [hQuad, hd2]
      have := flat2_lt _ k1 k2 h1 h2
      simpa [pow_two] using this
    have hg := hgrid _ hk
    obtain ⟨d1, d2⟩ := grid_digits2 (lib.IntRulesSegment s0.ir.Order).NPoints k1 k2 h2
    rw [hd2] at hg
    have h2n : Int.toNat 2 = 2 := rfl
    have h21 : ¬ ((2 : Nat) = 1) := by decide
    simp only [tensorGridPoint, h2n, h21, if_true, if_false, Prod.mk.injEq, d1, d2] at hg
    obtain ⟨gx, gy, gz⟩ := hg
    rw [massJdet_2D lib _ f3 (f5.trans hd2) hSQ e k1 k2 (by rw [hSNE]; exact he)
      (by rw [f9]; exact h1) (by rw [f9]; exact h2), f1, f2, f9, gx, gy, gz,
      smallDet_eq_det 2 (Or.inr (Or.inl rfl))]
    rfl
  · have hSQ : (s0.Setup lib).state.nQuad
        = (s0.Setup lib).state.nQuad1D * (s0.Setup lib).state.nQuad1D
            * (s0.Setup lib).state.nQuad1D := by
      rw [f8, f9, hQuad, hd3]; simp [pow_succ]
    have hk : (k1 * (lib.IntRulesSegment s0.ir.Order).NPoints + k2)
        * (lib.IntRulesSegment s0.ir.Order).NPoints + k3 < s0.ir.NPoints := by
      rw [hQuad, hd3]
      have := flat3_lt _ k1 k2 k3 h1 h2 h3
      simpa [pow_succ] using this
    have hg := hgrid _ hk
    obtain ⟨d1, d2, d3⟩ := grid_digits3 (lib.IntRulesSegment s0.ir.Order).NPoints k1 k2 k3 h2 h3
    rw [hd3] at hg
    have h3n : Int.toNat 3 = 3 := rfl
    have h31 : ¬ ((3 : Nat) = 1) := by decide
    have h32 : ¬ ((3 : Nat) = 2) := by decide
    simp only [tensorGridPoint, h3n, h31, h32, if_false, Prod.mk.injEq, d1, d2, d3] at hg
    obtain ⟨gx, gy, gz⟩ := hg
    rw [massJdet_3D lib _ f3 (f5.trans hd3) hSQ e k1 k2 k3 (by rw [hSNE]; exact he)
      (by rw [f9]; exact h1) (by rw [f9]; exact h2) (by rw [f9]; exact h3), f1, f2, f9,
      gx, gy, gz, smallDet_eq_det 3 (Or.inr (Or.inr rfl))]
    rfl

end acro
end mfem
namespace mfem
namespace acro
open Finset

/-- C4: the mass matrix is the direct quadrature of `phi_i * phi_j`.  On the
tensor-product path in dimension 1, 2 or 3 with `nDof1D = p + 1`, `p >= 1`
(`nDof = nDof1D^d`, `tDofMap` injective on the local DOFs, `M` not yet
initialised, and `ir` the `d`-fold product of the 1D rule, `nQuad = nQuad1D^d`
points on the tensor grid), `Setup`, `BatchedPartialAssemble` and
`BatchedAssembleElementMatrices` all return, and for every element `e` and all
internal multi-indices `i`, `j`:
`elmats(tDofMap[flat(i)], tDofMap[flat(j)], e)
  = sum_k (prod_r w(k_r)) * det J_e(x_k) * (prod_r B(k_r,i_r)) * (prod_r B(k_r,j_r))`,
where `w`, `x` are the weights and points of the 1D rule, `det J_e(x_k)` is the
determinant of the Jacobian of element `e` at the grid point of `k` (the last
index of `k` belongs to the first coordinate), and `B(k,i)` is the value at
`x_k` of the 1D shape function stored at internal index `i`. -/
theorem massElmats_direct_quadrature (lib : Library) (s0 : AcroMassIntegrator)
    (el : DenseTensor) (m : List Nat)
    (hfe : s0.trialFESpace.FE0.DofMap = some m) (ht : s0.hasTensorBasis = true)
    (hd : s0.trialFESpace.FE0.Dim = 1 ∨ s0.trialFESpace.FE0.Dim = 2
      ∨ s0.trialFESpace.FE0.Dim = 3)
    (hp : 1 ≤ s0.trialFESpace.FE0.Order)
    (hDof : s0.trialFESpace.FE0.Dof
      = (s0.trialFESpace.FE0.Order + 1) ^ s0.trialFESpace.FE0.Dim.toNat)
    (hQuad : s0.ir.NPoints
      = (lib.IntRulesSegment s0.ir.Order).NPoints ^ s0.trialFESpace.FE0.Dim.toNat)
    (hgrid : ∀ k, k < s0.ir.NPoints →
      ((s0.ir.IntPoint k).x, (s0.ir.IntPoint k).y, (s0.ir.IntPoint k).z)
        = tensorGridPoint (lib.IntRulesSegment s0.ir.Order) s0.trialFESpace.FE0.Dim.toNat k)
    (hM : s0.M.IsInitialized = false)
    (hinj : ∀ i j, i < s0.trialFESpace.FE0.Dof → j < s0.trialFESpace.FE0.Dof →
      m.getD i 0 = m.getD j 0 → i = j) :
    let S := (s0.Setup lib).state
    let P := (S.BatchedPartialAssemble lib).state
    let out := P.BatchedAssembleElementMatrices lib el
    let n := s0.trialFESpace.FE0.Order + 1
    let Q := (lib.IntRulesSegment s0.ir.Order).NPoints
    let w : Nat → ℚ := fun k => ((lib.IntRulesSegment s0.ir.Order).IntPoint k).weight
    let x : Nat → ℚ := fun k => ((lib.IntRulesSegment s0.ir.Order).IntPoint k).x
    (s0.Setup lib).isFatal = false ∧ (S.BatchedPartialAssemble lib).isFatal = false
      ∧ out.isFatal = false
      ∧ (∀ k i, k < Q → i < n →
          S.B.get [k, i]
            = lib.H1SegmentShape s0.trialFESpace.FE0.Order
                ((lib.IntRulesSegment s0.ir.Order).IntPoint k) (nativeIndex n i))
      ∧ (s0.trialFESpace.FE0.Dim = 1 → ∀ e i1 j1, e < s0.trialFESpace.NE → i1 < n → j1 < n →
          out.state.2 (m.getD i1 0) (m.getD j1 0) e
            = ∑ k1 in range Q,
                w k1 * (jacobianMatrix s0.trialFESpace 1 e (x k1) 0 0).det
                  * S.B.get [k1, i1] * S.B.get [k1, j1])
      ∧ (s0.trialFESpace.FE0.Dim = 2 → ∀ e i1 i2 j1 j2, e < s0.trialFESpace.NE →
          i1 < n → i2 < n → j1 < n → j2 < n →
          out.state.2 (m.getD (i1 * n + i2) 0) (m.getD (j1 * n + j2) 0) e
            = ∑ k1 in range Q, ∑ k2 in range Q,
                (w k1 * w k2) * (jacobianMatrix s0.trialFESpace 2 e (x k2) (x k1) 0).det
                  * (S.B.get [k1, i1] * S.B.get [k2, i2])
                  * (S.B.get [k1, j1] * S.B.get [k2, j2]))
      ∧ (s0.trialFESpace.FE0.Dim = 3 → ∀ e i1 i2 i3 j1 j2 j3, e < s0.trialFESpace.NE →
          i1 < n → i2 < n → i3 < n → j1 < n → j2 < n → j3 < n →
          out.state.2 (m.getD ((i1 * n + i2) * n + i3) 0)
              (m.getD ((j1 * n + j2) * n + j3) 0) e
            = ∑ k1 in range Q, ∑ k2 in range Q, ∑ k3 in range Q,
                (w k1 * w k2 * w k3)
                  * (jacobianMatrix s0.trialFESpace 3 e (x k3) (x k2) (x k1)).det
                  * (S.B.get [k1, i1] * S.B.get [k2, i2] * S.B.get [k3, i3])
                  * (S.B.get [k1, j1] * S.B.get [k2, j2] * S.B.get [k3, j3])) := by
  intro S P out n Q w x
  obtain ⟨f0, _⟩ := massSetup_fields lib s0 m hfe ht hd
  obtain ⟨p0, p1, _, _, _, _, _, _, _, _, p10⟩ := massPipeline_facts lib s0 m hfe ht hd
  refine ⟨f0, p0, massBAEM_ok lib P el p10 (Or.inl p1),
    fun k i hk hi => massSetup_B_native lib s0 ht hd hp k i hk hi,
    fun hd1 e i1 j1 he hi1 hj1 => ?_, fun hd2 e i1 i2 j1 j2 he hi1 hi2 hj1 hj2 => ?_,
    fun hd3 e i1 i2 i3 j1 j2 j3 he hi1 hi2 hi3 hj1 hj2 hj3 => ?_⟩
  · obtain ⟨g1, _, _⟩ := massGrid_det lib s0 m hfe ht hd hQuad hgrid e he
    refine (massPipeline_1D lib s0 el m hfe ht hd hDof hQuad hM hinj hd1 e i1 j1 he hi1
      hj1).trans ?_
    refine Finset.sum_congr rfl (fun k1 hk1 => ?_)
    rw [g1 hd1 k1 (Finset.mem_range.mp hk1)]
  · obtain ⟨_, g2, _⟩ := massGrid_det lib s0 m hfe ht hd hQuad hgrid e he
    refine (massPipeline_2D lib s0 el m hfe ht hd hDof hQuad hM hinj hd2 e i1 i2 j1 j2 he
      hi1 hi2 hj1 hj2).trans ?_
    refine Finset.sum_congr rfl (fun k1 hk1 => Finset.sum_congr rfl (fun k2 hk2 => ?_))
    rw [g2 hd2 k1 k2 (Finset.mem_range.mp hk1) (Finset.mem_range.mp hk2)]
  · obtain ⟨_, _, g3⟩ := massGrid_det lib s0 m hfe ht hd hQuad hgrid e he
    refine (massPipeline_3D lib s0 el m hfe ht hd hDof hQuad hM hinj hd3 e i1 i2 i3 j1 j2 j3
      he hi1 hi2 hi3 hj1 hj2 hj3).trans ?_
    refine Finset.sum_congr rfl (fun k1 hk1 => Finset.sum_congr rfl (fun k2 hk2 =>
      Finset.sum_congr rfl (fun k3 hk3 => ?_)))
    rw [g3 hd3 k1 k2 k3 (Finset.mem_range.mp hk1) (Finset.mem_range.mp hk2)
      (Finset.mem_range.mp hk3)]

end acro
end mfem
namespace mfem
namespace acro
open Finset

/-- C4 (witness): the bilinear quadrilateral `trapezoidSpace` (Jacobian
determinant `1 + y`) with the 3 x 3 product of Simpson's rule.  The three calls
return and the entry for the internal indices `i = (0, 1)`, `j = (1, 1)`, stored
at `elmats(1, 2, 0)`, is the quadrature of `(1 + y) * (1 - y) x * y x`, that is
`1/4 * 1/3 = 1/12`. -/
theorem massElmats_direct_quadrature_witness :
    (freshMassOnTrapezoid.Setup simpsonLibrary).isFatal = false
      ∧ ((((freshMassOnTrapezoid.Setup simpsonLibrary).state).BatchedPartialAssemble
          simpsonLibrary).state.BatchedAssembleElementMatrices simpsonLibrary
          (fun _ _ _ => 0)).isFatal = false
      ∧ ((((freshMassOnTrapezoid.Setup simpsonLibrary).state).BatchedPartialAssemble
          simpsonLibrary).state.BatchedAssembleElementMatrices simpsonLibrary
          (fun _ _ _ => 0)).state.2 1 2 0 = 1 / 12 := by
  have h := massElmats_direct_quadrature simpsonLibrary freshMassOnTrapezoid (fun _ _ _ => 0)
    [0, 1, 3, 2] rfl rfl (Or.inr (Or.inl rfl)) (by decide) rfl rfl
    (by
      intro k _
      simp [tensorGridPoint, freshMassOnTrapezoid, freshMass, trapezoidSpace, simpsonGrid,
        simpsonLibrary, simpsonRule])
    rfl
    (by
      intro i j hi hj
      have hi' : i < 4 := hi
      have hj' : j < 4 := hj
      interval_cases i <;> interval_cases j <;> simp)
  obtain ⟨h0, _, h2, hB, _, h5, _⟩ := h
  refine ⟨h0, h2, ?_⟩
  have hE := h5 rfl 0 0 1 1 1 (by decide) (by decide) (by decide) (by decide) (by decide)
  have hdet : ∀ a b : ℚ, (jacobianMatrix freshMassOnTrapezoid.trialFESpace 2 0 a b 0).det
      = 1 + b := by
    intro a b
    rw [Matrix.det_fin_two]
    simp [jacobianMatrix, freshMassOnTrapezoid, freshMass, trapezoidSpace]
  have b0 : ∀ k, k < 3 → (freshMassOnTrapezoid.Setup simpsonLibrary).state.B.get [k, 0]
      = 1 - (simpsonRule.IntPoint k).x := by
    intro k hk
    rw [hB k 0 hk (by decide)]
    simp [simpsonLibrary, nativeIndex]
  have b1 : ∀ k, k < 3 → (freshMassOnTrapezoid.Setup simpsonLibrary).state.B.get [k, 1]
      = (simpsonRule.IntPoint k).x := by
    intro k hk
    rw [hB k 1 hk (by decide)]
    simp [simpsonLibrary, nativeIndex, freshMassOnTrapezoid, freshMass, trapezoidSpace]
  have e1 : ([0, 1, 3, 2] : List Nat).getD (0 * (freshMassOnTrapezoid.trialFESpace.FE0.Order + 1)
      + 1) 0 = 1 := rfl
  have e2 : ([0, 1, 3, 2] : List Nat).getD (1 * (freshMassOnTrapezoid.trialFESpace.FE0.Order + 1)
      + 1) 0 = 2 := rfl
  rw [e1, e2] at hE
  rw [hE]
  have hQ : (simpsonLibrary.IntRulesSegment freshMassOnTrapezoid.ir.Order).NPoints = 3 := rfl
  rw [hQ]
  simp only [Finset.sum_range_succ, Finset.sum_range_zero, zero_add, hdet]
  rw [b0 0 (by decide), b0 1 (by decide), b0 2 (by decide), b1 0 (by decide),
    b1 1 (by decide), b1 2 (by decide)]
  simp [simpsonLibrary, simpsonRule]
  norm_num

end acro
end mfem
namespace mfem
namespace acro
open Finset

theorem elmats_symmetric_tensor_path (lib : Library) (m : AcroMassIntegrator)
    (d0 : AcroDiffusionIntegrator) (el : DenseTensor)
    (hmp : (m.hasTensorBasis = true ∧ (m.nDim = 1 ∨ m.nDim = 2 ∨ m.nDim = 3)
        ∧ m.nDof = m.nDof1D ^ m.nDim.toNat)
      ∨ (m.hasTensorBasis = false ∧ m.B.IsInitialized = true))
    (hmD : m.D.IsInitialized = true)
    (hmM : m.M.IsInitialized = true → m.M.dims = (m.initM lib).dims)
    (hminj : ∀ i j, i < m.nDof → j < m.nDof → m.dofMap i = m.dofMap j → i = j)
    (hmsurj : ∀ a, a < m.nDof → ∃ i, i < m.nDof ∧ m.dofMap i = a)
    (hdt : d0.hasTensorBasis = true) (hdd : d0.nDim = 1 ∨ d0.nDim = 2 ∨ d0.nDim = 3)
    (hdn : d0.nDof = d0.nDof1D ^ d0.nDim.toNat)
    (hdBt : d0.Btil = []) (hdD : d0.D.IsInitialized = true)
    (hdS : d0.S.IsInitialized = true → d0.S.dims = (d0.initS lib).dims)
    (hdinj : ∀ i j, i < d0.nDof → j < d0.nDof → d0.dofMap i = d0.dofMap j → i = j)
    (hdsurj : ∀ a, a < d0.nDof → ∃ i, i < d0.nDof ∧ d0.dofMap i = a) :
    (m.BatchedAssembleElementMatrices lib el).isFatal = false
      ∧ (∀ a b e, a < m.nDof → b < m.nDof → e < m.trialFESpace.NE →
        (m.BatchedAssembleElementMatrices lib el).state.2 a b e
          = (m.BatchedAssembleElementMatrices lib el).state.2 b a e)
      ∧ (∀ a b e, a < d0.nDof → b < d0.nDof → e < d0.trialFESpace.NE →
        ((d0.BatchedPartialAssemble lib).BatchedAssembleElementMatrices lib el).2 a b e
          = ((d0.BatchedPartialAssemble lib).BatchedAssembleElementMatrices lib el).2 b a e) := by
  refine ⟨?_, ?_, ?_⟩
  · rcases hmp with ⟨ht, _, _⟩ | ⟨_, hB⟩
    · exact massBAEM_ok lib m el hmD (Or.inl ht)
    · exact massBAEM_ok lib m el hmD (Or.inr hB)
  · intro a b e ha hb he
    obtain ⟨i, hi, rfl⟩ := hmsurj a ha
    obtain ⟨j, hj, rfl⟩ := hmsurj b hb
    exact massElmats_symm lib m el hmp hmD hmM hminj e i j he hi hj
  · intro a b e ha hb he
    obtain ⟨i, hi, hia⟩ := hdsurj a ha
    obtain ⟨j, hj, hjb⟩ := hdsurj b hb
    have hflag : (d0.BatchedPartialAssemble lib).D.IsInitialized = true := by
      have h : (d0.BatchedPartialAssemble lib).D
          = d0.contractD (d0.geometry lib).1 (d0.geometry lib).2.1 (d0.geometry lib).2.2 := rfl
      rw [h, diffContractD_flag, hdD]
    have hsym : ∀ e m n ks, (d0.BatchedPartialAssemble lib).D.get (e :: m :: n :: ks)
        = (d0.BatchedPartialAssemble lib).D.get (e :: n :: m :: ks) := by
      intro e m n ks
      have h : (d0.BatchedPartialAssemble lib).D
          = d0.contractD (d0.geometry lib).1 (d0.geometry lib).2.1 (d0.geometry lib).2.2 := rfl
      rw [h, diffContractD_get d0 _ _ _ (Or.inr hdd) e m n ks,
        diffContractD_get d0 _ _ _ (Or.inr hdd) e n m ks]
      congr 1
      exact Finset.sum_congr rfl (fun j _ => by ring)
    have key := diffElmats_symm lib (d0.BatchedPartialAssemble lib) el hdt hdd hdn hdBt hflag
      hdS hdinj hsym e i j he hi hj
    have e1 : (d0.BatchedPartialAssemble lib).dofMap i = a := hia
    have e2 : (d0.BatchedPartialAssemble lib).dofMap j = b := hjb
    rw [e1, e2] at key
    exact key


end acro
end mfem
namespace mfem
namespace hypsys

theorem Double.not_lt_threshold (a : Double)
    (h : Double.lt a (Double.num (1 / 1000)) = false) :
    (∃ q, a = Double.num q ∧ 1 / 1000 ≤ q ∧ 0 < q) ∨ a = Double.inf false ∨ a = Double.nan := by
  cases a with
  | num q =>
    left
    have hq : ¬ (q < 1 / 1000) := by simpa [Double.lt] using h
    have hq' : (1 : ℚ) / 1000 ≤ q := not_lt.mp hq
    exact ⟨q, rfl, hq', lt_of_lt_of_le (by norm_num) hq'⟩
  | inf s =>
    right; left
    have hs : s = false := by simpa [Double.lt] using h
    rw [hs]
  | nan => right; right; rfl

theorem Double.mul_symm (a b : Double) : a.mul b = b.mul a := by
  cases a <;> cases b <;> simp [Double.mul, Rat.mul_comm, Bool.xor_comm]

theorem EvaluateFlux_empty (NumEq : Int) (f : DenseMatrix) :
    (NumEq = 0 → ShallowWater.EvaluateFlux NumEq [] f = none)
      ∧ (NumEq ≠ 0 → ShallowWater.EvaluateFlux NumEq [] f
          = some (Result.fatal "Invalid solution vector." f)) := by
  constructor
  · intro h
    subst h
    simp [ShallowWater.EvaluateFlux]
  · intro h
    have h' : ¬ ((0 : Int) = NumEq) := fun e => h e.symm
    simp [ShallowWater.EvaluateFlux, h']

theorem EvaluateFlux_sizes (NumEq : Int) (u : List Double) (f : DenseMatrix)
    (h : (u.length : Int) ≠ NumEq) :
    ShallowWater.EvaluateFlux NumEq u f = some (Result.fatal "Invalid solution vector." f) := by
  simp [ShallowWater.EvaluateFlux, h]

theorem EvaluateFlux_low (u0 : Double) (rest : List Double) (f : DenseMatrix)
    (h : Double.lt u0 (Double.num (1 / 1000)) = true) :
    ShallowWater.EvaluateFlux ((u0 :: rest).length : Int) (u0 :: rest) f
      = some (Result.fatal "Water height too small." f) := by
  have e : (1 : ℚ) / 1000 = 1000⁻¹ := by norm_num
  rw [e] at h
  simp [ShallowWater.EvaluateFlux, h]

theorem EvaluateFlux_accept (u0 : Double) (rest : List Double) (f : DenseMatrix)
    (h : Double.lt u0 (Double.num (1 / 1000)) = false) :
    ShallowWater.EvaluateFlux ((u0 :: rest).length : Int) (u0 :: rest) f
      = match rest with
        | [u1] =>
          some (Result.ok ((f.set 0 0 u1).set 1 0
            (((u1.mul u1).div u0).add (((GravConst.div (Double.num 2)).mul u0).mul u0))))
        | [u1, u2] =>
          some (Result.ok ((((((f.set 0 0 u1).set 0 1 u2).set 1 0
            (((u1.mul u1).div u0).add
              ((((Double.num (1 / 2)).mul GravConst).mul u0).mul u0))).set 1 1
            ((u1.mul u2).div u0)).set 2 0 ((u2.mul u1).div u0)).set 2 1
            (((u2.mul u2).div u0).add
              ((((Double.num (1 / 2)).mul GravConst).mul u0).mul u0))))
        | _ => some (Result.fatal "Invalid space dimension." f) := by
  have e : (1 : ℚ) / 1000 = 1000⁻¹ := by norm_num
  rw [e] at h
  match rest with
  | [] => simp [ShallowWater.EvaluateFlux, h]
  | [u1] => simp [ShallowWater.EvaluateFlux, h]
  | [u1, u2] => simp [ShallowWater.EvaluateFlux, h]
  | u1 :: u2 :: u3 :: more =>
    have h1 : ¬ ((more.length : Int) + 1 + 1 = 0) := by omega
    have h2 : ¬ ((more.length : Int) + 1 + 1 + 1 = 2) := by omega
    simp [ShallowWater.EvaluateFlux, h, h1, h2]

end hypsys
end mfem
namespace mfem
namespace hypsys

/-- C30 (amended): `ShallowWater::EvaluateFlux` on doubles.  Apart from an
empty `u` with `NumEq = 0`, where the height test reads `u(0)` out of range,
the call ends, and it aborts exactly when `u.Size() != NumEq`, or the
comparison `u(0) < 0.001` holds, or `u.Size() - 1` is neither 1 nor 2; an
aborted call leaves `f` untouched.  For every accepted state `u(0)` is not
below 0.001: it is a number `>= 0.001 > 0`, or `+inf`, or NaN (for which the
comparison is false), and never zero, so no flux entry divides by zero; in 2D
both `f(1,1)` and `f(2,0)` receive `u(1)*u(2)/u(0)`. -/
theorem EvaluateFlux_abort_iff (NumEq : Int) (u : List Double) (f : DenseMatrix) :
    (u = [] ∧ NumEq = 0 ∧ ShallowWater.EvaluateFlux NumEq u f = none)
      ∨ ∃ r, ShallowWater.EvaluateFlux NumEq u f = some r
          ∧ (r.isFatal = true ↔
              ((u.length : Int) ≠ NumEq
                ∨ Double.lt (u.getD 0 Double.nan) (Double.num (1 / 1000)) = true
                ∨ ((u.length : Int) - 1 ≠ 1 ∧ (u.length : Int) - 1 ≠ 2)))
          ∧ (r.isFatal = true → r.state = f)
          ∧ (r.isFatal = false →
              ((∃ q, u.getD 0 Double.nan = Double.num q ∧ 1 / 1000 ≤ q ∧ 0 < q)
                  ∨ u.getD 0 Double.nan = Double.inf false
                  ∨ u.getD 0 Double.nan = Double.nan)
                ∧ u.getD 0 Double.nan ≠ Double.num 0
                ∧ ((u.length : Int) - 1 = 2 →
                    r.state 1 1 = ((u.getD 1 Double.nan).mul (u.getD 2 Double.nan)).div
                        (u.getD 0 Double.nan)
                      ∧ r.state 2 0 = ((u.getD 1 Double.nan).mul (u.getD 2 Double.nan)).div
                        (u.getD 0 Double.nan))) := by
  have hfatal : ∀ (msg : String) (P : Prop), P →
      ((Result.fatal msg f : Result DenseMatrix).isFatal = true ↔ P)
        ∧ ((Result.fatal msg f : Result DenseMatrix).isFatal = true
            → (Result.fatal msg f : Result DenseMatrix).state = f)
        ∧ ((Result.fatal msg f : Result DenseMatrix).isFatal = false →
            ((∃ q, u.getD 0 Double.nan = Double.num q ∧ 1 / 1000 ≤ q ∧ 0 < q)
                  ∨ u.getD 0 Double.nan = Double.inf false
                  ∨ u.getD 0 Double.nan = Double.nan)
                ∧ u.getD 0 Double.nan ≠ Double.num 0
                ∧ ((u.length : Int) - 1 = 2 →
                    (Result.fatal msg f : Result DenseMatrix).state 1 1
                        = ((u.getD 1 Double.nan).mul (u.getD 2 Double.nan)).div
                        (u.getD 0 Double.nan)
                      ∧ (Result.fatal msg f : Result DenseMatrix).state 2 0
                        = ((u.getD 1 Double.nan).mul (u.getD 2 Double.nan)).div
                        (u.getD 0 Double.nan))) := by
    intro msg P hP
    refine ⟨⟨fun _ => hP, fun _ => rfl⟩, fun _ => rfl, fun h => ?_⟩
    exact absurd h (by simp [Result.isFatal])
  by_cases hsz : (u.length : Int) = NumEq
  · cases u with
    | nil =>
      left
      have h0 : NumEq = 0 := by simpa using hsz.symm
      exact ⟨rfl, h0, (EvaluateFlux_empty NumEq f).1 h0⟩
    | cons u0 rest =>
      right
      subst hsz
      by_cases hlt : Double.lt u0 (Double.num (1 / 1000)) = true
      · exact ⟨_, EvaluateFlux_low u0 rest f hlt, hfatal _ _ (Or.inr (Or.inl hlt))⟩
      · have hlt' : Double.lt u0 (Double.num (1 / 1000)) = false := by simpa using hlt
        have hacc := EvaluateFlux_accept u0 rest f hlt'
        have hu0 := Double.not_lt_threshold u0 hlt'
        have hnz : u0 ≠ Double.num 0 := by
          intro h0
          rcases hu0 with ⟨q, hq, _, hpos⟩ | h | h
          · rw [h0] at hq
            cases hq
            exact absurd hpos (lt_irrefl _)
          · rw [h0] at h; cases h
          · rw [h0] at h; cases h
        match rest, hacc with
        | [], hacc =>
          refine ⟨_, hacc, hfatal _ _ (Or.inr (Or.inr ?_))⟩
          simp
        | [u1], hacc =>
          refine ⟨_, hacc, ⟨fun h => absurd h (by simp [Result.isFatal]), fun h => ?_⟩,
            fun h => absurd h (by simp [Result.isFatal]), fun _ => ⟨hu0, hnz, fun h => ?_⟩⟩
          · rcases h with h | h | h
            · exact absurd rfl h
            · exact absurd h hlt
            · simp at h
          · simp at h
        | [u1, u2], hacc =>
          refine ⟨_, hacc, ⟨fun h => absurd h (by simp [Result.isFatal]), fun h => ?_⟩,
            fun h => absurd h (by simp [Result.isFatal]), fun _ => ⟨hu0, hnz, fun _ => ⟨?_, ?_⟩⟩⟩
          · rcases h with h | h | h
            · exact absurd rfl h
            · exact absurd h hlt
            · simp at h
          · simp [Result.state, DenseMatrix.set]
          · simp [Result.state, DenseMatrix.set, Double.mul_symm u2 u1]
        | u1 :: u2 :: u3 :: more, hacc =>
          refine ⟨_, hacc, hfatal _ _ (Or.inr (Or.inr ?_))⟩
          simp only [List.length_cons]
          constructor <;> omega
  · right
    exact ⟨_, EvaluateFlux_sizes NumEq u f hsz, hfatal _ _ (Or.inl hsz)⟩

/-- C30 (counterexample): with `NumEq = 2` the state `u = (NaN, 1)` is
accepted, the call returns normally with `f(0,0) = 1` and `f(1,0) = NaN`,
although `u(0) >= 0.001` is false. -/
theorem EvaluateFlux_accepts_nan :
    ShallowWater.EvaluateFlux 2 [Double.nan, Double.num 1] zeroMatrix
        = some (Result.ok ((zeroMatrix.set 0 0 (Double.num 1)).set 1 0 Double.nan))
      ∧ Double.ge Double.nan (Double.num (1 / 1000)) = false := by
  refine ⟨?_, rfl⟩
  have h := EvaluateFlux_accept Double.nan [Double.num 1] zeroMatrix rfl
  simpa [Double.mul, Double.div, Double.add] using h

theorem EvaluateFlux_sample :
    ShallowWater.EvaluateFlux 3 [Double.num 2, Double.num 3, Double.num 5] zeroMatrix
      = some (Result.ok ((((((zeroMatrix.set 0 0 (Double.num 3)).set 0 1 (Double.num 5)).set 1 0
          (Double.num (13 / 2))).set 1 1 (Double.num (15 / 2))).set 2 0
          (Double.num (15 / 2))).set 2 1 (Double.num (29 / 2)))) := by
  have h := EvaluateFlux_accept (Double.num 2) [Double.num 3, Double.num 5]
    zeroMatrix (by simp [Double.lt]; norm_num)
  have e : ((3 : Int)) = (([Double.num 2, Double.num 3, Double.num 5] : List Double).length : Int) :=
    rfl
  rw [e, h]
  simp only [Double.mul, Double.div, Double.add, GravConst]
  norm_num

end hypsys
end mfem
